import Mathlib

/-!
# Coupled-field sliding contact (`FESlidingInterface3`)

A shallow embedding of `src/FEBio2/FESlidingInterface3.cpp`.

Conventions of the embedding:

* a `double` is an exact rational number (`ℚ`); rounding, infinities and NaN are
  not represented, and statements that depend on the value of a quotient carry
  the hypothesis that the divisor is not zero;
* a `std::vector` is a `List`; a read or a write outside the bounds of a
  vector, a failed `assert` and the use of a null pointer make the embedded
  function return `none`;
* a pointer to a facet of the sibling surface (`FESurfaceElement*` in `m_pme`)
  is the index of that facet in the sibling's facet table, `none` being the
  null pointer;
* services of the mesh, shape-function and material layers that are not part
  of the embedded file are parameters of the embedded functions.
-/

namespace FEBio

/-! ## Data model -/

/-- The class `vec3d`: a vector of three doubles. -/
structure vec3d where
  x : ℚ
  y : ℚ
  z : ℚ
deriving DecidableEq

/-- The operator `vec3d * vec3d`: the dot product. -/
def vec3d.dot (a b : vec3d) : ℚ := a.x * b.x + a.y * b.y + a.z * b.z

/-- The operator `vec3d - vec3d`. -/
def vec3d.sub (a b : vec3d) : vec3d := ⟨a.x - b.x, a.y - b.y, a.z - b.z⟩

/-- Component `c` of a vector: `x`, `y`, `z` for 0, 1, 2. -/
def vec3d.comp (v : vec3d) (c : Nat) : ℚ :=
  match c with
  | 0 => v.x
  | 1 => v.y
  | _ => v.z

/-- Modelled from the spec: the macro `MBRACKET`, whose definition is in a header
that is not among the sources. The glossary defines the Macaulay bracket as
`max(0, x)`. -/
def MBRACKET (x : ℚ) : ℚ := max 0 x

/-- Read `v[i]` of a `std::vector`; `none` outside the bounds. -/
def vget {α : Type} (v : List α) (i : Nat) : Option α := v[i]?

/-- The value of `v[i]` for an index within the bounds (0 outside). -/
def vval (v : List ℚ) (i : Nat) : ℚ := (v[i]?).getD 0

/-- Write `v[i] = a` of a `std::vector`; `none` outside the bounds. -/
def vset {α : Type} (v : List α) (i : Nat) (a : α) : Option (List α) :=
  if i < v.length then some (v.set i a) else none

/-- The part of `FESurfaceElement` that the contact code reads: the local id
`m_lid`, the id `m_nelem` of the element the facet belongs to, the node
numbers `m_node` (so `Nodes()` is its length) and `GaussPoints()`. -/
structure FESurfaceElement where
  m_lid : Int
  m_nelem : Int
  m_node : List Nat
  nint : Nat
deriving DecidableEq

/-- The class `FESlidingSurface3`: the facet table of the surface (`Element(i)`),
the two capability flags and the per-integration-point vectors. -/
structure FESlidingSurface3 where
  el : List FESurfaceElement
  m_bporo : Bool
  m_bsolu : Bool
  m_gap : List ℚ
  m_nu : List vec3d
  m_rs : List (ℚ × ℚ)
  m_Lmd : List ℚ
  m_Lmp : List ℚ
  m_Lmc : List ℚ
  m_nei : List Int
  m_epsn : List ℚ
  m_epsp : List ℚ
  m_epsc : List ℚ
  m_nn : List vec3d
  m_pg : List ℚ
  m_cg : List ℚ
  m_Ln : List ℚ
  m_pme : List (Option Nat)

/-- The class `FESlidingInterface3`: the parameters of the contact pair and its
two surfaces. -/
structure FESlidingInterface3 where
  m_blaugon : Bool
  m_atol : ℚ
  m_gtol : ℚ
  m_ptol : ℚ
  m_ctol : ℚ
  m_epsn : ℚ
  m_bautopen : Bool
  m_btwo_pass : Bool
  m_knmult : ℚ
  m_stol : ℚ
  m_epsp : ℚ
  m_epsc : ℚ
  m_bsymm : Bool
  m_srad : ℚ
  m_nsegup : Int
  m_ambp : ℚ
  m_ambc : ℚ
  m_Rgas : ℚ
  m_Tabs : ℚ
  m_naugmin : Int
  m_naugmax : Int
  m_ss : FESlidingSurface3
  m_ms : FESlidingSurface3

/-! ## Mesh and materials as the contact code sees them -/

/-- The class `mat3ds`: a symmetric 3x3 matrix of doubles. -/
structure mat3ds where
  xx : ℚ
  yy : ℚ
  zz : ℚ
  xy : ℚ
  yz : ℚ
  xz : ℚ
deriving DecidableEq

/-- The member `mat3ds::tr`. -/
def mat3ds.tr (m : mat3ds) : ℚ := m.xx + m.yy + m.zz

/-- The operator `mat3ds * double`. -/
def mat3ds.smul (m : mat3ds) (a : ℚ) : mat3ds :=
  ⟨m.xx * a, m.yy * a, m.zz * a, m.xy * a, m.yz * a, m.xz * a⟩

/-- What the contact code asks of a `FEBiphasicSolute` material at the reference
state it sets up (`F = 1`, `J = 1`, zero stress, pressure, flux and
concentration): `m_pPerm->Permeability(mp)`, `m_pDiff->Diffusivity(mp)`,
`Porosity(mp)` and `m_pSolub->Solubility(mp)`. -/
structure FEBiphasicSolute where
  Permeability : mat3ds
  Diffusivity : mat3ds
  Porosity : ℚ
  Solubility : ℚ

/-- A material as the contact code sees it: the result of
`dynamic_cast<FEBiphasic*>` (when it succeeds, the array `K[3][3]` that
`Permeability(K, mp)` fills at the reference state) and the result of
`dynamic_cast<FEBiphasicSolute*>`. Both are `none` for any other material. -/
structure FEMaterial where
  biph : Option (Nat → Nat → ℚ)
  bsolu : Option FEBiphasicSolute

/-- An element of the mesh as the contact code sees it: whether
`dynamic_cast<FESolidElement*>` succeeds, and `GetMatID()`. -/
structure FEElement where
  solid : Bool
  matID : Nat

/-- The services of `FEMesh` and `FEModel` used by the contact code:
`FindElementFromID` (`none` is the null pointer), `GetMaterial`,
`ElementVolume`, the nodal pressures `Node(n).m_pt` and concentrations
`Node(n).m_ct[0]`, and `GetBoundingBox().radius()`. -/
structure FEModel where
  FindElementFromID : Int → Option FEElement
  GetMaterial : Nat → FEMaterial
  ElementVolume : FEElement → ℚ
  m_pt : Nat → ℚ
  m_ct : Nat → ℚ
  radius : ℚ

/-- The function `FESlidingInterface3::BiphasicSoluteStatus`: the pair
`(bstat, sstat)`. -/
def BiphasicSoluteStatus (m : FEModel) (el : FESurfaceElement) : Bool × Bool :=
  match m.FindElementFromID el.m_nelem with
  | some pe =>
    if pe.solid then
      let pm := m.GetMaterial pe.matID
      (pm.biph.isSome || pm.bsolu.isSome, pm.bsolu.isSome)
    else (false, false)
  | none => (false, false)

/-! ## `FESlidingSurface3::Serialize` -/

/-- Modelled from the spec: a value in a checkpoint archive (class `DumpFile`,
which is not among the sources). The spec describes the persisted state as the
capability flags, then the per-point arrays in a fixed order, then the partner
facet ids or the sentinel -1, restored verbatim: an archive is a sequence of
values that are read back in the order in which they were written. -/
inductive DumpValue where
  | bool (b : Bool)
  | int (n : Int)
  | double (x : ℚ)
  | vec2 (r : ℚ × ℚ)
  | vec3 (v : vec3d)

/-- Modelled from the spec: the class `DumpFile` as the sequence of the values
still to be read (loading) or written so far (saving). -/
abbrev DumpFile := List DumpValue

/-- Modelled from the spec: `ar >> b` for a `bool` of `DumpFile`. -/
def getBool : DumpFile → Option (Bool × DumpFile)
  | DumpValue.bool b :: ar => some (b, ar)
  | _ => none

/-- Modelled from the spec: `ar >> n` for an `int` of `DumpFile`. -/
def getInt : DumpFile → Option (Int × DumpFile)
  | DumpValue.int n :: ar => some (n, ar)
  | _ => none

/-- Modelled from the spec: reading one `double` value of `DumpFile`. -/
def asDouble : DumpValue → Option ℚ
  | DumpValue.double x => some x
  | _ => none

/-- Modelled from the spec: reading one `int` value of `DumpFile`. -/
def asInt : DumpValue → Option Int
  | DumpValue.int n => some n
  | _ => none

/-- Modelled from the spec: reading one pair of doubles of `DumpFile`. -/
def asVec2 : DumpValue → Option (ℚ × ℚ)
  | DumpValue.vec2 r => some r
  | _ => none

/-- Modelled from the spec: reading one `vec3d` value of `DumpFile`. -/
def asVec3 : DumpValue → Option vec3d
  | DumpValue.vec3 v => some v
  | _ => none

/-- Modelled from the spec: `ar << v` for a `std::vector` of `DumpFile`: the
number of entries, then the entries. -/
def putVector {α : Type} (put : α → DumpValue) (v : List α) : DumpFile :=
  DumpValue.int v.length :: v.map put

/-- Modelled from the spec: reading `n` entries of a vector of `DumpFile`. -/
def getEntries {α : Type} (get : DumpValue → Option α) : Nat → DumpFile → Option (List α × DumpFile)
  | 0, ar => some ([], ar)
  | _ + 1, [] => none
  | n + 1, x :: ar =>
    match get x, getEntries get n ar with
    | some a, some (v, ar) => some (a :: v, ar)
    | _, _ => none

/-- Modelled from the spec: `ar >> v` for a `std::vector` of `DumpFile`: the
vector is resized to the stored number of entries and filled with them. -/
def getVector {α : Type} (get : DumpValue → Option α) (ar : DumpFile) :
    Option (List α × DumpFile) :=
  match getInt ar with
  | some (n, ar) => if n < 0 then none else getEntries get n.toNat ar
  | none => none

/-- A read from the archive followed by what is done with the value read and
the rest of the archive; a failed read makes the whole fail. -/
def readThen {α β : Type} (o : Option (α × DumpFile)) (k : α → DumpFile → Option β) :
    Option β :=
  match o with
  | some (a, ar) => k a ar
  | none => none

/-- The id that the saving branch stores for a partner (lines 236-237):
`pe->m_lid`, or -1 for the null pointer; `none` for a pointer that is not a
facet of the sibling. -/
def partnerId (sib : FESlidingSurface3) (pe : Option Nat) : Option Int :=
  match pe with
  | some k => (vget sib.el k).map (fun e => e.m_lid)
  | none => some (-1)

/-- The ids that the loop of lines 234-238 stores for the partners, in order. -/
def partnerIds (sib : FESlidingSurface3) : List (Option Nat) → Option (List Int)
  | [] => some []
  | pe :: l =>
    match partnerId sib pe, partnerIds sib l with
    | some id, some ids => some (id :: ids)
    | _, _ => none

/-- The saving branch of `FESlidingSurface3::Serialize` (lines 200-204 and
215-239): the values appended to the archive. `baseOut` is what
`FEContactSurface::Serialize`, which is not among the sources, appends. -/
def FESlidingSurface3.Serialize_save (s : FESlidingSurface3) (baseOut : DumpFile)
    (sib : FESlidingSurface3) : Option DumpFile := do
  let ids ← partnerIds sib s.m_pme
  pure ([DumpValue.bool s.m_bporo, DumpValue.bool s.m_bsolu] ++ (baseOut
    ++ (putVector DumpValue.double s.m_gap
    ++ (putVector DumpValue.vec3 s.m_nu
    ++ (putVector DumpValue.vec2 s.m_rs
    ++ (putVector DumpValue.double s.m_Lmd
    ++ (putVector DumpValue.double s.m_Lmp
    ++ (putVector DumpValue.double s.m_Lmc
    ++ (putVector DumpValue.int s.m_nei
    ++ (putVector DumpValue.double s.m_epsn
    ++ (putVector DumpValue.double s.m_epsp
    ++ (putVector DumpValue.double s.m_epsc
    ++ (putVector DumpValue.vec3 s.m_nn
    ++ (putVector DumpValue.double s.m_pg
    ++ (putVector DumpValue.double s.m_cg
    ++ (putVector DumpValue.double s.m_Ln
    ++ (DumpValue.int s.m_pme.length :: ids.map DumpValue.int)))))))))))))))))

/-- The loading branch up to the partners (lines 207-208, 212 and 242-255): the
flags and the per-point vectors are read in the order in which they were
written. `baseIn` is the effect of `FEContactSurface::Serialize` on the
archive. -/
def FESlidingSurface3.Serialize_load_data (s : FESlidingSurface3)
    (baseIn : DumpFile → Option DumpFile) (ar : DumpFile) :
    Option (FESlidingSurface3 × DumpFile) :=
  readThen (getBool ar) fun m_bporo ar =>
  readThen (getBool ar) fun m_bsolu ar =>
  readThen ((baseIn ar).map fun ar => ((), ar)) fun _ ar =>
  readThen (getVector asDouble ar) fun m_gap ar =>
  readThen (getVector asVec3 ar) fun m_nu ar =>
  readThen (getVector asVec2 ar) fun m_rs ar =>
  readThen (getVector asDouble ar) fun m_Lmd ar =>
  readThen (getVector asDouble ar) fun m_Lmp ar =>
  readThen (getVector asDouble ar) fun m_Lmc ar =>
  readThen (getVector asInt ar) fun m_nei ar =>
  readThen (getVector asDouble ar) fun m_epsn ar =>
  readThen (getVector asDouble ar) fun m_epsp ar =>
  readThen (getVector asDouble ar) fun m_epsc ar =>
  readThen (getVector asVec3 ar) fun m_nn ar =>
  readThen (getVector asDouble ar) fun m_pg ar =>
  readThen (getVector asDouble ar) fun m_cg ar =>
  readThen (getVector asDouble ar) fun m_Ln ar =>
  some ({ s with m_bporo := m_bporo, m_bsolu := m_bsolu, m_gap := m_gap, m_nu := m_nu,
                 m_rs := m_rs, m_Lmd := m_Lmd, m_Lmp := m_Lmp, m_Lmc := m_Lmc,
                 m_nei := m_nei, m_epsn := m_epsn, m_epsp := m_epsp, m_epsc := m_epsc,
                 m_nn := m_nn, m_pg := m_pg, m_cg := m_cg, m_Ln := m_Ln }, ar)

/-- The body of the partner loop of the loading branch (lines 264-270) at point
`i`, restricted to the runs that return in a build with assertions: the
partners and the archive afterwards. The value is `none` for every other run:
a failed read, `Element(id)` or `m_pme[i]` outside the bounds, where the source
has no check and no error path, and a false `assert(m_pme[i]->m_lid == id)`.
`Serialize_load_partner_run` tells these runs apart. -/
def Serialize_load_partner (sib : FESlidingSurface3) (i : Nat) (m_pme : List (Option Nat))
    (ar : DumpFile) : Option (List (Option Nat) × DumpFile) :=
  readThen (getInt ar) fun id ar =>
  if id < 0 then (vset m_pme i none).map fun m_pme => (m_pme, ar)
  else
    match vget sib.el id.toNat, vset m_pme i (some id.toNat) with
    | some e, some m_pme => if e.m_lid = id then some (m_pme, ar) else none
    | _, _ => none

/-- The loop `for (i = i0; i < i0 + cnt; ++i)` over `Serialize_load_partner`. -/
def Serialize_load_partners (sib : FESlidingSurface3) :
    Nat → Nat → List (Option Nat) → DumpFile → Option (List (Option Nat) × DumpFile)
  | 0, _, m_pme, ar => some (m_pme, ar)
  | cnt + 1, i, m_pme, ar =>
    readThen (Serialize_load_partner sib i m_pme ar) fun m_pme ar =>
    Serialize_load_partners sib cnt (i + 1) m_pme ar

/-- The loading branch of `FESlidingSurface3::Serialize` (lines 207-208 and
242-271) for a surface whose sibling is `sib` (so `assert(m_pSibling)` holds),
restricted to the runs that return in a build with assertions: the surface
afterwards and the rest of the archive. The value is `none` for every other
run; the source has no error path, and `Serialize_load_run` tells apart how a
run ends in a build with and without assertions. -/
def FESlidingSurface3.Serialize_load (s : FESlidingSurface3)
    (baseIn : DumpFile → Option DumpFile) (sib : FESlidingSurface3) (ar : DumpFile) :
    Option (FESlidingSurface3 × DumpFile) :=
  readThen (s.Serialize_load_data baseIn ar) fun s ar =>
  readThen (getInt ar) fun ne ar =>
  if ne = s.m_pme.length then
    readThen (Serialize_load_partners sib ne.toNat 0 s.m_pme ar) fun m_pme ar =>
    some ({ s with m_pme := m_pme }, ar)
  else none

/-! ## `FESlidingSurface3::Serialize`: how a run of the loading branch ends -/

/-- The ways in which a run of the loading branch of
`FESlidingSurface3::Serialize` ends: it returns with a value; a read from the
archive fails; an `assert` whose condition is false aborts the program, which
happens only in a build with assertions (`NDEBUG` not defined); or a vector is
indexed outside its bounds by `operator[]` or `Element(id)`, where the source
has no check and no error path and the language does not define what
follows. -/
inductive LoadOutcome (α : Type) where
  | returns (a : α)
  | readFails
  | assertFails
  | outOfBounds

/-- The statements that follow a step of a run, executed when the step returns. -/
def LoadOutcome.andThen {α β : Type} (o : LoadOutcome α) (k : α → LoadOutcome β) :
    LoadOutcome β :=
  match o with
  | LoadOutcome.returns a => k a
  | LoadOutcome.readFails => LoadOutcome.readFails
  | LoadOutcome.assertFails => LoadOutcome.assertFails
  | LoadOutcome.outOfBounds => LoadOutcome.outOfBounds

/-- The value with which a run returns, if it returns. -/
def LoadOutcome.value {α : Type} (o : LoadOutcome α) : Option α :=
  match o with
  | LoadOutcome.returns a => some a
  | _ => none

/-- The body of the partner loop of the loading branch (lines 264-270) at point
`i`, in a build with assertions (`assertions = true`) or without: `ar >> id`;
for `id < 0` the statement `m_pme[i] = 0`; otherwise
`m_pme[i] = &m_pSibling->Element(id)`, which indexes the facet table of the
sibling and the vector `m_pme` without a check, followed by
`assert(m_pme[i]->m_lid == id)`, which is compiled only with assertions.
`FESurface::Element` is not among the sources and is taken to index the facet
table as `operator[]` does. -/
def Serialize_load_partner_run (assertions : Bool) (sib : FESlidingSurface3) (i : Nat)
    (m_pme : List (Option Nat)) (ar : DumpFile) : LoadOutcome (List (Option Nat) × DumpFile) :=
  match getInt ar with
  | none => LoadOutcome.readFails
  | some (id, ar) =>
    if id < 0 then
      match vset m_pme i none with
      | some m_pme => LoadOutcome.returns (m_pme, ar)
      | none => LoadOutcome.outOfBounds
    else
      match vget sib.el id.toNat with
      | none => LoadOutcome.outOfBounds
      | some e =>
        match vset m_pme i (some id.toNat) with
        | none => LoadOutcome.outOfBounds
        | some m_pme =>
          if assertions && decide (e.m_lid ≠ id) then LoadOutcome.assertFails
          else LoadOutcome.returns (m_pme, ar)

/-- The loop `for (i = i0; i < i0 + cnt; ++i)` over
`Serialize_load_partner_run`. -/
def Serialize_load_partners_run (assertions : Bool) (sib : FESlidingSurface3) :
    Nat → Nat → List (Option Nat) → DumpFile → LoadOutcome (List (Option Nat) × DumpFile)
  | 0, _, m_pme, ar => LoadOutcome.returns (m_pme, ar)
  | cnt + 1, i, m_pme, ar =>
    (Serialize_load_partner_run assertions sib i m_pme ar).andThen fun r =>
      Serialize_load_partners_run assertions sib cnt (i + 1) r.1 r.2

/-- The loading branch of `FESlidingSurface3::Serialize` (lines 207-208 and
242-271) for a surface whose sibling is `sib`, in a build with or without
assertions: the data are read, then the partner count `ne`;
`assert(ne == m_pme.size())` is compiled only with assertions; the loop
`for (i=0; i<ne; ++i)` restores the partners. -/
def FESlidingSurface3.Serialize_load_run (s : FESlidingSurface3) (assertions : Bool)
    (baseIn : DumpFile → Option DumpFile) (sib : FESlidingSurface3) (ar : DumpFile) :
    LoadOutcome (FESlidingSurface3 × DumpFile) :=
  match s.Serialize_load_data baseIn ar with
  | none => LoadOutcome.readFails
  | some (s, ar) =>
    match getInt ar with
    | none => LoadOutcome.readFails
    | some (ne, ar) =>
      if assertions && decide (ne ≠ s.m_pme.length) then LoadOutcome.assertFails
      else
        (Serialize_load_partners_run assertions sib ne.toNat 0 s.m_pme ar).andThen fun r =>
          LoadOutcome.returns ({ s with m_pme := r.1 }, r.2)

/-! ## The auto-penalty estimators -/

/-- The function `FESlidingInterface3::AutoPressurePenalty`. -/
def AutoPressurePenalty (m : FEModel) (el : FESurfaceElement) : ℚ :=
  match m.FindElementFromID el.m_nelem with
  | some pe =>
    if pe.solid then
      let pm := m.GetMaterial pe.matID
      match pm.biph, pm.bsolu with
      | some K, _ => (K 0 0 + K 1 1 + K 2 2) / 3
      | none, some bsolu => bsolu.Permeability.tr / 3
      | none, none => 0
    else 0
  | none => 0

/-- The function `FESlidingInterface3::AutoConcentrationPenalty`. -/
def AutoConcentrationPenalty (m : FEModel) (el : FESurfaceElement) : ℚ :=
  match m.FindElementFromID el.m_nelem with
  | some pe =>
    if pe.solid then
      let pm := m.GetMaterial pe.matID
      match pm.bsolu with
      | some bsolu =>
        let D := bsolu.Diffusivity.smul (bsolu.Porosity * bsolu.Solubility)
        D.tr / 3
      | none => 0
    else 0
  | none => 0

/-- The penalty vector that an estimator writes: `m_epsn` (`CalcAutoPenalty`),
`m_epsp` (`CalcAutoPressurePenalty`) or `m_epsc`
(`CalcAutoConcentrationPenalty`). -/
inductive PenaltyField where
  | normal
  | pressure
  | concentration

/-- The penalty vector of a field. -/
def PenaltyField.vec (f : PenaltyField) (s : FESlidingSurface3) : List ℚ :=
  match f with
  | PenaltyField.normal => s.m_epsn
  | PenaltyField.pressure => s.m_epsp
  | PenaltyField.concentration => s.m_epsc

/-- The assignment `s.m_epsn[ni] = eps` (resp. `m_epsp`, `m_epsc`). -/
def PenaltyField.assign (f : PenaltyField) (s : FESlidingSurface3) (ni : Nat) (eps : ℚ) :
    Option FESlidingSurface3 :=
  match f with
  | PenaltyField.normal => (vset s.m_epsn ni eps).map fun v => { s with m_epsn := v }
  | PenaltyField.pressure => (vset s.m_epsp ni eps).map fun v => { s with m_epsp := v }
  | PenaltyField.concentration => (vset s.m_epsc ni eps).map fun v => { s with m_epsc := v }

/-- The loop `for (j = 0; j < nint; ++j, ++ni) s.m_eps?[ni] = eps` (lines 391,
426 and 529); the state is the surface and the running counter `ni`. -/
def CalcAuto_assign (f : PenaltyField) (eps : ℚ) :
    Nat → FESlidingSurface3 → Nat → Option (FESlidingSurface3 × Nat)
  | 0, s, ni => some (s, ni)
  | cnt + 1, s, ni =>
    match f.assign s ni eps with
    | some s => CalcAuto_assign f eps cnt s (ni + 1)
    | none => none

/-- The loop over the facets shared by `CalcAutoPenalty`, `CalcAutoPressurePenalty`
and `CalcAutoConcentrationPenalty` (lines 368-392, 403-427 and 506-530), which
differ only in the modulus they ask for and in the vector they write. A facet
whose element is not found fails `assert(pe)`. `FaceArea` is `s.FaceArea(el)`. -/
def CalcAuto_facets (m : FEModel) (FaceArea : FESurfaceElement → ℚ)
    (modulus : FESurfaceElement → ℚ) (f : PenaltyField) :
    List FESurfaceElement → FESlidingSurface3 → Nat → Option (FESlidingSurface3 × Nat)
  | [], s, ni => some (s, ni)
  | el :: els, s, ni =>
    match m.FindElementFromID el.m_nelem with
    | some pe =>
      let A := FaceArea el
      let V := m.ElementVolume pe
      let K := modulus el
      let eps := K * A / V
      match CalcAuto_assign f eps el.nint s ni with
      | some (s, ni) => CalcAuto_facets m FaceArea modulus f els s ni
      | none => none
    | none => none

/-- The function `FESlidingInterface3::CalcAutoPenalty`. `BulkModulus` is
`FEContactInterface::BulkModulus(el, s)`, which is not among the sources. -/
def CalcAutoPenalty (m : FEModel) (FaceArea BulkModulus : FESurfaceElement → ℚ)
    (s : FESlidingSurface3) : Option FESlidingSurface3 :=
  (CalcAuto_facets m FaceArea BulkModulus PenaltyField.normal s.el s 0).map fun st => st.1

/-- The function `FESlidingInterface3::CalcAutoPressurePenalty`. -/
def CalcAutoPressurePenalty (m : FEModel) (FaceArea : FESurfaceElement → ℚ)
    (s : FESlidingSurface3) : Option FESlidingSurface3 :=
  (CalcAuto_facets m FaceArea (AutoPressurePenalty m) PenaltyField.pressure s.el s 0).map
    fun st => st.1

/-- The function `FESlidingInterface3::CalcAutoConcentrationPenalty`. -/
def CalcAutoConcentrationPenalty (m : FEModel) (FaceArea : FESurfaceElement → ℚ)
    (s : FESlidingSurface3) : Option FESlidingSurface3 :=
  (CalcAuto_facets m FaceArea (AutoConcentrationPenalty m) PenaltyField.concentration s.el s
    0).map fun st => st.1

/-! ## `FESlidingInterface3::ProjectSurface` -/

/-- The geometric services of the two surfaces used by `ProjectSurface`:
`ss.Local2Global(el, j)`, `ss.SurfaceNormal(el, j)`, `el.eval(v, j)`,
`ms.Intersect(me, r, nu, rs, g, tol)` (its result and the `rs` it leaves),
`ms.FindIntersection(r, nu, rs, tol)` (the facet found, as its index in the
facet table of `ms`, and the `rs` it leaves), `ms.Local2Global(me, r, s)` and
`me.eval(v, r, s)`. -/
structure ProjectGeometry where
  Local2GlobalGP : FESurfaceElement → Nat → vec3d
  SurfaceNormal : FESurfaceElement → Nat → vec3d
  evalGP : FESurfaceElement → List ℚ → Nat → ℚ
  Intersect : FESurfaceElement → vec3d → vec3d → ℚ × ℚ → ℚ → Bool × (ℚ × ℚ)
  FindIntersection : vec3d → vec3d → ℚ × ℚ → ℚ → Option Nat × (ℚ × ℚ)
  Local2Global : FESurfaceElement → ℚ → ℚ → vec3d
  eval : FESurfaceElement → List ℚ → ℚ → ℚ → ℚ

/-- Lines 632-651: the candidate partner `pme` of point `n`, the local array
`rs` and the surface (whose `m_rs[n]` is written when the old partner is kept). -/
def ProjectSurface_search (I : FESlidingInterface3) (G : ProjectGeometry)
    (ms : FESlidingSurface3) (bupseg : Bool) (r nu : vec3d) (n : Nat)
    (ss : FESlidingSurface3) (rs : ℚ × ℚ) :
    Option (Option Nat × (ℚ × ℚ) × FESlidingSurface3) := do
  let pme ← vget ss.m_pme n
  let (pme, rs, ss) ←
    match pme with
    | some k => do
      let me ← vget ms.el k
      let (hit, rs) := G.Intersect me r nu rs I.m_stol
      if hit then do
        let m_rs ← vset ss.m_rs n rs
        pure (some k, rs, { ss with m_rs := m_rs })
      else pure (none, rs, ss)
    | none => pure (none, rs, ss)
  let (pme, rs) :=
    if pme.isNone && bupseg then G.FindIntersection r nu rs I.m_stol else (pme, rs)
  pure (pme, rs, ss)

/-- Lines 657-697: the point has a candidate partner, facet `k` of `ms`. -/
def ProjectSurface_partner (I : FESlidingInterface3) (G : ProjectGeometry) (M : FEModel)
    (ms : FESlidingSurface3) (R : ℚ) (sporo ssolu : Bool) (p1 c1 : ℚ) (r nu : vec3d)
    (rs : ℚ × ℚ) (n k : Nat) (ss : FESlidingSurface3) : Option FESlidingSurface3 := do
  let me ← vget ms.el k
  let q := G.Local2Global me rs.1 rs.2
  let g := nu.dot (r.sub q)
  let epsn_n ← vget ss.m_epsn n
  let eps := I.m_epsn * epsn_n
  let Lmd_n ← vget ss.m_Lmd n
  let Ln := Lmd_n + eps * g
  let m_gap ← vset ss.m_gap n (if g ≤ R then g else 0)
  let ss : FESlidingSurface3 := { ss with m_gap := m_gap }
  if Ln ≥ 0 && g ≤ R then do
    let (mporo, msolu) := BiphasicSoluteStatus M me
    let ss ←
      if sporo && mporo then do
        let p2 := G.eval me (me.m_node.map M.m_pt) rs.1 rs.2
        let m_pg ← vset ss.m_pg n (p1 - p2)
        pure { ss with m_pg := m_pg }
      else pure ss
    if ssolu && msolu then do
      let c2 := G.eval me (me.m_node.map M.m_ct) rs.1 rs.2
      let m_cg ← vset ss.m_cg n (c1 - c2)
      pure { ss with m_cg := m_cg }
    else pure ss
  else do
    let m_pme ← vset ss.m_pme n none
    pure { ss with m_pme := m_pme }

/-- Lines 698-711: the point has no candidate partner. -/
def ProjectSurface_nopartner (sporo ssolu : Bool) (n : Nat) (ss : FESlidingSurface3) :
    Option FESlidingSurface3 := do
  let m_Lmd ← vset ss.m_Lmd n 0
  let m_gap ← vset ss.m_gap n 0
  let ss : FESlidingSurface3 := { ss with m_Lmd := m_Lmd, m_gap := m_gap }
  let ss ←
    if sporo then do
      let m_Lmp ← vset ss.m_Lmp n 0
      let m_pg ← vset ss.m_pg n 0
      pure { ss with m_Lmp := m_Lmp, m_pg := m_pg }
    else pure ss
  if ssolu then do
    let m_Lmc ← vset ss.m_Lmc n 0
    let m_cg ← vset ss.m_cg n 0
    pure { ss with m_Lmc := m_Lmc, m_cg := m_cg }
  else pure ss

/-- The body of the integration-point loop of `ProjectSurface` (lines 620-711)
at Gauss point `j` of facet `el`; the state is the searching surface, the
running counter `n` and the local array `rs`. The locals `p1` and `c1` are
read only under `sporo` and `ssolu`, under which they have been assigned. -/
def ProjectSurface_point (I : FESlidingInterface3) (G : ProjectGeometry) (M : FEModel)
    (ms : FESlidingSurface3) (bupseg : Bool) (R : ℚ) (el : FESurfaceElement)
    (sporo ssolu : Bool) (ps cs : List ℚ) (j : Nat)
    (st : FESlidingSurface3 × Nat × (ℚ × ℚ)) : Option (FESlidingSurface3 × Nat × (ℚ × ℚ)) := do
  let ss := st.1
  let n := st.2.1
  let rs := st.2.2
  let r := G.Local2GlobalGP el j
  let p1 := G.evalGP el ps j
  let c1 := G.evalGP el cs j
  let nu := G.SurfaceNormal el j
  let (pme, rs, ss) ← ProjectSurface_search I G ms bupseg r nu n ss rs
  let m_pme ← vset ss.m_pme n pme
  let m_nu ← vset ss.m_nu n nu
  let m_rs ← vset ss.m_rs n rs
  let ss : FESlidingSurface3 := { ss with m_pme := m_pme, m_nu := m_nu, m_rs := m_rs }
  let ss ←
    match pme with
    | some k => ProjectSurface_partner I G M ms R sporo ssolu p1 c1 r nu rs n k ss
    | none => ProjectSurface_nopartner sporo ssolu n ss
  pure (ss, n + 1, rs)

/-- The loop `for (j = j0; j < j0 + cnt; ++j, ++n)` over the Gauss points of a
facet. -/
def ProjectSurface_gauss (I : FESlidingInterface3) (G : ProjectGeometry) (M : FEModel)
    (ms : FESlidingSurface3) (bupseg : Bool) (R : ℚ) (el : FESurfaceElement)
    (sporo ssolu : Bool) (ps cs : List ℚ) :
    Nat → Nat → FESlidingSurface3 × Nat × (ℚ × ℚ) → Option (FESlidingSurface3 × Nat × (ℚ × ℚ))
  | 0, _, st => some st
  | cnt + 1, j, st => do
    let st ← ProjectSurface_point I G M ms bupseg R el sporo ssolu ps cs j st
    ProjectSurface_gauss I G M ms bupseg R el sporo ssolu ps cs cnt (j + 1) st

/-- The loop over the facets of the searching surface (lines 596-713). -/
def ProjectSurface_facets (I : FESlidingInterface3) (G : ProjectGeometry) (M : FEModel)
    (ms : FESlidingSurface3) (bupseg : Bool) (R : ℚ) :
    List FESurfaceElement → FESlidingSurface3 × Nat × (ℚ × ℚ) →
      Option (FESlidingSurface3 × Nat × (ℚ × ℚ))
  | [], st => some st
  | el :: els, st => do
    let (sporo, ssolu) := BiphasicSoluteStatus M el
    let ps := el.m_node.map M.m_pt
    let cs := el.m_node.map M.m_ct
    let st ← ProjectSurface_gauss I G M ms bupseg R el sporo ssolu ps cs el.nint 0 st
    ProjectSurface_facets I G M ms bupseg R els st

/-- The search radius `R = m_srad*mesh.GetBoundingBox().radius()` (line 592). -/
def searchRadius (I : FESlidingInterface3) (M : FEModel) : ℚ := I.m_srad * M.radius

/-- The function `FESlidingInterface3::ProjectSurface(ss, ms, bupseg)`: the
searching surface afterwards. `rs0` is the content of the local array `rs` on
entry, which the function does not initialise. -/
def FESlidingInterface3.ProjectSurface (I : FESlidingInterface3) (G : ProjectGeometry)
    (M : FEModel) (ss ms : FESlidingSurface3) (bupseg : Bool) (rs0 : ℚ × ℚ) :
    Option FESlidingSurface3 :=
  (ProjectSurface_facets I G M ms bupseg (searchRadius I M) ss.el (ss, 0, rs0)).map (fun st => st.1)

/-! ## `FESlidingInterface3::ContactForces`: the body of the integration-point loop -/

/-- One call `psolver->AssembleResidual(en, LM, fe, F)`. -/
structure ResidualCall where
  en : List Nat
  LM : List Int
  fe : List ℚ

/-- The values that `ContactForces` has at hand at an integration point `ni`
(Gauss point `j` of facet `se`) whose partner `pme` is not null: node numbers
and `LM` vectors of the two facets, the shape-function values `Hs = se.H(j)`
and `Hm` (from `me.shape_fnc`), `detJ[j]`, `w[j]`, the capability flags found
by `BiphasicSoluteStatus` and the entries at `ni` of the per-point vectors. -/
structure ForcePoint where
  se_node : List Nat
  me_node : List Nat
  sLM : Nat → Int
  mLM : Nat → Int
  Hs : Nat → ℚ
  Hm : Nat → ℚ
  detJ : ℚ
  w : ℚ
  nu : vec3d
  g : ℚ
  Lm : ℚ
  epsn : ℚ
  sporo : Bool
  ssolu : Bool
  mporo : Bool
  msolu : Bool
  Lmp : ℚ
  epsp : ℚ
  pg : ℚ
  Lmc : ℚ
  epsc : ℚ
  cg : ℚ

/-- The array `N` of the mechanical part (lines 1021-1033). -/
def ForcePoint.N (p : ForcePoint) : List ℚ :=
  (List.range p.se_node.length).flatMap
      (fun k => [-(p.Hs k) * p.nu.x, -(p.Hs k) * p.nu.y, -(p.Hs k) * p.nu.z])
    ++ (List.range p.me_node.length).flatMap
      (fun k => [p.Hm k * p.nu.x, p.Hm k * p.nu.y, p.Hm k * p.nu.z])

/-- The array `N` of the pressure and concentration parts (lines 1063-1064). -/
def ForcePoint.Nflow (p : ForcePoint) : List ℚ :=
  (List.range p.se_node.length).map (fun k => p.Hs k)
    ++ (List.range p.me_node.length).map (fun k => -(p.Hm k))

/-- The contact traction `tn` after line 1015. -/
def ForcePoint.tn (m_epsn : ℚ) (p : ForcePoint) : ℚ :=
  MBRACKET (p.Lm + (m_epsn * p.epsn) * p.g)

/-- The mechanical force vector `fe` (lines 1018-1035): zeroed, then
`fe[k] += tn*N[k]*detJ[j]*w[j]`. The products are exact: a `double` is read as
a rational number here, as everywhere in this development except in
`fe_double`, which is this vector with every operation rounded as binary64
arithmetic rounds it. -/
def ForcePoint.fe (m_epsn : ℚ) (p : ForcePoint) : List ℚ :=
  p.N.map (fun n => 0 + p.tn m_epsn * n * p.detJ * p.w)

/-- The body of the integration-point loop of `ContactForces` for a point with a
partner (lines 957-1097): the calls of `AssembleResidual` it makes, in order.
`off` is the offset of the field in the `LM` vector of a facet (3 for the
pressure, 11 for the concentration). -/
def ContactForces_point (m_epsn m_epsp m_epsc dt : ℚ) (p : ForcePoint) : List ResidualCall :=
  let nseln := p.se_node.length
  let nmeln := p.me_node.length
  let en := p.se_node ++ p.me_node
  let LM := (List.range (3 * nseln)).map p.sLM ++ (List.range (3 * nmeln)).map p.mLM
  let tn := p.tn m_epsn
  let mech : ResidualCall := ⟨en, LM, p.fe m_epsn⟩
  let flowLM (off : Nat) : List Int :=
    (List.range nseln).map (fun k => p.sLM (off * nseln + k))
      ++ (List.range nmeln).map (fun k => p.mLM (off * nmeln + k))
  let pres : List ResidualCall :=
    if p.sporo && p.mporo then
      let wn := p.Lmp + (m_epsp * p.epsp) * p.pg
      [⟨en, flowLM 3, p.Nflow.map (fun n => 0 + dt * wn * n * p.detJ * p.w)⟩]
    else []
  let conc : List ResidualCall :=
    if p.ssolu && p.msolu then
      let jn := p.Lmc + (m_epsc * p.epsc) * p.cg
      [⟨en, flowLM 11, p.Nflow.map (fun n => 0 + dt * jn * n * p.detJ * p.w)⟩]
    else []
  if tn > 0 then mech :: (pres ++ conc) else [mech]

/-! ## `FESlidingInterface3::ContactStiffness`: the body of the integration-point loop -/

/-- The operator `vec3d * double`. -/
def vec3d.smul (a : vec3d) (s : ℚ) : vec3d := ⟨a.x * s, a.y * s, a.z * s⟩

/-- The operator `vec3d + vec3d`. -/
def vec3d.add (a b : vec3d) : vec3d := ⟨a.x + b.x, a.y + b.y, a.z + b.z⟩

/-- Modelled from the spec: the class `matrix` of the local tangent block, whose
header is not among the sources: a dense block of `m_nr` rows and `m_nc`
columns of numbers, entry `[i][j]` being `m_pr i j`. -/
structure matrix where
  m_nr : Nat
  m_nc : Nat
  m_pr : Nat → Nat → ℚ

/-- The calls `ke.resize(nr, nc); ke.zero()`. -/
def matrix.zero (nr nc : Nat) : matrix := ⟨nr, nc, fun _ _ => 0⟩

/-- The statement `ke[i][j] += v`. -/
def matrix.add (ke : matrix) (i j : Nat) (v : ℚ) : matrix :=
  { ke with m_pr := fun a b => if a = i ∧ b = j then ke.m_pr a b + v else ke.m_pr a b }

/-- One statement `ke[i][j] += v` of the assembly (`ke[i][j] -= v` has the value
`-v`). -/
structure Entry where
  i : Nat
  j : Nat
  v : ℚ

/-- A sequence of statements `ke[i][j] += v` executed in order. -/
def matrix.addAll (ke : matrix) (us : List Entry) : matrix :=
  us.foldl (fun m u => m.add u.i u.j u.v) ke

/-- The values that `ContactStiffness` has at hand at an integration point whose
partner is not null, beyond those of `ContactForces`: the shape-function
derivatives `Gr = se.Gr(j)` and `Gs = se.Gs(j)`, the matrices `S1` and `S2` that
`skew` leaves for the covariant base vectors `gs[0]` and `gs[1]` (the class
`mat3d` is not among the sources), the contravariant base vectors `Gm[0]` and
`Gm[1]` of the partner facet, the normalised vector `mnu` (`unit()` takes a
square root), the derivatives `Hmr`, `Hms` from `me.shape_deriv`, and the
derivatives `dpmr`, `dpms`, `dcmr`, `dcms` of the pressure and the
concentration on the partner facet. -/
structure StiffPoint extends ForcePoint where
  Gr : Nat → ℚ
  Gs : Nat → ℚ
  S1 : Nat → Nat → ℚ
  S2 : Nat → Nat → ℚ
  Gm0 : vec3d
  Gm1 : vec3d
  mnu : vec3d
  Hmr : Nat → ℚ
  Hms : Nat → ℚ
  dpmr : ℚ
  dpms : ℚ
  dcmr : ℚ
  dcms : ℚ

/-- The number `ndpn` of dofs per node (lines 1232-1303): 5 for biphasic-solute
contact, 4 for biphasic contact, 3 for elastic contact. -/
def StiffPoint.ndpn (p : StiffPoint) : Nat :=
  if p.ssolu && p.msolu then 5 else if p.sporo && p.mporo then 4 else 3

/-- The number `ndof = ndpn*(nseln+nmeln)` of dofs of the block. -/
def StiffPoint.ndof (p : StiffPoint) : Nat := p.ndpn * (p.se_node.length + p.me_node.length)

/-- The vector `LM` of the block (lines 1232-1303). -/
def StiffPoint.LM (p : StiffPoint) : List Int :=
  let nseln := p.se_node.length
  let nmeln := p.me_node.length
  if p.ssolu && p.msolu then
    (List.range nseln).flatMap (fun k =>
        [p.sLM (3 * k), p.sLM (3 * k + 1), p.sLM (3 * k + 2), p.sLM (3 * nseln + k),
         p.sLM (11 * nseln + k)])
      ++ (List.range nmeln).flatMap (fun k =>
        [p.mLM (3 * k), p.mLM (3 * k + 1), p.mLM (3 * k + 2), p.mLM (3 * nmeln + k),
         p.mLM (11 * nmeln + k)])
  else if p.sporo && p.mporo then
    (List.range nseln).flatMap (fun k =>
        [p.sLM (3 * k), p.sLM (3 * k + 1), p.sLM (3 * k + 2), p.sLM (3 * nseln + k)])
      ++ (List.range nmeln).flatMap (fun k =>
        [p.mLM (3 * k), p.mLM (3 * k + 1), p.mLM (3 * k + 2), p.mLM (3 * nmeln + k)])
  else
    (List.range nseln).flatMap (fun k => [p.sLM (3 * k), p.sLM (3 * k + 1), p.sLM (3 * k + 2)])
      ++ (List.range nmeln).flatMap (fun k =>
        [p.mLM (3 * k), p.mLM (3 * k + 1), p.mLM (3 * k + 2)])

/-- The array `N` of the NxN term (lines 1346-1377) at index `idx = ndpn*k + c`:
`Hs[k]*nu` for the displacement dofs `c < 3` of node `k` of the searching
facet, `-Hm[k - nseln]*nu` for those of a node of the partner facet, and 0 for
the pressure and concentration dofs. -/
def StiffPoint.N (p : StiffPoint) (idx : Nat) : ℚ :=
  let k := idx / p.ndpn
  let c := idx % p.ndpn
  if c < 3 then
    if k < p.se_node.length then p.Hs k * p.nu.comp c
    else -(p.Hm (k - p.se_node.length)) * p.nu.comp c
  else 0

/-- The array `N` after lines 1385-1386, read at a node index `k < nseln+nmeln`:
`Hs[k]` for a node of the searching facet, `-Hm[k - nseln]` for a node of the
partner facet. -/
def StiffPoint.Nn (p : StiffPoint) (k : Nat) : ℚ :=
  if k < p.se_node.length then p.Hs k else -(p.Hm (k - p.se_node.length))

/-- The array `N` after lines 1596-1606 (1677-1685), read at the index
`idx = ndpn*k + 3` or `ndpn*k + 4` of a pressure or concentration dof. -/
def StiffPoint.Np (p : StiffPoint) (idx : Nat) : ℚ := p.Nn (idx / p.ndpn)

/-- The matrices `As[l] = S2*Gr[l] - S1*Gs[l]` (lines 1397-1398). -/
def StiffPoint.As (p : StiffPoint) (l a b : Nat) : ℚ := p.S2 a b * p.Gr l - p.S1 a b * p.Gs l

/-- The vectors `mm[k] = Gm[0]*Hmr[k] + Gm[1]*Hms[k]` (lines 1466-1467). -/
def StiffPoint.mm (p : StiffPoint) (k : Nat) : vec3d :=
  (p.Gm0.smul (p.Hmr k)).add (p.Gm1.smul (p.Hms k))

/-- The slope `dtn = (tn > 0 ? eps : 0)` of line 1335. -/
def StiffPoint.dtn (m_epsn : ℚ) (p : StiffPoint) : ℚ :=
  if p.tn m_epsn > 0 then m_epsn * p.epsn else 0

/-- The statements of the NxN term (lines 1379-1380). -/
def ContactStiffness_NxN (m_epsn : ℚ) (p : StiffPoint) : List Entry :=
  (List.range p.ndof).flatMap (fun k =>
    (List.range p.ndof).map (fun l => ⟨k, l, p.dtn m_epsn * p.N k * p.N l * p.detJ * p.w⟩))

/-- The statements of the A-term (lines 1400-1451), with `c = knmult*tn*w[j]` in
the non-symmetric branch and `c = 0.5*knmult*tn*w[j]` in the symmetric branch. -/
def ContactStiffness_A (m_epsn knmult : ℚ) (m_bsymm : Bool) (p : StiffPoint) : List Entry :=
  let nseln := p.se_node.length
  let nmeln := p.me_node.length
  let ndpn := p.ndpn
  let tn := p.tn m_epsn
  if !m_bsymm then
    let c := knmult * tn * p.w
    (List.range nseln).flatMap (fun l => (List.range (nseln + nmeln)).flatMap (fun k =>
      [⟨k * ndpn, l * ndpn, -(c * p.Nn k * p.As l 0 0)⟩,
       ⟨k * ndpn, l * ndpn + 1, -(c * p.Nn k * p.As l 0 1)⟩,
       ⟨k * ndpn, l * ndpn + 2, -(c * p.Nn k * p.As l 0 2)⟩,
       ⟨k * ndpn + 1, l * ndpn, -(c * p.Nn k * p.As l 1 0)⟩,
       ⟨k * ndpn + 1, l * ndpn + 1, -(c * p.Nn k * p.As l 1 1)⟩,
       ⟨k * ndpn + 1, l * ndpn + 2, -(c * p.Nn k * p.As l 1 2)⟩,
       ⟨k * ndpn + 2, l * ndpn, -(c * p.Nn k * p.As l 2 0)⟩,
       ⟨k * ndpn + 2, l * ndpn + 1, -(c * p.Nn k * p.As l 2 1)⟩,
       ⟨k * ndpn + 2, l * ndpn + 2, -(c * p.Nn k * p.As l 2 2)⟩]))
  else
    let c := 1 / 2 * knmult * tn * p.w
    (List.range nseln).flatMap (fun l => (List.range (nseln + nmeln)).flatMap (fun k =>
      [⟨k * ndpn, l * ndpn, -(c * p.Nn k * p.As l 0 0)⟩,
       ⟨k * ndpn, l * ndpn + 1, -(c * p.Nn k * p.As l 0 1)⟩,
       ⟨k * ndpn, l * ndpn + 2, -(c * p.Nn k * p.As l 0 2)⟩,
       ⟨k * ndpn + 1, l * ndpn, -(c * p.Nn k * p.As l 1 0)⟩,
       ⟨k * ndpn + 1, l * ndpn + 1, -(c * p.Nn k * p.As l 1 1)⟩,
       ⟨k * ndpn + 1, l * ndpn + 2, -(c * p.Nn k * p.As l 1 2)⟩,
       ⟨k * ndpn + 2, l * ndpn, -(c * p.Nn k * p.As l 2 0)⟩,
       ⟨k * ndpn + 2, l * ndpn + 1, -(c * p.Nn k * p.As l 2 1)⟩,
       ⟨k * ndpn + 2, l * ndpn + 2, -(c * p.Nn k * p.As l 2 2)⟩,
       ⟨l * ndpn, k * ndpn, -(c * p.Nn k * p.As l 0 0)⟩,
       ⟨l * ndpn + 1, k * ndpn, -(c * p.Nn k * p.As l 0 1)⟩,
       ⟨l * ndpn + 2, k * ndpn, -(c * p.Nn k * p.As l 0 2)⟩,
       ⟨l * ndpn, k * ndpn + 1, -(c * p.Nn k * p.As l 1 0)⟩,
       ⟨l * ndpn + 1, k * ndpn + 1, -(c * p.Nn k * p.As l 1 1)⟩,
       ⟨l * ndpn + 2, k * ndpn + 1, -(c * p.Nn k * p.As l 1 2)⟩,
       ⟨l * ndpn, k * ndpn + 2, -(c * p.Nn k * p.As l 2 0)⟩,
       ⟨l * ndpn + 1, k * ndpn + 2, -(c * p.Nn k * p.As l 2 1)⟩,
       ⟨l * ndpn + 2, k * ndpn + 2, -(c * p.Nn k * p.As l 2 2)⟩]))

/-- The statements of the M-term (lines 1469-1520), with
`c = tn*knmult*detJ[j]*w[j]` in the non-symmetric branch and
`c = 0.5*knmult*tn*detJ[j]*w[j]` in the symmetric branch. -/
def ContactStiffness_M (m_epsn knmult : ℚ) (m_bsymm : Bool) (p : StiffPoint) : List Entry :=
  let nseln := p.se_node.length
  let nmeln := p.me_node.length
  let ndpn := p.ndpn
  let tn := p.tn m_epsn
  if !m_bsymm then
    let c := tn * knmult * p.detJ * p.w
    (List.range nmeln).flatMap (fun k => (List.range (nseln + nmeln)).flatMap (fun l =>
      [⟨(k + nseln) * ndpn, l * ndpn, c * p.mnu.x * (p.mm k).x * p.Nn l⟩,
       ⟨(k + nseln) * ndpn, l * ndpn + 1, c * p.mnu.x * (p.mm k).y * p.Nn l⟩,
       ⟨(k + nseln) * ndpn, l * ndpn + 2, c * p.mnu.x * (p.mm k).z * p.Nn l⟩,
       ⟨(k + nseln) * ndpn + 1, l * ndpn, c * p.mnu.y * (p.mm k).x * p.Nn l⟩,
       ⟨(k + nseln) * ndpn + 1, l * ndpn + 1, c * p.mnu.y * (p.mm k).y * p.Nn l⟩,
       ⟨(k + nseln) * ndpn + 1, l * ndpn + 2, c * p.mnu.y * (p.mm k).z * p.Nn l⟩,
       ⟨(k + nseln) * ndpn + 2, l * ndpn, c * p.mnu.z * (p.mm k).x * p.Nn l⟩,
       ⟨(k + nseln) * ndpn + 2, l * ndpn + 1, c * p.mnu.z * (p.mm k).y * p.Nn l⟩,
       ⟨(k + nseln) * ndpn + 2, l * ndpn + 2, c * p.mnu.z * (p.mm k).z * p.Nn l⟩]))
  else
    let c := 1 / 2 * knmult * tn * p.detJ * p.w
    (List.range nmeln).flatMap (fun k => (List.range (nseln + nmeln)).flatMap (fun l =>
      [⟨(k + nseln) * ndpn, l * ndpn, c * p.mnu.x * (p.mm k).x * p.Nn l⟩,
       ⟨(k + nseln) * ndpn, l * ndpn + 1, c * p.mnu.x * (p.mm k).y * p.Nn l⟩,
       ⟨(k + nseln) * ndpn, l * ndpn + 2, c * p.mnu.x * (p.mm k).z * p.Nn l⟩,
       ⟨(k + nseln) * ndpn + 1, l * ndpn, c * p.mnu.y * (p.mm k).x * p.Nn l⟩,
       ⟨(k + nseln) * ndpn + 1, l * ndpn + 1, c * p.mnu.y * (p.mm k).y * p.Nn l⟩,
       ⟨(k + nseln) * ndpn + 1, l * ndpn + 2, c * p.mnu.y * (p.mm k).z * p.Nn l⟩,
       ⟨(k + nseln) * ndpn + 2, l * ndpn, c * p.mnu.z * (p.mm k).x * p.Nn l⟩,
       ⟨(k + nseln) * ndpn + 2, l * ndpn + 1, c * p.mnu.z * (p.mm k).y * p.Nn l⟩,
       ⟨(k + nseln) * ndpn + 2, l * ndpn + 2, c * p.mnu.z * (p.mm k).z * p.Nn l⟩,
       ⟨l * ndpn, (k + nseln) * ndpn, c * p.mnu.x * (p.mm k).x * p.Nn l⟩,
       ⟨l * ndpn + 1, (k + nseln) * ndpn, c * p.mnu.y * (p.mm k).x * p.Nn l⟩,
       ⟨l * ndpn + 2, (k + nseln) * ndpn, c * p.mnu.z * (p.mm k).x * p.Nn l⟩,
       ⟨l * ndpn, (k + nseln) * ndpn + 1, c * p.mnu.x * (p.mm k).y * p.Nn l⟩,
       ⟨l * ndpn + 1, (k + nseln) * ndpn + 1, c * p.mnu.y * (p.mm k).y * p.Nn l⟩,
       ⟨l * ndpn + 2, (k + nseln) * ndpn + 1, c * p.mnu.z * (p.mm k).y * p.Nn l⟩,
       ⟨l * ndpn, (k + nseln) * ndpn + 2, c * p.mnu.x * (p.mm k).z * p.Nn l⟩,
       ⟨l * ndpn + 1, (k + nseln) * ndpn + 2, c * p.mnu.y * (p.mm k).z * p.Nn l⟩,
       ⟨l * ndpn + 2, (k + nseln) * ndpn + 2, c * p.mnu.z * (p.mm k).z * p.Nn l⟩]))

/-- The statements of the pressure-pressure term (lines 1608-1609 and
1687-1688): the loop `for (k=3; k<ndof; k+=ndpn)` visits `k = ndpn*a + 3` for
the nodes `a < nseln+nmeln`. -/
def ContactStiffness_pp (dt epsp : ℚ) (p : StiffPoint) : List Entry :=
  let n := p.se_node.length + p.me_node.length
  (List.range n).flatMap (fun a => (List.range n).map (fun b =>
    ⟨p.ndpn * a + 3, p.ndpn * b + 3,
      -(dt * epsp * p.w * p.detJ * p.Np (p.ndpn * a + 3) * p.Np (p.ndpn * b + 3))⟩))

/-- The statements of the concentration-concentration term (lines 1613-1614):
the loop `for (k=4; k<ndof; k+=ndpn)` visits `k = ndpn*a + 4`. -/
def ContactStiffness_cc (dt epsc : ℚ) (p : StiffPoint) : List Entry :=
  let n := p.se_node.length + p.me_node.length
  (List.range n).flatMap (fun a => (List.range n).map (fun b =>
    ⟨p.ndpn * a + 4, p.ndpn * b + 4,
      -(dt * epsc * p.w * p.detJ * p.Np (p.ndpn * a + 4) * p.Np (p.ndpn * b + 4))⟩))

/-- The statements of the biphasic-solute stiffness (lines 1523-1616), for a point
with `ssolu && msolu`: the q-, A- and m-terms in non-symmetric mode only, then
the pressure-pressure and concentration-concentration terms. -/
def ContactStiffness_solute (m_epsn m_epsp m_epsc dt : ℚ) (m_bsymm : Bool) (p : StiffPoint) :
    List Entry :=
  let nseln := p.se_node.length
  let nmeln := p.me_node.length
  let ndpn := p.ndpn
  let tn := p.tn m_epsn
  let epsp := if tn > 0 then m_epsp * p.epsp else 0
  let epsc := if tn > 0 then m_epsc * p.epsc else 0
  let wn := p.Lmp + epsp * p.pg
  let jn := p.Lmc + epsc * p.cg
  (if !m_bsymm then
    (List.range (nseln + nmeln)).flatMap (fun k => (List.range (nseln + nmeln)).flatMap (fun l =>
      [⟨ndpn * k + 3, ndpn * l,
          dt * p.w * p.detJ * epsp * p.Nn k * p.Nn l * (p.dpmr * p.Gm0.x + p.dpms * p.Gm1.x)⟩,
       ⟨ndpn * k + 3, ndpn * l + 1,
          dt * p.w * p.detJ * epsp * p.Nn k * p.Nn l * (p.dpmr * p.Gm0.y + p.dpms * p.Gm1.y)⟩,
       ⟨ndpn * k + 3, ndpn * l + 2,
          dt * p.w * p.detJ * epsp * p.Nn k * p.Nn l * (p.dpmr * p.Gm0.z + p.dpms * p.Gm1.z)⟩,
       ⟨ndpn * k + 4, ndpn * l,
          dt * p.w * p.detJ * epsc * p.Nn k * p.Nn l * (p.dcmr * p.Gm0.x + p.dcms * p.Gm1.x)⟩,
       ⟨ndpn * k + 4, ndpn * l + 1,
          dt * p.w * p.detJ * epsc * p.Nn k * p.Nn l * (p.dcmr * p.Gm0.y + p.dcms * p.Gm1.y)⟩,
       ⟨ndpn * k + 4, ndpn * l + 2,
          dt * p.w * p.detJ * epsc * p.Nn k * p.Nn l * (p.dcmr * p.Gm0.z + p.dcms * p.Gm1.z)⟩]))
    ++ (List.range nseln).flatMap (fun l => (List.range (nseln + nmeln)).flatMap (fun k =>
      [⟨ndpn * k + 3, ndpn * l,
          -(dt * p.w * wn * p.Nn k * (p.As l 0 0 * p.nu.x + p.As l 0 1 * p.nu.y
              + p.As l 0 2 * p.nu.z))⟩,
       ⟨ndpn * k + 3, ndpn * l + 1,
          -(dt * p.w * wn * p.Nn k * (p.As l 1 0 * p.nu.x + p.As l 1 1 * p.nu.y
              + p.As l 1 2 * p.nu.z))⟩,
       ⟨ndpn * k + 3, ndpn * l + 2,
          -(dt * p.w * wn * p.Nn k * (p.As l 2 0 * p.nu.x + p.As l 2 1 * p.nu.y
              + p.As l 2 2 * p.nu.z))⟩,
       ⟨ndpn * k + 4, ndpn * l,
          -(dt * p.w * jn * p.Nn k * (p.As l 0 0 * p.nu.x + p.As l 0 1 * p.nu.y
              + p.As l 0 2 * p.nu.z))⟩,
       ⟨ndpn * k + 4, ndpn * l + 1,
          -(dt * p.w * jn * p.Nn k * (p.As l 1 0 * p.nu.x + p.As l 1 1 * p.nu.y
              + p.As l 1 2 * p.nu.z))⟩,
       ⟨ndpn * k + 4, ndpn * l + 2,
          -(dt * p.w * jn * p.Nn k * (p.As l 2 0 * p.nu.x + p.As l 2 1 * p.nu.y
              + p.As l 2 2 * p.nu.z))⟩]))
    ++ (List.range nmeln).flatMap (fun k => (List.range (nseln + nmeln)).flatMap (fun l =>
      [⟨ndpn * (k + nseln) + 3, ndpn * l, dt * p.w * p.detJ * wn * p.Nn l * (p.mm k).x⟩,
       ⟨ndpn * (k + nseln) + 3, ndpn * l + 1, dt * p.w * p.detJ * wn * p.Nn l * (p.mm k).y⟩,
       ⟨ndpn * (k + nseln) + 3, ndpn * l + 2, dt * p.w * p.detJ * wn * p.Nn l * (p.mm k).z⟩,
       ⟨ndpn * (k + nseln) + 4, ndpn * l, dt * p.w * p.detJ * jn * p.Nn l * (p.mm k).x⟩,
       ⟨ndpn * (k + nseln) + 4, ndpn * l + 1, dt * p.w * p.detJ * jn * p.Nn l * (p.mm k).y⟩,
       ⟨ndpn * (k + nseln) + 4, ndpn * l + 2, dt * p.w * p.detJ * jn * p.Nn l * (p.mm k).z⟩]))
  else [])
  ++ ContactStiffness_pp dt epsp p ++ ContactStiffness_cc dt epsc p

/-- The statements of the biphasic stiffness (lines 1619-1690), for a point with
`sporo && mporo` that is not biphasic-solute: the q-, A- and m-terms in
non-symmetric mode only, then the pressure-pressure term. -/
def ContactStiffness_biphasic (m_epsn m_epsp dt : ℚ) (m_bsymm : Bool) (p : StiffPoint) :
    List Entry :=
  let nseln := p.se_node.length
  let nmeln := p.me_node.length
  let ndpn := p.ndpn
  let tn := p.tn m_epsn
  let epsp := if tn > 0 then m_epsp * p.epsp else 0
  let wn := p.Lmp + epsp * p.pg
  (if !m_bsymm then
    (List.range (nseln + nmeln)).flatMap (fun k => (List.range (nseln + nmeln)).flatMap (fun l =>
      [⟨ndpn * k + 3, ndpn * l,
          dt * p.w * p.detJ * epsp * p.Nn k * p.Nn l * (p.dpmr * p.Gm0.x + p.dpms * p.Gm1.x)⟩,
       ⟨ndpn * k + 3, ndpn * l + 1,
          dt * p.w * p.detJ * epsp * p.Nn k * p.Nn l * (p.dpmr * p.Gm0.y + p.dpms * p.Gm1.y)⟩,
       ⟨ndpn * k + 3, ndpn * l + 2,
          dt * p.w * p.detJ * epsp * p.Nn k * p.Nn l * (p.dpmr * p.Gm0.z + p.dpms * p.Gm1.z)⟩]))
    ++ (List.range nseln).flatMap (fun l => (List.range (nseln + nmeln)).flatMap (fun k =>
      [⟨ndpn * k + 3, ndpn * l,
          -(dt * p.w * wn * p.Nn k * (p.As l 0 0 * p.nu.x + p.As l 0 1 * p.nu.y
              + p.As l 0 2 * p.nu.z))⟩,
       ⟨ndpn * k + 3, ndpn * l + 1,
          -(dt * p.w * wn * p.Nn k * (p.As l 1 0 * p.nu.x + p.As l 1 1 * p.nu.y
              + p.As l 1 2 * p.nu.z))⟩,
       ⟨ndpn * k + 3, ndpn * l + 2,
          -(dt * p.w * wn * p.Nn k * (p.As l 2 0 * p.nu.x + p.As l 2 1 * p.nu.y
              + p.As l 2 2 * p.nu.z))⟩]))
    ++ (List.range nmeln).flatMap (fun k => (List.range (nseln + nmeln)).flatMap (fun l =>
      [⟨ndpn * (k + nseln) + 3, ndpn * l, dt * p.w * p.detJ * wn * p.Nn l * (p.mm k).x⟩,
       ⟨ndpn * (k + nseln) + 3, ndpn * l + 1, dt * p.w * p.detJ * wn * p.Nn l * (p.mm k).y⟩,
       ⟨ndpn * (k + nseln) + 3, ndpn * l + 2, dt * p.w * p.detJ * wn * p.Nn l * (p.mm k).z⟩]))
  else [])
  ++ ContactStiffness_pp dt epsp p

/-- One call `psolver->AssembleStiffness(en, LM, ke)`. -/
structure StiffnessCall where
  en : List Nat
  LM : List Int
  ke : matrix

/-- The body of the integration-point loop of `ContactStiffness` for a point with
a partner (lines 1208-1694): the call of `AssembleStiffness` it makes.
`knmult` is the multiplier of the higher-order terms set in lines 1127-1137. -/
def ContactStiffness_point (m_epsn m_epsp m_epsc dt knmult : ℚ) (m_bsymm : Bool)
    (p : StiffPoint) : StiffnessCall :=
  let ke := matrix.zero p.ndof p.ndof
  let ke := ke.addAll (ContactStiffness_NxN m_epsn p)
  let ke := ke.addAll (ContactStiffness_A m_epsn knmult m_bsymm p)
  let ke := ke.addAll (ContactStiffness_M m_epsn knmult m_bsymm p)
  let ke :=
    if p.ssolu && p.msolu then ke.addAll (ContactStiffness_solute m_epsn m_epsp m_epsc dt m_bsymm p)
    else if p.sporo && p.mporo then ke.addAll (ContactStiffness_biphasic m_epsn m_epsp dt m_bsymm p)
    else ke
  ⟨p.se_node ++ p.me_node, p.LM, ke⟩

/-- The conversion `int(x)` of a `double`: truncation towards zero. -/
def truncInt (x : ℚ) : Int := if x < 0 then -⌊-x⌋ else ⌊x⌋

/-- Lines 1127-1137 of `ContactStiffness`: the multiplier `knmult` of the
higher-order terms, from the parameter `m_knmult` and the number `nref` of
stiffness reformations (`psolver->m_nref`). -/
def ContactStiffness_knmult (m_knmult : ℚ) (nref : Int) : ℚ :=
  if m_knmult < 0 then
    let ni := truncInt (-m_knmult)
    if nref ≥ ni then 1 else 0
  else m_knmult

/-! ## `ContactForces` and `ContactStiffness`: the loops over the integration points -/

/-- The loop `for (j=0; j<nint; ++j, ++ni)` over the integration points of the
facet `se` (line 951 of `ContactForces`, line 1204 of `ContactStiffness`), with
`cnt` rounds left: `body se j ni` is the effect of the loop body at Gauss point
`j` with the running counter at `ni`. The state afterwards and the counter. -/
def integrationLoop_gauss {σ : Type} (body : FESurfaceElement → Nat → Nat → σ → Option σ)
    (se : FESurfaceElement) : Nat → Nat → Nat → σ → Option (σ × Nat)
  | 0, _, ni, st => some (st, ni)
  | cnt + 1, j, ni, st => do
    let st ← body se j ni st
    integrationLoop_gauss body se cnt (j + 1) (ni + 1) st

/-- The loop `for (i=0; i<ss.Elements(); ++i)` over the facets (lines 918-1100 of
`ContactForces`, lines 1153-1696 of `ContactStiffness`), started with the
running counter at `ni`. -/
def integrationLoop_facets {σ : Type} (body : FESurfaceElement → Nat → Nat → σ → Option σ) :
    List FESurfaceElement → Nat → σ → Option (σ × Nat)
  | [], ni, st => some (st, ni)
  | se :: els, ni, st => do
    let r ← integrationLoop_gauss body se se.nint 0 ni st
    integrationLoop_facets body els r.2 r.1

/-- The values at an integration point that do not come from the per-point
records of the surface: shape functions, `LM` vectors, Jacobian, weight, base
vectors and derivatives, which are computed by classes that are not among the
sources. `forcePoint se j me r s` holds them as `ContactForces` finds them at
Gauss point `j` of facet `se` with partner `me` at `(r, s)`, and `stiffPoint`
as `ContactStiffness` finds them. -/
structure ContactServices where
  forcePoint : FESurfaceElement → Nat → FESurfaceElement → ℚ → ℚ → ForcePoint
  stiffPoint : FESurfaceElement → Nat → FESurfaceElement → ℚ → ℚ → StiffPoint

/-- The entry at `ni` of a per-point vector when `c` holds; it is not read
otherwise. -/
def readWhen (c : Bool) (a : List ℚ) (ni : Nat) : Option ℚ :=
  if c then vget a ni else some 0

/-- The records of point `ni` that `ContactForces` and `ContactStiffness` read for
every point with a partner (lines 997-1011 and 1314-1328): `m_rs[ni]`,
`m_nu[ni]`, `m_gap[ni]`, `m_Lmd[ni]`, `m_epsn[ni]`. -/
def readRecord (ss : FESlidingSurface3) (ni : Nat) : Option ((ℚ × ℚ) × vec3d × ℚ × ℚ × ℚ) := do
  let rs ← vget ss.m_rs ni
  let nu ← vget ss.m_nu ni
  let g ← vget ss.m_gap ni
  let Lm ← vget ss.m_Lmd ni
  let epsn ← vget ss.m_epsn ni
  pure (rs, nu, g, Lm, epsn)

/-- The body of the integration-point loop of `ContactForces` (lines 953-1099) at
Gauss point `j` of facet `se` with the running counter at `ni`: the calls of
`AssembleResidual` made so far. The pressure records are read when `tn > 0`
and both facets carry the pressure field, the concentration records when
`tn > 0` and both carry the solute field. -/
def ContactForces_body (I : FESlidingInterface3) (M : FEModel) (S : ContactServices) (dt : ℚ)
    (ss ms : FESlidingSurface3) (se : FESurfaceElement) (j ni : Nat)
    (calls : List ResidualCall) : Option (List ResidualCall) := do
  let pme ← vget ss.m_pme ni
  match pme with
  | none => pure calls
  | some k => do
    let me ← vget ms.el k
    let rd ← readRecord ss ni
    let p0 : ForcePoint :=
      { S.forcePoint se j me rd.1.1 rd.1.2 with
        se_node := se.m_node, me_node := me.m_node, nu := rd.2.1, g := rd.2.2.1,
        Lm := rd.2.2.2.1, epsn := rd.2.2.2.2,
        sporo := (BiphasicSoluteStatus M se).1, ssolu := (BiphasicSoluteStatus M se).2,
        mporo := (BiphasicSoluteStatus M me).1, msolu := (BiphasicSoluteStatus M me).2 }
    let pres := decide (p0.tn I.m_epsn > 0) && (p0.sporo && p0.mporo)
    let conc := decide (p0.tn I.m_epsn > 0) && (p0.ssolu && p0.msolu)
    let epsp ← readWhen pres ss.m_epsp ni
    let Lmp ← readWhen pres ss.m_Lmp ni
    let pg ← readWhen pres ss.m_pg ni
    let epsc ← readWhen conc ss.m_epsc ni
    let Lmc ← readWhen conc ss.m_Lmc ni
    let cg ← readWhen conc ss.m_cg ni
    let p : ForcePoint :=
      { p0 with epsp := epsp, Lmp := Lmp, pg := pg, epsc := epsc, Lmc := Lmc, cg := cg }
    pure (calls ++ ContactForces_point I.m_epsn I.m_epsp I.m_epsc dt p)

/-- One pass of `ContactForces` (lines 910-1101) with `ss` the searching surface:
the calls of `AssembleResidual` and the final value of the running counter. -/
def ContactForces_pass (I : FESlidingInterface3) (M : FEModel) (S : ContactServices) (dt : ℚ)
    (ss ms : FESlidingSurface3) (calls : List ResidualCall) :
    Option (List ResidualCall × Nat) :=
  integrationLoop_facets (ContactForces_body I M S dt ss ms) ss.el 0 calls

/-- The function `FESlidingInterface3::ContactForces`: the calls of
`AssembleResidual` it makes, in order. -/
def FESlidingInterface3.ContactForces (I : FESlidingInterface3) (M : FEModel)
    (S : ContactServices) (dt : ℚ) : Option (List ResidualCall) :=
  match ContactForces_pass I M S dt I.m_ss I.m_ms [] with
  | none => none
  | some r =>
    if I.m_btwo_pass then (ContactForces_pass I M S dt I.m_ms I.m_ss r.1).map (fun q => q.1)
    else some r.1

/-- The body of the integration-point loop of `ContactStiffness` (lines
1206-1695) at Gauss point `j` of facet `se` with the running counter at `ni`:
the calls of `AssembleStiffness` made so far. In the biphasic-solute and the
biphasic branch the pressure penalty is read when `tn > 0` and the pressure
multiplier and gap in non-symmetric mode; likewise the concentration records
in the biphasic-solute branch. -/
def ContactStiffness_body (I : FESlidingInterface3) (M : FEModel) (S : ContactServices)
    (dt knmult : ℚ) (ss ms : FESlidingSurface3) (se : FESurfaceElement) (j ni : Nat)
    (calls : List StiffnessCall) : Option (List StiffnessCall) := do
  let pme ← vget ss.m_pme ni
  match pme with
  | none => pure calls
  | some k => do
    let me ← vget ms.el k
    let rd ← readRecord ss ni
    let p0 : StiffPoint :=
      { S.stiffPoint se j me rd.1.1 rd.1.2 with
        se_node := se.m_node, me_node := me.m_node, nu := rd.2.1, g := rd.2.2.1,
        Lm := rd.2.2.2.1, epsn := rd.2.2.2.2,
        sporo := (BiphasicSoluteStatus M se).1, ssolu := (BiphasicSoluteStatus M se).2,
        mporo := (BiphasicSoluteStatus M me).1, msolu := (BiphasicSoluteStatus M me).2 }
    let solute := p0.ssolu && p0.msolu
    let flow := solute || (p0.sporo && p0.mporo)
    let active := decide (p0.tn I.m_epsn > 0)
    let epsp ← readWhen (flow && active) ss.m_epsp ni
    let epsc ← readWhen (solute && active) ss.m_epsc ni
    let Lmp ← readWhen (flow && !I.m_bsymm) ss.m_Lmp ni
    let pg ← readWhen (flow && !I.m_bsymm) ss.m_pg ni
    let Lmc ← readWhen (solute && !I.m_bsymm) ss.m_Lmc ni
    let cg ← readWhen (solute && !I.m_bsymm) ss.m_cg ni
    let p : StiffPoint :=
      { p0 with epsp := epsp, Lmp := Lmp, pg := pg, epsc := epsc, Lmc := Lmc, cg := cg }
    pure (calls ++ [ContactStiffness_point I.m_epsn I.m_epsp I.m_epsc dt knmult I.m_bsymm p])

/-- One pass of `ContactStiffness` (lines 1143-1697) with `ss` the searching
surface. -/
def ContactStiffness_pass (I : FESlidingInterface3) (M : FEModel) (S : ContactServices)
    (dt knmult : ℚ) (ss ms : FESlidingSurface3) (calls : List StiffnessCall) :
    Option (List StiffnessCall × Nat) :=
  integrationLoop_facets (ContactStiffness_body I M S dt knmult ss ms) ss.el 0 calls

/-- The accumulators of `Augment`: `normL1`, `normDP`, `normDC`, `maxgap`,
`maxpg`, `maxcg`. -/
structure AugNorms where
  normL1 : ℚ
  normDP : ℚ
  normDC : ℚ
  maxgap : ℚ
  maxpg : ℚ
  maxcg : ℚ
deriving DecidableEq

/-- The pressure and concentration part of the body (lines 1786-1800 and
1814-1828) for a surface with `m_bporo` set: the new values `Lp` and `Lc` and the
accumulators. -/
def Augment_flow (m_epsp m_epsc : ℚ) (i : Nat) (Ln : ℚ) (s : FESlidingSurface3) (a : AugNorms) :
    Option (ℚ × ℚ × AugNorms) :=
  if Ln > 0 then do
    let epsp_i ← vget s.m_epsp i
    let Lmp_i ← vget s.m_Lmp i
    let pg_i ← vget s.m_pg i
    let epsc_i ← vget s.m_epsc i
    let Lmc_i ← vget s.m_Lmc i
    let cg_i ← vget s.m_cg i
    let epsp := m_epsp * epsp_i
    let Lp := Lmp_i + epsp * pg_i
    let epsc := m_epsc * epsc_i
    let Lc := Lmc_i + epsc * cg_i
    pure (Lp, Lc, { a with maxpg := max a.maxpg |pg_i|, normDP := a.normDP + pg_i * pg_i,
                           maxcg := max a.maxcg |cg_i|, normDC := a.normDC + cg_i * cg_i })
  else some (0, 0, a)

/-- The body of the multiplier-update loops of `Augment` (lines 1779-1802 for the
slave surface, 1807-1830 for the master surface) at point `i`. The value of
`m_Lmd[i]` that `normL1` accumulates is the one just written, `MBRACKET(Ln)`. -/
def Augment_point (m_epsn m_epsp m_epsc : ℚ) (i : Nat) (st : FESlidingSurface3 × AugNorms) :
    Option (FESlidingSurface3 × AugNorms) := do
  let s := st.1
  let a := st.2
  let epsn_i ← vget s.m_epsn i
  let Lmd_i ← vget s.m_Lmd i
  let gap_i ← vget s.m_gap i
  let eps := m_epsn * epsn_i
  let Ln := Lmd_i + eps * gap_i
  let Lmd ← vset s.m_Lmd i (MBRACKET Ln)
  let s1 : FESlidingSurface3 := { s with m_Lmd := Lmd }
  let a1 : AugNorms := { a with normL1 := a.normL1 + MBRACKET Ln * MBRACKET Ln }
  let (s2, a2) ←
    if s1.m_bporo then do
      let (Lp, Lc, a2) ← Augment_flow m_epsp m_epsc i Ln s1 a1
      let Lmp ← vset s1.m_Lmp i Lp
      let Lmc ← vset s1.m_Lmc i Lc
      pure ({ s1 with m_Lmp := Lmp, m_Lmc := Lmc }, a2)
    else pure (s1, a1)
  let a3 : AugNorms := if Ln > 0 then { a2 with maxgap := max a2.maxgap |gap_i| } else a2
  pure (s2, a3)

/-- The loop `for (i = i0; i < i0 + n; ++i)` over `Augment_point`. -/
def Augment_loop (m_epsn m_epsp m_epsc : ℚ) :
    Nat → Nat → FESlidingSurface3 × AugNorms → Option (FESlidingSurface3 × AugNorms)
  | 0, _, st => some st
  | n + 1, i, st => do
    let st ← Augment_point m_epsn m_epsp m_epsc i st
    Augment_loop m_epsn m_epsp m_epsc n (i + 1) st

/-- The sum `normL0` of the squares of the multipliers of a surface (lines
1768-1769). -/
def normL0_of (s : FESlidingSurface3) : ℚ := (s.m_Lmd.map (fun l => l * l)).sum

/-- The relative norm `lnorm` of the multipliers (line 1840). -/
def Augment_lnorm (normL0 : ℚ) (a : AugNorms) : ℚ :=
  if a.normL1 ≠ 0 then |(a.normL1 - normL0) / a.normL1| else |a.normL1 - normL0|

/-- The relative norm `pnorm` of the pressure gaps (lines 1836 and 1841), with
`normP = normL1`. -/
def Augment_pnorm (a : AugNorms) : ℚ :=
  let normP := a.normL1
  if normP ≠ 0 then a.normDP / normP else a.normDP

/-- The relative norm `cnorm` of the concentration gaps (lines 1837 and 1842),
with `normC = normL1/(m_Rgas*m_Tabs)`. -/
def Augment_cnorm (I : FESlidingInterface3) (a : AugNorms) : ℚ :=
  let normC := a.normL1 / (I.m_Rgas * I.m_Tabs)
  if normC ≠ 0 then a.normDC / normC else a.normDC

/-- The decision of `Augment` (lines 1845-1851) from the norms accumulated by
the two loops. -/
def Augment_conv (I : FESlidingInterface3) (normL0 : ℚ) (a : AugNorms) : Bool :=
  let bporo := I.m_ss.m_bporo && I.m_ms.m_bporo
  let bsolu := I.m_ss.m_bsolu && I.m_ms.m_bsolu
  let lnorm := Augment_lnorm normL0 a
  let pnorm := Augment_pnorm a
  let cnorm := Augment_cnorm I a
  let bconv := true
  let bconv := if I.m_gtol > 0 && a.maxgap > I.m_gtol then false else bconv
  let bconv := if I.m_ptol > 0 && (bporo && a.maxpg > I.m_ptol) then false else bconv
  let bconv := if I.m_ctol > 0 && (bsolu && a.maxcg > I.m_ctol) then false else bconv
  let bconv := if I.m_atol > 0 && lnorm > I.m_atol then false else bconv
  let bconv := if I.m_atol > 0 && pnorm > I.m_atol then false else bconv
  let bconv := if I.m_atol > 0 && cnorm > I.m_atol then false else bconv
  bconv

/-- The two multiplier-update loops of `Augment` (lines 1777-1831), started from
zero accumulators: the updated surfaces and the accumulated norms. -/
def Augment_update (I : FESlidingInterface3) :
    Option (FESlidingSurface3 × FESlidingSurface3 × AugNorms) := do
  let NS := I.m_ss.m_Lmd.length
  let NM := I.m_ms.m_Lmd.length
  let (ss, a) ← Augment_loop I.m_epsn I.m_epsp I.m_epsc NS 0 (I.m_ss, ⟨0, 0, 0, 0, 0, 0⟩)
  let (ms, a) ← Augment_loop I.m_epsn I.m_epsp I.m_epsc NM 0 (I.m_ms, a)
  pure (ss, ms, a)

/-- The function `FESlidingInterface3::Augment`: the interface afterwards and the
returned flag. -/
def FESlidingInterface3.Augment (I : FESlidingInterface3) : Option (FESlidingInterface3 × Bool) :=
  if !I.m_blaugon then some (I, true)
  else do
    let normL0 := normL0_of I.m_ss + normL0_of I.m_ms
    let (ss, ms, a) ← Augment_update I
    pure ({ I with m_ss := ss, m_ms := ms }, Augment_conv I normL0 a)

/-! ## `FESlidingInterface3::Update` and `UpdateContactPressures` -/

/-- The part of the solver `pstep->m_psolver` that the contact code reads and
writes: the iteration number `m_niter`, the number of augmentations `m_naug`,
the number of stiffness reformations `m_nref` and `m_bfgs.m_maxups`. -/
structure FENLSolver where
  m_niter : Int
  m_naug : Int
  m_nref : Int
  m_maxups : Int
deriving DecidableEq

/-- The function-local statics `naug` and `biter` of `Update` (lines 725-726),
both 0 before the first call. -/
structure UpdateStatics where
  naug : Int
  biter : Int
deriving DecidableEq

/-- Lines 734-742 of `Update`: the statics afterwards and the gate `bupseg`. -/
def Update_gate (m_nsegup : Int) (solver : FENLSolver) (st : UpdateStatics) :
    UpdateStatics × Bool :=
  let st : UpdateStatics :=
    if solver.m_niter = 0 then { biter := 0, naug := solver.m_naug }
    else if solver.m_naug > st.naug then { biter := solver.m_niter, naug := solver.m_naug }
    else st
  let niter := solver.m_niter - st.biter
  (st, if m_nsegup = 0 then true else decide (niter ≤ m_nsegup))

/-- The equation numbers `m_ID[DOF_P]` and `m_ID[DOF_C]` of the nodes of the
mesh, by node number. -/
abbrev NodeIDs := Nat → Int × Int

/-- Lines 809-817 (and 866-874): the pressure and the concentration id of a node
are replaced by `-id-2` when they are below -1. -/
def markNonAmbient (id : Int × Int) : Int × Int :=
  (if id.1 < -1 then -id.1 - 2 else id.1, if id.2 < -1 then -id.2 - 2 else id.2)

/-- The ids after node `nd` has been marked as non-ambient. -/
def NodeIDs.mark (ids : NodeIDs) (nd : Nat) : NodeIDs :=
  fun n => if n = nd then markNonAmbient (ids n) else ids n

/-- The services of the mesh and of the facets that `Update` and
`UpdateContactPressures` use beyond those of `ProjectSurface`: the node tables
of the two surfaces (`Nodes()` is the length, `Node(i)` is the mesh node with
number `Node[i]`), the local node numbers `el.m_lnode`, the current position
`m_rt` of a mesh node, `el.project_to_nodes(ti, tn)` (the array `tn` it
fills), and the vector `m_nn` that `UpdateNodeNormals` leaves (`unit()` takes a
square root). -/
structure UpdateServices where
  ssNode : List Nat
  msNode : List Nat
  m_lnode : FESurfaceElement → List Nat
  m_rt : Nat → vec3d
  project_to_nodes : FESurfaceElement → List ℚ → List ℚ
  NodeNormals : FESlidingSurface3 → List vec3d

/-- Read `v[i]` for an `int` index; `none` outside the bounds. -/
def vgetI {α : Type} (v : List α) (i : Int) : Option α :=
  if i < 0 then none else vget v i.toNat

/-- The loop of lines 792-797 (also 850-855 and 1732-1737): the tractions
`ti[i] = MBRACKET(s.m_Lmd[k] + m_epsn*s.m_epsn[k]*s.m_gap[k])` of the `cnt`
integration points from `k` on. The array `ti` has room for 4 entries. -/
def Update_tractions (m_epsn : ℚ) (s : FESlidingSurface3) : Nat → Nat → Option (List ℚ)
  | 0, _ => some []
  | cnt + 1, k => do
    let gap ← vget s.m_gap k
    let e ← vget s.m_epsn k
    let L ← vget s.m_Lmd k
    let rest ← Update_tractions m_epsn s cnt (k + 1)
    pure (MBRACKET (L + (m_epsn * e) * gap) :: rest)

/-- The loop of lines 804-819 over the nodes `i, ..., i+cnt-1` of a facet: a node
with positive nodal traction is marked as non-ambient. `nodes` is the node
table of the surface. -/
def Update_mark_nodes (nodes lnode : List Nat) (tn : List ℚ) : Nat → Nat → NodeIDs → Option NodeIDs
  | 0, _, ids => some ids
  | cnt + 1, i, ids => do
    let t ← vget tn i
    let ids ←
      if t > 0 then do
        let l ← vget lnode i
        let nd ← vget nodes l
        pure (ids.mark nd)
      else pure ids
    Update_mark_nodes nodes lnode tn cnt (i + 1) ids

/-- The loop of lines 784-820 over the facets of the primary surface; `ni` is the
running counter of integration points. -/
def Update_primary (m_epsn : ℚ) (U : UpdateServices) (nodes : List Nat)
    (ss : FESlidingSurface3) : List FESurfaceElement → Nat → NodeIDs → Option NodeIDs
  | [], _, ids => some ids
  | el :: els, ni, ids => do
    let ti ← Update_tractions m_epsn ss el.nint ni
    let tn := U.project_to_nodes el ti
    let ids ← Update_mark_nodes nodes (U.m_lnode el) tn el.m_node.length 0 ids
    Update_primary m_epsn U nodes ss els (ni + el.nint) ids

/-- The body of the loop of lines 825-878 for node `n` of the secondary surface.
`Gsm` holds the services of the projection from `ss` onto `ms` (so
`Gsm.Local2Global` is `ms.Local2Global`), `Gms` those of the projection from
`ms` onto `ss` (so `Gms.FindIntersection` is `ss.FindIntersection`, which also
gives the facet number `nei`). The state is the array `rs` and the ids. -/
def Update_secondary_node (I : FESlidingInterface3) (U : UpdateServices)
    (Gsm Gms : ProjectGeometry) (R : ℚ) (ss ms : FESlidingSurface3) (nodes : List Nat) (n : Nat)
    (st : (ℚ × ℚ) × NodeIDs) : Option ((ℚ × ℚ) × NodeIDs) := do
  let nd ← vget nodes n
  let nn ← vget ms.m_nn n
  let found := Gms.FindIntersection (U.m_rt nd) nn st.1 I.m_stol
  let rs := found.2
  match found.1 with
  | some nei => do
    let pse ← vget ss.el nei
    let q := Gsm.Local2Global pse rs.1 rs.2
    let g := nn.dot ((U.m_rt nd).sub q)
    if |g| ≤ R then do
      let noff ← vget ss.m_nei nei
      if noff < 0 then none
      else do
        let ti ← Update_tractions I.m_epsn ss pse.nint noff.toNat
        let tn := U.project_to_nodes pse ti
        let tp := Gms.eval pse tn rs.1 rs.2
        pure (rs, if tp > 0 then st.2.mark nd else st.2)
    else pure (rs, st.2)
  | none => pure (rs, st.2)

/-- The loop of lines 825-878 over the nodes `n, ..., n+cnt-1` of the secondary
surface. -/
def Update_secondary (I : FESlidingInterface3) (U : UpdateServices)
    (Gsm Gms : ProjectGeometry) (R : ℚ) (ss ms : FESlidingSurface3) (nodes : List Nat) :
    Nat → Nat → (ℚ × ℚ) × NodeIDs → Option ((ℚ × ℚ) × NodeIDs)
  | 0, _, st => some st
  | cnt + 1, n, st => do
    let st ← Update_secondary_node I U Gsm Gms R ss ms nodes n st
    Update_secondary I U Gsm Gms R ss ms nodes cnt (n + 1) st

/-- One pass of the loop of lines 775-879: `ss` is the primary and `ms` the
secondary surface, `ssNodes` and `msNodes` their node tables. -/
def Update_pass (I : FESlidingInterface3) (U : UpdateServices) (Gsm Gms : ProjectGeometry)
    (R : ℚ) (ss ms : FESlidingSurface3) (ssNodes msNodes : List Nat)
    (st : (ℚ × ℚ) × NodeIDs) : Option ((ℚ × ℚ) × NodeIDs) := do
  let ids ← Update_primary I.m_epsn U ssNodes ss ss.el 0 st.2
  Update_secondary I U Gsm Gms R ss ms msNodes msNodes.length 0 (st.1, ids)

/-- The body of the integration-point loop of `UpdateContactPressures` (lines
1723-1744) at point `ni` of the surface `ss`, whose partners are facets of
`ms`; `G` holds the services of the projection from `ss` onto `ms`. -/
def UpdateContactPressures_point (I : FESlidingInterface3) (U : UpdateServices)
    (G : ProjectGeometry) (ms : FESlidingSurface3) (ni : Nat) (ss : FESlidingSurface3) :
    Option FESlidingSurface3 := do
  let gap ← vget ss.m_gap ni
  let e ← vget ss.m_epsn ni
  let L ← vget ss.m_Lmd ni
  let m_Ln ← vset ss.m_Ln ni (MBRACKET (L + (I.m_epsn * e) * gap))
  let ss : FESlidingSurface3 := { ss with m_Ln := m_Ln }
  let pme ← vget ss.m_pme ni
  match I.m_btwo_pass, pme with
  | true, some k => do
    let me ← vget ms.el k
    let noff ← vgetI ms.m_nei me.m_lid
    if noff < 0 then none
    else do
      let ti ← Update_tractions I.m_epsn ms me.nint noff.toNat
      let tn := U.project_to_nodes me ti
      let rs ← vget ss.m_rs ni
      let Ln := G.eval me tn rs.1 rs.2
      let old ← vget ss.m_Ln ni
      let m_Ln ← vset ss.m_Ln ni (old + MBRACKET Ln)
      pure { ss with m_Ln := m_Ln }
  | _, _ => pure ss

/-- The loop `for (i = 0; i < cnt; ++i, ++ni)` of `UpdateContactPressures` over
the integration points of a facet. -/
def UpdateContactPressures_gauss (I : FESlidingInterface3) (U : UpdateServices)
    (G : ProjectGeometry) (ms : FESlidingSurface3) :
    Nat → Nat → FESlidingSurface3 → Option FESlidingSurface3
  | 0, _, ss => some ss
  | cnt + 1, ni, ss => do
    let ss ← UpdateContactPressures_point I U G ms ni ss
    UpdateContactPressures_gauss I U G ms cnt (ni + 1) ss

/-- The loop of `UpdateContactPressures` over the facets of the primary surface
(lines 1714-1746). -/
def UpdateContactPressures_facets (I : FESlidingInterface3) (U : UpdateServices)
    (G : ProjectGeometry) (ms : FESlidingSurface3) :
    List FESurfaceElement → Nat → FESlidingSurface3 → Option FESlidingSurface3
  | [], _, ss => some ss
  | el :: els, ni, ss => do
    let ss ← UpdateContactPressures_gauss I U G ms el.nint ni ss
    UpdateContactPressures_facets I U G ms els (ni + el.nint) ss

/-- The function `FESlidingInterface3::UpdateContactPressures`: the interface
afterwards. `G12` holds the services of the projection from `m_ss` onto `m_ms`,
`G21` those of the projection from `m_ms` onto `m_ss`. -/
def FESlidingInterface3.UpdateContactPressures (I : FESlidingInterface3) (U : UpdateServices)
    (G12 G21 : ProjectGeometry) : Option FESlidingInterface3 := do
  let ss ← UpdateContactPressures_facets I U G12 I.m_ms I.m_ss.el 0 I.m_ss
  let I : FESlidingInterface3 := { I with m_ss := ss }
  if I.m_btwo_pass then do
    let ms ← UpdateContactPressures_facets I U G21 I.m_ss I.m_ms.el 0 I.m_ms
    pure { I with m_ms := ms }
  else pure I

/-- The contents on entry of the three local arrays `rs` that `Update` does not
initialise: the one of the first and of the second call of `ProjectSurface` and
the one of `Update` itself. -/
structure UpdateLocals where
  rs1 : ℚ × ℚ
  rs2 : ℚ × ℚ
  rs : ℚ × ℚ

/-- The first part of `Update` (lines 747-753): the two surfaces are projected
onto each other and the net contact pressures are updated. -/
def Update_project (I : FESlidingInterface3) (G12 G21 : ProjectGeometry) (M : FEModel)
    (U : UpdateServices) (bupseg : Bool) (loc : UpdateLocals) : Option FESlidingInterface3 := do
  let ss ← I.ProjectSurface G12 M I.m_ss I.m_ms bupseg loc.rs1
  let I : FESlidingInterface3 := { I with m_ss := ss }
  let ms ← (if I.m_btwo_pass then I.ProjectSurface G21 M I.m_ms I.m_ss bupseg loc.rs2
            else some I.m_ms)
  let I : FESlidingInterface3 := { I with m_ms := ms }
  I.UpdateContactPressures U G12 G21

/-- The last part of `Update` (lines 761-879), reached when one of the surfaces
carries the pressure field: the node normals are updated and the nodes in
contact are marked as non-ambient, in one or two passes. -/
def Update_ambient (I : FESlidingInterface3) (G12 G21 : ProjectGeometry) (U : UpdateServices)
    (R : ℚ) (rs : ℚ × ℚ) (ids : NodeIDs) : Option (FESlidingInterface3 × NodeIDs) := do
  let I : FESlidingInterface3 :=
    { I with m_ss := { I.m_ss with m_nn := U.NodeNormals I.m_ss }
             m_ms := { I.m_ms with m_nn := U.NodeNormals I.m_ms } }
  let s1 ← Update_pass I U G12 G21 R I.m_ss I.m_ms U.ssNode U.msNode (rs, ids)
  let s2 ← (if I.m_btwo_pass then Update_pass I U G21 G12 R I.m_ms I.m_ss U.msNode U.ssNode s1
            else some s1)
  pure (I, s2.2)

/-- The function `FESlidingInterface3::Update`: the interface, the statics and
the equation numbers of the nodes afterwards. `G12` holds the services of the
projection from `m_ss` onto `m_ms`, `G21` those of the projection from `m_ms`
onto `m_ss`. -/
def FESlidingInterface3.Update (I : FESlidingInterface3) (G12 G21 : ProjectGeometry)
    (M : FEModel) (U : UpdateServices) (solver : FENLSolver) (loc : UpdateLocals)
    (st : UpdateStatics) (ids : NodeIDs) :
    Option (FESlidingInterface3 × UpdateStatics × NodeIDs) :=
  let R := searchRadius I M
  let gate := Update_gate I.m_nsegup solver st
  match Update_project I G12 G21 M U gate.2 loc with
  | none => none
  | some I =>
    let bporo := I.m_ss.m_bporo || I.m_ms.m_bporo
    if bporo == false then some (I, gate.1, ids)
    else (Update_ambient I G12 G21 U R loc.rs ids).map (fun r => (r.1, gate.1, r.2))

/-! ## `FESlidingSurface3::Init` and `FESlidingInterface3::Init` -/

/-- The test of lines 75-88 of `FESlidingSurface3::Init` for a facet: it belongs
to a solid element whose material is biphasic or biphasic-solute. -/
def Init_isPoro (M : FEModel) (se : FESurfaceElement) : Bool :=
  match M.FindElementFromID se.m_nelem with
  | some pe =>
    if pe.solid then
      let pm := M.GetMaterial pe.matID
      pm.biph.isSome || pm.bsolu.isSome
    else false
  | none => false

/-- The test of lines 97-109 of `FESlidingSurface3::Init` for a facet: it belongs
to a solid element whose material is biphasic-solute. -/
def Init_isSolu (M : FEModel) (se : FESurfaceElement) : Bool :=
  match M.FindElementFromID se.m_nelem with
  | some pe =>
    if pe.solid then
      let pm := M.GetMaterial pe.matID
      pm.bsolu.isSome
    else false
  | none => false

/-- The loops `while (!flag && (i<Elements()))` of lines 72-91 and 94-112: the
flag afterwards, from the facets not yet visited and the flag so far. -/
def Init_status (test : FESurfaceElement → Bool) : List FESurfaceElement → Bool → Bool
  | [], flag => flag
  | se :: els, flag => if !flag then Init_status test els (test se) else flag

/-- The loop of lines 59-65: `m_nei[i]` is the number of integration points of
the facets before facet `i`. -/
def Init_nei : List FESurfaceElement → Nat → List Int
  | [], _ => []
  | el :: els, nint => (nint : Int) :: Init_nei els (nint + el.nint)

/-- The function `FESlidingSurface3::Init` for a surface with `Nodes` nodes.
`FEContactSurface::Init` is not among the sources and is taken to leave the
members modelled here as they are; `rsNew` is the value of the entries that
`m_rs.resize` adds. -/
def FESlidingSurface3.Init (s : FESlidingSurface3) (M : FEModel) (Nodes : Nat)
    (rsNew : ℚ × ℚ) : FESlidingSurface3 :=
  let nint := (s.el.map (fun el => el.nint)).sum
  let bporo := Init_status (Init_isPoro M) s.el s.m_bporo
  let bsolu := Init_status (Init_isSolu M) s.el s.m_bsolu
  { el := s.el
    m_bporo := bporo
    m_bsolu := bsolu
    m_gap := List.replicate nint 0
    m_nu := List.replicate nint ⟨0, 0, 0⟩
    m_rs := (s.m_rs ++ List.replicate (nint - s.m_rs.length) rsNew).take nint
    m_Lmd := List.replicate nint 0
    m_Lmp := List.replicate nint 0
    m_Lmc := List.replicate nint 0
    m_nei := Init_nei s.el 0
    m_epsn := List.replicate nint 1
    m_epsp := List.replicate nint 1
    m_epsc := List.replicate nint 1
    m_nn := List.replicate Nodes ⟨0, 0, 0⟩
    m_pg := if bporo then List.replicate nint 0 else s.m_pg
    m_cg := if bsolu then List.replicate nint 0 else s.m_cg
    m_Ln := List.replicate nint 0
    m_pme := List.replicate nint none }

/-- Lines 330-343 of `FESlidingInterface3::Init`: the symmetry flag of the model
(`fem.SetSymmetryFlag`) and the solver afterwards. -/
def Init_symmetry (m_bsymm bporo : Bool) (symm : Bool) (solver : FENLSolver) :
    Bool × FENLSolver :=
  if !m_bsymm then
    (false, if bporo && decide (solver.m_maxups ≠ 0) then { solver with m_maxups := 0 }
            else solver)
  else (symm, solver)

/-- Lines 346-354 of `FESlidingInterface3::Init`: the penalties of the two
surfaces are estimated. -/
def Init_autopen (I : FESlidingInterface3) (M : FEModel)
    (FaceArea BulkModulus : FESurfaceElement → ℚ) : Option FESlidingInterface3 := do
  let ss ← CalcAutoPenalty M FaceArea BulkModulus I.m_ss
  let ms ← CalcAutoPenalty M FaceArea BulkModulus I.m_ms
  let ss ← (if ss.m_bporo then CalcAutoPressurePenalty M FaceArea ss else some ss)
  let ss ← (if ss.m_bsolu then CalcAutoConcentrationPenalty M FaceArea ss else some ss)
  let ms ← (if ms.m_bporo then CalcAutoPressurePenalty M FaceArea ms else some ms)
  let ms ← (if ms.m_bsolu then CalcAutoConcentrationPenalty M FaceArea ms else some ms)
  pure { I with m_ss := ss, m_ms := ms }

/-- What `FESlidingInterface3::Init` leaves: the interface, the symmetry flag of
the model, the solver, the statics of `Update` and the equation numbers of the
nodes. -/
structure InitResult where
  I : FESlidingInterface3
  symm : Bool
  solver : FENLSolver
  st : UpdateStatics
  ids : NodeIDs

/-- The function `FESlidingInterface3::Init`. `Rgas` and `Tabs` are the global
constants `R` and `T`, `symm` is the symmetry flag of the model on entry. -/
def FESlidingInterface3.Init (I : FESlidingInterface3) (G12 G21 : ProjectGeometry)
    (M : FEModel) (U : UpdateServices) (FaceArea BulkModulus : FESurfaceElement → ℚ)
    (Rgas Tabs : ℚ) (rsNew : ℚ × ℚ) (symm : Bool) (solver : FENLSolver) (loc : UpdateLocals)
    (st : UpdateStatics) (ids : NodeIDs) : Option InitResult :=
  let I : FESlidingInterface3 := { I with m_Rgas := Rgas, m_Tabs := Tabs }
  let I : FESlidingInterface3 :=
    { I with m_ss := I.m_ss.Init M U.ssNode.length rsNew
             m_ms := I.m_ms.Init M U.msNode.length rsNew }
  let bporo := I.m_ss.m_bporo || I.m_ms.m_bporo
  let fs := Init_symmetry I.m_bsymm bporo symm solver
  match (if I.m_bautopen then Init_autopen I M FaceArea BulkModulus else some I) with
  | none => none
  | some I =>
    match I.Update G12 G21 M U fs.2 loc st ids with
    | none => none
    | some r => some ⟨r.1, fs.1, fs.2, r.2.1, r.2.2⟩

/-! ## `FESlidingInterface3::MarkAmbient` -/

/-- Lines 1966-1972 (and 1981-1987) of `MarkAmbient` for one equation number: an
id that is not negative is replaced by `-id-2`. -/
def markAmbientId (id : Int) : Int := if id ≥ 0 then -id - 2 else id

/-- The loop `for (i=0; i<s.Nodes(); ++i)` of `MarkAmbient` over the node table
`nodes` of a surface, for the pressure dof (`DOF_P`) when `pressure` holds and
for the concentration dof (`DOF_C`) otherwise. -/
def MarkAmbient_loop (pressure : Bool) : List Nat → NodeIDs → NodeIDs
  | [], ids => ids
  | nd :: rest, ids =>
    MarkAmbient_loop pressure rest (fun n =>
      if n = nd then
        (if pressure then (markAmbientId (ids n).1, (ids n).2)
         else ((ids n).1, markAmbientId (ids n).2))
      else ids n)

/-- The body of the loop `for (np=0; np<2; ++np)` of `MarkAmbient` for the surface
`s` with node table `nodes`. -/
def MarkAmbient_surface (s : FESlidingSurface3) (nodes : List Nat) (ids : NodeIDs) : NodeIDs :=
  let ids := if s.m_bporo then MarkAmbient_loop true nodes ids else ids
  if s.m_bsolu then MarkAmbient_loop false nodes ids else ids

/-- The function `FESlidingInterface3::MarkAmbient`: the equation numbers of the
nodes afterwards. -/
def FESlidingInterface3.MarkAmbient (I : FESlidingInterface3) (U : UpdateServices)
    (ids : NodeIDs) : NodeIDs :=
  MarkAmbient_surface I.m_ms U.msNode (MarkAmbient_surface I.m_ss U.ssNode ids)

/-- The node `n` is a node of a surface of the pair that carries the pressure
field. -/
def pressureNode (I : FESlidingInterface3) (U : UpdateServices) (n : Nat) : Bool :=
  (I.m_ss.m_bporo && decide (n ∈ U.ssNode)) || (I.m_ms.m_bporo && decide (n ∈ U.msNode))

/-- The node `n` is a node of a surface of the pair that carries the solute
field. -/
def soluteNode (I : FESlidingInterface3) (U : UpdateServices) (n : Nat) : Bool :=
  (I.m_ss.m_bsolu && decide (n ∈ U.ssNode)) || (I.m_ms.m_bsolu && decide (n ∈ U.msNode))

/-! ## `BlockMatrix` -/

/-- Modelled from the spec: the sparse matrix `pA` of a block. The classes
`CompactSymmMatrix` and `CompactUnSymmMatrix` are not among the sources; a
matrix is taken as the map `entry` from a local row and column to the value
held there (0 in a new matrix), together with the flag `symmetric` that tells
which of the two classes was constructed. -/
structure CompactMatrix where
  symmetric : Bool
  entry : Int → Int → ℚ

/-- Modelled from the spec: the call `pA->set(i, j, v)` stores `v` at row `i`,
column `j`. -/
def CompactMatrix.set (A : CompactMatrix) (i j : Int) (v : ℚ) : CompactMatrix :=
  { A with entry := fun a b => if a = i ∧ b = j then v else A.entry a b }

/-- Modelled from the spec: the call `pA->add(i, j, v)` adds `v` to the value at
row `i`, column `j`. -/
def CompactMatrix.add (A : CompactMatrix) (i j : Int) (v : ℚ) : CompactMatrix :=
  { A with entry := fun a b => if a = i ∧ b = j then A.entry a b + v else A.entry a b }

/-- Modelled from the spec: the call `pA->get(i, j)` reads the value at row `i`,
column `j`. -/
def CompactMatrix.get (A : CompactMatrix) (i j : Int) : ℚ := A.entry i j

/-- The structure `BLOCK` of `BlockMatrix`, as `Partition` fills it. -/
structure BLOCK where
  nstart_row : Int
  nend_row : Int
  nstart_col : Int
  nend_col : Int
  pA : CompactMatrix

/-- The members of `BlockMatrix` that `BlockMatrix.cpp` reads and writes: the
equation numbers `m_part` at which the partitions start and the blocks
`m_Block`, stored row by row. -/
structure BlockMatrix where
  m_part : List Int
  m_Block : List BLOCK

/-- Lines 33-35 of `Partition`: `m_part[0] = 0` (here the starting value `acc`)
and `m_part[i+1] = m_part[i] + part[i]`. -/
def Partition_part : List Int → Int → List Int
  | [], acc => [acc]
  | p :: ps, acc => acc :: Partition_part ps (acc + p)

/-- The inner loop of `Partition` (lines 43-60) for row `i` with `nrow` rows
before it and `pi = part[i]`, from column `j` on with `ncol` columns before
it. -/
def Partition_cols (i : Nat) (nrow pi : Int) : List Int → Nat → Int → List BLOCK
  | [], _, _ => []
  | pj :: ps, j, ncol =>
    ⟨nrow, nrow + pi - 1, ncol, ncol + pj - 1, ⟨decide (i = j), fun _ _ => 0⟩⟩
      :: Partition_cols i nrow pi ps (j + 1) (ncol + pj)

/-- The outer loop of `Partition` (lines 40-62) from row `i` on, with `nrow` rows
before it. -/
def Partition_rows (part : List Int) : List Int → Nat → Int → List BLOCK
  | [], _, _ => []
  | pi :: ps, i, nrow =>
    Partition_cols i nrow pi part 0 0 ++ Partition_rows part ps (i + 1) (nrow + pi)

/-- The function `BlockMatrix::Partition`. Every entry of `m_part` and of
`m_Block` is written, so the matrix afterwards does not depend on the one
before. -/
def BlockMatrix.Partition (part : List Int) : BlockMatrix :=
  ⟨Partition_part part 0, Partition_rows part part 0 0⟩

/-- The loop `for (; n<N; ++n) if (m_part[n+1] > i) break;` of `find_partition`
with `fuel = N - n` rounds left: the value of `n` after it. -/
def find_partition_loop (m_part : List Int) (i : Int) : Nat → Nat → Option Nat
  | 0, n => some n
  | fuel + 1, n => do
    let x ← vget m_part (n + 1)
    if x > i then some n else find_partition_loop m_part i fuel (n + 1)

/-- The function `BlockMatrix::find_partition`; `none` when the assertion
`n<N` fails. -/
def BlockMatrix.find_partition (A : BlockMatrix) (i : Int) : Option Nat := do
  let N : Int := (A.m_part.length : Int) - 1
  let n ← find_partition_loop A.m_part i N.toNat 0
  if (n : Int) < N then some n else none

/-- The index `i*N+j` of block `(i, j)` in `m_Block` (line 135). -/
def BlockMatrix.BlockIndex (A : BlockMatrix) (i j : Nat) : Int :=
  (i : Int) * ((A.m_part.length : Int) - 1) + (j : Int)

/-- The function `BlockMatrix::Block`. -/
def BlockMatrix.Block (A : BlockMatrix) (i j : Nat) : Option BLOCK :=
  vgetI A.m_Block (A.BlockIndex i j)

/-- The matrix after the sparse matrix of block `(i, j)` has been replaced by
`pA` (the blocks hold pointers, so a call through `Block(i, j).pA` changes the
matrix in place). -/
def BlockMatrix.withBlock (A : BlockMatrix) (i j : Nat) (pA : CompactMatrix) :
    Option BlockMatrix := do
  let B ← A.Block i j
  let m_Block ← vset A.m_Block (A.BlockIndex i j).toNat { B with pA := pA }
  pure { A with m_Block := m_Block }

/-- The function `BlockMatrix::set` (lines 140-145). -/
def BlockMatrix.set (A : BlockMatrix) (i j : Int) (v : ℚ) : Option BlockMatrix := do
  let nr ← A.find_partition i
  let nc ← A.find_partition j
  let B ← A.Block nr nc
  let pr ← vget A.m_part nr
  let pc ← vget A.m_part nc
  A.withBlock nr nc (B.pA.set (i - pr) (i - pc) v)

/-- The function `BlockMatrix::add` (lines 149-154). -/
def BlockMatrix.add (A : BlockMatrix) (i j : Int) (v : ℚ) : Option BlockMatrix := do
  let nr ← A.find_partition i
  let nc ← A.find_partition j
  let B ← A.Block nr nc
  let pr ← vget A.m_part nr
  let pc ← vget A.m_part nc
  A.withBlock nr nc (B.pA.add (i - pr) (i - pc) v)

/-- The function `BlockMatrix::get` (lines 158-163). -/
def BlockMatrix.get (A : BlockMatrix) (i j : Int) : Option ℚ := do
  let nr ← A.find_partition i
  let nc ← A.find_partition j
  let B ← A.Block nr nc
  let pr ← vget A.m_part nr
  let pc ← vget A.m_part nc
  pure (B.pA.get (i - pr) (i - pc))

/-- The inner loop of `Assemble` (lines 91-94) for row `i` of `ke` with
`I = lm[i]`, from column `j` on, `cnt` columns left. -/
def Assemble_cols (ke : matrix) (lm : List Int) (i : Nat) (I : Int) :
    Nat → Nat → BlockMatrix → Option BlockMatrix
  | 0, _, A => some A
  | cnt + 1, j, A => do
    let J ← vget lm j
    let A ← (if J ≥ 0 then A.add I J (ke.m_pr i j) else some A)
    Assemble_cols ke lm i I cnt (j + 1) A

/-- The outer loop of `Assemble` (lines 87-96) from row `i` on, `cnt` rows
left. -/
def Assemble_rows (ke : matrix) (lm : List Int) : Nat → Nat → BlockMatrix → Option BlockMatrix
  | 0, _, A => some A
  | cnt + 1, i, A => do
    let I ← vget lm i
    let A ← (if I ≥ 0 then Assemble_cols ke lm i I ke.m_nr 0 A else some A)
    Assemble_rows ke lm cnt (i + 1) A

/-- The function `BlockMatrix::Assemble(matrix& ke, std::vector<int>& lm)`. -/
def BlockMatrix.Assemble (A : BlockMatrix) (ke : matrix) (lm : List Int) : Option BlockMatrix :=
  Assemble_rows ke lm ke.m_nr 0 A

/-! ## Auxiliary notions for the statements about `Serialize` -/

/-- The partner that the loading branch restores from a stored id: none for a
negative id (the sentinel -1), facet number `id` of the sibling otherwise. -/
def partnerOfId (id : Int) : Option Nat := if id < 0 then none else some id.toNat

/-- Facet `k` of the facet table of a surface has local id `k`. -/
def LocalIds (sib : FESlidingSurface3) : Prop :=
  ∀ k e, vget sib.el k = some e → e.m_lid = k

/-! ## Auxiliary notions for the statements about `ProjectSurface` and the estimators -/

/-- The number of integration points of a facet table. -/
def totalGauss (els : List FESurfaceElement) : Nat := (els.map (fun e => e.nint)).sum

/-- The index of the first integration point of facet `i` of a surface: the sum
of the Gauss points of the facets before it. -/
def pointOffset (s : FESlidingSurface3) (i : Nat) : Nat := totalGauss (s.el.take i)

/-- The per-point vectors that `ProjectSurface` reads and writes have `N`
entries; the pressure vectors when `bP` holds and the concentration vectors
when `bS` holds. -/
def Sized (N : Nat) (bP bS : Prop) (ss : FESlidingSurface3) : Prop :=
  ss.m_pme.length = N ∧ ss.m_nu.length = N ∧ ss.m_rs.length = N ∧ ss.m_gap.length = N ∧
  ss.m_Lmd.length = N ∧ ss.m_epsn.length = N ∧
  (bP → ss.m_Lmp.length = N ∧ ss.m_pg.length = N) ∧
  (bS → ss.m_Lmc.length = N ∧ ss.m_cg.length = N)

/-- Every partner recorded in `ss` is a facet of `ms`. -/
def PartnersIn (ms ss : FESlidingSurface3) : Prop :=
  ∀ k, some k ∈ ss.m_pme → k < ms.el.length

/-- Every facet that `FindIntersection` returns is a facet of `ms`. -/
def FindsIn (G : ProjectGeometry) (ms : FESlidingSurface3) : Prop :=
  ∀ r nu rs tol k, (G.FindIntersection r nu rs tol).1 = some k → k < ms.el.length

/-- The geometric gap `g = nu*(r - q)` of line 666 for the partner facet `me`. -/
def geometricGap (G : ProjectGeometry) (me : FESurfaceElement) (r nu : vec3d) (rs : ℚ × ℚ) : ℚ :=
  nu.dot (r.sub (G.Local2Global me rs.1 rs.2))

/-- The state in which `ProjectSurface(ss, ms, ...)` finds the searching surface
after `Init`: one entry per integration point in every per-point vector that
the function touches (the pressure vectors when some facet of `ss` carries a
pressure field, the concentration vectors when some facet carries a solute
field), partners that are facets of `ms`, and a search that returns facets of
`ms`. -/
def ProjectReady (M : FEModel) (G : ProjectGeometry) (ss ms : FESlidingSurface3) : Prop :=
  Sized (totalGauss ss.el) (∃ el ∈ ss.el, (BiphasicSoluteStatus M el).1 = true)
    (∃ el ∈ ss.el, (BiphasicSoluteStatus M el).2 = true) ss
  ∧ PartnersIn ms ss ∧ FindsIn G ms

/-- The previous partner of point `n` is still good: `m_pme[n]` is facet `k` of
`ms` and `ms.Intersect` succeeds for it (lines 633-639). -/
def keepsPartner (I : FESlidingInterface3) (G : ProjectGeometry) (ms ss : FESlidingSurface3)
    (r nu : vec3d) (n : Nat) (rs : ℚ × ℚ) (k : Nat) : Prop :=
  vget ss.m_pme n = some (some k)
    ∧ ∃ me, vget ms.el k = some me ∧ (G.Intersect me r nu rs I.m_stol).1 = true

/-- The pressure gaps after the branch for a candidate partner `me` (lines
674-685): overwritten at `n` with `p1 - p2` when the trial value is
non-negative, the gap is within the search radius and both facets carry the
pressure field; as they were otherwise. -/
def partnerPg (I : FESlidingInterface3) (G : ProjectGeometry) (M : FEModel) (R : ℚ)
    (sporo : Bool) (p1 : ℚ) (r nu : vec3d) (rs : ℚ × ℚ) (n : Nat) (ss : FESlidingSurface3)
    (me : FESurfaceElement) : List ℚ :=
  if vval ss.m_Lmd n + (I.m_epsn * vval ss.m_epsn n) * geometricGap G me r nu rs ≥ 0
      ∧ geometricGap G me r nu rs ≤ R ∧ sporo = true ∧ (BiphasicSoluteStatus M me).1 = true
  then ss.m_pg.set n (p1 - G.eval me (me.m_node.map M.m_pt) rs.1 rs.2)
  else ss.m_pg

/-- The concentration gaps after the branch for a candidate partner `me`
(lines 674-691): overwritten at `n` with `c1 - c2` when the trial value is
non-negative, the gap is within the search radius and both facets carry the
solute field; as they were otherwise. -/
def partnerCg (I : FESlidingInterface3) (G : ProjectGeometry) (M : FEModel) (R : ℚ)
    (ssolu : Bool) (c1 : ℚ) (r nu : vec3d) (rs : ℚ × ℚ) (n : Nat) (ss : FESlidingSurface3)
    (me : FESurfaceElement) : List ℚ :=
  if vval ss.m_Lmd n + (I.m_epsn * vval ss.m_epsn n) * geometricGap G me r nu rs ≥ 0
      ∧ geometricGap G me r nu rs ≤ R ∧ ssolu = true ∧ (BiphasicSoluteStatus M me).2 = true
  then ss.m_cg.set n (c1 - G.eval me (me.m_node.map M.m_ct) rs.1 rs.2)
  else ss.m_cg

/-! ## Auxiliary notions for the statements about `Augment` -/

/-- The trial normal value `Ln = m_Lmd[i] + (m_epsn*m_epsn[i])*m_gap[i]` of point `i`. -/
def Augment_Ln (m_epsn : ℚ) (s : FESlidingSurface3) (i : Nat) : ℚ :=
  vval s.m_Lmd i + (m_epsn * vval s.m_epsn i) * vval s.m_gap i

/-- The vectors that the loops of `Augment` read and write have one entry per
entry of `m_Lmd`: the gaps and penalties always, and for a surface with
`m_bporo` the pressure and concentration vectors too. -/
def FESlidingSurface3.allocated (s : FESlidingSurface3) : Prop :=
  s.m_gap.length = s.m_Lmd.length ∧ s.m_epsn.length = s.m_Lmd.length ∧
  (s.m_bporo = true →
    s.m_Lmp.length = s.m_Lmd.length ∧ s.m_Lmc.length = s.m_Lmd.length ∧
    s.m_epsp.length = s.m_Lmd.length ∧ s.m_epsc.length = s.m_Lmd.length ∧
    s.m_pg.length = s.m_Lmd.length ∧ s.m_cg.length = s.m_Lmd.length)

/-- The surface after the loop body at point `i`, when all reads are in bounds. -/
def Augment_pointS (m_epsn m_epsp m_epsc : ℚ) (i : Nat) (s : FESlidingSurface3) :
    FESlidingSurface3 :=
  { s with
    m_Lmd := s.m_Lmd.set i (MBRACKET (Augment_Ln m_epsn s i))
    m_Lmp :=
      if s.m_bporo then
        s.m_Lmp.set i (if Augment_Ln m_epsn s i > 0 then
          vval s.m_Lmp i + (m_epsp * vval s.m_epsp i) * vval s.m_pg i else 0)
      else s.m_Lmp
    m_Lmc :=
      if s.m_bporo then
        s.m_Lmc.set i (if Augment_Ln m_epsn s i > 0 then
          vval s.m_Lmc i + (m_epsc * vval s.m_epsc i) * vval s.m_cg i else 0)
      else s.m_Lmc }

/-- The accumulators after the loop body at point `i`, when all reads are in
bounds. -/
def Augment_pointA (m_epsn : ℚ) (i : Nat) (s : FESlidingSurface3) (a : AugNorms) : AugNorms :=
  { normL1 := a.normL1 + MBRACKET (Augment_Ln m_epsn s i) * MBRACKET (Augment_Ln m_epsn s i)
    normDP := if s.m_bporo = true ∧ Augment_Ln m_epsn s i > 0 then
                a.normDP + vval s.m_pg i * vval s.m_pg i else a.normDP
    normDC := if s.m_bporo = true ∧ Augment_Ln m_epsn s i > 0 then
                a.normDC + vval s.m_cg i * vval s.m_cg i else a.normDC
    maxgap := if Augment_Ln m_epsn s i > 0 then max a.maxgap |vval s.m_gap i| else a.maxgap
    maxpg := if s.m_bporo = true ∧ Augment_Ln m_epsn s i > 0 then
                max a.maxpg |vval s.m_pg i| else a.maxpg
    maxcg := if s.m_bporo = true ∧ Augment_Ln m_epsn s i > 0 then
                max a.maxcg |vval s.m_cg i| else a.maxcg }

/-- The surface after the loop `for (i = i0; i < i0 + n; ++i)`, when all reads
are in bounds. -/
def Augment_loopS (m_epsn m_epsp m_epsc : ℚ) : Nat → Nat → FESlidingSurface3 → FESlidingSurface3
  | 0, _, s => s
  | n + 1, i, s =>
    Augment_loopS m_epsn m_epsp m_epsc n (i + 1) (Augment_pointS m_epsn m_epsp m_epsc i s)

/-- The points of a surface whose trial normal value is positive. -/
def activePoints (m_epsn : ℚ) (s : FESlidingSurface3) : List Nat :=
  (List.range s.m_Lmd.length).filter (fun i => 0 < Augment_Ln m_epsn s i)

/-- The largest absolute value among `m0` and the entries of `xs`. -/
def maxAbs (m0 : ℚ) (xs : List ℚ) : ℚ := xs.foldl (fun m x => max m |x|) m0

/-- The sum of `m0` and the squares of the entries of `xs`. -/
def sumSq (m0 : ℚ) (xs : List ℚ) : ℚ := xs.foldl (fun m x => m + x * x) m0

/-- The norms of `Augment` written out over the points of one surface, starting
from the accumulators `a`: `normL1` adds the squares of the new multipliers of
all points; `maxgap` ranges over the gaps of the points with positive trial
value; `maxpg`, `maxcg`, `normDP`, `normDC` range over the pressure and
concentration gaps of those points, and only for a surface with `m_bporo`. -/
def surfaceNorms (m_epsn : ℚ) (s : FESlidingSurface3) (a : AugNorms) : AugNorms :=
  let act := activePoints m_epsn s
  { normL1 := sumSq a.normL1
      ((List.range s.m_Lmd.length).map (fun i => MBRACKET (Augment_Ln m_epsn s i)))
    normDP := if s.m_bporo then sumSq a.normDP (act.map (vval s.m_pg)) else a.normDP
    normDC := if s.m_bporo then sumSq a.normDC (act.map (vval s.m_cg)) else a.normDC
    maxgap := maxAbs a.maxgap (act.map (vval s.m_gap))
    maxpg := if s.m_bporo then maxAbs a.maxpg (act.map (vval s.m_pg)) else a.maxpg
    maxcg := if s.m_bporo then maxAbs a.maxcg (act.map (vval s.m_cg)) else a.maxcg }

/-- Surface `t` differs from surface `s` in the three multiplier vectors at
most. -/
def sameButMultipliers (s t : FESlidingSurface3) : Prop :=
  t.el = s.el ∧ t.m_bporo = s.m_bporo ∧ t.m_bsolu = s.m_bsolu ∧ t.m_gap = s.m_gap ∧
  t.m_nu = s.m_nu ∧ t.m_rs = s.m_rs ∧ t.m_nei = s.m_nei ∧ t.m_epsn = s.m_epsn ∧
  t.m_epsp = s.m_epsp ∧ t.m_epsc = s.m_epsc ∧ t.m_nn = s.m_nn ∧ t.m_pg = s.m_pg ∧
  t.m_cg = s.m_cg ∧ t.m_Ln = s.m_Ln ∧ t.m_pme = s.m_pme

/-- The norms of `Augment` over the points of both surfaces. -/
def augmentNorms (I : FESlidingInterface3) : AugNorms :=
  surfaceNorms I.m_epsn I.m_ms (surfaceNorms I.m_epsn I.m_ss ⟨0, 0, 0, 0, 0, 0⟩)

/-- The pressure and concentration gaps of the pair `ss`, `ms` are as the code
leaves them: a surface with `m_bsolu` has `m_bporo` (a biphasic-solute facet
passes both tests of lines 72-112 of `FESlidingSurface3::Init`), a pressure
gap differs from 0 only when both surfaces have `m_bporo`, and a concentration
gap only when both have `m_bsolu` (`Init` assigns zeros in lines 128 and 132,
and `ProjectSurface` writes a value other than 0 only in lines 684 and 690,
for a pair of facets that both carry the field). -/
def gapsConsistent (ss ms : FESlidingSurface3) : Prop :=
  (ss.m_bsolu = true → ss.m_bporo = true) ∧ (ms.m_bsolu = true → ms.m_bporo = true)
  ∧ (¬ (ss.m_bporo = true ∧ ms.m_bporo = true) →
      ∀ i, vval ss.m_pg i = 0 ∧ vval ms.m_pg i = 0)
  ∧ (¬ (ss.m_bsolu = true ∧ ms.m_bsolu = true) →
      ∀ i, vval ss.m_cg i = 0 ∧ vval ms.m_cg i = 0)

/-- The flags of a surface are those that `FESlidingSurface3::Init` computes from
its facets (lines 72-112): `m_bporo` is set exactly when a facet carries the
pressure field, `m_bsolu` exactly when a facet carries the solute field. -/
def flagsFromFacets (M : FEModel) (s : FESlidingSurface3) : Prop :=
  (s.m_bporo = true ↔ ∃ el ∈ s.el, (BiphasicSoluteStatus M el).1 = true)
  ∧ (s.m_bsolu = true ↔ ∃ el ∈ s.el, (BiphasicSoluteStatus M el).2 = true)

/-! ## Auxiliary notions for the statements about `Update` -/

/-- An equation number after a step of `Update`: unchanged, or changed from a
value below -1 to a non-negative value. -/
def idStep (a b : Int) : Prop := b = a ∨ (a < -1 ∧ 0 ≤ b)

/-- The equation numbers of all nodes after a step of `Update`: each pressure id
and each concentration id is unchanged or changed from a value below -1 to a
non-negative value. -/
def idsStep (ids ids' : NodeIDs) : Prop :=
  ∀ n, idStep (ids n).1 (ids' n).1 ∧ idStep (ids n).2 (ids' n).2

/-- A surface carries the pressure field for `Init`: its flag `m_bporo` is
already set, or one of its facets belongs to a solid element of a biphasic or
biphasic-solute material. -/
def carriesPressure (M : FEModel) (s : FESlidingSurface3) : Prop :=
  s.m_bporo = true ∨ ∃ se ∈ s.el, (BiphasicSoluteStatus M se).1 = true

/-! ## Auxiliary notions for the statements about the running counter -/

/-- Stated from the spec's words (counter-free access through the offset table):
the integration points of facet `se` visited with the record index
`noff + j`, where `noff` is the offset of the facet. -/
def offsetTable_gauss {σ : Type} (body : FESurfaceElement → Nat → Nat → σ → Option σ)
    (se : FESurfaceElement) (noff : Nat) : Nat → Nat → σ → Option σ
  | 0, _, st => some st
  | cnt + 1, j, st => do
    let st ← body se j (noff + j) st
    offsetTable_gauss body se noff cnt (j + 1) st

/-- Stated from the spec's words: the facets from facet `i` on visited with the
record index `m_nei[i] + j` at Gauss point `j` of facet `i`, without a running
counter. -/
def offsetTable_facets {σ : Type} (m_nei : List Int)
    (body : FESurfaceElement → Nat → Nat → σ → Option σ) :
    List FESurfaceElement → Nat → σ → Option σ
  | [], _, st => some st
  | se :: els, i, st => do
    let noff ← vget m_nei i
    let st ← (if noff < 0 then none else offsetTable_gauss body se noff.toNat se.nint 0 st)
    offsetTable_facets m_nei body els (i + 1) st

/-- The loop body with a bounds check of the record index against `N` in front
of it. -/
def checked {σ : Type} (N : Nat) (body : FESurfaceElement → Nat → Nat → σ → Option σ) :
    FESurfaceElement → Nat → Nat → σ → Option σ :=
  fun se j ni st => if ni < N then body se j ni st else none

/-- The body of the loop of `UpdateContactPressures` as a loop body that is
handed the running counter. -/
def UpdateContactPressures_body (I : FESlidingInterface3) (U : UpdateServices)
    (G : ProjectGeometry) (ms : FESlidingSurface3) :
    FESurfaceElement → Nat → Nat → FESlidingSurface3 → Option FESlidingSurface3 :=
  fun _ _ ni ss => UpdateContactPressures_point I U G ms ni ss

/-- The body of the loop of `ProjectSurface` as a loop body that is handed the
running counter; the state is the searching surface and the local array
`rs`. -/
def ProjectSurface_body (I : FESlidingInterface3) (G : ProjectGeometry) (M : FEModel)
    (ms : FESlidingSurface3) (bupseg : Bool) (R : ℚ) :
    FESurfaceElement → Nat → Nat → FESlidingSurface3 × (ℚ × ℚ) →
      Option (FESlidingSurface3 × (ℚ × ℚ)) :=
  fun el j n st =>
    (ProjectSurface_point I G M ms bupseg R el (BiphasicSoluteStatus M el).1
      (BiphasicSoluteStatus M el).2 (el.m_node.map M.m_pt) (el.m_node.map M.m_ct) j
      (st.1, n, st.2)).map (fun r => (r.1, r.2.2))

/-! ## Auxiliary notions for the statements about `ContactForces` and `ContactStiffness` -/

/-- The integration points of a facet table in the order of the loops: the
Gauss points `j` of each facet with the record index `n0 + j`, where `n0` is
the number of integration points of the facets before it (plus the starting
value). -/
def pointVisits : List FESurfaceElement → Nat → List (FESurfaceElement × Nat × Nat)
  | [], _ => []
  | se :: els, n0 =>
    (List.range se.nint).map (fun j => (se, j, n0 + j)) ++ pointVisits els (n0 + se.nint)

/-- The per-point vectors that `ContactForces` and `ContactStiffness` read have
one entry per integration point of the searching surface `ss` (the pressure
gaps when one of its facets carries the pressure field, the concentration gaps
when one carries the solute field, as `Init` allocates them), and every partner
recorded in `ss` is a facet of `ms`. -/
def RecordsReady (M : FEModel) (ss ms : FESlidingSurface3) : Prop :=
  ss.m_pme.length = totalGauss ss.el ∧ ss.m_rs.length = totalGauss ss.el ∧
  ss.m_nu.length = totalGauss ss.el ∧ ss.m_gap.length = totalGauss ss.el ∧
  ss.m_Lmd.length = totalGauss ss.el ∧ ss.m_epsn.length = totalGauss ss.el ∧
  ss.m_epsp.length = totalGauss ss.el ∧ ss.m_Lmp.length = totalGauss ss.el ∧
  ss.m_epsc.length = totalGauss ss.el ∧ ss.m_Lmc.length = totalGauss ss.el ∧
  ((∃ el ∈ ss.el, (BiphasicSoluteStatus M el).1 = true) → ss.m_pg.length = totalGauss ss.el) ∧
  ((∃ el ∈ ss.el, (BiphasicSoluteStatus M el).2 = true) → ss.m_cg.length = totalGauss ss.el) ∧
  PartnersIn ms ss

/-- The integration point that `ContactForces` works with at Gauss point `j` of
facet `se`, record `ni` of the searching surface `ss`, with partner facet `me`:
the node numbers of the two facets, the capability flags found by
`BiphasicSoluteStatus`, the local coordinates, normal, gap, multiplier and
penalty of record `ni`, and the pressure and concentration records of `ni`
where `ContactForces` reads them (0 where it does not). -/
def ContactForces_record (I : FESlidingInterface3) (M : FEModel) (S : ContactServices)
    (ss : FESlidingSurface3) (se : FESurfaceElement) (j ni : Nat) (me : FESurfaceElement) :
    ForcePoint :=
  let rs := (vget ss.m_rs ni).getD (0, 0)
  let p0 : ForcePoint :=
    { S.forcePoint se j me rs.1 rs.2 with
      se_node := se.m_node, me_node := me.m_node, nu := (vget ss.m_nu ni).getD ⟨0, 0, 0⟩,
      g := vval ss.m_gap ni, Lm := vval ss.m_Lmd ni, epsn := vval ss.m_epsn ni,
      sporo := (BiphasicSoluteStatus M se).1, ssolu := (BiphasicSoluteStatus M se).2,
      mporo := (BiphasicSoluteStatus M me).1, msolu := (BiphasicSoluteStatus M me).2 }
  let pres := decide (p0.tn I.m_epsn > 0) && (p0.sporo && p0.mporo)
  let conc := decide (p0.tn I.m_epsn > 0) && (p0.ssolu && p0.msolu)
  { p0 with
    epsp := if pres then vval ss.m_epsp ni else 0, Lmp := if pres then vval ss.m_Lmp ni else 0,
    pg := if pres then vval ss.m_pg ni else 0, epsc := if conc then vval ss.m_epsc ni else 0,
    Lmc := if conc then vval ss.m_Lmc ni else 0, cg := if conc then vval ss.m_cg ni else 0 }

/-- The residuals that `ContactForces` assembles at the integration point
`v = (se, j, ni)` of the searching surface `ss`: none for a point without
partner, those of `ContactForces_point` at the record of the point otherwise. -/
def ContactForces_out (I : FESlidingInterface3) (M : FEModel) (S : ContactServices) (dt : ℚ)
    (ss ms : FESlidingSurface3) (v : FESurfaceElement × Nat × Nat) : List ResidualCall :=
  match vget ss.m_pme v.2.2 with
  | some (some k) =>
    match vget ms.el k with
    | some me =>
      ContactForces_point I.m_epsn I.m_epsp I.m_epsc dt
        (ContactForces_record I M S ss v.1 v.2.1 v.2.2 me)
    | none => []
  | _ => []

/-- A finite `double` as an integer significand and a binary exponent: the number
`m * 2^e`. Overflow, underflow and subnormal numbers are not modelled. -/
structure Dbl where
  m : Int
  e : Int
deriving DecidableEq

/-- The number of bits by which `a` exceeds 53 significant bits (`fuel` bounds
the search). -/
def Dbl.excess : Nat → Nat → Nat
  | 0, _ => 0
  | fuel + 1, a => if a < 9007199254740992 then 0 else 1 + Dbl.excess fuel (a / 2)

/-- Rounding of the exact number `m * 2^e` to a `double`: to 53 significant bits,
to the nearest, ties to the even significand. -/
def Dbl.round (m e : Int) : Dbl :=
  let a := m.natAbs
  let s := Dbl.excess 128 a
  if s = 0 then ⟨m, e⟩
  else
    let q := a / 2 ^ s
    let r := a % 2 ^ s
    let half := 2 ^ (s - 1)
    let q1 := if r > half ∨ (r = half ∧ q % 2 = 1) then q + 1 else q
    ⟨if m < 0 then -(q1 : Int) else (q1 : Int), e + s⟩

/-- The product `x * y` of two doubles, rounded. -/
def Dbl.mul (x y : Dbl) : Dbl := Dbl.round (x.m * y.m) (x.e + y.e)

/-- The sum `x + y` of two doubles, rounded. -/
def Dbl.add (x y : Dbl) : Dbl :=
  let e := min x.e y.e
  Dbl.round (x.m * 2 ^ (x.e - e).toNat + y.m * 2 ^ (y.e - e).toNat) e

/-- The negative `-x` of a double. -/
def Dbl.neg (x : Dbl) : Dbl := ⟨-x.m, x.e⟩

/-- The number that a double stands for. -/
def Dbl.toRat (x : Dbl) : ℚ := x.m * 2 ^ x.e

/-- Lines 1018-1035 of `ContactForces` in double arithmetic, every operation
rounded to a `double`: the array `N` (`N[3k+c] = -Hs[k]*nu_c` for the searching
facet, `Hm[k]*nu_c` for the partner facet) and the force vector `fe`, zeroed and
then `fe[k] += tn*N[k]*detJ[j]*w[j]`. -/
def fe_double (tn : Dbl) (Hs Hm : List Dbl) (nx ny nz detJ w : Dbl) : List Dbl :=
  let N := Hs.flatMap (fun h => [h.neg.mul nx, h.neg.mul ny, h.neg.mul nz])
    ++ Hm.flatMap (fun h => [h.mul nx, h.mul ny, h.mul nz])
  N.map (fun n => (⟨0, 0⟩ : Dbl).add (((tn.mul n).mul detJ).mul w))

/-! ## Concrete surfaces, interfaces and archives used as examples -/

/-- A surface given by its capability flags and per-point vectors (no facet
table, normals or local coordinates, which `Augment` does not read). -/
def pointSurface (bporo bsolu : Bool) (gap Lmd epsn Lmp epsp pg Lmc epsc cg : List ℚ) :
    FESlidingSurface3 :=
  { el := [], m_bporo := bporo, m_bsolu := bsolu, m_gap := gap, m_nu := [], m_rs := [],
    m_Lmd := Lmd, m_Lmp := Lmp, m_Lmc := Lmc, m_nei := [], m_epsn := epsn, m_epsp := epsp,
    m_epsc := epsc, m_nn := [], m_pg := pg, m_cg := cg, m_Ln := [], m_pme := [] }

/-- An interface with augmentation on, penalty factors 1, the given tolerances
and surfaces, and the defaults of the constructor elsewhere. -/
def pointInterface (atol gtol ptol ctol : ℚ) (ss ms : FESlidingSurface3) : FESlidingInterface3 :=
  { m_blaugon := true, m_atol := atol, m_gtol := gtol, m_ptol := ptol, m_ctol := ctol,
    m_epsn := 1, m_bautopen := false, m_btwo_pass := false, m_knmult := 1, m_stol := 1 / 100,
    m_epsp := 1, m_epsc := 1, m_bsymm := true, m_srad := 1 / 10, m_nsegup := 0, m_ambp := 0,
    m_ambc := 0, m_Rgas := 1, m_Tabs := 1, m_naugmin := 0, m_naugmax := 10, m_ss := ss,
    m_ms := ms }

/-- Two points with zero multiplier and penalty 100, one with gap 0.02 and one
with gap -0.05, against a surface with one point. -/
def scenarioInterface : FESlidingInterface3 :=
  pointInterface (-1) (-1) (-1) (-1)
    (pointSurface false false [1 / 50, -1 / 20] [0, 0] [100, 100] [0, 0] [1, 1] [] [0, 0] [1, 1] [])
    (pointSurface false false [0] [3] [1] [0] [1] [] [0] [1] [])

/-- A flat pair of facets: every integration point of the searching surface is
at height `z` above the opposing facet, which lies in the plane `z = 0`; the
normal is the unit vector along `z`, and every projection (onto the previous
partner or by the global search) succeeds and finds facet 0. -/
def flatGeometry (z : ℚ) : ProjectGeometry :=
  { Local2GlobalGP := fun _ _ => ⟨0, 0, z⟩
    SurfaceNormal := fun _ _ => ⟨0, 0, 1⟩
    evalGP := fun _ _ _ => 0
    Intersect := fun _ _ _ _ _ => (true, (0, 0))
    FindIntersection := fun _ _ _ _ => (some 0, (0, 0))
    Local2Global := fun _ _ _ => ⟨0, 0, 0⟩
    eval := fun _ _ _ _ => 0 }

/-- A mesh of solid elements of a material without pressure or solute field,
with bounding-box radius 10. -/
def elasticModel : FEModel :=
  { FindElementFromID := fun _ => some ⟨true, 0⟩
    GetMaterial := fun _ => ⟨none, none⟩
    ElementVolume := fun _ => 1
    m_pt := fun _ => 0
    m_ct := fun _ => 0
    radius := 10 }

/-- A surface of one four-node facet with one integration point, whose
multiplier is `Lmd`, whose penalty is `epsn` and whose partner is `pme`. -/
def oneFacetSurface (Lmd epsn : ℚ) (pme : Option Nat) : FESlidingSurface3 :=
  { el := [⟨0, 1, [0, 1, 2, 3], 1⟩], m_bporo := false, m_bsolu := false, m_gap := [0],
    m_nu := [⟨0, 0, 0⟩], m_rs := [(0, 0)], m_Lmd := [Lmd], m_Lmp := [0], m_Lmc := [0],
    m_nei := [0], m_epsn := [epsn], m_epsp := [1], m_epsc := [1],
    m_nn := [⟨0, 0, 0⟩, ⟨0, 0, 0⟩, ⟨0, 0, 0⟩, ⟨0, 0, 0⟩], m_pg := [], m_cg := [], m_Ln := [0],
    m_pme := [pme] }

/-- The contact pair of two one-facet surfaces with the default parameters
(`m_srad = 0.1`, hence search radius 1 in `elasticModel`). -/
def oneFacetInterface (Lmd epsn : ℚ) (pme : Option Nat) : FESlidingInterface3 :=
  pointInterface (1 / 10) (-1) (-1) (-1) (oneFacetSurface Lmd epsn pme)
    (oneFacetSurface 0 1 none)

/-- A surface with two integration points as a checkpoint finds it: the first
point in contact with facet 0 of the sibling, the second without partner. -/
def checkpointSurface : FESlidingSurface3 :=
  { el := [⟨0, 1, [0, 1, 2, 3], 2⟩], m_bporo := true, m_bsolu := false, m_gap := [1 / 50, 0],
    m_nu := [⟨0, 0, 1⟩, ⟨0, 0, 1⟩], m_rs := [(1 / 2, 1 / 4), (0, 0)], m_Lmd := [2, 0],
    m_Lmp := [1 / 3, 0], m_Lmc := [0, 0], m_nei := [0], m_epsn := [100, 100],
    m_epsp := [5 / 2, 5 / 2], m_epsc := [1, 1],
    m_nn := [⟨0, 0, 1⟩, ⟨0, 0, 1⟩, ⟨0, 0, 1⟩, ⟨0, 0, 1⟩], m_pg := [1 / 7, 0], m_cg := [],
    m_Ln := [2, 0], m_pme := [some 0, none] }

/-- The same surface as `Init` leaves it, before a restart loads into it. -/
def initialSurface : FESlidingSurface3 :=
  { checkpointSurface with
    m_bporo := false, m_gap := [0, 0], m_nu := [⟨0, 0, 0⟩, ⟨0, 0, 0⟩],
    m_rs := [(0, 0), (0, 0)], m_Lmd := [0, 0], m_Lmp := [0, 0], m_epsn := [1, 1],
    m_epsp := [1, 1], m_nn := [⟨0, 0, 0⟩, ⟨0, 0, 0⟩, ⟨0, 0, 0⟩, ⟨0, 0, 0⟩], m_pg := [],
    m_Ln := [0, 0], m_pme := [none, none] }

/-- A mesh in which no facet finds its element. -/
def orphanModel : FEModel := { elasticModel with FindElementFromID := fun _ => none }

/-- An integration point of a four-node facet in contact with a four-node facet
of a pair that carries the pressure field on both sides: shape-function values
1/4, unit normal along `z`, zero multiplier, penalty 100 and gap `g`. -/
def scenarioPoint (g : ℚ) : ForcePoint :=
  { se_node := [0, 1, 2, 3], me_node := [4, 5, 6, 7], sLM := fun k => k, mLM := fun k => k,
    Hs := fun _ => 1 / 4, Hm := fun _ => 1 / 4, detJ := 1, w := 1, nu := ⟨0, 0, 1⟩, g := g,
    Lm := 0, epsn := 100, sporo := true, ssolu := false, mporo := true, msolu := false,
    Lmp := 0, epsp := 1, pg := 1 / 10, Lmc := 0, epsc := 1, cg := 0 }

/-- Two points of a surface with pressure and solute fields against a surface
with one point: the first has penalty 100 and gap 0.02 (trial value 2), pressure
multiplier 1, pressure penalty 2 and pressure gap -3, concentration multiplier
1 and concentration gap 2; the second has gap -0.05 (trial value -5) and
multipliers 7 and 4. -/
def flowInterface : FESlidingInterface3 :=
  pointInterface (-1) (-1) (-1) (-1)
    (pointSurface true true [1 / 50, -1 / 20] [0, 0] [100, 100] [1, 7] [2, 2] [-3, -3]
      [1, 4] [1, 1] [2, 2])
    (pointSurface false false [0] [3] [1] [0] [1] [] [0] [1] [])

/-- A mesh of solid elements of a biphasic material (pressure field, no solute),
with bounding-box radius 10. -/
def biphasicModel : FEModel :=
  { elasticModel with GetMaterial := fun _ => ⟨some (fun _ _ => 1), none⟩ }

/-- The flat pair of facets with fluid pressure 3 at every integration point of
the searching surface and 1 everywhere on the opposing facet. -/
def pressureGeometry (z : ℚ) : ProjectGeometry :=
  { flatGeometry z with evalGP := fun _ _ _ => 3, eval := fun _ _ _ _ => 1 }

/-- The one-facet surface with allocated pressure vectors, pressure gap `pg`
and concentration gap 9. -/
def biphasicFacetSurface (Lmd epsn pg : ℚ) (pme : Option Nat) : FESlidingSurface3 :=
  { oneFacetSurface Lmd epsn pme with m_bporo := true, m_pg := [pg], m_cg := [9] }

/-- An integration point of purely mechanical contact between two three-node
facets: flat unit triangles, the searching facet above the partner facet, the
point at the centroid (all shape values 1/3, weight 1/2, `detJ = 1`), multiplier
0, penalty 100 and gap 0.02, so that the traction is 2. The normal of the
searching facet is `(0, 0, -1)`, the normal of the partner facet `(0, 0, 1)`,
the base vectors are the unit vectors along `x` and `y`. -/
def mechPoint : StiffPoint :=
  { se_node := [0, 1, 2], me_node := [3, 4, 5], sLM := fun k => k, mLM := fun k => 100 + k,
    Hs := fun _ => 1 / 3, Hm := fun _ => 1 / 3, detJ := 1, w := 1 / 2, nu := ⟨0, 0, -1⟩,
    g := 1 / 50, Lm := 0, epsn := 100, sporo := false, ssolu := false, mporo := false,
    msolu := false, Lmp := 0, epsp := 1, pg := 0, Lmc := 0, epsc := 1, cg := 0,
    Gr := fun k => vval [-1, 1, 0] k, Gs := fun k => vval [-1, 0, 1] k,
    S1 := fun a b => vval [0, 0, 0, 0, 0, -1, 0, 1, 0] (3 * a + b),
    S2 := fun a b => vval [0, 0, 1, 0, 0, 0, -1, 0, 0] (3 * a + b),
    Gm0 := ⟨1, 0, 0⟩, Gm1 := ⟨0, 1, 0⟩, mnu := ⟨0, 0, 1⟩,
    Hmr := fun k => vval [-1, 1, 0] k, Hms := fun k => vval [-1, 0, 1] k,
    dpmr := 0, dpms := 0, dcmr := 0, dcms := 0 }

/-- The services of `Update` for a pair of four-node facets with one integration
point each: the searching facet has the mesh nodes 0 to 3, the opposing facet
the mesh nodes 4 to 7, all nodes are at the origin, the projection to the nodes
copies the value of the integration point to the four nodes, and the node
normals are left as they are. -/
def oneFacetServices : UpdateServices :=
  { ssNode := [0, 1, 2, 3], msNode := [4, 5, 6, 7], m_lnode := fun _ => [0, 1, 2, 3],
    m_rt := fun _ => ⟨0, 0, 0⟩, project_to_nodes := fun _ ti => List.replicate 4 (vval ti 0),
    NodeNormals := fun s => s.m_nn }

/-- A biphasic searching facet in contact (multiplier 0, penalty 100, previous
partner facet 0) against an opposing facet without pressure field. -/
def biphasicInterface : FESlidingInterface3 :=
  pointInterface (1 / 10) (-1) (-1) (-1) (biphasicFacetSurface 0 100 7 (some 0))
    (oneFacetSurface 0 1 none)

/-- Equation numbers before `Update`: node 0 has the pressure id -3 (ambient,
equation 1) and the concentration id 5; every other node has the pressure id -1
(fixed) and the concentration id -2 (ambient, equation 0). -/
def ambientIDs : NodeIDs := fun n => if n = 0 then (-3, 5) else (-1, -2)

/-- The pair of one-facet surfaces without pressure field, with
`symmetric_stiffness = false`. -/
def elasticInterface : FESlidingInterface3 :=
  { oneFacetInterface 0 100 none with m_bsymm := false }

/-- A surface as its constructor leaves it, with two four-node facets of three
and four integration points: no capability flag is set and every vector is
empty. -/
def twoFacetSurface : FESlidingSurface3 :=
  { el := [⟨0, 1, [0, 1, 2, 3], 3⟩, ⟨1, 2, [2, 3, 4, 5], 4⟩], m_bporo := false,
    m_bsolu := false, m_gap := [], m_nu := [], m_rs := [], m_Lmd := [], m_Lmp := [],
    m_Lmc := [], m_nei := [], m_epsn := [], m_epsp := [], m_epsc := [], m_nn := [],
    m_pg := [], m_cg := [], m_Ln := [], m_pme := [] }

/-- A surface of one four-node facet with one integration point as its
constructor leaves it: no capability flag is set and every vector is empty. -/
def freshFacetSurface : FESlidingSurface3 :=
  { el := [⟨0, 1, [0, 1, 2, 3], 1⟩], m_bporo := false, m_bsolu := false, m_gap := [],
    m_nu := [], m_rs := [], m_Lmd := [], m_Lmp := [], m_Lmc := [], m_nei := [], m_epsn := [],
    m_epsp := [], m_epsc := [], m_nn := [], m_pg := [], m_cg := [], m_Ln := [], m_pme := [] }

/-- The contact pair of two surfaces as their constructors leave them, with
augmentation on and the default parameters. -/
def freshInterface : FESlidingInterface3 :=
  pointInterface (1 / 10) (-1) (-1) (-1) freshFacetSurface freshFacetSurface

/-- The point `mechPoint` between two biphasic facets on the edge of contact: the
gap is -0.02 with multiplier 2 and penalty 100, so that `Lm + eps*g = 0`, and
the pressure multiplier is 1. -/
def edgePoint : StiffPoint :=
  { mechPoint with sporo := true, mporo := true, g := -1 / 50, Lm := 2, Lmp := 1 }

/-- The one-facet surface with one point in contact with facet 0 of the sibling:
normal along `z`, multiplier 0, penalty 100 and gap `gap`. -/
def contactSurface (gap : ℚ) : FESlidingSurface3 :=
  { oneFacetSurface 0 100 (some 0) with m_gap := [gap], m_nu := [⟨0, 0, 1⟩] }

/-- The single-pass pair of `contactSurface gap` and a one-facet surface without
partner, with the default parameters. -/
def contactInterface (gap : ℚ) : FESlidingInterface3 :=
  pointInterface (1 / 10) (-1) (-1) (-1) (contactSurface gap) (oneFacetSurface 0 1 none)

/-- Services for four-node facets: every shape value is 1/4, `detJ = 1`,
`w = 1`, the `LM` vectors are the identity, and the remaining values of
`ContactStiffness` are those of `mechPoint`. -/
def quadServices : ContactServices :=
  { forcePoint := fun _ _ _ _ _ => scenarioPoint 0
    stiffPoint := fun _ _ _ _ _ => { mechPoint with toForcePoint := scenarioPoint 0 } }

/-- An archive whose data are those of the surface `s`, followed by the partner
count `ne` and the partner ids `ids`. -/
def archiveOf (s : FESlidingSurface3) (ne : Int) (ids : List Int) : DumpFile :=
  [DumpValue.bool s.m_bporo, DumpValue.bool s.m_bsolu] ++ ([]
    ++ (putVector DumpValue.double s.m_gap
    ++ (putVector DumpValue.vec3 s.m_nu
    ++ (putVector DumpValue.vec2 s.m_rs
    ++ (putVector DumpValue.double s.m_Lmd
    ++ (putVector DumpValue.double s.m_Lmp
    ++ (putVector DumpValue.double s.m_Lmc
    ++ (putVector DumpValue.int s.m_nei
    ++ (putVector DumpValue.double s.m_epsn
    ++ (putVector DumpValue.double s.m_epsp
    ++ (putVector DumpValue.double s.m_epsc
    ++ (putVector DumpValue.vec3 s.m_nn
    ++ (putVector DumpValue.double s.m_pg
    ++ (putVector DumpValue.double s.m_cg
    ++ (putVector DumpValue.double s.m_Ln
    ++ (DumpValue.int ne :: (ids.map DumpValue.int ++ [])))))))))))))))))

/-! # Properties -/

/-! ## Reading and writing vectors -/

/-- A read within the bounds gives the entry. -/
theorem vget_of_lt (v : List ℚ) (i : Nat) (h : i < v.length) :
    vget v i = some (vval v i) := by
  simp [vget, vval, List.getElem?_eq_getElem h]

/-- A write within the bounds succeeds. -/
theorem vset_of_lt {α : Type} (v : List α) (i : Nat) (a : α) (h : i < v.length) :
    vset v i a = some (v.set i a) := by
  simp [vset, h]

/-- A read within the bounds gives an entry of the vector. -/
theorem vget_isSome {α : Type} (v : List α) (i : Nat) (h : i < v.length) :
    ∃ a, vget v i = some a ∧ a ∈ v := by
  refine ⟨v[i], ?_, List.getElem_mem h⟩
  simp [vget, List.getElem?_eq_getElem h]

/-- A write at `i` leaves the entry at `j ≠ i` as it was. -/
theorem vval_set_ne (v : List ℚ) (i j : Nat) (x : ℚ) (h : i ≠ j) :
    vval (v.set i x) j = vval v j := by
  simp [vval, List.getElem?_set_ne h]

/-- A write within the bounds is read back. -/
theorem vval_set_eq (v : List ℚ) (i : Nat) (x : ℚ) (h : i < v.length) :
    vval (v.set i x) i = x := by
  simp [vval, List.getElem?_set_self, h]

/-- An entry of a vector after a write is the value written or an old entry. -/
theorem mem_set_cases {α : Type} (v : List α) (i : Nat) (a b : α) (h : b ∈ v.set i a) :
    b = a ∨ b ∈ v := by
  rcases List.mem_or_eq_of_mem_set h with h | h
  · exact Or.inr h
  · exact Or.inl h

/-- Two folds agree when their steps agree on the entries of the list. -/
theorem foldl_congr_mem {α β : Type} (f g : β → α → β) (l : List α) :
    ∀ b : β, (∀ x ∈ l, ∀ b, f b x = g b x) → l.foldl f b = l.foldl g b := by
  induction l with
  | nil => intro b _; rfl
  | cons x xs ih =>
    intro b h
    simp only [List.foldl_cons]
    rw [h x (List.mem_cons_self _ _), ih _ (fun y hy => h y (List.mem_cons_of_mem _ hy))]

/-! ## `Augment`: the loops in closed form -/

/-- On an allocated surface the loop body of `Augment` at a point within the
bounds succeeds; its effect on the surface and on the accumulators is
`Augment_pointS` and `Augment_pointA`. -/
theorem Augment_point_eq (m_epsn m_epsp m_epsc : ℚ) (i : Nat) (s : FESlidingSurface3)
    (a : AugNorms) (hs : s.allocated) (hi : i < s.m_Lmd.length) :
    Augment_point m_epsn m_epsp m_epsc i (s, a)
      = some (Augment_pointS m_epsn m_epsp m_epsc i s, Augment_pointA m_epsn i s a) := by
  obtain ⟨hg, he, hp⟩ := hs
  have h1 := vget_of_lt s.m_epsn i (by omega)
  have h2 := vget_of_lt s.m_Lmd i hi
  have h3 := vget_of_lt s.m_gap i (by omega)
  have h4 : ∀ x, vset s.m_Lmd i x = some (s.m_Lmd.set i x) := fun x => vset_of_lt _ _ _ hi
  by_cases hb : s.m_bporo = true
  · obtain ⟨p1, p2, p3, p4, p5, p6⟩ := hp hb
    have q1 := vget_of_lt s.m_epsp i (by omega)
    have q2 := vget_of_lt s.m_Lmp i (by omega)
    have q3 := vget_of_lt s.m_pg i (by omega)
    have q4 := vget_of_lt s.m_epsc i (by omega)
    have q5 := vget_of_lt s.m_Lmc i (by omega)
    have q6 := vget_of_lt s.m_cg i (by omega)
    have h5 : ∀ x, vset s.m_Lmp i x = some (s.m_Lmp.set i x) :=
      fun x => vset_of_lt _ _ _ (by omega)
    have h6 : ∀ x, vset s.m_Lmc i x = some (s.m_Lmc.set i x) :=
      fun x => vset_of_lt _ _ _ (by omega)
    by_cases hL : 0 < vval s.m_Lmd i + m_epsn * vval s.m_epsn i * vval s.m_gap i
    · simp [Augment_point, Augment_flow, Augment_pointS, Augment_pointA, h1, h2, h3, h4, h5, h6,
        q1, q2, q3, q4, q5, q6, hb, hL, Augment_Ln]
    · simp [Augment_point, Augment_flow, Augment_pointS, Augment_pointA, h1, h2, h3, h4, h5, h6,
        hb, hL, Augment_Ln]
  · by_cases hL : 0 < vval s.m_Lmd i + m_epsn * vval s.m_epsn i * vval s.m_gap i
    · simp [Augment_point, Augment_pointS, Augment_pointA, h1, h2, h3, h4, hb, hL, Augment_Ln]
    · simp [Augment_point, Augment_pointS, Augment_pointA, h1, h2, h3, h4, hb, hL, Augment_Ln]

/-- The loop body keeps the surface allocated. -/
theorem Augment_pointS_allocated (m_epsn m_epsp m_epsc : ℚ) (i : Nat) (s : FESlidingSurface3)
    (hs : s.allocated) : (Augment_pointS m_epsn m_epsp m_epsc i s).allocated := by
  obtain ⟨hg, he, hp⟩ := hs
  refine ⟨?_, ?_, ?_⟩
  · simpa [Augment_pointS] using hg
  · simpa [Augment_pointS] using he
  · intro hb
    have hb' : s.m_bporo = true := hb
    obtain ⟨p1, p2, p3, p4, p5, p6⟩ := hp hb'
    simp [Augment_pointS, hb', p1, p2, p3, p4, p5, p6]

/-- The loop body keeps the number of multipliers. -/
theorem Augment_pointS_length (m_epsn m_epsp m_epsc : ℚ) (i : Nat) (s : FESlidingSurface3) :
    (Augment_pointS m_epsn m_epsp m_epsc i s).m_Lmd.length = s.m_Lmd.length := by
  simp [Augment_pointS]

/-- The loop body at `i` leaves the trial value of every other point as it was. -/
theorem Augment_Ln_pointS_ne (m_epsn m_epsp m_epsc : ℚ) (i j : Nat) (s : FESlidingSurface3)
    (h : i ≠ j) :
    Augment_Ln m_epsn (Augment_pointS m_epsn m_epsp m_epsc i s) j = Augment_Ln m_epsn s j := by
  simp [Augment_Ln, Augment_pointS, vval_set_ne _ _ _ _ h]

/-- The accumulation at `j` does not see the update made at `i ≠ j`. -/
theorem Augment_pointA_pointS_ne (m_epsn m_epsp m_epsc : ℚ) (i j : Nat) (s : FESlidingSurface3)
    (a : AugNorms) (h : i ≠ j) :
    Augment_pointA m_epsn j (Augment_pointS m_epsn m_epsp m_epsc i s) a
      = Augment_pointA m_epsn j s a := by
  unfold Augment_pointA
  rw [Augment_Ln_pointS_ne _ _ _ _ _ _ h]
  rfl

/-- The loop of `Augment` over the points `i, ..., i+n-1` of an allocated surface
succeeds; the accumulators are those of a fold over these points that reads
the surface as it was before the loop. -/
theorem Augment_loop_eq (m_epsn m_epsp m_epsc : ℚ) (n : Nat) :
    ∀ (i : Nat) (s : FESlidingSurface3) (a : AugNorms), s.allocated → i + n ≤ s.m_Lmd.length →
      Augment_loop m_epsn m_epsp m_epsc n i (s, a)
        = some (Augment_loopS m_epsn m_epsp m_epsc n i s,
            (List.range' i n).foldl (fun a j => Augment_pointA m_epsn j s a) a) := by
  induction n with
  | zero => intro i s a _ _; rfl
  | succ n ih =>
    intro i s a hs hn
    have hi : i < s.m_Lmd.length := by omega
    have h1 := ih (i + 1) (Augment_pointS m_epsn m_epsp m_epsc i s)
      (Augment_pointA m_epsn i s a) (Augment_pointS_allocated _ _ _ _ _ hs)
      (by rw [Augment_pointS_length]; omega)
    simp only [Augment_loop, Augment_point_eq _ _ _ _ _ _ hs hi, Option.bind_eq_bind,
        Option.some_bind, h1, Augment_loopS, List.range'_succ, List.foldl_cons]
    congr 2
    apply foldl_congr_mem
    intro j hj b
    have : i ≠ j := by
      have := (List.mem_range'_1.mp hj).1
      omega
    exact Augment_pointA_pointS_ne _ _ _ _ _ _ _ this

/-- The loop of `Augment` changes the three multiplier vectors only. -/
theorem Augment_loopS_frame (m_epsn m_epsp m_epsc : ℚ) (n : Nat) :
    ∀ (i : Nat) (s : FESlidingSurface3),
      sameButMultipliers s (Augment_loopS m_epsn m_epsp m_epsc n i s) := by
  induction n with
  | zero => intro i s; simp [Augment_loopS, sameButMultipliers]
  | succ n ih =>
    intro i s
    have h := ih (i + 1) (Augment_pointS m_epsn m_epsp m_epsc i s)
    unfold sameButMultipliers at h ⊢
    simp only [Augment_loopS]
    obtain ⟨h1, h2, h3, h4, h5, h6, h7, h8, h9, h10, h11, h12, h13, h14, h15⟩ := h
    exact ⟨h1, h2, h3, h4, h5, h6, h7, h8, h9, h10, h11, h12, h13, h14, h15⟩

/-- After the loop over the points `i, ..., i+n-1` the normal multiplier of each of
them is the bracket of its trial value and the others are as they were. -/
theorem Augment_loopS_Lmd (m_epsn m_epsp m_epsc : ℚ) (n : Nat) :
    ∀ (i : Nat) (s : FESlidingSurface3), i + n ≤ s.m_Lmd.length →
      (Augment_loopS m_epsn m_epsp m_epsc n i s).m_Lmd.length = s.m_Lmd.length ∧
      ∀ j, vval (Augment_loopS m_epsn m_epsp m_epsc n i s).m_Lmd j
        = if i ≤ j ∧ j < i + n then MBRACKET (Augment_Ln m_epsn s j) else vval s.m_Lmd j := by
  induction n with
  | zero =>
    intro i s _
    refine ⟨rfl, fun j => ?_⟩
    have : ¬ (i ≤ j ∧ j < i + 0) := by omega
    rw [if_neg this]
    rfl
  | succ n ih =>
    intro i s hn
    have hi : i < s.m_Lmd.length := by omega
    obtain ⟨h1, h2⟩ := ih (i + 1) (Augment_pointS m_epsn m_epsp m_epsc i s)
      (by rw [Augment_pointS_length]; omega)
    refine ⟨by simp only [Augment_loopS, h1, Augment_pointS_length], ?_⟩
    intro j
    simp only [Augment_loopS, h2 j]
    by_cases hj : i = j
    · subst hj
      have : ¬ (i + 1 ≤ i ∧ i < i + 1 + n) := by omega
      have h' : i ≤ i ∧ i < i + (n + 1) := by omega
      rw [if_neg this, if_pos h']
      simp [Augment_pointS, vval_set_eq _ _ _ hi]
    · rw [Augment_Ln_pointS_ne _ _ _ _ _ _ hj]
      have e1 : vval (Augment_pointS m_epsn m_epsp m_epsc i s).m_Lmd j = vval s.m_Lmd j := by
        simp [Augment_pointS, vval_set_ne _ _ _ _ hj]
      rw [e1]
      by_cases hc : i + 1 ≤ j ∧ j < i + 1 + n
      · have h' : i ≤ j ∧ j < i + (n + 1) := by omega
        rw [if_pos hc, if_pos h']
      · have h' : ¬ (i ≤ j ∧ j < i + (n + 1)) := by omega
        rw [if_neg hc, if_neg h']

/-- The accumulators of the loop written as sums and maxima over the points. -/
theorem foldl_pointA (m_epsn : ℚ) (s : FESlidingSurface3) (l : List Nat) :
    ∀ a : AugNorms, l.foldl (fun a j => Augment_pointA m_epsn j s a) a =
      { normL1 := sumSq a.normL1 (l.map (fun i => MBRACKET (Augment_Ln m_epsn s i)))
        normDP := if s.m_bporo then
          sumSq a.normDP ((l.filter (fun i => 0 < Augment_Ln m_epsn s i)).map (vval s.m_pg))
          else a.normDP
        normDC := if s.m_bporo then
          sumSq a.normDC ((l.filter (fun i => 0 < Augment_Ln m_epsn s i)).map (vval s.m_cg))
          else a.normDC
        maxgap := maxAbs a.maxgap
          ((l.filter (fun i => 0 < Augment_Ln m_epsn s i)).map (vval s.m_gap))
        maxpg := if s.m_bporo then
          maxAbs a.maxpg ((l.filter (fun i => 0 < Augment_Ln m_epsn s i)).map (vval s.m_pg))
          else a.maxpg
        maxcg := if s.m_bporo then
          maxAbs a.maxcg ((l.filter (fun i => 0 < Augment_Ln m_epsn s i)).map (vval s.m_cg))
          else a.maxcg } := by
  induction l with
  | nil => intro a; cases a; simp [sumSq, maxAbs]
  | cons x xs ih =>
    intro a
    simp only [List.foldl_cons, ih]
    by_cases hb : s.m_bporo = true <;> by_cases hL : 0 < Augment_Ln m_epsn s x <;>
      simp [Augment_pointA, hb, hL, sumSq, maxAbs, List.filter_cons]

/-- The loop of `Augment` over all points of an allocated surface: the surface
afterwards and the accumulators `surfaceNorms`. -/
theorem Augment_loop_norms (m_epsn m_epsp m_epsc : ℚ) (s : FESlidingSurface3) (a : AugNorms)
    (hs : s.allocated) :
    Augment_loop m_epsn m_epsp m_epsc s.m_Lmd.length 0 (s, a)
      = some (Augment_loopS m_epsn m_epsp m_epsc s.m_Lmd.length 0 s, surfaceNorms m_epsn s a) := by
  rw [Augment_loop_eq _ _ _ _ _ _ _ hs (by omega), foldl_pointA]
  simp [surfaceNorms, activePoints, List.range_eq_range']

/-- The two loops of `Augment` on allocated surfaces. -/
theorem Augment_update_eq (I : FESlidingInterface3) (hs : I.m_ss.allocated)
    (hm : I.m_ms.allocated) :
    Augment_update I
      = some (Augment_loopS I.m_epsn I.m_epsp I.m_epsc I.m_ss.m_Lmd.length 0 I.m_ss,
          Augment_loopS I.m_epsn I.m_epsp I.m_epsc I.m_ms.m_Lmd.length 0 I.m_ms,
          augmentNorms I) := by
  simp only [Augment_update, Augment_loop_norms _ _ _ _ _ hs, Augment_loop_norms _ _ _ _ _ hm,
    Option.bind_eq_bind, Option.some_bind, augmentNorms]
  rfl

/-- The function `Augment` with augmentation on, on allocated surfaces. -/
theorem Augment_eq (I : FESlidingInterface3) (hon : I.m_blaugon = true)
    (hs : I.m_ss.allocated) (hm : I.m_ms.allocated) :
    I.Augment = some
      ({ I with
          m_ss := Augment_loopS I.m_epsn I.m_epsp I.m_epsc I.m_ss.m_Lmd.length 0 I.m_ss
          m_ms := Augment_loopS I.m_epsn I.m_epsp I.m_epsc I.m_ms.m_Lmd.length 0 I.m_ms },
        Augment_conv I (normL0_of I.m_ss + normL0_of I.m_ms) (augmentNorms I)) := by
  simp only [FESlidingInterface3.Augment, hon, Augment_update_eq I hs hm, Option.bind_eq_bind,
    Option.some_bind]
  rfl

/-- The value `maxAbs m0 xs` is at least `m0` and at least every `|x|`. -/
theorem maxAbs_ge (xs : List ℚ) : ∀ m0 : ℚ, m0 ≤ maxAbs m0 xs ∧ ∀ x ∈ xs, |x| ≤ maxAbs m0 xs := by
  induction xs with
  | nil => intro m0; simp [maxAbs]
  | cons y ys ih =>
    intro m0
    have h := ih (max m0 |y|)
    simp only [maxAbs, List.foldl_cons] at h ⊢
    refine ⟨le_trans (le_max_left _ _) h.1, ?_⟩
    intro x hx
    rcases List.mem_cons.mp hx with rfl | hx
    · exact le_trans (le_max_right _ _) h.1
    · exact h.2 x hx

/-- The value `maxAbs m0 xs` is `m0` or one of the `|x|`. -/
theorem maxAbs_attained (xs : List ℚ) :
    ∀ m0 : ℚ, maxAbs m0 xs = m0 ∨ ∃ x ∈ xs, maxAbs m0 xs = |x| := by
  induction xs with
  | nil => intro m0; simp [maxAbs]
  | cons y ys ih =>
    intro m0
    have h := ih (max m0 |y|)
    simp only [maxAbs, List.foldl_cons] at h ⊢
    rcases h with h | ⟨x, hx, h⟩
    · rcases max_cases m0 |y| with ⟨e, _⟩ | ⟨e, _⟩
      · left; rw [h, e]
      · right; exact ⟨y, List.mem_cons_self _ _, by rw [h, e]⟩
    · right; exact ⟨x, List.mem_cons_of_mem _ hx, h⟩

/-! ## `Augment`: the multiplier update -/

/-- The surfaces of `scenarioInterface` are allocated. -/
theorem scenario_allocated :
    scenarioInterface.m_ss.allocated ∧ scenarioInterface.m_ms.allocated := by
  simp [scenarioInterface, pointInterface, pointSurface, FESlidingSurface3.allocated]

/-- C2: with augmentation on and the vectors of both surfaces allocated,
`Augment` returns, keeps the number of multipliers, and the new normal
multiplier of every point `i` of the slave and of the master surface is
`max(0, Lmd[i] + (m_epsn*epsn[i])*gap[i])`. -/
theorem Augment_multiplier (I : FESlidingInterface3) (hon : I.m_blaugon = true)
    (hs : I.m_ss.allocated) (hm : I.m_ms.allocated) :
    ∃ I' b, I.Augment = some (I', b)
      ∧ I'.m_ss.m_Lmd.length = I.m_ss.m_Lmd.length
      ∧ I'.m_ms.m_Lmd.length = I.m_ms.m_Lmd.length
      ∧ (∀ i, i < I.m_ss.m_Lmd.length → vval I'.m_ss.m_Lmd i
          = max 0 (vval I.m_ss.m_Lmd i + (I.m_epsn * vval I.m_ss.m_epsn i) * vval I.m_ss.m_gap i))
      ∧ (∀ i, i < I.m_ms.m_Lmd.length → vval I'.m_ms.m_Lmd i
          = max 0 (vval I.m_ms.m_Lmd i + (I.m_epsn * vval I.m_ms.m_epsn i) * vval I.m_ms.m_gap i)) := by
  refine ⟨_, _, Augment_eq I hon hs hm, ?_, ?_, ?_, ?_⟩
  · exact (Augment_loopS_Lmd _ _ _ _ 0 I.m_ss (by omega)).1
  · exact (Augment_loopS_Lmd _ _ _ _ 0 I.m_ms (by omega)).1
  · intro i hi
    have h := (Augment_loopS_Lmd I.m_epsn I.m_epsp I.m_epsc I.m_ss.m_Lmd.length 0 I.m_ss
      (by omega)).2 i
    have hc : 0 ≤ i ∧ i < 0 + I.m_ss.m_Lmd.length := by omega
    rw [if_pos hc] at h
    exact h
  · intro i hi
    have h := (Augment_loopS_Lmd I.m_epsn I.m_epsp I.m_epsc I.m_ms.m_Lmd.length 0 I.m_ms
      (by omega)).2 i
    have hc : 0 ≤ i ∧ i < 0 + I.m_ms.m_Lmd.length := by omega
    rw [if_pos hc] at h
    exact h

/-- C2 at the scenario of the spec: multiplier 0 and penalty 100 give the new
multiplier 2 for gap 0.02 and 0 for gap -0.05. -/
theorem Augment_multiplier_witness :
    ∃ I' b, scenarioInterface.Augment = some (I', b)
      ∧ vval I'.m_ss.m_Lmd 0 = 2 ∧ vval I'.m_ss.m_Lmd 1 = 0 ∧ vval I'.m_ms.m_Lmd 0 = 3 := by
  obtain ⟨I', b, h, -, -, h1, h2⟩ :=
    Augment_multiplier scenarioInterface rfl scenario_allocated.1 scenario_allocated.2
  refine ⟨I', b, h, ?_, ?_, ?_⟩
  · rw [h1 0 (by simp [scenarioInterface, pointInterface, pointSurface])]
    norm_num [scenarioInterface, pointInterface, pointSurface, vval]
  · rw [h1 1 (by simp [scenarioInterface, pointInterface, pointSurface])]
    norm_num [scenarioInterface, pointInterface, pointSurface, vval]
  · rw [h2 0 (by simp [scenarioInterface, pointInterface, pointSurface])]
    norm_num [scenarioInterface, pointInterface, pointSurface, vval]

/-! ## `Augment`: the convergence decision -/

/-- Recording a facet of `ms`, or no facet, as partner of a point keeps all
partners in `ms`. -/
theorem PartnersIn_set (ms ss : FESlidingSurface3) (n : Nat) (pme : Option Nat)
    (l : List (Option Nat)) (hp : PartnersIn ms ss) (hl : l = ss.m_pme.set n pme)
    (hk : ∀ k, pme = some k → k < ms.el.length) :
    ∀ k, some k ∈ l → k < ms.el.length := by
  intro k hmem
  rw [hl] at hmem
  rcases mem_set_cases _ _ _ _ hmem with h | h
  · exact hk k h.symm
  · exact hp k h

/-- The search for a candidate partner (lines 632-651) succeeds on a sized
surface, leaves partners and gaps as they were and gives a facet of `ms`. -/
theorem ProjectSurface_search_spec (I : FESlidingInterface3) (G : ProjectGeometry)
    (ms : FESlidingSurface3) (bupseg : Bool) (r nu : vec3d) (n N : Nat) (bP bS : Prop)
    (ss : FESlidingSurface3) (rs : ℚ × ℚ) (hs : Sized N bP bS ss) (hn : n < N)
    (hp : PartnersIn ms ss) (hf : FindsIn G ms) :
    ∃ pme rs' ss1, ProjectSurface_search I G ms bupseg r nu n ss rs = some (pme, rs', ss1)
      ∧ Sized N bP bS ss1 ∧ ss1.m_pme = ss.m_pme ∧ ss1.m_gap = ss.m_gap
      ∧ (∀ k, pme = some k → k < ms.el.length) := by
  obtain ⟨h1, h2, h3, h4, h5, h6, h7, h8⟩ := hs
  obtain ⟨p, hp1, hp2⟩ := vget_isSome ss.m_pme n (by omega)
  unfold ProjectSurface_search
  rw [hp1]
  simp only [Option.bind_eq_bind, Option.some_bind]
  cases p with
  | none =>
    simp only [Option.pure_def, Option.some_bind, Option.isNone_none, Bool.true_and]
    cases hb : bupseg with
    | false =>
      exact ⟨none, rs, ss, by simp, ⟨h1, h2, h3, h4, h5, h6, h7, h8⟩, rfl, rfl, by simp⟩
    | true =>
      refine ⟨(G.FindIntersection r nu rs I.m_stol).1, (G.FindIntersection r nu rs I.m_stol).2,
        ss, by simp, ⟨h1, h2, h3, h4, h5, h6, h7, h8⟩, rfl, rfl, fun k hk => hf _ _ _ _ k hk⟩
  | some k =>
    have hk : k < ms.el.length := hp k hp2
    obtain ⟨me, hme, -⟩ := vget_isSome ms.el k hk
    simp only [hme, Option.some_bind]
    cases hI : (G.Intersect me r nu rs I.m_stol).1 with
    | true =>
      have hw := vset_of_lt ss.m_rs n (G.Intersect me r nu rs I.m_stol).2 (by omega)
      simp only [if_true, hw, Option.pure_def, Option.some_bind, Option.isNone_some,
        Bool.false_and, Bool.false_eq_true, if_false]
      exact ⟨some k, _, _, rfl, ⟨h1, h2, by simp [h3], h4, h5, h6, h7, h8⟩, rfl, rfl,
        fun k' hk' => by cases hk'; exact hk⟩
    | false =>
      simp only [Bool.false_eq_true, if_false, Option.pure_def, Option.some_bind,
        Option.isNone_none, Bool.true_and]
      cases hb : bupseg with
      | false =>
        exact ⟨none, _, ss, rfl, ⟨h1, h2, h3, h4, h5, h6, h7, h8⟩, rfl, rfl, by simp⟩
      | true =>
        exact ⟨_, _, ss, rfl, ⟨h1, h2, h3, h4, h5, h6, h7, h8⟩, rfl, rfl,
          fun k hk => hf _ _ _ _ k hk⟩

/-- The branch for a candidate partner (lines 657-697) succeeds on a sized
surface, stores the geometric gap when it is at most `R` and 0 otherwise,
and leaves the multiplier as it was. -/
theorem ProjectSurface_partner_spec (I : FESlidingInterface3) (G : ProjectGeometry)
    (M : FEModel) (ms : FESlidingSurface3) (R : ℚ) (sporo ssolu : Bool) (p1 c1 : ℚ)
    (r nu : vec3d) (rs : ℚ × ℚ) (n k N : Nat) (bP bS : Prop) (ss : FESlidingSurface3)
    (hs : Sized N bP bS ss) (hn : n < N) (hk : k < ms.el.length)
    (hP : sporo = true → bP) (hS : ssolu = true → bS) (hp : PartnersIn ms ss) :
    ∃ me, vget ms.el k = some me ∧ ∃ ss',
      ProjectSurface_partner I G M ms R sporo ssolu p1 c1 r nu rs n k ss = some ss'
      ∧ Sized N bP bS ss' ∧ PartnersIn ms ss'
      ∧ ss'.m_gap = ss.m_gap.set n
          (if geometricGap G me r nu rs ≤ R then geometricGap G me r nu rs else 0)
      ∧ ss'.m_Lmd = ss.m_Lmd := by
  obtain ⟨h1, h2, h3, h4, h5, h6, h7, h8⟩ := hs
  obtain ⟨me, hme, -⟩ := vget_isSome ms.el k hk
  obtain ⟨e, he, -⟩ := vget_isSome ss.m_epsn n (by omega)
  obtain ⟨L, hL, -⟩ := vget_isSome ss.m_Lmd n (by omega)
  have hg : ∀ x, vset ss.m_gap n x = some (ss.m_gap.set n x) :=
    fun x => vset_of_lt _ _ _ (by omega)
  have hpm : ∀ x, vset ss.m_pme n x = some (ss.m_pme.set n x) :=
    fun x => vset_of_lt _ _ _ (by omega)
  refine ⟨me, hme, ?_⟩
  unfold ProjectSurface_partner
  simp only [hme, he, hL, hg, Option.bind_eq_bind, Option.some_bind, Option.pure_def]
  have hgap : nu.dot (r.sub (G.Local2Global me rs.1 rs.2)) = geometricGap G me r nu rs := rfl
  rw [hgap]
  generalize (if geometricGap G me r nu rs ≤ R then geometricGap G me r nu rs else 0) = gv
  have hS7 : ∀ l : List ℚ, l.length = ss.m_pg.length →
      (bP → ss.m_Lmp.length = N ∧ l.length = N) := fun l hl hb => by
    rw [hl]; exact h7 hb
  have hS8 : ∀ l : List ℚ, l.length = ss.m_cg.length →
      (bS → ss.m_Lmc.length = N ∧ l.length = N) := fun l hl hb => by
    rw [hl]; exact h8 hb
  by_cases hC : (decide (L + I.m_epsn * e * geometricGap G me r nu rs ≥ 0)
      && decide (geometricGap G me r nu rs ≤ R)) = true
  · simp only [hC, if_true]
    by_cases c2 : (sporo && (BiphasicSoluteStatus M me).1) = true
    · have hb1 : sporo = true := by simp at c2; exact c2.1
      have w1 : ∀ x, vset ss.m_pg n x = some (ss.m_pg.set n x) :=
        fun x => vset_of_lt _ _ _ (by have := (h7 (hP hb1)).2; omega)
      simp only [c2, if_true, w1, Option.some_bind]
      by_cases c3 : (ssolu && (BiphasicSoluteStatus M me).2) = true
      · have hb2 : ssolu = true := by simp at c3; exact c3.1
        have w2 : ∀ x, vset ss.m_cg n x = some (ss.m_cg.set n x) :=
          fun x => vset_of_lt _ _ _ (by have := (h8 (hS hb2)).2; omega)
        simp only [c3, if_true, w2, Option.some_bind]
        exact ⟨_, rfl, ⟨h1, h2, h3, by simp [h4], h5, h6, hS7 _ (by simp),
          hS8 _ (by simp)⟩, hp, rfl, rfl⟩
      · simp only [c3, if_false]
        exact ⟨_, rfl, ⟨h1, h2, h3, by simp [h4], h5, h6, hS7 _ (by simp), h8⟩,
          hp, rfl, rfl⟩
    · simp only [c2, if_false, Option.some_bind]
      by_cases c3 : (ssolu && (BiphasicSoluteStatus M me).2) = true
      · have hb2 : ssolu = true := by simp at c3; exact c3.1
        have w2 : ∀ x, vset ss.m_cg n x = some (ss.m_cg.set n x) :=
          fun x => vset_of_lt _ _ _ (by have := (h8 (hS hb2)).2; omega)
        simp only [c3, if_true, w2, Option.some_bind]
        exact ⟨_, rfl, ⟨h1, h2, h3, by simp [h4], h5, h6, h7, hS8 _ (by simp)⟩,
          hp, rfl, rfl⟩
      · simp only [c3, if_false]
        exact ⟨_, rfl, ⟨h1, h2, h3, by simp [h4], h5, h6, h7, h8⟩, hp, rfl, rfl⟩
  · -- the partner is rejected
    simp only [hC, if_false, hpm, Option.some_bind]
    exact ⟨_, rfl, ⟨by simp [h1], h2, h3, by simp [h4], h5, h6, h7, h8⟩,
      PartnersIn_set ms ss n none _ hp rfl (by simp), rfl, rfl⟩

/-- The branch without candidate partner (lines 698-711) succeeds on a sized
surface and zeroes the gap and the multiplier. -/
theorem ProjectSurface_nopartner_spec (ms : FESlidingSurface3) (sporo ssolu : Bool) (n N : Nat)
    (bP bS : Prop) (ss : FESlidingSurface3) (hs : Sized N bP bS ss) (hn : n < N)
    (hP : sporo = true → bP) (hS : ssolu = true → bS) (hp : PartnersIn ms ss) :
    ∃ ss', ProjectSurface_nopartner sporo ssolu n ss = some ss'
      ∧ Sized N bP bS ss' ∧ PartnersIn ms ss'
      ∧ ss'.m_gap = ss.m_gap.set n 0 ∧ ss'.m_Lmd = ss.m_Lmd.set n 0 := by
  obtain ⟨h1, h2, h3, h4, h5, h6, h7, h8⟩ := hs
  have hg : ∀ x, vset ss.m_gap n x = some (ss.m_gap.set n x) :=
    fun x => vset_of_lt _ _ _ (by omega)
  have hL : ∀ x, vset ss.m_Lmd n x = some (ss.m_Lmd.set n x) :=
    fun x => vset_of_lt _ _ _ (by omega)
  unfold ProjectSurface_nopartner
  simp only [hg, hL, Option.bind_eq_bind, Option.some_bind, Option.pure_def]
  have hS7 : ∀ l l' : List ℚ, l.length = ss.m_Lmp.length → l'.length = ss.m_pg.length →
      (bP → l.length = N ∧ l'.length = N) := fun l l' hl hl' hb => by
    rw [hl, hl']; exact h7 hb
  have hS8 : ∀ l l' : List ℚ, l.length = ss.m_Lmc.length → l'.length = ss.m_cg.length →
      (bS → l.length = N ∧ l'.length = N) := fun l l' hl hl' hb => by
    rw [hl, hl']; exact h8 hb
  cases hb1 : sporo <;> cases hb2 : ssolu
  · simp only [Bool.false_eq_true, if_false, Option.some_bind]
    exact ⟨_, rfl, ⟨h1, h2, h3, by simp [h4], by simp [h5], h6, h7, h8⟩, hp, rfl, rfl⟩
  · have w3 : ∀ x, vset ss.m_Lmc n x = some (ss.m_Lmc.set n x) :=
      fun x => vset_of_lt _ _ _ (by have := (h8 (hS hb2)).1; omega)
    have w4 : ∀ x, vset ss.m_cg n x = some (ss.m_cg.set n x) :=
      fun x => vset_of_lt _ _ _ (by have := (h8 (hS hb2)).2; omega)
    simp only [Bool.false_eq_true, if_false, if_true, Option.some_bind, w3, w4]
    exact ⟨_, rfl, ⟨h1, h2, h3, by simp [h4], by simp [h5], h6, h7,
      hS8 _ _ (by simp) (by simp)⟩, hp, rfl, rfl⟩
  · have w1 : ∀ x, vset ss.m_Lmp n x = some (ss.m_Lmp.set n x) :=
      fun x => vset_of_lt _ _ _ (by have := (h7 (hP hb1)).1; omega)
    have w2 : ∀ x, vset ss.m_pg n x = some (ss.m_pg.set n x) :=
      fun x => vset_of_lt _ _ _ (by have := (h7 (hP hb1)).2; omega)
    simp only [Bool.false_eq_true, if_false, if_true, Option.some_bind, w1, w2]
    exact ⟨_, rfl, ⟨h1, h2, h3, by simp [h4], by simp [h5], h6,
      hS7 _ _ (by simp) (by simp), h8⟩, hp, rfl, rfl⟩
  · have w1 : ∀ x, vset ss.m_Lmp n x = some (ss.m_Lmp.set n x) :=
      fun x => vset_of_lt _ _ _ (by have := (h7 (hP hb1)).1; omega)
    have w2 : ∀ x, vset ss.m_pg n x = some (ss.m_pg.set n x) :=
      fun x => vset_of_lt _ _ _ (by have := (h7 (hP hb1)).2; omega)
    have w3 : ∀ x, vset ss.m_Lmc n x = some (ss.m_Lmc.set n x) :=
      fun x => vset_of_lt _ _ _ (by have := (h8 (hS hb2)).1; omega)
    have w4 : ∀ x, vset ss.m_cg n x = some (ss.m_cg.set n x) :=
      fun x => vset_of_lt _ _ _ (by have := (h8 (hS hb2)).2; omega)
    simp only [if_true, Option.some_bind, w1, w2, w3, w4]
    exact ⟨_, rfl, ⟨h1, h2, h3, by simp [h4], by simp [h5], h6,
      hS7 _ _ (by simp) (by simp), hS8 _ _ (by simp) (by simp)⟩, hp, rfl, rfl⟩

/-- The loop body of `ProjectSurface` succeeds on a sized surface, advances the
counter and stores at point `n` a gap that is 0 or at most `R`. -/
theorem ProjectSurface_point_spec (I : FESlidingInterface3) (G : ProjectGeometry) (M : FEModel)
    (ms : FESlidingSurface3) (bupseg : Bool) (R : ℚ) (el : FESurfaceElement)
    (sporo ssolu : Bool) (ps cs : List ℚ) (j n N : Nat) (bP bS : Prop)
    (ss : FESlidingSurface3) (rs : ℚ × ℚ) (hs : Sized N bP bS ss) (hn : n < N)
    (hP : sporo = true → bP) (hS : ssolu = true → bS) (hp : PartnersIn ms ss)
    (hf : FindsIn G ms) :
    ∃ ss' rs', ProjectSurface_point I G M ms bupseg R el sporo ssolu ps cs j (ss, n, rs)
        = some (ss', n + 1, rs')
      ∧ Sized N bP bS ss' ∧ PartnersIn ms ss'
      ∧ ∃ x, (x = 0 ∨ x ≤ R) ∧ ss'.m_gap = ss.m_gap.set n x := by
  obtain ⟨pme, rs1, ss1, hsearch, hs1, hpme1, hgap1, hvalid⟩ :=
    ProjectSurface_search_spec I G ms bupseg (G.Local2GlobalGP el j) (G.SurfaceNormal el j)
      n N bP bS ss rs hs hn hp hf
  obtain ⟨h1, h2, h3, h4, h5, h6, h7, h8⟩ := hs1
  have w1 : ∀ x, vset ss1.m_pme n x = some (ss1.m_pme.set n x) :=
    fun x => vset_of_lt _ _ _ (by omega)
  have w2 : ∀ x, vset ss1.m_nu n x = some (ss1.m_nu.set n x) :=
    fun x => vset_of_lt _ _ _ (by omega)
  have w3 : ∀ x, vset ss1.m_rs n x = some (ss1.m_rs.set n x) :=
    fun x => vset_of_lt _ _ _ (by omega)
  have hs2 : Sized N bP bS ({ ss1 with
      m_pme := ss1.m_pme.set n pme
      m_nu := ss1.m_nu.set n (G.SurfaceNormal el j)
      m_rs := ss1.m_rs.set n rs1 } : FESlidingSurface3) :=
    ⟨by simp [h1], by simp [h2], by simp [h3], h4, h5, h6, h7, h8⟩
  have hp2 : PartnersIn ms ({ ss1 with
      m_pme := ss1.m_pme.set n pme
      m_nu := ss1.m_nu.set n (G.SurfaceNormal el j)
      m_rs := ss1.m_rs.set n rs1 } : FESlidingSurface3) :=
    PartnersIn_set ms ss n pme _ hp (by rw [hpme1]) hvalid
  unfold ProjectSurface_point
  simp only [hsearch, w1, w2, w3, Option.bind_eq_bind, Option.some_bind, Option.pure_def]
  cases pme with
  | none =>
    obtain ⟨ss', e1, e2, e3, e4, -⟩ :=
      ProjectSurface_nopartner_spec ms sporo ssolu n N bP bS _ hs2 hn hP hS hp2
    simp only [e1, Option.some_bind]
    exact ⟨ss', rs1, rfl, e2, e3, 0, Or.inl rfl, by rw [e4, ← hgap1]⟩
  | some k =>
    obtain ⟨me, -, ss', e1, e2, e3, e4, -⟩ :=
      ProjectSurface_partner_spec I G M ms R sporo ssolu (G.evalGP el ps j) (G.evalGP el cs j)
        (G.Local2GlobalGP el j) (G.SurfaceNormal el j) rs1 n k N bP bS _ hs2 hn
        (hvalid k rfl) hP hS hp2
    simp only [e1, Option.some_bind]
    refine ⟨ss', rs1, rfl, e2, e3, _, ?_, by rw [e4, ← hgap1]⟩
    by_cases hc : geometricGap G me (G.Local2GlobalGP el j) (G.SurfaceNormal el j) rs1 ≤ R
    · rw [if_pos hc]; exact Or.inr hc
    · rw [if_neg hc]; exact Or.inl rfl

/-- The loop over the Gauss points of a facet keeps the invariant that every
point visited so far has a stored gap that is 0 or at most `R`. -/
theorem ProjectSurface_gauss_spec (I : FESlidingInterface3) (G : ProjectGeometry) (M : FEModel)
    (ms : FESlidingSurface3) (bupseg : Bool) (R : ℚ) (el : FESurfaceElement)
    (sporo ssolu : Bool) (ps cs : List ℚ) (N : Nat) (bP bS : Prop)
    (hP : sporo = true → bP) (hS : ssolu = true → bS) (hf : FindsIn G ms) (cnt : Nat) :
    ∀ (j n : Nat) (ss : FESlidingSurface3) (rs : ℚ × ℚ), Sized N bP bS ss → n + cnt ≤ N →
      PartnersIn ms ss → (∀ i, i < n → vval ss.m_gap i = 0 ∨ vval ss.m_gap i ≤ R) →
      ∃ ss' rs', ProjectSurface_gauss I G M ms bupseg R el sporo ssolu ps cs cnt j (ss, n, rs)
          = some (ss', n + cnt, rs')
        ∧ Sized N bP bS ss' ∧ PartnersIn ms ss'
        ∧ ∀ i, i < n + cnt → vval ss'.m_gap i = 0 ∨ vval ss'.m_gap i ≤ R := by
  induction cnt with
  | zero =>
    intro j n ss rs hs _ hp hg
    exact ⟨ss, rs, rfl, hs, hp, hg⟩
  | succ cnt ih =>
    intro j n ss rs hs hn hp hg
    obtain ⟨ss1, rs1, e1, hs1, hp1, x, hx, hgap⟩ :=
      ProjectSurface_point_spec I G M ms bupseg R el sporo ssolu ps cs j n N bP bS ss rs hs
        (by omega) hP hS hp hf
    have hg1 : ∀ i, i < n + 1 → vval ss1.m_gap i = 0 ∨ vval ss1.m_gap i ≤ R := by
      intro i hi
      rw [hgap]
      by_cases hin : n = i
      · subst hin
        rw [vval_set_eq _ _ _ (by have := hs.2.2.2.1; omega)]
        exact hx
      · rw [vval_set_ne _ _ _ _ hin]
        exact hg i (by omega)
    obtain ⟨ss2, rs2, e2, hs2, hp2, hg2⟩ := ih (j + 1) (n + 1) ss1 rs1 hs1 (by omega) hp1 hg1
    refine ⟨ss2, rs2, ?_, hs2, hp2, ?_⟩
    · simp only [ProjectSurface_gauss, e1, Option.bind_eq_bind, Option.some_bind, e2]
      rw [show n + 1 + cnt = n + (cnt + 1) by omega]
    · intro i hi
      exact hg2 i (by omega)

/-- The loop over the facets keeps the same invariant. -/
theorem ProjectSurface_facets_spec (I : FESlidingInterface3) (G : ProjectGeometry) (M : FEModel)
    (ms : FESlidingSurface3) (bupseg : Bool) (R : ℚ) (N : Nat) (bP bS : Prop)
    (hf : FindsIn G ms) (els : List FESurfaceElement) :
    ∀ (n : Nat) (ss : FESlidingSurface3) (rs : ℚ × ℚ), Sized N bP bS ss →
      n + totalGauss els ≤ N →
      (∀ el ∈ els, (BiphasicSoluteStatus M el).1 = true → bP) →
      (∀ el ∈ els, (BiphasicSoluteStatus M el).2 = true → bS) →
      PartnersIn ms ss → (∀ i, i < n → vval ss.m_gap i = 0 ∨ vval ss.m_gap i ≤ R) →
      ∃ ss' rs', ProjectSurface_facets I G M ms bupseg R els (ss, n, rs)
          = some (ss', n + totalGauss els, rs')
        ∧ Sized N bP bS ss' ∧ PartnersIn ms ss'
        ∧ ∀ i, i < n + totalGauss els → vval ss'.m_gap i = 0 ∨ vval ss'.m_gap i ≤ R := by
  induction els with
  | nil =>
    intro n ss rs hs _ _ _ hp hg
    exact ⟨ss, rs, rfl, hs, hp, hg⟩
  | cons el els ih =>
    intro n ss rs hs hn hP hS hp hg
    have htot : totalGauss (el :: els) = el.nint + totalGauss els := by
      simp [totalGauss]
    obtain ⟨ss1, rs1, e1, hs1, hp1, hg1⟩ :=
      ProjectSurface_gauss_spec I G M ms bupseg R el (BiphasicSoluteStatus M el).1
        (BiphasicSoluteStatus M el).2 (el.m_node.map M.m_pt) (el.m_node.map M.m_ct) N bP bS
        (hP el (List.mem_cons_self _ _)) (hS el (List.mem_cons_self _ _)) hf el.nint 0 n ss rs
        hs (by omega) hp hg
    obtain ⟨ss2, rs2, e2, hs2, hp2, hg2⟩ := ih (n + el.nint) ss1 rs1 hs1 (by omega)
      (fun e he => hP e (List.mem_cons_of_mem _ he))
      (fun e he => hS e (List.mem_cons_of_mem _ he)) hp1 hg1
    refine ⟨ss2, rs2, ?_, hs2, hp2, ?_⟩
    · simp only [ProjectSurface_facets, e1, Option.bind_eq_bind, Option.some_bind, e2]
      rw [htot, show n + el.nint + totalGauss els = n + (el.nint + totalGauss els) by omega]
    · intro i hi
      exact hg2 i (by omega)

/-- The one-facet pair in the flat geometry is in the state `ProjectReady`. -/
theorem oneFacet_ready (Lmd epsn z : ℚ) (pme : Option Nat) (h : ∀ k, pme = some k → k = 0) :
    ProjectReady elasticModel (flatGeometry z) (oneFacetInterface Lmd epsn pme).m_ss
      (oneFacetInterface Lmd epsn pme).m_ms := by
  refine ⟨⟨rfl, rfl, rfl, rfl, rfl, rfl, ?_, ?_⟩, ?_, ?_⟩
  · rintro ⟨el, -, h⟩
    simp [BiphasicSoluteStatus, elasticModel] at h
  · rintro ⟨el, -, h⟩
    simp [BiphasicSoluteStatus, elasticModel] at h
  · intro k hk
    simp [oneFacetInterface, pointInterface, oneFacetSurface] at hk ⊢
    rw [h k hk.symm]
  · intro r nu rs tol k hk
    simp [flatGeometry] at hk
    simp [oneFacetInterface, pointInterface, oneFacetSurface, ← hk]

/-! ## `ProjectSurface`: the state of a point that loses its partner -/

/-- C4, the code at a failing input: a point with zero multiplier and penalty 100
whose previous partner still intersects its normal ray at geometric gap -0.05
(so the trial traction is negative) ends with an empty partner reference and
the stored gap -0.05, not 0. -/
theorem ProjectSurface_lost_partner_keeps_gap :
    ∃ ss', (oneFacetInterface 0 100 (some 0)).ProjectSurface (flatGeometry (-1 / 20)) elasticModel
        (oneFacetInterface 0 100 (some 0)).m_ss (oneFacetInterface 0 100 (some 0)).m_ms true (0, 0)
        = some ss'
      ∧ ss'.m_pme = [none] ∧ ss'.m_gap = [-1 / 20] := by
  norm_num [FESlidingInterface3.ProjectSurface, ProjectSurface_facets, ProjectSurface_gauss,
    ProjectSurface_point, ProjectSurface_search, ProjectSurface_partner,
    ProjectSurface_nopartner, BiphasicSoluteStatus, searchRadius, vget, vset, vec3d.dot,
    vec3d.sub, oneFacetInterface, oneFacetSurface, pointInterface, flatGeometry, elasticModel]

/-- C5, the code at a failing input: with search radius 1, a point with multiplier
3 whose projection succeeds at geometric gap 2 ends with stored gap 0 and an
empty partner reference, but its multiplier is still 3. -/
theorem ProjectSurface_beyond_radius_keeps_multiplier :
    searchRadius (oneFacetInterface 3 1 (some 0)) elasticModel = 1
    ∧ geometricGap (flatGeometry 2) ⟨0, 1, [0, 1, 2, 3], 1⟩ ⟨0, 0, 2⟩ ⟨0, 0, 1⟩ (0, 0) = 2
    ∧ ∃ ss', (oneFacetInterface 3 1 (some 0)).ProjectSurface (flatGeometry 2) elasticModel
        (oneFacetInterface 3 1 (some 0)).m_ss (oneFacetInterface 3 1 (some 0)).m_ms true (0, 0)
        = some ss'
      ∧ ss'.m_pme = [none] ∧ ss'.m_gap = [0] ∧ ss'.m_Lmd = [3] := by
  norm_num [FESlidingInterface3.ProjectSurface, ProjectSurface_facets, ProjectSurface_gauss,
    ProjectSurface_point, ProjectSurface_search, ProjectSurface_partner,
    ProjectSurface_nopartner, BiphasicSoluteStatus, searchRadius, vget, vset, vec3d.dot,
    vec3d.sub, oneFacetInterface, oneFacetSurface, pointInterface, flatGeometry, elasticModel,
    geometricGap]

/-! ## `ProjectSurface`: the stored gap and the search radius -/

/-- C6, counterexample to the claim as stated: with search radius 1, a point with
multiplier 20 and penalty 1 whose projection succeeds at geometric gap -10 keeps
its partner and the stored gap -10, whose magnitude exceeds the radius. -/
theorem ProjectSurface_gap_magnitude_counterexample :
    searchRadius (oneFacetInterface 20 1 (some 0)) elasticModel = 1
    ∧ ∃ ss', (oneFacetInterface 20 1 (some 0)).ProjectSurface (flatGeometry (-10)) elasticModel
        (oneFacetInterface 20 1 (some 0)).m_ss (oneFacetInterface 20 1 (some 0)).m_ms true (0, 0)
        = some ss'
      ∧ ss'.m_pme = [some 0] ∧ ss'.m_gap = [-10]
      ∧ ¬ |vval ss'.m_gap 0| ≤ searchRadius (oneFacetInterface 20 1 (some 0)) elasticModel := by
  norm_num [FESlidingInterface3.ProjectSurface, ProjectSurface_facets, ProjectSurface_gauss,
    ProjectSurface_point, ProjectSurface_search, ProjectSurface_partner,
    ProjectSurface_nopartner, BiphasicSoluteStatus, searchRadius, vget, vset, vec3d.dot,
    vec3d.sub, oneFacetInterface, oneFacetSurface, pointInterface, flatGeometry, elasticModel,
    vval]

/-- C6, amended: from a state as `Init` allocates it, `ProjectSurface` returns and
every stored gap of an integration point is 0 or at most the search radius `R`:
a gap above `R` is never retained (a gap below `-R` may be). -/
theorem ProjectSurface_gap_le_radius (I : FESlidingInterface3) (G : ProjectGeometry)
    (M : FEModel) (ss ms : FESlidingSurface3) (bupseg : Bool) (rs0 : ℚ × ℚ)
    (h : ProjectReady M G ss ms) :
    ∃ ss', I.ProjectSurface G M ss ms bupseg rs0 = some ss'
      ∧ ss'.m_gap.length = ss.m_gap.length
      ∧ ∀ n, n < totalGauss ss.el →
          vval ss'.m_gap n = 0 ∨ vval ss'.m_gap n ≤ searchRadius I M := by
  obtain ⟨hs, hp, hf⟩ := h
  obtain ⟨ss', rs', e, hs', -, hg⟩ :=
    ProjectSurface_facets_spec I G M ms bupseg (searchRadius I M) (totalGauss ss.el) _ _ hf
      ss.el 0 ss rs0 hs (by omega) (fun el he h => ⟨el, he, h⟩) (fun el he h => ⟨el, he, h⟩) hp
      (fun i hi => absurd hi (Nat.not_lt_zero i))
  refine ⟨ss', ?_, ?_, ?_⟩
  · simp [FESlidingInterface3.ProjectSurface, e]
  · rw [hs'.2.2.2.1, hs.2.2.2.1]
  · intro n hn
    exact hg n (by omega)

/-- C6 at a point with geometric gap 0.5 and search radius 1. -/
theorem ProjectSurface_gap_le_radius_witness :
    ∃ ss', (oneFacetInterface 3 1 (some 0)).ProjectSurface (flatGeometry (1 / 2)) elasticModel
        (oneFacetInterface 3 1 (some 0)).m_ss (oneFacetInterface 3 1 (some 0)).m_ms false (0, 0)
        = some ss'
      ∧ (vval ss'.m_gap 0 = 0 ∨ vval ss'.m_gap 0 ≤ 1) := by
  obtain ⟨ss', h1, -, h2⟩ :=
    ProjectSurface_gap_le_radius (oneFacetInterface 3 1 (some 0)) (flatGeometry (1 / 2))
      elasticModel (oneFacetInterface 3 1 (some 0)).m_ss (oneFacetInterface 3 1 (some 0)).m_ms
      false (0, 0) (oneFacet_ready 3 1 (1 / 2) (some 0) (fun k hk => by cases hk; rfl))
  refine ⟨ss', h1, ?_⟩
  have h3 := h2 0 (by simp [totalGauss, oneFacetInterface, pointInterface, oneFacetSurface])
  have h4 : searchRadius (oneFacetInterface 3 1 (some 0)) elasticModel = 1 := by
    norm_num [searchRadius, oneFacetInterface, pointInterface, elasticModel]
  rw [h4] at h3
  exact h3

/-! ## `Serialize`: reading back what was written -/

/-- Reading back the entries of a vector. -/
theorem getEntries_map {α : Type} (get : DumpValue → Option α) (put : α → DumpValue)
    (h : ∀ a, get (put a) = some a) (rest : DumpFile) (v : List α) :
    getEntries get v.length (v.map put ++ rest) = some (v, rest) := by
  induction v with
  | nil => rfl
  | cons a v ih => simp [getEntries, h, ih]

/-- Reading back a vector. -/
theorem getVector_putVector {α : Type} (get : DumpValue → Option α) (put : α → DumpValue)
    (h : ∀ a, get (put a) = some a) (rest : DumpFile) (v : List α) :
    getVector get (putVector put v ++ rest) = some (v, rest) := by
  simp [getVector, putVector, getInt, getEntries_map get put h]

/-- Reading back a vector of doubles. -/
theorem getDoubles (rest : DumpFile) (v : List ℚ) :
    getVector asDouble (putVector DumpValue.double v ++ rest) = some (v, rest) :=
  getVector_putVector asDouble DumpValue.double (fun _ => rfl) rest v

/-- Reading back a vector of ints. -/
theorem getInts (rest : DumpFile) (v : List Int) :
    getVector asInt (putVector DumpValue.int v ++ rest) = some (v, rest) :=
  getVector_putVector asInt DumpValue.int (fun _ => rfl) rest v

/-- Reading back a vector of pairs of doubles. -/
theorem getVec2s (rest : DumpFile) (v : List (ℚ × ℚ)) :
    getVector asVec2 (putVector DumpValue.vec2 v ++ rest) = some (v, rest) :=
  getVector_putVector asVec2 DumpValue.vec2 (fun _ => rfl) rest v

/-- Reading back a vector of `vec3d`. -/
theorem getVec3s (rest : DumpFile) (v : List vec3d) :
    getVector asVec3 (putVector DumpValue.vec3 v ++ rest) = some (v, rest) :=
  getVector_putVector asVec3 DumpValue.vec3 (fun _ => rfl) rest v

/-- A sequence of two reads succeeds exactly when both do. -/
theorem readThen_eq_some {α β : Type} (o : Option (α × DumpFile))
    (k : α → DumpFile → Option β) (b : β) :
    readThen o k = some b ↔ ∃ a ar, o = some (a, ar) ∧ k a ar = some b := by
  cases o with
  | none => simp [readThen]
  | some p =>
    obtain ⟨a, ar⟩ := p
    simp only [readThen]
    constructor
    · intro h; exact ⟨a, ar, rfl, h⟩
    · rintro ⟨a', ar', h1, h2⟩
      cases h1
      exact h2

/-- Loading the data that the saving branch wrote for `s` gives the members of
`s`, the facet table and the partners of the loading surface being kept. -/
theorem Serialize_load_data_save (s t : FESlidingSurface3) (baseOut : DumpFile)
    (baseIn : DumpFile → Option DumpFile) (tail : DumpFile)
    (hbase : ∀ rest, baseIn (baseOut ++ rest) = some rest) :
    t.Serialize_load_data baseIn
      ([DumpValue.bool s.m_bporo, DumpValue.bool s.m_bsolu] ++ (baseOut
        ++ (putVector DumpValue.double s.m_gap
        ++ (putVector DumpValue.vec3 s.m_nu
        ++ (putVector DumpValue.vec2 s.m_rs
        ++ (putVector DumpValue.double s.m_Lmd
        ++ (putVector DumpValue.double s.m_Lmp
        ++ (putVector DumpValue.double s.m_Lmc
        ++ (putVector DumpValue.int s.m_nei
        ++ (putVector DumpValue.double s.m_epsn
        ++ (putVector DumpValue.double s.m_epsp
        ++ (putVector DumpValue.double s.m_epsc
        ++ (putVector DumpValue.vec3 s.m_nn
        ++ (putVector DumpValue.double s.m_pg
        ++ (putVector DumpValue.double s.m_cg
        ++ (putVector DumpValue.double s.m_Ln ++ tail))))))))))))))))
      = some ({ s with el := t.el, m_pme := t.m_pme }, tail) := by
  simp only [FESlidingSurface3.Serialize_load_data, List.cons_append, List.nil_append, getBool,
    readThen, hbase, Option.map_some', getDoubles, getInts, getVec2s, getVec3s]

/-- Loading the data does not touch the partners. -/
theorem Serialize_load_data_pme (t t1 : FESlidingSurface3) (baseIn : DumpFile → Option DumpFile)
    (ar ar1 : DumpFile) (h : t.Serialize_load_data baseIn ar = some (t1, ar1)) :
    t1.m_pme = t.m_pme := by
  simp only [FESlidingSurface3.Serialize_load_data, readThen_eq_some] at h
  obtain ⟨_, _, _, _, _, _, _, _, _, _, _, _, _, _, _, _, _, _, _, _, _, _, _, _, _, _, _, _, _,
    _, _, _, _, _, _, _, _, _, _, _, _, _, _, _, _, _, _, _, _, _, _, h⟩ := h
  have := (Prod.mk.inj (Option.some.inj h)).1
  rw [← this]

/-- For partners that are facets of a sibling with local ids `k`, the saving
branch stores one id per point, from which `partnerOfId` gives the partner
back, and every stored id that is not negative is the local id of a facet. -/
theorem partnerIds_ok (sib : FESlidingSurface3) (hids : LocalIds sib) (l : List (Option Nat)) :
    (∀ k, some k ∈ l → k < sib.el.length) →
    ∃ ids, partnerIds sib l = some ids ∧ ids.length = l.length
      ∧ ids.map partnerOfId = l
      ∧ ∀ id ∈ ids, 0 ≤ id → ∃ e, vget sib.el id.toNat = some e ∧ e.m_lid = id := by
  induction l with
  | nil => intro _; exact ⟨[], rfl, rfl, rfl, fun _ h => by cases h⟩
  | cons pe l ih =>
    intro h
    obtain ⟨ids, h1, h2, h3, h4⟩ := ih (fun k hk => h k (List.mem_cons_of_mem _ hk))
    cases pe with
    | none =>
      refine ⟨-1 :: ids, by simp [partnerIds, partnerId, h1], by simp [h2],
        by simp [partnerOfId, h3], ?_⟩
      intro id hid hpos
      rcases List.mem_cons.mp hid with rfl | hid
      · omega
      · exact h4 id hid hpos
    | some k =>
      obtain ⟨e, he, -⟩ := vget_isSome sib.el k (h k (List.mem_cons_self _ _))
      have hl : e.m_lid = k := hids k e he
      refine ⟨(k : Int) :: ids, by simp [partnerIds, partnerId, h1, he, hl], by simp [h2],
        by simp [partnerOfId, h3], ?_⟩
      intro id hid hpos
      rcases List.mem_cons.mp hid with rfl | hid
      · exact ⟨e, by simpa using he, hl⟩
      · exact h4 id hid hpos

/-- The partner loop of the loading branch on stored ids that are negative or
local ids of facets of the sibling: point `i + j` gets the partner of the
id number `j`. -/
theorem Serialize_load_partners_ok (sib : FESlidingSurface3) (rest : DumpFile)
    (ids : List Int) :
    ∀ (i : Nat) (m_pme : List (Option Nat)), i + ids.length ≤ m_pme.length →
      (∀ id ∈ ids, 0 ≤ id → ∃ e, vget sib.el id.toNat = some e ∧ e.m_lid = id) →
      ∃ m_pme', Serialize_load_partners sib ids.length i m_pme (ids.map DumpValue.int ++ rest)
          = some (m_pme', rest)
        ∧ m_pme'.length = m_pme.length
        ∧ (∀ j, j < i → m_pme'[j]? = m_pme[j]?)
        ∧ (∀ j, j < ids.length → m_pme'[i + j]? = (ids.map partnerOfId)[j]?) := by
  induction ids with
  | nil =>
    intro i m_pme _ _
    exact ⟨m_pme, rfl, rfl, fun _ _ => rfl, fun j hj => absurd hj (Nat.not_lt_zero j)⟩
  | cons id ids ih =>
    intro i m_pme hlen hok
    have hi : i < m_pme.length := by simp at hlen; omega
    have hstep : Serialize_load_partner sib i m_pme
        (DumpValue.int id :: (ids.map DumpValue.int ++ rest))
        = some (m_pme.set i (partnerOfId id), ids.map DumpValue.int ++ rest) := by
      by_cases hneg : id < 0
      · simp [Serialize_load_partner, getInt, readThen, hneg, vset, hi, partnerOfId]
      · obtain ⟨e, he, hlid⟩ := hok id (List.mem_cons_self _ _) (by omega)
        simp [Serialize_load_partner, getInt, readThen, hneg, vset, hi, partnerOfId, he, hlid]
    obtain ⟨m_pme', h1, h2, h3, h4⟩ := ih (i + 1) (m_pme.set i (partnerOfId id))
      (by simp at hlen ⊢; omega) (fun x hx => hok x (List.mem_cons_of_mem _ hx))
    refine ⟨m_pme', ?_, ?_, ?_, ?_⟩
    · simp only [List.length_cons, List.map_cons, List.cons_append, Serialize_load_partners,
        hstep, readThen, h1]
    · simpa using h2
    · intro j hj
      rw [h3 j (by omega), List.getElem?_set_ne (by omega)]
    · intro j hj
      cases j with
      | zero =>
        rw [Nat.add_zero, h3 i (by omega)]
        simp [List.getElem?_set_self, hi]
      | succ j =>
        have := h4 j (by simp at hj; omega)
        rw [show i + (j + 1) = i + 1 + j by omega, this]
        simp

/-- The facet of a one-facet surface has local id 0. -/
theorem oneFacet_localIds (Lmd epsn : ℚ) (pme : Option Nat) :
    LocalIds (oneFacetSurface Lmd epsn pme) := by
  intro k e h
  cases k with
  | zero =>
    simp [vget, oneFacetSurface] at h
    rw [← h]; rfl
  | succ k => simp [vget, oneFacetSurface] at h

/-! ## `Serialize`: the round trip -/

/-- C7: a surface whose partners are facets of the sibling, saved with
`Serialize` and loaded into a surface with the same number of integration
points whose sibling's facet `k` has local id `k` (the base class reading back
what it wrote), is reproduced: gaps, the three multipliers, the three
penalties and the partners are those saved, and so is every other member but
the facet table, which is not persisted. -/
theorem Serialize_roundtrip (s t sib : FESlidingSurface3) (baseOut : DumpFile)
    (baseIn : DumpFile → Option DumpFile) (rest : DumpFile)
    (hbase : ∀ r, baseIn (baseOut ++ r) = some r)
    (hlen : t.m_pme.length = s.m_pme.length)
    (hids : LocalIds sib) (hp : PartnersIn sib s) :
    ∃ ar, s.Serialize_save baseOut sib = some ar
      ∧ ∃ t', t.Serialize_load baseIn sib (ar ++ rest) = some (t', rest)
        ∧ t'.m_gap = s.m_gap
        ∧ t'.m_Lmd = s.m_Lmd ∧ t'.m_Lmp = s.m_Lmp ∧ t'.m_Lmc = s.m_Lmc
        ∧ t'.m_epsn = s.m_epsn ∧ t'.m_epsp = s.m_epsp ∧ t'.m_epsc = s.m_epsc
        ∧ t'.m_pme = s.m_pme
        ∧ t' = { s with el := t.el } := by
  obtain ⟨ids, h1, h2, h3, h4⟩ := partnerIds_ok sib hids s.m_pme hp
  obtain ⟨m_pme', e1, e2, -, e4⟩ :=
    Serialize_load_partners_ok sib rest ids 0 t.m_pme (by omega) h4
  have hpme : m_pme' = s.m_pme := by
    apply List.ext_getElem?
    intro j
    by_cases hj : j < ids.length
    · have := e4 j hj
      rw [Nat.zero_add, h3] at this
      exact this
    · rw [List.getElem?_eq_none (by omega), List.getElem?_eq_none (by omega)]
  subst hpme
  refine ⟨_, by simp only [FESlidingSurface3.Serialize_save, h1, Option.bind_eq_bind,
    Option.some_bind, Option.pure_def]; rfl, ?_⟩
  refine ⟨{ s with el := t.el }, ?_, rfl, rfl, rfl, rfl, rfl, rfl, rfl, rfl, rfl⟩
  simp only [FESlidingSurface3.Serialize_load, List.append_assoc, List.cons_append,
    List.nil_append]
  have hd := Serialize_load_data_save s t baseOut baseIn
    (DumpValue.int (s.m_pme.length : Nat) :: (ids.map DumpValue.int ++ rest)) hbase
  simp only [List.cons_append, List.nil_append] at hd
  rw [hd]
  simp only [readThen, getInt, hlen, if_true, Int.toNat_ofNat]
  rw [← h2, e1]

/-- C7 at a surface with two integration points, one of them in contact. -/
theorem Serialize_roundtrip_witness :
    ∃ ar t', checkpointSurface.Serialize_save [] (oneFacetSurface 0 1 none) = some ar
      ∧ initialSurface.Serialize_load some (oneFacetSurface 0 1 none) (ar ++ []) = some (t', [])
      ∧ t'.m_gap = [1 / 50, 0] ∧ t'.m_Lmd = [2, 0] ∧ t'.m_epsn = [100, 100]
      ∧ t'.m_pme = [some 0, none] := by
  obtain ⟨ar, h1, t', h2, h3, h4, -, -, h5, -, -, h6, -⟩ :=
    Serialize_roundtrip checkpointSurface initialSurface (oneFacetSurface 0 1 none) [] some []
      (fun r => rfl) rfl (oneFacet_localIds 0 1 none)
      (by
        intro k hk
        simp [checkpointSurface] at hk
        simp [hk, oneFacetSurface])
  exact ⟨ar, t', h1, h2, h3, h4, h5, h6⟩

/-! ## The auto-penalty estimators -/

/-- The assignment of a penalty within the bounds succeeds. -/
theorem PenaltyField_assign_spec (f : PenaltyField) (s : FESlidingSurface3) (ni : Nat) (eps : ℚ)
    (h : ni < (f.vec s).length) :
    ∃ s', f.assign s ni eps = some s' ∧ f.vec s' = (f.vec s).set ni eps ∧ s'.el = s.el := by
  cases f <;>
    simp only [PenaltyField.vec] at h <;>
    simp [PenaltyField.assign, PenaltyField.vec, vset, h]

/-- The assignment loop writes `eps` at the points `ni, ..., ni+cnt-1` and
leaves the points before `ni` as they were. -/
theorem CalcAuto_assign_spec (f : PenaltyField) (eps : ℚ) (cnt : Nat) :
    ∀ (s : FESlidingSurface3) (ni : Nat), ni + cnt ≤ (f.vec s).length →
      ∃ s', CalcAuto_assign f eps cnt s ni = some (s', ni + cnt)
        ∧ (f.vec s').length = (f.vec s).length ∧ s'.el = s.el
        ∧ (∀ j, j < ni → vval (f.vec s') j = vval (f.vec s) j)
        ∧ (∀ j, ni ≤ j → j < ni + cnt → vval (f.vec s') j = eps) := by
  induction cnt with
  | zero =>
    intro s ni _
    exact ⟨s, rfl, rfl, rfl, fun _ _ => rfl, fun j h1 h2 => by omega⟩
  | succ cnt ih =>
    intro s ni h
    obtain ⟨s1, e1, e2, e3⟩ := PenaltyField_assign_spec f s ni eps (by omega)
    have hlen : (f.vec s1).length = (f.vec s).length := by rw [e2]; simp
    obtain ⟨s2, g1, g2, g3, g4, g5⟩ := ih s1 (ni + 1) (by rw [hlen]; omega)
    refine ⟨s2, ?_, by rw [g2, hlen], by rw [g3, e3], ?_, ?_⟩
    · simp only [CalcAuto_assign, e1, g1]
      rw [show ni + 1 + cnt = ni + (cnt + 1) by omega]
    · intro j hj
      rw [g4 j (by omega), e2, vval_set_ne _ _ _ _ (by omega)]
    · intro j h1 h2
      by_cases hj : j = ni
      · subst hj
        rw [g4 j (by omega), e2, vval_set_eq _ _ _ (by omega)]
      · exact g5 j (by omega) (by omega)

/-- The number of integration points of a facet table with a first facet. -/
theorem totalGauss_cons (el : FESurfaceElement) (els : List FESurfaceElement) :
    totalGauss (el :: els) = el.nint + totalGauss els := by
  simp [totalGauss]

/-- The facet loop of an estimator, when every facet finds its element: the
points of facet `i` get `modulus*A/V` of that facet. -/
theorem CalcAuto_facets_spec (m : FEModel) (FaceArea modulus : FESurfaceElement → ℚ)
    (f : PenaltyField) (els : List FESurfaceElement) :
    ∀ (s : FESlidingSurface3) (ni : Nat), ni + totalGauss els ≤ (f.vec s).length →
      (∀ el ∈ els, ∃ pe, m.FindElementFromID el.m_nelem = some pe) →
      ∃ s', CalcAuto_facets m FaceArea modulus f els s ni = some (s', ni + totalGauss els)
        ∧ (f.vec s').length = (f.vec s).length ∧ s'.el = s.el
        ∧ (∀ j, j < ni → vval (f.vec s') j = vval (f.vec s) j)
        ∧ (∀ i el pe, els[i]? = some el → m.FindElementFromID el.m_nelem = some pe →
            ∀ j, j < el.nint → vval (f.vec s') (ni + totalGauss (els.take i) + j)
              = modulus el * FaceArea el / m.ElementVolume pe) := by
  induction els with
  | nil =>
    intro s ni _ _
    exact ⟨s, rfl, rfl, rfl, fun _ _ => rfl, fun i el pe h => by simp at h⟩
  | cons el els ih =>
    intro s ni hlen hfound
    obtain ⟨pe, hpe⟩ := hfound el (List.mem_cons_self _ _)
    rw [totalGauss_cons] at hlen
    obtain ⟨s1, e1, e2, e3, e4, e5⟩ :=
      CalcAuto_assign_spec f (modulus el * FaceArea el / m.ElementVolume pe) el.nint s ni
        (by omega)
    obtain ⟨s2, g1, g2, g3, g4, g5⟩ := ih s1 (ni + el.nint) (by rw [e2]; omega)
      (fun e he => hfound e (List.mem_cons_of_mem _ he))
    refine ⟨s2, ?_, by rw [g2, e2], by rw [g3, e3], ?_, ?_⟩
    · simp only [CalcAuto_facets, hpe, e1, g1, totalGauss_cons]
      rw [show ni + el.nint + totalGauss els = ni + (el.nint + totalGauss els) by omega]
    · intro j hj
      rw [g4 j (by omega), e4 j hj]
    · intro i el' pe' hi hpe' j hj
      cases i with
      | zero =>
        simp only [List.getElem?_cons_zero, Option.some.injEq] at hi
        subst hi
        rw [hpe] at hpe'
        cases hpe'
        simp only [List.take_zero, totalGauss, List.map_nil, List.sum_nil, Nat.add_zero]
        rw [g4 _ (by omega)]
        exact e5 _ (by omega) (by omega)
      | succ i =>
        simp only [List.getElem?_cons_succ] at hi
        have := g5 i el' pe' hi hpe' j hj
        rw [List.take_succ_cons, totalGauss_cons,
          show ni + (el.nint + totalGauss (List.take i els)) + j
            = ni + el.nint + totalGauss (List.take i els) + j by omega]
        exact this

/-- The estimator for the field `f`, from the first facet and counter 0. -/
theorem CalcAuto_value (m : FEModel) (FaceArea modulus : FESurfaceElement → ℚ)
    (f : PenaltyField) (s : FESlidingSurface3)
    (hfound : ∀ el ∈ s.el, ∃ pe, m.FindElementFromID el.m_nelem = some pe)
    (hlen : (f.vec s).length = totalGauss s.el) :
    ∃ s', (CalcAuto_facets m FaceArea modulus f s.el s 0).map (fun st => st.1) = some s'
      ∧ (f.vec s').length = (f.vec s).length
      ∧ ∀ i el pe, s.el[i]? = some el → m.FindElementFromID el.m_nelem = some pe →
          ∀ j, j < el.nint → vval (f.vec s') (pointOffset s i + j)
            = modulus el * FaceArea el / m.ElementVolume pe := by
  obtain ⟨s', e1, e2, -, -, e5⟩ :=
    CalcAuto_facets_spec m FaceArea modulus f s.el s 0 (by omega) hfound
  refine ⟨s', by simp [e1], e2, ?_⟩
  intro i el pe hi hpe j hj
  have := e5 i el pe hi hpe j hj
  rw [Nat.zero_add] at this
  exact this

/-- The pressure modulus is 0 for an element that is not solid or whose
material is neither biphasic nor biphasic-solute. -/
theorem AutoPressurePenalty_zero (m : FEModel) (el : FESurfaceElement) (pe : FEElement)
    (hpe : m.FindElementFromID el.m_nelem = some pe)
    (h : pe.solid = false
      ∨ ((m.GetMaterial pe.matID).biph = none ∧ (m.GetMaterial pe.matID).bsolu = none)) :
    AutoPressurePenalty m el = 0 := by
  rcases h with h | ⟨h1, h2⟩
  · simp [AutoPressurePenalty, hpe, h]
  · by_cases hs : pe.solid = true
    · simp [AutoPressurePenalty, hpe, hs, h1, h2]
    · simp [AutoPressurePenalty, hpe, hs]

/-- The concentration modulus is 0 for an element that is not solid or whose
material is not biphasic-solute. -/
theorem AutoConcentrationPenalty_zero (m : FEModel) (el : FESurfaceElement) (pe : FEElement)
    (hpe : m.FindElementFromID el.m_nelem = some pe)
    (h : pe.solid = false ∨ (m.GetMaterial pe.matID).bsolu = none) :
    AutoConcentrationPenalty m el = 0 := by
  rcases h with h | h
  · simp [AutoConcentrationPenalty, hpe, h]
  · by_cases hs : pe.solid = true
    · simp [AutoConcentrationPenalty, hpe, hs, h]
    · simp [AutoConcentrationPenalty, hpe, hs]

/-- C9: when every facet finds its element and the penalty vector has one entry
per integration point, `CalcAutoPenalty` (resp. `CalcAutoPressurePenalty`,
`CalcAutoConcentrationPenalty`) returns and the penalty stored at index
(Gauss points of the facets before `i`) `+ j`, for `j` below the Gauss points of
facet `i`, is `modulus_i * A_i / V_i`. -/
theorem CalcAutoPenalty_value (m : FEModel) (FaceArea BulkModulus : FESurfaceElement → ℚ)
    (s : FESlidingSurface3)
    (hfound : ∀ el ∈ s.el, ∃ pe, m.FindElementFromID el.m_nelem = some pe) :
    (s.m_epsn.length = totalGauss s.el →
      ∃ s', CalcAutoPenalty m FaceArea BulkModulus s = some s'
        ∧ s'.m_epsn.length = s.m_epsn.length
        ∧ ∀ i el pe, s.el[i]? = some el → m.FindElementFromID el.m_nelem = some pe →
            ∀ j, j < el.nint → vval s'.m_epsn (pointOffset s i + j)
              = BulkModulus el * FaceArea el / m.ElementVolume pe)
    ∧ (s.m_epsp.length = totalGauss s.el →
      ∃ s', CalcAutoPressurePenalty m FaceArea s = some s'
        ∧ s'.m_epsp.length = s.m_epsp.length
        ∧ ∀ i el pe, s.el[i]? = some el → m.FindElementFromID el.m_nelem = some pe →
            ∀ j, j < el.nint → vval s'.m_epsp (pointOffset s i + j)
              = AutoPressurePenalty m el * FaceArea el / m.ElementVolume pe)
    ∧ (s.m_epsc.length = totalGauss s.el →
      ∃ s', CalcAutoConcentrationPenalty m FaceArea s = some s'
        ∧ s'.m_epsc.length = s.m_epsc.length
        ∧ ∀ i el pe, s.el[i]? = some el → m.FindElementFromID el.m_nelem = some pe →
            ∀ j, j < el.nint → vval s'.m_epsc (pointOffset s i + j)
              = AutoConcentrationPenalty m el * FaceArea el / m.ElementVolume pe) :=
  ⟨fun h => CalcAuto_value m FaceArea BulkModulus PenaltyField.normal s hfound h,
   fun h => CalcAuto_value m FaceArea (AutoPressurePenalty m) PenaltyField.pressure s hfound h,
   fun h => CalcAuto_value m FaceArea (AutoConcentrationPenalty m) PenaltyField.concentration s
     hfound h⟩

/-- C9 at the scenario of the spec: area 0.25, volume 1 and modulus 10 give the
penalty 2.5. -/
theorem CalcAutoPenalty_value_witness :
    ∃ s', CalcAutoPenalty elasticModel (fun _ => 1 / 4) (fun _ => 10) (oneFacetSurface 0 1 none)
        = some s'
      ∧ vval s'.m_epsn 0 = 5 / 2 := by
  obtain ⟨s', h1, -, h2⟩ :=
    (CalcAutoPenalty_value elasticModel (fun _ => 1 / 4) (fun _ => 10) (oneFacetSurface 0 1 none)
      (fun el _ => ⟨⟨true, 0⟩, rfl⟩)).1 rfl
  refine ⟨s', h1, ?_⟩
  have := h2 0 ⟨0, 1, [0, 1, 2, 3], 1⟩ ⟨true, 0⟩ rfl rfl 0 (by decide)
  simp only [pointOffset, List.take_zero, totalGauss, List.map_nil, List.sum_nil,
    Nat.add_zero] at this
  rw [this]
  norm_num [elasticModel]

/-- C10, counterexample to the claim as stated: in a mesh where the facet's element
is not found the proxy moduli are 0, but the pressure and the concentration
estimator fail `assert(pe)` instead of completing. -/
theorem CalcAuto_missing_element_counterexample :
    AutoPressurePenalty orphanModel ⟨0, 1, [0, 1, 2, 3], 1⟩ = 0
    ∧ AutoConcentrationPenalty orphanModel ⟨0, 1, [0, 1, 2, 3], 1⟩ = 0
    ∧ CalcAutoPressurePenalty orphanModel (fun _ => 1 / 4) (oneFacetSurface 0 1 none) = none
    ∧ CalcAutoConcentrationPenalty orphanModel (fun _ => 1 / 4) (oneFacetSurface 0 1 none)
        = none := by
  refine ⟨rfl, rfl, rfl, rfl⟩

/-- The facet loop of an estimator fails when some facet does not find its
element. -/
theorem CalcAuto_facets_missing (m : FEModel) (FaceArea modulus : FESurfaceElement → ℚ)
    (f : PenaltyField) (els : List FESurfaceElement) :
    ∀ (s : FESlidingSurface3) (ni : Nat),
      (∃ el ∈ els, m.FindElementFromID el.m_nelem = none) →
      CalcAuto_facets m FaceArea modulus f els s ni = none := by
  induction els with
  | nil => intro s ni h; obtain ⟨el, hel, -⟩ := h; cases hel
  | cons el els ih =>
    intro s ni h
    cases hpe : m.FindElementFromID el.m_nelem with
    | none => simp only [CalcAuto_facets, hpe]
    | some pe =>
      have htail : ∃ e ∈ els, m.FindElementFromID e.m_nelem = none := by
        obtain ⟨e, he, hnone⟩ := h
        rcases List.mem_cons.mp he with rfl | he
        · rw [hpe] at hnone; cases hnone
        · exact ⟨e, he, hnone⟩
      simp only [CalcAuto_facets, hpe]
      cases hassign : CalcAuto_assign f (modulus el * FaceArea el / m.ElementVolume pe)
          el.nint s ni with
      | none => rfl
      | some st =>
        obtain ⟨s1, n1⟩ := st
        exact ih s1 n1 htail

/-- C10, amended: when every facet finds its element, each estimator returns and
stores penalty 0 at all integration points of every facet whose element has
nonzero volume and is not a solid element or has a material without the
matching capability (for `CalcAutoPenalty`, whose modulus function is not among
the sources: of every facet whose modulus is 0); when some facet does not find
its element, each estimator fails `assert(pe)`. -/
theorem CalcAuto_inactive_zero (m : FEModel) (FaceArea BulkModulus : FESurfaceElement → ℚ)
    (s : FESlidingSurface3) :
    ((∀ el ∈ s.el, ∃ pe, m.FindElementFromID el.m_nelem = some pe) →
      (s.m_epsn.length = totalGauss s.el →
        ∃ s', CalcAutoPenalty m FaceArea BulkModulus s = some s'
          ∧ ∀ i el pe, s.el[i]? = some el → m.FindElementFromID el.m_nelem = some pe →
              m.ElementVolume pe ≠ 0 → BulkModulus el = 0 →
              ∀ j, j < el.nint → vval s'.m_epsn (pointOffset s i + j) = 0)
      ∧ (s.m_epsp.length = totalGauss s.el →
        ∃ s', CalcAutoPressurePenalty m FaceArea s = some s'
          ∧ ∀ i el pe, s.el[i]? = some el → m.FindElementFromID el.m_nelem = some pe →
              m.ElementVolume pe ≠ 0 →
              (pe.solid = false ∨ ((m.GetMaterial pe.matID).biph = none
                ∧ (m.GetMaterial pe.matID).bsolu = none)) →
              ∀ j, j < el.nint → vval s'.m_epsp (pointOffset s i + j) = 0)
      ∧ (s.m_epsc.length = totalGauss s.el →
        ∃ s', CalcAutoConcentrationPenalty m FaceArea s = some s'
          ∧ ∀ i el pe, s.el[i]? = some el → m.FindElementFromID el.m_nelem = some pe →
              m.ElementVolume pe ≠ 0 →
              (pe.solid = false ∨ (m.GetMaterial pe.matID).bsolu = none) →
              ∀ j, j < el.nint → vval s'.m_epsc (pointOffset s i + j) = 0))
    ∧ ((∃ el ∈ s.el, m.FindElementFromID el.m_nelem = none) →
      CalcAutoPenalty m FaceArea BulkModulus s = none
      ∧ CalcAutoPressurePenalty m FaceArea s = none
      ∧ CalcAutoConcentrationPenalty m FaceArea s = none) := by
  refine ⟨fun hfound => ⟨fun h => ?_, fun h => ?_, fun h => ?_⟩, fun hmiss => ⟨?_, ?_, ?_⟩⟩
  · obtain ⟨s', h1, -, h2⟩ :=
      CalcAuto_value m FaceArea BulkModulus PenaltyField.normal s hfound h
    refine ⟨s', h1, ?_⟩
    intro i el pe hi hpe _ hK j hj
    have := h2 i el pe hi hpe j hj
    rw [hK] at this
    simpa [PenaltyField.vec] using this
  · obtain ⟨s', h1, -, h2⟩ :=
      CalcAuto_value m FaceArea (AutoPressurePenalty m) PenaltyField.pressure s hfound h
    refine ⟨s', h1, ?_⟩
    intro i el pe hi hpe _ hK j hj
    have := h2 i el pe hi hpe j hj
    rw [AutoPressurePenalty_zero m el pe hpe hK] at this
    simpa [PenaltyField.vec] using this
  · obtain ⟨s', h1, -, h2⟩ :=
      CalcAuto_value m FaceArea (AutoConcentrationPenalty m) PenaltyField.concentration s
        hfound h
    refine ⟨s', h1, ?_⟩
    intro i el pe hi hpe _ hK j hj
    have := h2 i el pe hi hpe j hj
    rw [AutoConcentrationPenalty_zero m el pe hpe hK] at this
    simpa [PenaltyField.vec] using this
  · simp only [CalcAutoPenalty, CalcAuto_facets_missing m FaceArea _ _ s.el s 0 hmiss,
      Option.map_none']
  · simp only [CalcAutoPressurePenalty, CalcAuto_facets_missing m FaceArea _ _ s.el s 0 hmiss,
      Option.map_none']
  · simp only [CalcAutoConcentrationPenalty,
      CalcAuto_facets_missing m FaceArea _ _ s.el s 0 hmiss, Option.map_none']

/-- C10 at a facet whose material carries no pressure field. -/
theorem CalcAuto_inactive_zero_witness :
    ∃ s', CalcAutoPressurePenalty elasticModel (fun _ => 1 / 4) (oneFacetSurface 0 1 none)
        = some s'
      ∧ vval s'.m_epsp 0 = 0 := by
  obtain ⟨s', h1, h2⟩ :=
    ((CalcAuto_inactive_zero elasticModel (fun _ => 1 / 4) (fun _ => 10)
      (oneFacetSurface 0 1 none)).1 (fun el _ => ⟨⟨true, 0⟩, rfl⟩)).2.1 rfl
  refine ⟨s', h1, ?_⟩
  have := h2 0 ⟨0, 1, [0, 1, 2, 3], 1⟩ ⟨true, 0⟩ rfl rfl (by norm_num [elasticModel])
    (Or.inr ⟨rfl, rfl⟩) 0 (by decide)
  simpa [pointOffset, totalGauss] using this

/-! ## `ContactForces`: action and reaction -/

/-- The length of an array filled node by node with three entries per node. -/
theorem flatMap3_length (g : Nat → List ℚ) (hg : ∀ i, (g i).length = 3) (m : Nat) :
    ((List.range m).flatMap g).length = 3 * m := by
  induction m with
  | zero => simp
  | succ m ihm =>
    rw [List.range_succ, List.flatMap_append, List.length_append, ihm]
    simp [hg]; ring

/-- Entry `3*k + c` of an array filled node by node with three entries per
node. -/
theorem vval_flatMap3 (g : Nat → List ℚ) (hg : ∀ i, (g i).length = 3) (n k c : Nat)
    (hk : k < n) (hc : c < 3) :
    vval ((List.range n).flatMap g) (3 * k + c) = vval (g k) c := by
  induction n with
  | zero => omega
  | succ n ih =>
    rw [List.range_succ, List.flatMap_append]
    unfold vval at ih ⊢
    by_cases h : k < n
    · rw [List.getElem?_append_left (by rw [flatMap3_length g hg]; omega)]
      exact ih h
    · have hkn : k = n := by omega
      subst hkn
      rw [List.getElem?_append_right (by rw [flatMap3_length g hg]; omega), flatMap3_length g hg]
      have : 3 * k + c - 3 * k = c := by omega
      rw [this]
      simp

/-- The entries of the mechanical force vector, node by node. -/
theorem ForcePoint_fe_entries (m_epsn : ℚ) (p : ForcePoint) (c : Nat) (hc : c < 3) :
    (∀ k : Nat, k < p.se_node.length →
        vval (p.fe m_epsn) (3 * k + c)
          = -(p.tn m_epsn * p.nu.comp c * p.detJ * p.w) * p.Hs k)
      ∧ ∀ k : Nat, k < p.me_node.length →
        vval (p.fe m_epsn) (3 * (p.se_node.length + k) + c)
          = (p.tn m_epsn * p.nu.comp c * p.detJ * p.w) * p.Hm k := by
  obtain ⟨gs, hgs⟩ : ∃ gs : Nat → List ℚ, gs = fun k =>
      [-(p.tn m_epsn * p.nu.comp 0 * p.detJ * p.w) * p.Hs k,
       -(p.tn m_epsn * p.nu.comp 1 * p.detJ * p.w) * p.Hs k,
       -(p.tn m_epsn * p.nu.comp 2 * p.detJ * p.w) * p.Hs k] := ⟨_, rfl⟩
  obtain ⟨gm, hgm⟩ : ∃ gm : Nat → List ℚ, gm = fun k =>
      [(p.tn m_epsn * p.nu.comp 0 * p.detJ * p.w) * p.Hm k,
       (p.tn m_epsn * p.nu.comp 1 * p.detJ * p.w) * p.Hm k,
       (p.tn m_epsn * p.nu.comp 2 * p.detJ * p.w) * p.Hm k] := ⟨_, rfl⟩
  have hls : ∀ i, (gs i).length = 3 := fun i => by rw [hgs]; rfl
  have hlm : ∀ i, (gm i).length = 3 := fun i => by rw [hgm]; rfl
  have hfe : p.fe m_epsn
      = (List.range p.se_node.length).flatMap gs
        ++ (List.range p.me_node.length).flatMap gm := by
    rw [hgs, hgm]
    simp only [ForcePoint.fe, ForcePoint.N, List.map_append, List.map_flatMap, List.map_cons,
      List.map_nil, vec3d.comp]
    congr 1 <;> (congr 1; funext k; simp; refine ⟨?_, ?_, ?_⟩ <;> ring)
  constructor
  · intro k hk
    rw [hfe]
    unfold vval
    rw [List.getElem?_append_left (by rw [flatMap3_length gs hls]; omega)]
    have := vval_flatMap3 gs hls _ k c hk hc
    unfold vval at this
    rw [this, hgs]
    interval_cases c <;> simp
  · intro k hk
    rw [hfe]
    unfold vval
    rw [List.getElem?_append_right (by rw [flatMap3_length gs hls]; omega),
      flatMap3_length gs hls]
    have e : 3 * (p.se_node.length + k) + c - 3 * p.se_node.length = 3 * k + c := by omega
    rw [e]
    have := vval_flatMap3 gm hlm _ k c hk hc
    unfold vval at this
    rw [this, hgm]
    interval_cases c <;> simp

/-- The sum of a scaled list. -/
theorem sum_map_mul_left (l : List Nat) (f : Nat → ℚ) (a : ℚ) :
    (l.map (fun k => a * f k)).sum = a * (l.map f).sum := by
  induction l with
  | nil => simp
  | cons x l ih => simp [ih, mul_add]

/-- The residuals of `ContactForces_point` in exact arithmetic: when the
shape-function values `Hs` of the searching facet sum to 1 and the values `Hm`
of the partner facet sum to 1, the entries of component `c` of the mechanical
force vector summed over the nodes of the searching facet are the negative of
those summed over the nodes of the partner facet; the mechanical vector is the
first one assembled, and every further vector assembled at the point has
entries that sum to 0. -/
theorem ContactForces_action_reaction (m_epsn m_epsp m_epsc dt : ℚ) (p : ForcePoint)
    (hs : ((List.range p.se_node.length).map p.Hs).sum = 1)
    (hm : ((List.range p.me_node.length).map p.Hm).sum = 1) :
    (∀ c : Nat, c < 3 →
        ((List.range p.se_node.length).map (fun k => vval (p.fe m_epsn) (3 * k + c))).sum
          = -((List.range p.me_node.length).map
              (fun k => vval (p.fe m_epsn) (3 * (p.se_node.length + k) + c))).sum)
      ∧ ∃ rest, ContactForces_point m_epsn m_epsp m_epsc dt p
          = ⟨p.se_node ++ p.me_node,
              (List.range (3 * p.se_node.length)).map p.sLM
                ++ (List.range (3 * p.me_node.length)).map p.mLM, p.fe m_epsn⟩ :: rest
        ∧ ∀ r ∈ rest, r.fe.sum = 0 := by
  constructor
  · intro c hc
    obtain ⟨h1, h2⟩ := ForcePoint_fe_entries m_epsn p c hc
    rw [List.map_congr_left (fun k hk => h1 k (List.mem_range.1 hk)),
      List.map_congr_left (fun k hk => h2 k (List.mem_range.1 hk)),
      sum_map_mul_left, sum_map_mul_left, hs, hm]
    ring
  · have hflow : ∀ a : ℚ, (p.Nflow.map (fun n => 0 + dt * a * n * p.detJ * p.w)).sum = 0 := by
      intro a
      have e : (fun n : ℚ => 0 + dt * a * n * p.detJ * p.w)
          = fun n => (dt * a * p.detJ * p.w) * n := by funext n; ring
      rw [e, List.sum_map_mul_left]
      have : p.Nflow.sum = 0 := by
        simp only [ForcePoint.Nflow, List.sum_append]
        have : ((List.range p.me_node.length).map (fun k => -(p.Hm k))).sum
            = -((List.range p.me_node.length).map p.Hm).sum := by
          have := sum_map_mul_left (List.range p.me_node.length) p.Hm (-1)
          simpa using this
        rw [this, hs, hm]; ring
      simp [this]
    by_cases ht : 0 < p.tn m_epsn
    · refine ⟨_, by simp only [ContactForces_point, gt_iff_lt, ht, if_true]; rfl, ?_⟩
      intro r hr
      rw [List.mem_append] at hr
      rcases hr with hr | hr
      · by_cases hb : (p.sporo && p.mporo) = true
        · simp only [hb, if_true, List.mem_singleton] at hr
          subst hr; exact hflow _
        · simp [hb] at hr
      · by_cases hb : (p.ssolu && p.msolu) = true
        · simp only [hb, if_true, List.mem_singleton] at hr
          subst hr; exact hflow _
        · simp [hb] at hr
    · refine ⟨[], by simp only [ContactForces_point, gt_iff_lt, ht, if_false], ?_⟩
      intro r hr; simp at hr

/-! ## `Augment`: the pressure and concentration multipliers -/

/-- The loop body of `Augment` keeps the capability flag. -/
theorem Augment_pointS_bporo (m_epsn m_epsp m_epsc : ℚ) (i : Nat) (s : FESlidingSurface3) :
    (Augment_pointS m_epsn m_epsp m_epsc i s).m_bporo = s.m_bporo := rfl

/-- After the loop over the points `i, ..., i+n-1` of an allocated surface with
`m_bporo`, the pressure and concentration multipliers of each of them are the
unbracketed updates when the trial value is positive and 0 otherwise; the other
points are as they were. -/
theorem Augment_loopS_flow (m_epsn m_epsp m_epsc : ℚ) (n : Nat) :
    ∀ (i : Nat) (s : FESlidingSurface3), s.allocated → s.m_bporo = true →
      i + n ≤ s.m_Lmd.length →
      ∀ j, (vval (Augment_loopS m_epsn m_epsp m_epsc n i s).m_Lmp j
          = if i ≤ j ∧ j < i + n then
              (if Augment_Ln m_epsn s j > 0 then
                vval s.m_Lmp j + (m_epsp * vval s.m_epsp j) * vval s.m_pg j else 0)
            else vval s.m_Lmp j)
        ∧ (vval (Augment_loopS m_epsn m_epsp m_epsc n i s).m_Lmc j
          = if i ≤ j ∧ j < i + n then
              (if Augment_Ln m_epsn s j > 0 then
                vval s.m_Lmc j + (m_epsc * vval s.m_epsc j) * vval s.m_cg j else 0)
            else vval s.m_Lmc j) := by
  induction n with
  | zero =>
    intro i s _ _ _ j
    have : ¬ (i ≤ j ∧ j < i + 0) := by omega
    rw [if_neg this, if_neg this]
    exact ⟨rfl, rfl⟩
  | succ n ih =>
    intro i s hs hb hn j
    have hi : i < s.m_Lmd.length := by omega
    obtain ⟨p1, p2, p3, p4, p5, p6⟩ := hs.2.2 hb
    obtain ⟨h1, h2⟩ := ih (i + 1) (Augment_pointS m_epsn m_epsp m_epsc i s)
      (Augment_pointS_allocated _ _ _ _ _ hs) hb
      (by rw [Augment_pointS_length]; omega) j
    simp only [Augment_loopS, h1, h2]
    have ee : (Augment_pointS m_epsn m_epsp m_epsc i s).m_epsp = s.m_epsp := rfl
    have ec : (Augment_pointS m_epsn m_epsp m_epsc i s).m_epsc = s.m_epsc := rfl
    have eg : (Augment_pointS m_epsn m_epsp m_epsc i s).m_pg = s.m_pg := rfl
    have ed : (Augment_pointS m_epsn m_epsp m_epsc i s).m_cg = s.m_cg := rfl
    by_cases hj : i = j
    · subst hj
      have : ¬ (i + 1 ≤ i ∧ i < i + 1 + n) := by omega
      have h' : i ≤ i ∧ i < i + (n + 1) := by omega
      rw [if_neg this, if_neg this, if_pos h', if_pos h']
      simp [Augment_pointS, hb, vval_set_eq _ _ _ (show i < s.m_Lmp.length by omega),
        vval_set_eq _ _ _ (show i < s.m_Lmc.length by omega)]
    · rw [Augment_Ln_pointS_ne _ _ _ _ _ _ hj, ee, ec, eg, ed]
      have e1 : vval (Augment_pointS m_epsn m_epsp m_epsc i s).m_Lmp j = vval s.m_Lmp j := by
        simp [Augment_pointS, hb, vval_set_ne _ _ _ _ hj]
      have e2 : vval (Augment_pointS m_epsn m_epsp m_epsc i s).m_Lmc j = vval s.m_Lmc j := by
        simp [Augment_pointS, hb, vval_set_ne _ _ _ _ hj]
      rw [e1, e2]
      by_cases hc : i + 1 ≤ j ∧ j < i + 1 + n
      · have h' : i ≤ j ∧ j < i + (n + 1) := by omega
        rw [if_pos hc, if_pos h', if_pos hc, if_pos h']
        exact ⟨rfl, rfl⟩
      · have h' : ¬ (i ≤ j ∧ j < i + (n + 1)) := by omega
        rw [if_neg hc, if_neg h', if_neg hc, if_neg h']
        exact ⟨rfl, rfl⟩

/-- The pressure and concentration multipliers of a surface with `m_bporo` after
the loop of `Augment` over all its points. -/
theorem Augment_loopS_flow_all (m_epsn m_epsp m_epsc : ℚ) (s : FESlidingSurface3)
    (hs : s.allocated) (hb : s.m_bporo = true) (i : Nat) (hi : i < s.m_Lmd.length) :
    (0 < Augment_Ln m_epsn s i →
        vval (Augment_loopS m_epsn m_epsp m_epsc s.m_Lmd.length 0 s).m_Lmp i
            = vval s.m_Lmp i + (m_epsp * vval s.m_epsp i) * vval s.m_pg i
          ∧ vval (Augment_loopS m_epsn m_epsp m_epsc s.m_Lmd.length 0 s).m_Lmc i
            = vval s.m_Lmc i + (m_epsc * vval s.m_epsc i) * vval s.m_cg i)
      ∧ (Augment_Ln m_epsn s i ≤ 0 →
        vval (Augment_loopS m_epsn m_epsp m_epsc s.m_Lmd.length 0 s).m_Lmp i = 0
          ∧ vval (Augment_loopS m_epsn m_epsp m_epsc s.m_Lmd.length 0 s).m_Lmc i = 0) := by
  obtain ⟨h1, h2⟩ := Augment_loopS_flow m_epsn m_epsp m_epsc s.m_Lmd.length 0 s hs hb
    (by omega) i
  have hc : 0 ≤ i ∧ i < 0 + s.m_Lmd.length := by omega
  rw [if_pos hc] at h1 h2
  constructor
  · intro hp
    have hp' : Augment_Ln m_epsn s i > 0 := hp
    rw [h1, h2, if_pos hp', if_pos hp']
    exact ⟨rfl, rfl⟩
  · intro hp
    have hp' : ¬ Augment_Ln m_epsn s i > 0 := not_lt.mpr hp
    rw [h1, h2, if_neg hp', if_neg hp']
    exact ⟨rfl, rfl⟩

/-- C19: with augmentation on and the vectors of both surfaces allocated,
`Augment` returns, and on a surface that carries the pressure field (`m_bporo`),
slave or master, for every point `i` with trial value
`Ln = Lmd[i] + (m_epsn*epsn[i])*gap[i]`: when `Ln > 0` the new pressure
multiplier is `Lmp[i] + (m_epsp*epsp[i])*pg[i]` and the new concentration
multiplier is `Lmc[i] + (m_epsc*epsc[i])*cg[i]`, with no bracket applied; when
`Ln <= 0` both are 0. -/
theorem Augment_flow_multipliers (I : FESlidingInterface3) (hon : I.m_blaugon = true)
    (hs : I.m_ss.allocated) (hm : I.m_ms.allocated) :
    ∃ I' b, I.Augment = some (I', b)
      ∧ (I.m_ss.m_bporo = true → ∀ i, i < I.m_ss.m_Lmd.length →
          (0 < Augment_Ln I.m_epsn I.m_ss i →
            vval I'.m_ss.m_Lmp i
                = vval I.m_ss.m_Lmp i + (I.m_epsp * vval I.m_ss.m_epsp i) * vval I.m_ss.m_pg i
              ∧ vval I'.m_ss.m_Lmc i
                = vval I.m_ss.m_Lmc i + (I.m_epsc * vval I.m_ss.m_epsc i) * vval I.m_ss.m_cg i)
          ∧ (Augment_Ln I.m_epsn I.m_ss i ≤ 0 →
            vval I'.m_ss.m_Lmp i = 0 ∧ vval I'.m_ss.m_Lmc i = 0))
      ∧ (I.m_ms.m_bporo = true → ∀ i, i < I.m_ms.m_Lmd.length →
          (0 < Augment_Ln I.m_epsn I.m_ms i →
            vval I'.m_ms.m_Lmp i
                = vval I.m_ms.m_Lmp i + (I.m_epsp * vval I.m_ms.m_epsp i) * vval I.m_ms.m_pg i
              ∧ vval I'.m_ms.m_Lmc i
                = vval I.m_ms.m_Lmc i + (I.m_epsc * vval I.m_ms.m_epsc i) * vval I.m_ms.m_cg i)
          ∧ (Augment_Ln I.m_epsn I.m_ms i ≤ 0 →
            vval I'.m_ms.m_Lmp i = 0 ∧ vval I'.m_ms.m_Lmc i = 0)) := by
  refine ⟨_, _, Augment_eq I hon hs hm, ?_, ?_⟩
  · intro hb i hi
    exact Augment_loopS_flow_all _ _ _ _ hs hb i hi
  · intro hb i hi
    exact Augment_loopS_flow_all _ _ _ _ hm hb i hi

/-- The surfaces of `flowInterface` are allocated. -/
theorem flow_allocated : flowInterface.m_ss.allocated ∧ flowInterface.m_ms.allocated := by
  simp [flowInterface, pointInterface, pointSurface, FESlidingSurface3.allocated]

/-- C19 at `flowInterface`: the point with trial value 2 gets the pressure
multiplier `1 + 2*(-3) = -5` (negative: no bracket) and the concentration
multiplier `1 + 1*2 = 3`; the point with trial value -5 gets 0 and 0. -/
theorem Augment_flow_multipliers_witness :
    ∃ I' b, flowInterface.Augment = some (I', b)
      ∧ vval I'.m_ss.m_Lmp 0 = -5 ∧ vval I'.m_ss.m_Lmc 0 = 3
      ∧ vval I'.m_ss.m_Lmp 1 = 0 ∧ vval I'.m_ss.m_Lmc 1 = 0 := by
  obtain ⟨I', b, h, h1, -⟩ :=
    Augment_flow_multipliers flowInterface rfl flow_allocated.1 flow_allocated.2
  have a0 := (h1 rfl 0 (by simp [flowInterface, pointInterface, pointSurface])).1
    (by norm_num [Augment_Ln, flowInterface, pointInterface, pointSurface, vval])
  have a1 := (h1 rfl 1 (by simp [flowInterface, pointInterface, pointSurface])).2
    (by norm_num [Augment_Ln, flowInterface, pointInterface, pointSurface, vval])
  refine ⟨I', b, h, ?_, ?_, a1.1, a1.2⟩
  · rw [a0.1]; norm_num [flowInterface, pointInterface, pointSurface, vval]
  · rw [a0.2]; norm_num [flowInterface, pointInterface, pointSurface, vval]

/-! ## `ProjectSurface`: the search for a partner and the gate -/

/-- The branch without candidate partner leaves the partner references as they
are. -/
theorem ProjectSurface_nopartner_pme (sporo ssolu : Bool) (n : Nat)
    (ss ss' : FESlidingSurface3) (h : ProjectSurface_nopartner sporo ssolu n ss = some ss') :
    ss'.m_pme = ss.m_pme := by
  unfold ProjectSurface_nopartner at h
  cases sporo <;> cases ssolu <;>
    simp only [Option.bind_eq_bind, Option.bind_eq_some, Option.pure_def, if_true, if_false,
      Bool.false_eq_true, Option.some.injEq, exists_eq_left'] at h
  · obtain ⟨a, -, b, -, h⟩ := h
    rw [← h]
  · obtain ⟨a, -, b, -, c, -, d, -, h⟩ := h
    rw [← h]
  · obtain ⟨a, -, b, -, c, -, d, -, h⟩ := h
    rw [← h]
  · obtain ⟨a, -, b, -, c, -, d, -, e, -, f, -, h⟩ := h
    rw [← h]

/-- The search of `ProjectSurface` for a candidate partner (lines 632-651), by
cases: a previous partner that still intersects is the candidate; otherwise
the candidate is what `FindIntersection` returns when the gate is open and
empty when it is closed. -/
theorem ProjectSurface_search_cases (I : FESlidingInterface3) (G : ProjectGeometry)
    (ms : FESlidingSurface3) (bupseg : Bool) (r nu : vec3d) (n N : Nat) (bP bS : Prop)
    (ss : FESlidingSurface3) (rs : ℚ × ℚ) (hs : Sized N bP bS ss) (hn : n < N)
    (hp : PartnersIn ms ss) :
    (∀ k me, vget ss.m_pme n = some (some k) → vget ms.el k = some me →
        (G.Intersect me r nu rs I.m_stol).1 = true →
        ProjectSurface_search I G ms bupseg r nu n ss rs
          = some (some k, (G.Intersect me r nu rs I.m_stol).2,
              { ss with m_rs := ss.m_rs.set n (G.Intersect me r nu rs I.m_stol).2 }))
      ∧ ((¬ ∃ k, keepsPartner I G ms ss r nu n rs k) →
        ∃ rs1, ProjectSurface_search I G ms bupseg r nu n ss rs
          = some (if bupseg then (G.FindIntersection r nu rs1 I.m_stol).1 else none,
              if bupseg then (G.FindIntersection r nu rs1 I.m_stol).2 else rs1, ss)) := by
  obtain ⟨h1, h2, h3, h4, h5, h6, h7, h8⟩ := hs
  obtain ⟨p, hp1, hp2⟩ := vget_isSome ss.m_pme n (by omega)
  constructor
  · intro k me hk hme hit
    have hw := vset_of_lt ss.m_rs n (G.Intersect me r nu rs I.m_stol).2 (by omega)
    unfold ProjectSurface_search
    simp [hk, hme, hit, hw]
  · intro hno
    unfold ProjectSurface_search
    rw [hp1]
    cases p with
    | none =>
      refine ⟨rs, ?_⟩
      cases bupseg <;> simp
    | some k =>
      have hk : k < ms.el.length := hp k hp2
      obtain ⟨me, hme, -⟩ := vget_isSome ms.el k hk
      have hfail : (G.Intersect me r nu rs I.m_stol).1 = false := by
        cases hI : (G.Intersect me r nu rs I.m_stol).1 with
        | false => rfl
        | true => exact absurd ⟨k, hp1, me, hme, hI⟩ hno
      refine ⟨(G.Intersect me r nu rs I.m_stol).2, ?_⟩
      cases bupseg <;> simp [hme, hfail]

/-- C16 (the search of `ProjectSurface` at an integration point, lines 632-711).
On a surface with allocated per-point vectors, for the point `n` at Gauss point
`j` of facet `el`: (a) a previous partner that still intersects the normal ray
is kept as the candidate, whatever the gate `bupseg`, and the result does not
depend on `FindIntersection` (no global search is made); (b) with the gate
closed the result never depends on `FindIntersection`; (c) with no previous
partner that still intersects and the gate open, the candidate is what
`FindIntersection` returns; (d) with no previous partner that still
intersects and the gate closed, the point ends with an empty partner
reference, gap 0 and normal multiplier 0. -/
theorem ProjectSurface_search_gate (I : FESlidingInterface3) (G : ProjectGeometry) (M : FEModel)
    (ms : FESlidingSurface3) (R : ℚ) (el : FESurfaceElement) (sporo ssolu : Bool)
    (ps cs : List ℚ) (j n N : Nat) (bP bS : Prop) (ss : FESlidingSurface3) (rs : ℚ × ℚ)
    (hs : Sized N bP bS ss) (hn : n < N) (hP : sporo = true → bP) (hS : ssolu = true → bS)
    (hp : PartnersIn ms ss) :
    (∀ k, keepsPartner I G ms ss (G.Local2GlobalGP el j) (G.SurfaceNormal el j) n rs k →
        ∀ (bupseg : Bool) (F : vec3d → vec3d → ℚ × ℚ → ℚ → Option Nat × (ℚ × ℚ)),
          (∃ rs1 m_rs, ProjectSurface_search I G ms bupseg (G.Local2GlobalGP el j)
              (G.SurfaceNormal el j) n ss rs = some (some k, rs1, { ss with m_rs := m_rs }))
          ∧ ProjectSurface_search I { G with FindIntersection := F } ms bupseg
              (G.Local2GlobalGP el j) (G.SurfaceNormal el j) n ss rs
            = ProjectSurface_search I G ms bupseg (G.Local2GlobalGP el j)
              (G.SurfaceNormal el j) n ss rs)
      ∧ (∀ F : vec3d → vec3d → ℚ × ℚ → ℚ → Option Nat × (ℚ × ℚ),
          ProjectSurface_search I { G with FindIntersection := F } ms false
              (G.Local2GlobalGP el j) (G.SurfaceNormal el j) n ss rs
            = ProjectSurface_search I G ms false (G.Local2GlobalGP el j)
              (G.SurfaceNormal el j) n ss rs)
      ∧ ((¬ ∃ k, keepsPartner I G ms ss (G.Local2GlobalGP el j) (G.SurfaceNormal el j) n rs k) →
          ∃ rs1, ProjectSurface_search I G ms true (G.Local2GlobalGP el j)
              (G.SurfaceNormal el j) n ss rs
            = some ((G.FindIntersection (G.Local2GlobalGP el j) (G.SurfaceNormal el j) rs1
                  I.m_stol).1,
                (G.FindIntersection (G.Local2GlobalGP el j) (G.SurfaceNormal el j) rs1
                  I.m_stol).2, ss))
      ∧ ((¬ ∃ k, keepsPartner I G ms ss (G.Local2GlobalGP el j) (G.SurfaceNormal el j) n rs k) →
          ∃ ss' rs', ProjectSurface_point I G M ms false R el sporo ssolu ps cs j (ss, n, rs)
              = some (ss', n + 1, rs')
            ∧ vget ss'.m_pme n = some none ∧ vval ss'.m_gap n = 0 ∧ vval ss'.m_Lmd n = 0) := by
  have hs0 := hs
  obtain ⟨h1, h2, h3, h4, h5, h6, h7, h8⟩ := hs
  refine ⟨?_, ?_, ?_, ?_⟩
  · rintro k ⟨hk, me, hme, hit⟩ bupseg F
    have e1 := (ProjectSurface_search_cases I G ms bupseg (G.Local2GlobalGP el j)
      (G.SurfaceNormal el j) n N bP bS ss rs hs0 hn hp).1 k me hk hme hit
    have e2 := (ProjectSurface_search_cases I { G with FindIntersection := F } ms bupseg
      (G.Local2GlobalGP el j) (G.SurfaceNormal el j) n N bP bS ss rs hs0 hn hp).1 k me hk hme hit
    exact ⟨⟨_, _, e1⟩, by rw [e1, e2]⟩
  · intro F
    simp [ProjectSurface_search]
  · intro hno
    obtain ⟨rs1, e⟩ := (ProjectSurface_search_cases I G ms true (G.Local2GlobalGP el j)
      (G.SurfaceNormal el j) n N bP bS ss rs hs0 hn hp).2 hno
    exact ⟨rs1, by simpa using e⟩
  · intro hno
    obtain ⟨rs1, e⟩ := (ProjectSurface_search_cases I G ms false (G.Local2GlobalGP el j)
      (G.SurfaceNormal el j) n N bP bS ss rs hs0 hn hp).2 hno
    simp only [Bool.false_eq_true, if_false] at e
    have w1 : ∀ x, vset ss.m_pme n x = some (ss.m_pme.set n x) :=
      fun x => vset_of_lt _ _ _ (by omega)
    have w2 : ∀ x, vset ss.m_nu n x = some (ss.m_nu.set n x) :=
      fun x => vset_of_lt _ _ _ (by omega)
    have w3 : ∀ x, vset ss.m_rs n x = some (ss.m_rs.set n x) :=
      fun x => vset_of_lt _ _ _ (by omega)
    have hs2 : Sized N bP bS ({ ss with
        m_pme := ss.m_pme.set n none
        m_nu := ss.m_nu.set n (G.SurfaceNormal el j)
        m_rs := ss.m_rs.set n rs1 } : FESlidingSurface3) :=
      ⟨by simp [h1], by simp [h2], by simp [h3], h4, h5, h6, h7, h8⟩
    have hp2 : PartnersIn ms ({ ss with
        m_pme := ss.m_pme.set n none
        m_nu := ss.m_nu.set n (G.SurfaceNormal el j)
        m_rs := ss.m_rs.set n rs1 } : FESlidingSurface3) :=
      PartnersIn_set ms ss n none _ hp rfl (by simp)
    obtain ⟨ss', e1, -, -, e3, e4⟩ :=
      ProjectSurface_nopartner_spec ms sporo ssolu n N bP bS _ hs2 hn hP hS hp2
    have e5 := ProjectSurface_nopartner_pme sporo ssolu n _ ss' e1
    refine ⟨ss', rs1, ?_, ?_, ?_, ?_⟩
    · unfold ProjectSurface_point
      simp only [e, w1, w2, w3, Option.bind_eq_bind, Option.some_bind, Option.pure_def, e1]
    · rw [e5]
      simp [vget, h1, hn]
    · rw [e3]
      exact vval_set_eq _ _ _ (by simp; omega)
    · rw [e4]
      exact vval_set_eq _ _ _ (by simp; omega)

/-- C16 at a point with multiplier 5 and no previous partner, with the gate
closed: although the global search would find facet 0, the point ends without
partner, with gap 0 and multiplier 0. -/
theorem ProjectSurface_search_gate_witness :
    (flatGeometry (1 / 2)).FindIntersection ⟨0, 0, 1 / 2⟩ ⟨0, 0, 1⟩ (0, 0) (1 / 100) = (some 0, (0, 0))
      ∧ ∃ ss' rs', ProjectSurface_point (oneFacetInterface 5 100 none) (flatGeometry (1 / 2))
          elasticModel (oneFacetSurface 0 1 none) false 1 ⟨0, 1, [0, 1, 2, 3], 1⟩ false false
          [] [] 0 (oneFacetSurface 5 100 none, 0, (0, 0)) = some (ss', 0 + 1, rs')
        ∧ vget ss'.m_pme 0 = some none ∧ vval ss'.m_gap 0 = 0 ∧ vval ss'.m_Lmd 0 = 0 :=
  ⟨rfl, (ProjectSurface_search_gate (oneFacetInterface 5 100 none) (flatGeometry (1 / 2))
    elasticModel (oneFacetSurface 0 1 none) 1 ⟨0, 1, [0, 1, 2, 3], 1⟩ false false [] [] 0 0 1
    False False (oneFacetSurface 5 100 none) (0, 0)
    (by simp [Sized, oneFacetSurface]) (by decide) (by simp) (by simp)
    (by intro k hk; simp [oneFacetSurface] at hk)).2.2.2
    (by rintro ⟨k, hk, -⟩; simp [oneFacetSurface, vget] at hk)⟩

/-! ## `ProjectSurface`: the pressure and concentration gaps -/

/-- A successful read gives the value of the entry. -/
theorem vval_of_vget (v : List ℚ) (i : Nat) (x : ℚ) (h : vget v i = some x) : vval v i = x := by
  unfold vget at h
  simp [vval, h]

/-- A successful write is the list with the entry replaced. -/
theorem vset_eq_some {α : Type} (v w : List α) (i : Nat) (a : α) (h : vset v i a = some w) :
    w = v.set i a := by
  unfold vset at h
  split_ifs at h
  simpa using h.symm

/-- The branch for a candidate partner (lines 657-697) succeeds on a sized
surface and leaves the pressure and concentration gaps `partnerPg` and
`partnerCg`. -/
theorem ProjectSurface_partner_gaps (I : FESlidingInterface3) (G : ProjectGeometry)
    (M : FEModel) (ms : FESlidingSurface3) (R : ℚ) (sporo ssolu : Bool) (p1 c1 : ℚ)
    (r nu : vec3d) (rs : ℚ × ℚ) (n k N : Nat) (bP bS : Prop) (ss : FESlidingSurface3)
    (me : FESurfaceElement) (hs : Sized N bP bS ss) (hn : n < N) (hme : vget ms.el k = some me)
    (hP : sporo = true → bP) (hS : ssolu = true → bS) :
    ∃ ss', ProjectSurface_partner I G M ms R sporo ssolu p1 c1 r nu rs n k ss = some ss'
      ∧ ss'.m_pg = partnerPg I G M R sporo p1 r nu rs n ss me
      ∧ ss'.m_cg = partnerCg I G M R ssolu c1 r nu rs n ss me := by
  obtain ⟨h1, h2, h3, h4, h5, h6, h7, h8⟩ := hs
  obtain ⟨e, he, -⟩ := vget_isSome ss.m_epsn n (by omega)
  obtain ⟨L, hL, -⟩ := vget_isSome ss.m_Lmd n (by omega)
  have hg : ∀ x, vset ss.m_gap n x = some (ss.m_gap.set n x) :=
    fun x => vset_of_lt _ _ _ (by omega)
  have hpm : ∀ x, vset ss.m_pme n x = some (ss.m_pme.set n x) :=
    fun x => vset_of_lt _ _ _ (by omega)
  unfold ProjectSurface_partner partnerPg partnerCg
  simp only [hme, he, hL, hg, Option.bind_eq_bind, Option.some_bind, Option.pure_def]
  have hgap : nu.dot (r.sub (G.Local2Global me rs.1 rs.2)) = geometricGap G me r nu rs := rfl
  rw [hgap, vval_of_vget _ _ _ he, vval_of_vget _ _ _ hL]
  generalize (if geometricGap G me r nu rs ≤ R then geometricGap G me r nu rs else 0) = gv
  by_cases hC : (decide (L + I.m_epsn * e * geometricGap G me r nu rs ≥ 0)
      && decide (geometricGap G me r nu rs ≤ R)) = true
  · have hC' : L + I.m_epsn * e * geometricGap G me r nu rs ≥ 0
        ∧ geometricGap G me r nu rs ≤ R := by simpa using hC
    simp only [hC, if_true, hC'.1, hC'.2, true_and]
    by_cases c2 : (sporo && (BiphasicSoluteStatus M me).1) = true
    · have c2' : sporo = true ∧ (BiphasicSoluteStatus M me).1 = true := by simpa using c2
      have w1 : ∀ x, vset ss.m_pg n x = some (ss.m_pg.set n x) :=
        fun x => vset_of_lt _ _ _ (by have := (h7 (hP c2'.1)).2; omega)
      simp only [c2, if_true, w1, Option.some_bind, c2', and_self]
      by_cases c3 : (ssolu && (BiphasicSoluteStatus M me).2) = true
      · have c3' : ssolu = true ∧ (BiphasicSoluteStatus M me).2 = true := by simpa using c3
        have w2 : ∀ x, vset ss.m_cg n x = some (ss.m_cg.set n x) :=
          fun x => vset_of_lt _ _ _ (by have := (h8 (hS c3'.1)).2; omega)
        simp only [c3, if_true, w2, Option.some_bind, c3', and_self]
        exact ⟨_, rfl, rfl, rfl⟩
      · have c3' : ¬ (ssolu = true ∧ (BiphasicSoluteStatus M me).2 = true) := by simpa using c3
        simp only [c3, if_false, c3']
        exact ⟨_, rfl, rfl, rfl⟩
    · have c2' : ¬ (sporo = true ∧ (BiphasicSoluteStatus M me).1 = true) := by simpa using c2
      simp only [c2, if_false, Option.some_bind, c2']
      by_cases c3 : (ssolu && (BiphasicSoluteStatus M me).2) = true
      · have c3' : ssolu = true ∧ (BiphasicSoluteStatus M me).2 = true := by simpa using c3
        have w2 : ∀ x, vset ss.m_cg n x = some (ss.m_cg.set n x) :=
          fun x => vset_of_lt _ _ _ (by have := (h8 (hS c3'.1)).2; omega)
        simp only [c3, if_true, w2, Option.some_bind, c3', and_self]
        exact ⟨_, rfl, rfl, rfl⟩
      · have c3' : ¬ (ssolu = true ∧ (BiphasicSoluteStatus M me).2 = true) := by simpa using c3
        simp only [c3, if_false, c3']
        exact ⟨_, rfl, rfl, rfl⟩
  · have hC' : ¬ (L + I.m_epsn * e * geometricGap G me r nu rs ≥ 0
        ∧ geometricGap G me r nu rs ≤ R) := by simpa using hC
    have n1 : ¬ (L + I.m_epsn * e * geometricGap G me r nu rs ≥ 0
        ∧ geometricGap G me r nu rs ≤ R ∧ sporo = true ∧ (BiphasicSoluteStatus M me).1 = true) :=
      fun hx => hC' ⟨hx.1, hx.2.1⟩
    have n2 : ¬ (L + I.m_epsn * e * geometricGap G me r nu rs ≥ 0
        ∧ geometricGap G me r nu rs ≤ R ∧ ssolu = true ∧ (BiphasicSoluteStatus M me).2 = true) :=
      fun hx => hC' ⟨hx.1, hx.2.1⟩
    simp only [hC, if_false, hpm, Option.some_bind, n1, n2]
    exact ⟨_, rfl, rfl, rfl⟩

/-- C18 (frame of the pressure and concentration gaps in `ProjectSurface`). On a
surface with allocated per-point vectors, at a point `n` for which the search
finds a candidate partner `k`, the loop body returns, and afterwards `m_pg` is
`partnerPg`: entry `n` overwritten with the searching value minus the value
interpolated on the partner when `Lmd[n] + (m_epsn*epsn[n])*g >= 0`, `g <= R`
and both facets carry the pressure field, and the vector as it was in every
other case; likewise `m_cg` is `partnerCg`, with the solute field. -/
theorem ProjectSurface_gap_fields (I : FESlidingInterface3) (G : ProjectGeometry) (M : FEModel)
    (ms : FESlidingSurface3) (bupseg : Bool) (R : ℚ) (el : FESurfaceElement)
    (sporo ssolu : Bool) (ps cs : List ℚ) (j n N : Nat) (bP bS : Prop)
    (ss : FESlidingSurface3) (rs : ℚ × ℚ) (hs : Sized N bP bS ss) (hn : n < N)
    (hP : sporo = true → bP) (hS : ssolu = true → bS) (hp : PartnersIn ms ss)
    (hf : FindsIn G ms) (k : Nat) (rs1 : ℚ × ℚ) (ss1 : FESlidingSurface3)
    (hsearch : ProjectSurface_search I G ms bupseg (G.Local2GlobalGP el j) (G.SurfaceNormal el j)
      n ss rs = some (some k, rs1, ss1)) :
    ∃ me ss', vget ms.el k = some me
      ∧ ProjectSurface_point I G M ms bupseg R el sporo ssolu ps cs j (ss, n, rs)
        = some (ss', n + 1, rs1)
      ∧ ss'.m_pg = partnerPg I G M R sporo (G.evalGP el ps j) (G.Local2GlobalGP el j)
          (G.SurfaceNormal el j) rs1 n ss me
      ∧ ss'.m_cg = partnerCg I G M R ssolu (G.evalGP el cs j) (G.Local2GlobalGP el j)
          (G.SurfaceNormal el j) rs1 n ss me := by
  obtain ⟨pme, rs', ss1', e, hs1, -, -, hvalid⟩ :=
    ProjectSurface_search_spec I G ms bupseg (G.Local2GlobalGP el j) (G.SurfaceNormal el j)
      n N bP bS ss rs hs hn hp hf
  rw [hsearch] at e
  simp only [Option.some.injEq, Prod.mk.injEq] at e
  obtain ⟨e1, e2, e3⟩ := e
  subst e1 e2 e3
  have hk : k < ms.el.length := hvalid k rfl
  obtain ⟨me, hme, -⟩ := vget_isSome ms.el k hk
  -- the search changes `m_rs` only
  have hfr : ss1.m_Lmd = ss.m_Lmd ∧ ss1.m_epsn = ss.m_epsn ∧ ss1.m_pg = ss.m_pg
      ∧ ss1.m_cg = ss.m_cg := by
    by_cases hx : ∃ k', keepsPartner I G ms ss (G.Local2GlobalGP el j) (G.SurfaceNormal el j)
        n rs k'
    · obtain ⟨k', hk1, me', hme', hit⟩ := hx
      have := (ProjectSurface_search_cases I G ms bupseg (G.Local2GlobalGP el j)
        (G.SurfaceNormal el j) n N bP bS ss rs hs hn hp).1 k' me' hk1 hme' hit
      rw [hsearch] at this
      simp only [Option.some.injEq, Prod.mk.injEq] at this
      rw [this.2.2]
      exact ⟨rfl, rfl, rfl, rfl⟩
    · obtain ⟨r1, this⟩ := (ProjectSurface_search_cases I G ms bupseg (G.Local2GlobalGP el j)
        (G.SurfaceNormal el j) n N bP bS ss rs hs hn hp).2 hx
      rw [hsearch] at this
      simp only [Option.some.injEq, Prod.mk.injEq] at this
      rw [this.2.2]
      exact ⟨rfl, rfl, rfl, rfl⟩
  obtain ⟨h1, h2, h3, h4, h5, h6, h7, h8⟩ := hs1
  have w1 : ∀ x, vset ss1.m_pme n x = some (ss1.m_pme.set n x) :=
    fun x => vset_of_lt _ _ _ (by omega)
  have w2 : ∀ x, vset ss1.m_nu n x = some (ss1.m_nu.set n x) :=
    fun x => vset_of_lt _ _ _ (by omega)
  have w3 : ∀ x, vset ss1.m_rs n x = some (ss1.m_rs.set n x) :=
    fun x => vset_of_lt _ _ _ (by omega)
  have hs2 : Sized N bP bS ({ ss1 with
      m_pme := ss1.m_pme.set n (some k)
      m_nu := ss1.m_nu.set n (G.SurfaceNormal el j)
      m_rs := ss1.m_rs.set n rs1 } : FESlidingSurface3) :=
    ⟨by simp [h1], by simp [h2], by simp [h3], h4, h5, h6, h7, h8⟩
  obtain ⟨ss', q1, q2, q3⟩ := ProjectSurface_partner_gaps I G M ms R sporo ssolu
    (G.evalGP el ps j) (G.evalGP el cs j) (G.Local2GlobalGP el j) (G.SurfaceNormal el j) rs1 n k
    N bP bS _ me hs2 hn hme hP hS
  refine ⟨me, ss', hme, ?_, ?_, ?_⟩
  · unfold ProjectSurface_point
    simp only [hsearch, w1, w2, w3, Option.bind_eq_bind, Option.some_bind, Option.pure_def, q1]
  · rw [q2]
    simp only [partnerPg, hfr.1, hfr.2.1, hfr.2.2.1]
  · rw [q3]
    simp only [partnerCg, hfr.1, hfr.2.1, hfr.2.2.2]

/-- C18 at a biphasic pair with previous pressure gap 7, searching pressure 3 and
partner pressure 1: with multiplier 0, penalty 100 and geometric gap 0.02 the
pressure gap becomes 2; with geometric gap -0.05 (negative trial value) it
stays 7. The concentration gap stays 9 in both cases. -/
theorem ProjectSurface_gap_fields_witness :
    (∃ ss', ProjectSurface_point (oneFacetInterface 0 100 (some 0)) (pressureGeometry (1 / 50))
        biphasicModel (oneFacetSurface 0 1 none) true 1 ⟨0, 1, [0, 1, 2, 3], 1⟩ true false
        [0, 0, 0, 0] [] 0 (biphasicFacetSurface 0 100 7 (some 0), 0, (0, 0))
          = some (ss', 0 + 1, (0, 0))
        ∧ ss'.m_pg = [2] ∧ ss'.m_cg = [9])
      ∧ ∃ ss', ProjectSurface_point (oneFacetInterface 0 100 (some 0))
        (pressureGeometry (-1 / 20)) biphasicModel (oneFacetSurface 0 1 none) true 1
        ⟨0, 1, [0, 1, 2, 3], 1⟩ true false [0, 0, 0, 0] [] 0
        (biphasicFacetSurface 0 100 7 (some 0), 0, (0, 0)) = some (ss', 0 + 1, (0, 0))
        ∧ ss'.m_pg = [7] ∧ ss'.m_cg = [9] := by
  have hs : Sized 1 True True (biphasicFacetSurface 0 100 7 (some 0)) := by
    simp [Sized, biphasicFacetSurface, oneFacetSurface]
  have hp : PartnersIn (oneFacetSurface 0 1 none) (biphasicFacetSurface 0 100 7 (some 0)) := by
    intro k hk
    simp [biphasicFacetSurface, oneFacetSurface] at hk ⊢
    omega
  have hf : ∀ z, FindsIn (pressureGeometry z) (oneFacetSurface 0 1 none) := by
    intro z r nu rs tol k hk
    simp [pressureGeometry, flatGeometry] at hk
    simp [oneFacetSurface, ← hk]
  have hsearch : ∀ z, ProjectSurface_search (oneFacetInterface 0 100 (some 0))
      (pressureGeometry z) (oneFacetSurface 0 1 none) true
      ((pressureGeometry z).Local2GlobalGP ⟨0, 1, [0, 1, 2, 3], 1⟩ 0)
      ((pressureGeometry z).SurfaceNormal ⟨0, 1, [0, 1, 2, 3], 1⟩ 0) 0
      (biphasicFacetSurface 0 100 7 (some 0)) (0, 0)
      = some (some 0, (0, 0), biphasicFacetSurface 0 100 7 (some 0)) := by
    intro z
    simp [ProjectSurface_search, vget, vset, biphasicFacetSurface, oneFacetSurface,
      pressureGeometry, flatGeometry]
  constructor
  · obtain ⟨me, ss', hme, h1, h2, h3⟩ := ProjectSurface_gap_fields
      (oneFacetInterface 0 100 (some 0)) (pressureGeometry (1 / 50)) biphasicModel
      (oneFacetSurface 0 1 none) true 1 ⟨0, 1, [0, 1, 2, 3], 1⟩ true false [0, 0, 0, 0] [] 0 0 1
      True True (biphasicFacetSurface 0 100 7 (some 0)) (0, 0) hs (by decide) (by simp) (by simp)
      hp (hf _) 0 (0, 0) _ (hsearch _)
    have hme' : me = ⟨0, 1, [0, 1, 2, 3], 1⟩ := by
      simp [vget, oneFacetSurface] at hme
      exact hme.symm
    subst hme'
    refine ⟨ss', h1, ?_, ?_⟩
    · rw [h2]
      norm_num [partnerPg, geometricGap, vval, vec3d.dot, vec3d.sub, BiphasicSoluteStatus,
        biphasicFacetSurface, oneFacetSurface, oneFacetInterface, pointInterface,
        pressureGeometry, flatGeometry, biphasicModel, elasticModel]
    · rw [h3]
      norm_num [partnerCg, biphasicFacetSurface]
  · obtain ⟨me, ss', hme, h1, h2, h3⟩ := ProjectSurface_gap_fields
      (oneFacetInterface 0 100 (some 0)) (pressureGeometry (-1 / 20)) biphasicModel
      (oneFacetSurface 0 1 none) true 1 ⟨0, 1, [0, 1, 2, 3], 1⟩ true false [0, 0, 0, 0] [] 0 0 1
      True True (biphasicFacetSurface 0 100 7 (some 0)) (0, 0) hs (by decide) (by simp) (by simp)
      hp (hf _) 0 (0, 0) _ (hsearch _)
    have hme' : me = ⟨0, 1, [0, 1, 2, 3], 1⟩ := by
      simp [vget, oneFacetSurface] at hme
      exact hme.symm
    subst hme'
    refine ⟨ss', h1, ?_, ?_⟩
    · rw [h2]
      norm_num [partnerPg, geometricGap, vval, vec3d.dot, vec3d.sub, BiphasicSoluteStatus,
        biphasicFacetSurface, oneFacetSurface, oneFacetInterface, pointInterface,
        pressureGeometry, flatGeometry, biphasicModel, elasticModel]
    · rw [h3]
      norm_num [partnerCg, biphasicFacetSurface]

/-! ## `ContactStiffness`: the dimension of the block -/

/-- The function `BiphasicSoluteStatus` never reports the solute field without
the pressure field. -/
theorem BiphasicSoluteStatus_solute (M : FEModel) (el : FESurfaceElement)
    (h : (BiphasicSoluteStatus M el).2 = true) : (BiphasicSoluteStatus M el).1 = true := by
  unfold BiphasicSoluteStatus at h ⊢
  cases hf : M.FindElementFromID el.m_nelem with
  | none => simp [hf] at h
  | some pe =>
    simp only [hf] at h ⊢
    by_cases hsol : pe.solid = true
    · simp only [hsol, if_true] at h ⊢
      simp [h]
    · simp [hsol] at h

/-! ## `ContactStiffness`: the block in symmetric mode -/

/-- An entry of a block after a sequence of statements `ke[i][j] += v`: its
previous value plus the values of the statements that address it. -/
theorem matrix_addAll_entry (us : List Entry) (a b : Nat) :
    ∀ ke : matrix, (ke.addAll us).m_pr a b
      = ke.m_pr a b + (us.map (fun u => if u.i = a ∧ u.j = b then u.v else 0)).sum := by
  induction us with
  | nil => intro ke; simp [matrix.addAll]
  | cons u us ih =>
    intro ke
    have h := ih (ke.add u.i u.j u.v)
    simp only [matrix.addAll, List.foldl_cons] at h ⊢
    rw [h]
    simp only [matrix.add, List.map_cons, List.sum_cons]
    by_cases hc : a = u.i ∧ b = u.j
    · have hc' : u.i = a ∧ u.j = b := ⟨hc.1.symm, hc.2.symm⟩
      rw [if_pos hc, if_pos hc']; ring
    · have hc' : ¬ (u.i = a ∧ u.j = b) := fun h => hc ⟨h.1.symm, h.2.symm⟩
      rw [if_neg hc, if_neg hc']; ring

set_option maxRecDepth 100000 in
set_option maxHeartbeats 4000000 in
/-- Entry `[14][0]` of the block of `mechPoint` in symmetric mode. -/
theorem mechPoint_symm_14_0 :
    (ContactStiffness_point 1 1 1 1 1 true mechPoint).ke.m_pr 14 0 = 1 / 3 := by
  norm_num [ContactStiffness_point, matrix_addAll_entry, matrix.zero,
    mechPoint, ContactStiffness_NxN, ContactStiffness_A, ContactStiffness_M,
    StiffPoint.ndof, StiffPoint.ndpn, StiffPoint.N, StiffPoint.Nn, StiffPoint.As, StiffPoint.mm,
    StiffPoint.dtn, ForcePoint.tn, MBRACKET, vec3d.comp, vec3d.smul, vec3d.add, vval,
    List.range_succ, List.flatMap]

set_option maxRecDepth 100000 in
set_option maxHeartbeats 4000000 in
/-- Entry `[0][14]` of the block of `mechPoint` in symmetric mode. -/
theorem mechPoint_symm_0_14 :
    (ContactStiffness_point 1 1 1 1 1 true mechPoint).ke.m_pr 0 14 = 1 / 6 := by
  norm_num [ContactStiffness_point, matrix_addAll_entry, matrix.zero,
    mechPoint, ContactStiffness_NxN, ContactStiffness_A, ContactStiffness_M,
    StiffPoint.ndof, StiffPoint.ndpn, StiffPoint.N, StiffPoint.Nn, StiffPoint.As, StiffPoint.mm,
    StiffPoint.dtn, ForcePoint.tn, MBRACKET, vec3d.comp, vec3d.smul, vec3d.add, vval,
    List.range_succ, List.flatMap]

set_option maxRecDepth 100000 in
set_option maxHeartbeats 4000000 in
/-- Entry `[14][0]` of the block of `mechPoint` in non-symmetric mode. -/
theorem mechPoint_nonsymm_14_0 :
    (ContactStiffness_point 1 1 1 1 1 false mechPoint).ke.m_pr 14 0 = 2 / 3 := by
  norm_num [ContactStiffness_point, matrix_addAll_entry, matrix.zero,
    mechPoint, ContactStiffness_NxN, ContactStiffness_A, ContactStiffness_M,
    StiffPoint.ndof, StiffPoint.ndpn, StiffPoint.N, StiffPoint.Nn, StiffPoint.As, StiffPoint.mm,
    StiffPoint.dtn, ForcePoint.tn, MBRACKET, vec3d.comp, vec3d.smul, vec3d.add, vval,
    List.range_succ, List.flatMap]

set_option maxRecDepth 100000 in
set_option maxHeartbeats 4000000 in
/-- Entry `[0][14]` of the block of `mechPoint` in non-symmetric mode. -/
theorem mechPoint_nonsymm_0_14 :
    (ContactStiffness_point 1 1 1 1 1 false mechPoint).ke.m_pr 0 14 = 0 := by
  norm_num [ContactStiffness_point, matrix_addAll_entry, matrix.zero,
    mechPoint, ContactStiffness_NxN, ContactStiffness_A, ContactStiffness_M,
    StiffPoint.ndof, StiffPoint.ndpn, StiffPoint.N, StiffPoint.Nn, StiffPoint.As, StiffPoint.mm,
    StiffPoint.dtn, ForcePoint.tn, MBRACKET, vec3d.comp, vec3d.smul, vec3d.add, vval,
    List.range_succ, List.flatMap]

/-- C11, the code at a failing input: in symmetric mode, for the purely
mechanical point `mechPoint` (two flat three-node facets, traction 2, `knmult`
1) the block that `ContactStiffness` assembles has `ke[14][0] = 1/3` but
`ke[0][14] = 1/6`: it is not symmetric. Row 14 is the z-dof of node 1 of the
partner facet, column 0 the x-dof of node 0 of the searching facet. -/
theorem ContactStiffness_symmetric_mode_asymmetric :
    (ContactStiffness_point 1 1 1 1 1 true mechPoint).ke.m_pr 14 0 = 1 / 3
      ∧ (ContactStiffness_point 1 1 1 1 1 true mechPoint).ke.m_pr 0 14 = 1 / 6
      ∧ (ContactStiffness_point 1 1 1 1 1 true mechPoint).ke.m_pr 14 0
        ≠ (ContactStiffness_point 1 1 1 1 1 true mechPoint).ke.m_pr 0 14 := by
  refine ⟨mechPoint_symm_14_0, mechPoint_symm_0_14, ?_⟩
  rw [mechPoint_symm_14_0, mechPoint_symm_0_14]
  norm_num

/-- C12, the code at a failing input: for the purely mechanical point `mechPoint`
the block `K` of the non-symmetric mode has `K[0][14] = 0` and `K[14][0] = 2/3`,
so `(K + K^T)/2` has the entry 1/3 at `[0][14]`, but the block of the symmetric
mode has `ke[0][14] = 1/6`. -/
theorem ContactStiffness_symmetric_mode_not_symmetrized :
    (ContactStiffness_point 1 1 1 1 1 false mechPoint).ke.m_pr 0 14 = 0
      ∧ (ContactStiffness_point 1 1 1 1 1 false mechPoint).ke.m_pr 14 0 = 2 / 3
      ∧ (ContactStiffness_point 1 1 1 1 1 true mechPoint).ke.m_pr 0 14 = 1 / 6
      ∧ (ContactStiffness_point 1 1 1 1 1 true mechPoint).ke.m_pr 0 14
        ≠ ((ContactStiffness_point 1 1 1 1 1 false mechPoint).ke.m_pr 0 14
            + (ContactStiffness_point 1 1 1 1 1 false mechPoint).ke.m_pr 14 0) / 2 := by
  refine ⟨mechPoint_nonsymm_0_14, mechPoint_nonsymm_14_0, mechPoint_symm_0_14, ?_⟩
  rw [mechPoint_nonsymm_0_14, mechPoint_nonsymm_14_0, mechPoint_symm_0_14]
  norm_num

/-! ## `Update`: the segment-update gate -/

/-- C17 (the segment-update gate of `Update`, lines 725-742). In every call, with
the statics `st` left by the previous calls: the gate is open exactly when
`seg_up = 0` or `m_niter - biter <= seg_up`, where the base iteration `biter`
is 0 when `m_niter = 0`, `m_niter` when `m_niter != 0` and the augmentation
count of the solver exceeds the recorded one, and as it was otherwise; the
recorded count becomes the count of the solver in the first two cases. For two
successive calls, the first with a recorded count not above the count `s0.m_naug`
of the solver: after the first call the recorded count is `s0.m_naug`, so in
the second call with `m_niter != 0` the base iteration is set to `m_niter`
exactly when the count has increased since the first call, and for
`seg_up >= 0` the gate is open in the second call whenever the count has
increased. -/
theorem Update_gate_spec (m_nsegup : Int) (s0 s1 : FENLSolver) (st0 : UpdateStatics)
    (h0 : st0.naug ≤ s0.m_naug) :
    (∀ (s : FENLSolver) (st : UpdateStatics),
        ((Update_gate m_nsegup s st).2 = true ↔
          (m_nsegup = 0 ∨ s.m_niter - (Update_gate m_nsegup s st).1.biter ≤ m_nsegup))
        ∧ (Update_gate m_nsegup s st).1.biter
          = (if s.m_niter = 0 then 0 else if s.m_naug > st.naug then s.m_niter else st.biter)
        ∧ (Update_gate m_nsegup s st).1.naug
          = (if s.m_niter = 0 ∨ s.m_naug > st.naug then s.m_naug else st.naug)
        ∧ (m_nsegup = 0 → (Update_gate m_nsegup s st).2 = true))
      ∧ (Update_gate m_nsegup s0 st0).1.naug = s0.m_naug
      ∧ (s1.m_niter ≠ 0 →
          (Update_gate m_nsegup s1 (Update_gate m_nsegup s0 st0).1).1.biter
            = (if s1.m_naug > s0.m_naug then s1.m_niter
               else (Update_gate m_nsegup s0 st0).1.biter))
      ∧ (0 ≤ m_nsegup → s1.m_naug > s0.m_naug →
          (Update_gate m_nsegup s1 (Update_gate m_nsegup s0 st0).1).2 = true) := by
  have one : ∀ (s : FENLSolver) (st : UpdateStatics),
      ((Update_gate m_nsegup s st).2 = true ↔
        (m_nsegup = 0 ∨ s.m_niter - (Update_gate m_nsegup s st).1.biter ≤ m_nsegup))
      ∧ (Update_gate m_nsegup s st).1.biter
        = (if s.m_niter = 0 then 0 else if s.m_naug > st.naug then s.m_niter else st.biter)
      ∧ (Update_gate m_nsegup s st).1.naug
        = (if s.m_niter = 0 ∨ s.m_naug > st.naug then s.m_naug else st.naug)
      ∧ (m_nsegup = 0 → (Update_gate m_nsegup s st).2 = true) := by
    intro s st
    unfold Update_gate
    simp only []
    refine ⟨?_, ?_, ?_, ?_⟩
    · by_cases hz : m_nsegup = 0
      · simp [hz]
      · simp [hz]
    · split_ifs <;> rfl
    · by_cases c1 : s.m_niter = 0
      · simp [c1]
      · by_cases c2 : s.m_naug > st.naug
        · simp [c1, c2]
        · simp [c1, c2]
    · intro hz; simp [hz]
  have hn : (Update_gate m_nsegup s0 st0).1.naug = s0.m_naug := by
    rw [(one s0 st0).2.2.1]
    split_ifs with c
    · rfl
    · have : ¬ s0.m_naug > st0.naug := fun h => c (Or.inr h)
      omega
  refine ⟨one, hn, ?_, ?_⟩
  · intro h1
    rw [(one s1 _).2.1, hn, if_neg h1]
  · intro hseg hinc
    rw [(one s1 _).1, (one s1 _).2.1, hn]
    right
    by_cases c : s1.m_niter = 0
    · rw [if_pos c, c]; omega
    · rw [if_neg c, if_pos hinc]; omega

/-- C17 with `seg_up = 2`: after a call at iteration 0 with augmentation count 0,
a call at iteration 7 finds the gate closed while the count is still 0 and
open when the count has become 1. -/
theorem Update_gate_spec_witness :
    (Update_gate 2 ⟨7, 0, 0, 0⟩ (Update_gate 2 ⟨0, 0, 0, 0⟩ ⟨0, 0⟩).1).2 = false
      ∧ (Update_gate 2 ⟨7, 1, 0, 0⟩ (Update_gate 2 ⟨0, 0, 0, 0⟩ ⟨0, 0⟩).1).2 = true :=
  ⟨by decide, (Update_gate_spec 2 ⟨0, 0, 0, 0⟩ ⟨7, 1, 0, 0⟩ ⟨0, 0⟩ (by decide)).2.2.2
    (by decide) (by decide)⟩

/-! ## `Update`: the equation numbers of the nodes -/

/-- Nothing changed is a step. -/
theorem idsStep_refl (ids : NodeIDs) : idsStep ids ids :=
  fun _ => ⟨Or.inl rfl, Or.inl rfl⟩

/-- Steps compose. -/
theorem idStep_trans (a b c : Int) (h1 : idStep a b) (h2 : idStep b c) : idStep a c := by
  unfold idStep at *
  rcases h1 with h1 | h1
  · subst h1; exact h2
  · rcases h2 with h2 | h2
    · subst h2; exact Or.inr h1
    · omega

/-- Steps of all nodes compose. -/
theorem idsStep_trans (a b c : NodeIDs) (h1 : idsStep a b) (h2 : idsStep b c) : idsStep a c :=
  fun n => ⟨idStep_trans _ _ _ (h1 n).1 (h2 n).1, idStep_trans _ _ _ (h1 n).2 (h2 n).2⟩

/-- Marking a node as non-ambient is a step. -/
theorem idsStep_mark (ids : NodeIDs) (nd : Nat) : idsStep ids (ids.mark nd) := by
  intro n
  unfold NodeIDs.mark
  by_cases h : n = nd
  · simp only [h, if_true, markNonAmbient, idStep]
    constructor
    · by_cases c : (ids nd).1 < -1
      · rw [if_pos c]; right; omega
      · rw [if_neg c]; left; rfl
    · by_cases c : (ids nd).2 < -1
      · rw [if_pos c]; right; omega
      · rw [if_neg c]; left; rfl
  · simp only [h, if_false]
    exact ⟨Or.inl rfl, Or.inl rfl⟩

/-- The loop over the nodes of a facet makes a step. -/
theorem Update_mark_nodes_step (nodes lnode : List Nat) (tn : List ℚ) (cnt : Nat) :
    ∀ (i : Nat) (ids ids' : NodeIDs),
      Update_mark_nodes nodes lnode tn cnt i ids = some ids' → idsStep ids ids' := by
  induction cnt with
  | zero =>
    intro i ids ids' h
    simp only [Update_mark_nodes, Option.some.injEq] at h
    subst h; exact idsStep_refl _
  | succ cnt ih =>
    intro i ids ids' h
    simp only [Update_mark_nodes, Option.bind_eq_bind, Option.bind_eq_some] at h
    obtain ⟨t, -, h⟩ := h
    by_cases c : t > 0
    · simp only [c, if_true, Option.bind_eq_some, Option.pure_def, Option.some.injEq] at h
      obtain ⟨l, -, nd, -, ids1, h1, h2⟩ := h
      subst h1
      exact idsStep_trans _ _ _ (idsStep_mark _ _) (ih _ _ _ h2)
    · simp only [c, if_false, Option.pure_def, Option.bind_eq_some, Option.some.injEq] at h
      obtain ⟨ids1, h1, h2⟩ := h
      subst h1
      exact ih _ _ _ h2

/-- The loop over the facets of the primary surface makes a step. -/
theorem Update_primary_step (m_epsn : ℚ) (U : UpdateServices) (nodes : List Nat)
    (ss : FESlidingSurface3) (els : List FESurfaceElement) :
    ∀ (ni : Nat) (ids ids' : NodeIDs),
      Update_primary m_epsn U nodes ss els ni ids = some ids' → idsStep ids ids' := by
  induction els with
  | nil =>
    intro ni ids ids' h
    simp only [Update_primary, Option.some.injEq] at h
    subst h; exact idsStep_refl _
  | cons el els ih =>
    intro ni ids ids' h
    simp only [Update_primary, Option.bind_eq_bind, Option.bind_eq_some] at h
    obtain ⟨ti, -, ids1, h1, h2⟩ := h
    exact idsStep_trans _ _ _ (Update_mark_nodes_step _ _ _ _ _ _ _ h1) (ih _ _ _ h2)

/-- The body of the loop over the nodes of the secondary surface makes a step. -/
theorem Update_secondary_node_step (I : FESlidingInterface3) (U : UpdateServices)
    (Gsm Gms : ProjectGeometry) (R : ℚ) (ss ms : FESlidingSurface3) (nodes : List Nat) (n : Nat)
    (st st' : (ℚ × ℚ) × NodeIDs)
    (h : Update_secondary_node I U Gsm Gms R ss ms nodes n st = some st') :
    idsStep st.2 st'.2 := by
  simp only [Update_secondary_node, Option.bind_eq_bind, Option.bind_eq_some] at h
  obtain ⟨nd, -, nn, -, h⟩ := h
  cases hf : (Gms.FindIntersection (U.m_rt nd) nn st.1 I.m_stol).1 with
  | none =>
    simp only [hf, Option.pure_def, Option.some.injEq] at h
    subst h; exact idsStep_refl _
  | some nei =>
    simp only [hf, Option.bind_eq_some] at h
    obtain ⟨pse, -, h⟩ := h
    split_ifs at h with c1
    · simp only [Option.bind_eq_some] at h
      obtain ⟨noff, -, h⟩ := h
      split_ifs at h with c3
      simp only [Option.bind_eq_some, Option.pure_def, Option.some.injEq] at h
      obtain ⟨ti, -, h⟩ := h
      subst h
      simp only []
      split_ifs
      · exact idsStep_mark _ _
      · exact idsStep_refl _
    · simp only [Option.pure_def, Option.some.injEq] at h
      subst h; exact idsStep_refl _

/-- The loop over the nodes of the secondary surface makes a step. -/
theorem Update_secondary_step (I : FESlidingInterface3) (U : UpdateServices)
    (Gsm Gms : ProjectGeometry) (R : ℚ) (ss ms : FESlidingSurface3) (nodes : List Nat)
    (cnt : Nat) :
    ∀ (n : Nat) (st st' : (ℚ × ℚ) × NodeIDs),
      Update_secondary I U Gsm Gms R ss ms nodes cnt n st = some st' → idsStep st.2 st'.2 := by
  induction cnt with
  | zero =>
    intro n st st' h
    simp only [Update_secondary, Option.some.injEq] at h
    subst h; exact idsStep_refl _
  | succ cnt ih =>
    intro n st st' h
    simp only [Update_secondary, Option.bind_eq_bind, Option.bind_eq_some] at h
    obtain ⟨st1, h1, h2⟩ := h
    exact idsStep_trans _ _ _ (Update_secondary_node_step _ _ _ _ _ _ _ _ _ _ _ h1) (ih _ _ _ h2)

/-- One pass of the loop of `Update` over the two surfaces makes a step. -/
theorem Update_pass_step (I : FESlidingInterface3) (U : UpdateServices)
    (Gsm Gms : ProjectGeometry) (R : ℚ) (ss ms : FESlidingSurface3) (ssNodes msNodes : List Nat)
    (st st' : (ℚ × ℚ) × NodeIDs)
    (h : Update_pass I U Gsm Gms R ss ms ssNodes msNodes st = some st') :
    idsStep st.2 st'.2 := by
  simp only [Update_pass, Option.bind_eq_bind, Option.bind_eq_some] at h
  obtain ⟨ids1, h1, h2⟩ := h
  exact idsStep_trans _ _ _ (Update_primary_step _ _ _ _ _ _ _ _ h1)
    (Update_secondary_step _ _ _ _ _ _ _ _ _ _ _ _ h2)

/-- C14 (the ambient marking is a latch within `Update`). Whenever `Update`
returns, for every node of the mesh the pressure equation id and the
concentration equation id are either unchanged or were below -1 on entry and
are non-negative afterwards; in particular an id that is non-negative on entry
is unchanged. -/
theorem Update_ids_latch (I : FESlidingInterface3) (G12 G21 : ProjectGeometry) (M : FEModel)
    (U : UpdateServices) (solver : FENLSolver) (loc : UpdateLocals) (st : UpdateStatics)
    (ids : NodeIDs) (I' : FESlidingInterface3) (st' : UpdateStatics) (ids' : NodeIDs)
    (h : I.Update G12 G21 M U solver loc st ids = some (I', st', ids')) :
    (∀ n, ((ids' n).1 = (ids n).1 ∨ ((ids n).1 < -1 ∧ 0 ≤ (ids' n).1))
        ∧ ((ids' n).2 = (ids n).2 ∨ ((ids n).2 < -1 ∧ 0 ≤ (ids' n).2)))
      ∧ (∀ n, 0 ≤ (ids n).1 → (ids' n).1 = (ids n).1)
      ∧ (∀ n, 0 ≤ (ids n).2 → (ids' n).2 = (ids n).2) := by
  have key : idsStep ids ids' := by
    unfold FESlidingInterface3.Update at h
    cases hp : Update_project I G12 G21 M U (Update_gate I.m_nsegup solver st).2 loc with
    | none => simp [hp] at h
    | some I1 =>
      simp only [hp] at h
      split_ifs at h with c
      · simp only [Option.some.injEq, Prod.mk.injEq] at h
        rw [← h.2.2]; exact idsStep_refl _
      · simp only [Option.map_eq_some', Prod.mk.injEq] at h
        obtain ⟨r, hr, -, -, h3⟩ := h
        rw [← h3]
        simp only [Update_ambient, Option.bind_eq_bind, Option.bind_eq_some, Option.pure_def,
          Option.some.injEq] at hr
        obtain ⟨s1, h1, s2, h2, hr⟩ := hr
        rw [← hr]
        refine idsStep_trans _ _ _ (Update_pass_step _ _ _ _ _ _ _ _ _ _ _ h1) ?_
        split_ifs at h2 with c2
        · exact Update_pass_step _ _ _ _ _ _ _ _ _ _ _ h2
        · simp only [Option.some.injEq] at h2
          rw [← h2]; exact idsStep_refl _
  refine ⟨key, ?_, ?_⟩
  · intro n hn
    rcases (key n).1 with e | e
    · exact e
    · omega
  · intro n hn
    rcases (key n).2 with e | e
    · exact e
    · omega

set_option maxRecDepth 100000 in
set_option maxHeartbeats 4000000 in
/-- The run of `Update` on `biphasicInterface` at geometric gap 0.02: node 0 of
the searching facet and node 4 of the opposing facet are marked as
non-ambient. -/
theorem biphasic_Update_run :
    (biphasicInterface.Update (pressureGeometry (1 / 50)) (pressureGeometry (1 / 50))
        biphasicModel oneFacetServices ⟨0, 0, 0, 0⟩ ⟨(0, 0), (0, 0), (0, 0)⟩ ⟨0, 0⟩
        ambientIDs).map (fun r => (r.2.2 0, r.2.2 4)) = some ((1, 5), (-1, 0)) := by
  norm_num [FESlidingInterface3.Update, Update_project, Update_ambient, Update_pass,
    Update_primary, Update_secondary, Update_secondary_node, Update_mark_nodes,
    Update_tractions, Update_gate, FESlidingInterface3.UpdateContactPressures,
    UpdateContactPressures_facets, UpdateContactPressures_gauss, UpdateContactPressures_point,
    FESlidingInterface3.ProjectSurface, ProjectSurface_facets, ProjectSurface_gauss,
    ProjectSurface_point, ProjectSurface_search, ProjectSurface_partner,
    ProjectSurface_nopartner, BiphasicSoluteStatus, searchRadius, vget, vset, vval, vgetI,
    vec3d.dot, vec3d.sub, MBRACKET, NodeIDs.mark, markNonAmbient, ambientIDs,
    biphasicInterface, biphasicFacetSurface, oneFacetSurface, pointInterface,
    oneFacetServices, pressureGeometry, flatGeometry, biphasicModel, elasticModel]

/-- C14 at the run of `Update` on `biphasicInterface`: the run returns; the
concentration id 5 of node 0 is unchanged, its pressure id -3 becomes 1, the
fixed pressure id -1 of node 4 is unchanged and its concentration id -2 becomes
0; no id that was non-negative has changed. -/
theorem Update_ids_latch_witness :
    ∃ I' st' ids', biphasicInterface.Update (pressureGeometry (1 / 50))
        (pressureGeometry (1 / 50)) biphasicModel oneFacetServices ⟨0, 0, 0, 0⟩
        ⟨(0, 0), (0, 0), (0, 0)⟩ ⟨0, 0⟩ ambientIDs = some (I', st', ids')
      ∧ ids' 0 = (1, 5) ∧ ids' 4 = (-1, 0)
      ∧ (∀ n, 0 ≤ (ambientIDs n).1 → (ids' n).1 = (ambientIDs n).1)
      ∧ (∀ n, 0 ≤ (ambientIDs n).2 → (ids' n).2 = (ambientIDs n).2) := by
  have hrun := biphasic_Update_run
  cases hr : biphasicInterface.Update (pressureGeometry (1 / 50)) (pressureGeometry (1 / 50))
      biphasicModel oneFacetServices ⟨0, 0, 0, 0⟩ ⟨(0, 0), (0, 0), (0, 0)⟩ ⟨0, 0⟩ ambientIDs with
  | none => rw [hr] at hrun; simp at hrun
  | some r =>
    obtain ⟨I', st', ids'⟩ := r
    rw [hr] at hrun
    simp only [Option.map_some', Option.some.injEq, Prod.mk.injEq] at hrun
    have h := Update_ids_latch biphasicInterface (pressureGeometry (1 / 50))
      (pressureGeometry (1 / 50)) biphasicModel oneFacetServices ⟨0, 0, 0, 0⟩
      ⟨(0, 0), (0, 0), (0, 0)⟩ ⟨0, 0⟩ ambientIDs I' st' ids' hr
    exact ⟨I', st', ids', rfl, hrun.1, hrun.2, h.2.1, h.2.2⟩

/-! ## `Init`: the symmetry flag and the BFGS updates -/

/-- The loop `while (!flag && (i<Elements()))` ends with the flag set exactly when
it was set before or the test holds for a facet. -/
theorem Init_status_iff (test : FESurfaceElement → Bool) (els : List FESurfaceElement) :
    ∀ flag : Bool, Init_status test els flag = true ↔ (flag = true ∨ ∃ se ∈ els, test se = true) := by
  induction els with
  | nil => intro flag; simp [Init_status]
  | cons se els ih =>
    intro flag
    cases flag with
    | true => simp [Init_status]
    | false =>
      simp only [Init_status, Bool.not_false, if_true, ih, Bool.false_eq_true, false_or,
        List.mem_cons, exists_eq_or_imp]

/-- The test of `FESlidingSurface3::Init` for the pressure field is the first
result of `BiphasicSoluteStatus`. -/
theorem Init_isPoro_eq (M : FEModel) (se : FESurfaceElement) :
    Init_isPoro M se = (BiphasicSoluteStatus M se).1 := by
  unfold Init_isPoro BiphasicSoluteStatus
  cases M.FindElementFromID se.m_nelem with
  | none => rfl
  | some pe =>
    by_cases hs : pe.solid = true
    · simp [hs]
    · simp [hs]

/-- After `FESlidingSurface3::Init` the flag `m_bporo` is set exactly when the
surface carries the pressure field. -/
theorem Init_bporo_iff (s : FESlidingSurface3) (M : FEModel) (Nodes : Nat) (rsNew : ℚ × ℚ) :
    (s.Init M Nodes rsNew).m_bporo = true ↔ carriesPressure M s := by
  simp only [FESlidingSurface3.Init, Init_status_iff, carriesPressure, Init_isPoro_eq]

/-- C13, amended: for an interface with `symmetric_stiffness = false`, lines
330-343 of `FESlidingInterface3::Init`, run after the two surfaces have been
initialised, leave the symmetry flag of the model false, the maximum number of
BFGS updates of the solver 0 when at least one of the two surfaces carries a
pressure field, and the solver as it was on entry when neither does; and
whenever `Init` returns, the flag and the solver it leaves are these. -/
theorem Init_symmetry_flag (I : FESlidingInterface3) (G12 G21 : ProjectGeometry) (M : FEModel)
    (U : UpdateServices) (FaceArea BulkModulus : FESurfaceElement → ℚ) (Rgas Tabs : ℚ)
    (rsNew : ℚ × ℚ) (symm : Bool) (solver : FENLSolver) (loc : UpdateLocals)
    (st : UpdateStatics) (ids : NodeIDs) (hsym : I.m_bsymm = false) :
    ((Init_symmetry I.m_bsymm ((I.m_ss.Init M U.ssNode.length rsNew).m_bporo
          || (I.m_ms.Init M U.msNode.length rsNew).m_bporo) symm solver).1 = false
      ∧ (carriesPressure M I.m_ss ∨ carriesPressure M I.m_ms →
          (Init_symmetry I.m_bsymm ((I.m_ss.Init M U.ssNode.length rsNew).m_bporo
            || (I.m_ms.Init M U.msNode.length rsNew).m_bporo) symm solver).2.m_maxups = 0)
      ∧ (¬ (carriesPressure M I.m_ss ∨ carriesPressure M I.m_ms) →
          (Init_symmetry I.m_bsymm ((I.m_ss.Init M U.ssNode.length rsNew).m_bporo
            || (I.m_ms.Init M U.msNode.length rsNew).m_bporo) symm solver).2 = solver))
      ∧ ∀ r, I.Init G12 G21 M U FaceArea BulkModulus Rgas Tabs rsNew symm solver loc st ids
          = some r →
        r.symm = false
          ∧ (carriesPressure M I.m_ss ∨ carriesPressure M I.m_ms → r.solver.m_maxups = 0)
          ∧ (¬ (carriesPressure M I.m_ss ∨ carriesPressure M I.m_ms) → r.solver = solver) := by
  have hA : (Init_symmetry I.m_bsymm ((I.m_ss.Init M U.ssNode.length rsNew).m_bporo
        || (I.m_ms.Init M U.msNode.length rsNew).m_bporo) symm solver).1 = false
      ∧ (carriesPressure M I.m_ss ∨ carriesPressure M I.m_ms →
          (Init_symmetry I.m_bsymm ((I.m_ss.Init M U.ssNode.length rsNew).m_bporo
            || (I.m_ms.Init M U.msNode.length rsNew).m_bporo) symm solver).2.m_maxups = 0)
      ∧ (¬ (carriesPressure M I.m_ss ∨ carriesPressure M I.m_ms) →
          (Init_symmetry I.m_bsymm ((I.m_ss.Init M U.ssNode.length rsNew).m_bporo
            || (I.m_ms.Init M U.msNode.length rsNew).m_bporo) symm solver).2 = solver) := by
    simp only [Init_symmetry, hsym, Bool.not_false, if_true]
    refine ⟨trivial, ?_, ?_⟩
    · intro hc
      have hb : ((I.m_ss.Init M U.ssNode.length rsNew).m_bporo
          || (I.m_ms.Init M U.msNode.length rsNew).m_bporo) = true := by
        rw [Bool.or_eq_true, Init_bporo_iff, Init_bporo_iff]; exact hc
      by_cases hm : solver.m_maxups = 0
      · simp [hb, hm]
      · simp [hb, hm]
    · intro hc
      have hb : ((I.m_ss.Init M U.ssNode.length rsNew).m_bporo
          || (I.m_ms.Init M U.msNode.length rsNew).m_bporo) = false := by
        rw [Bool.eq_false_iff]
        intro hx
        rw [Bool.or_eq_true, Init_bporo_iff, Init_bporo_iff] at hx
        exact hc hx
      simp [hb]
  refine ⟨hA, ?_⟩
  intro r h
  unfold FESlidingInterface3.Init at h
  simp only [] at h
  split at h
  · exact absurd h (by simp)
  · rename_i I1 hI1
    split at h
    · exact absurd h (by simp)
    · rename_i r1 hr1
      simp only [Option.some.injEq] at h
      subst h
      exact hA

set_option maxRecDepth 100000 in
set_option maxHeartbeats 4000000 in
/-- C13, counterexample to the claim as stated: for a pair of surfaces without
pressure field in a mesh of elastic elements, `Init` with
`symmetric_stiffness = false` and a solver with 10 BFGS updates returns with
the symmetry flag false and the maximum number of BFGS updates still 10. -/
theorem Init_elastic_keeps_bfgs_counterexample :
    (elasticInterface.Init (flatGeometry (1 / 50)) (flatGeometry (1 / 50)) elasticModel
        oneFacetServices (fun _ => 1) (fun _ => 1) 1 1 (0, 0) true ⟨0, 0, 0, 10⟩
        ⟨(0, 0), (0, 0), (0, 0)⟩ ⟨0, 0⟩ ambientIDs).map
      (fun r => (r.symm, r.solver.m_maxups)) = some (false, 10) := by
  norm_num [FESlidingInterface3.Init, FESlidingSurface3.Init, Init_status, Init_isPoro,
    Init_isSolu, Init_nei, Init_symmetry, elasticInterface, oneFacetInterface,
    FESlidingInterface3.Update, Update_project, Update_ambient, Update_pass,
    Update_primary, Update_secondary, Update_secondary_node, Update_mark_nodes,
    Update_tractions, Update_gate, FESlidingInterface3.UpdateContactPressures,
    UpdateContactPressures_facets, UpdateContactPressures_gauss, UpdateContactPressures_point,
    FESlidingInterface3.ProjectSurface, ProjectSurface_facets, ProjectSurface_gauss,
    ProjectSurface_point, ProjectSurface_search, ProjectSurface_partner,
    ProjectSurface_nopartner, BiphasicSoluteStatus, searchRadius, vget, vset, vval, vgetI,
    vec3d.dot, vec3d.sub, MBRACKET, NodeIDs.mark, markNonAmbient, ambientIDs,
    oneFacetSurface, pointInterface, oneFacetServices, flatGeometry, elasticModel]

set_option maxRecDepth 100000 in
set_option maxHeartbeats 4000000 in
/-- The run of `Init` for the biphasic pair with `symmetric_stiffness = false` and
a solver with 10 BFGS updates. -/
theorem biphasic_Init_run :
    ({ biphasicInterface with m_bsymm := false }.Init (pressureGeometry (1 / 50))
        (pressureGeometry (1 / 50)) biphasicModel oneFacetServices (fun _ => 1) (fun _ => 1) 1 1
        (0, 0) true ⟨0, 0, 0, 10⟩ ⟨(0, 0), (0, 0), (0, 0)⟩ ⟨0, 0⟩ ambientIDs).isSome = true := by
  norm_num [FESlidingInterface3.Init, FESlidingSurface3.Init, Init_status, Init_isPoro,
    Init_isSolu, Init_nei, Init_symmetry, biphasicInterface, biphasicFacetSurface,
    FESlidingInterface3.Update, Update_project, Update_ambient, Update_pass,
    Update_primary, Update_secondary, Update_secondary_node, Update_mark_nodes,
    Update_tractions, Update_gate, FESlidingInterface3.UpdateContactPressures,
    UpdateContactPressures_facets, UpdateContactPressures_gauss, UpdateContactPressures_point,
    FESlidingInterface3.ProjectSurface, ProjectSurface_facets, ProjectSurface_gauss,
    ProjectSurface_point, ProjectSurface_search, ProjectSurface_partner,
    ProjectSurface_nopartner, BiphasicSoluteStatus, searchRadius, vget, vset, vval, vgetI,
    vec3d.dot, vec3d.sub, MBRACKET, NodeIDs.mark, markNonAmbient, ambientIDs,
    oneFacetSurface, pointInterface, oneFacetServices, pressureGeometry, flatGeometry,
    biphasicModel, elasticModel]

/-- C13 at the biphasic pair: `Init` returns with the symmetry flag false and the
maximum number of BFGS updates 0 (it was 10). -/
theorem Init_symmetry_flag_witness :
    ∃ r, { biphasicInterface with m_bsymm := false }.Init (pressureGeometry (1 / 50))
        (pressureGeometry (1 / 50)) biphasicModel oneFacetServices (fun _ => 1) (fun _ => 1) 1 1
        (0, 0) true ⟨0, 0, 0, 10⟩ ⟨(0, 0), (0, 0), (0, 0)⟩ ⟨0, 0⟩ ambientIDs = some r
      ∧ r.symm = false ∧ r.solver.m_maxups = 0 := by
  obtain ⟨r, hr⟩ := Option.isSome_iff_exists.mp biphasic_Init_run
  have h := (Init_symmetry_flag { biphasicInterface with m_bsymm := false }
    (pressureGeometry (1 / 50)) (pressureGeometry (1 / 50)) biphasicModel oneFacetServices
    (fun _ => 1) (fun _ => 1) 1 1 (0, 0) true ⟨0, 0, 0, 10⟩ ⟨(0, 0), (0, 0), (0, 0)⟩ ⟨0, 0⟩
    ambientIDs rfl).2 r hr
  exact ⟨r, hr, h.1, h.2.1 (Or.inl (Or.inl rfl))⟩

/-! ## `ContactStiffness`: the multiplier of the higher-order terms -/

/-- C22, counterexample to the claim as stated: with `knmult = -3` the threshold is
3, and at 3 stiffness reformations, a number that does not exceed the
threshold, the multiplier is already 1. -/
theorem ContactStiffness_knmult_threshold_counterexample :
    truncInt (-(-3)) = 3 ∧ ContactStiffness_knmult (-3) 3 = 1 := by
  have h : truncInt (-(-3)) = 3 := by
    norm_num [truncInt]
  refine ⟨h, ?_⟩
  unfold ContactStiffness_knmult
  rw [h]
  norm_num

/-- C22, amended: when `knmult` is negative, with threshold `n = trunc(-knmult)`,
the multiplier applied to the A- and M-terms is 0 while the number of
stiffness reformations is below `n` and 1 once it has reached `n`; when
`knmult >= 0` the multiplier is `knmult` itself. -/
theorem ContactStiffness_knmult_spec (m_knmult : ℚ) (nref : Int) :
    (m_knmult < 0 → nref < truncInt (-m_knmult) → ContactStiffness_knmult m_knmult nref = 0)
      ∧ (m_knmult < 0 → truncInt (-m_knmult) ≤ nref → ContactStiffness_knmult m_knmult nref = 1)
      ∧ (0 ≤ m_knmult → ContactStiffness_knmult m_knmult nref = m_knmult)
      ∧ (m_knmult < 0 → truncInt (-m_knmult) = ⌊-m_knmult⌋) := by
  refine ⟨?_, ?_, ?_, ?_⟩
  · intro h1 h2
    have : ¬ nref ≥ truncInt (-m_knmult) := not_le.mpr h2
    simp [ContactStiffness_knmult, h1, this]
  · intro h1 h2
    have : nref ≥ truncInt (-m_knmult) := h2
    simp [ContactStiffness_knmult, h1, this]
  · intro h1
    have : ¬ m_knmult < 0 := not_lt.mpr h1
    simp [ContactStiffness_knmult, this]
  · intro h1
    have : ¬ (-m_knmult < 0) := by linarith
    simp [truncInt, this]

/-- C22 with `knmult = -3`: the multiplier is 0 at 2 stiffness reformations and 1
at 3 and at 4; with `knmult = 1/2` it is 1/2. -/
theorem ContactStiffness_knmult_spec_witness :
    ContactStiffness_knmult (-3) 2 = 0 ∧ ContactStiffness_knmult (-3) 3 = 1
      ∧ ContactStiffness_knmult (-3) 4 = 1 ∧ ContactStiffness_knmult (1 / 2) 0 = 1 / 2 := by
  have h : truncInt (-(-3)) = 3 := by norm_num [truncInt]
  exact ⟨(ContactStiffness_knmult_spec (-3) 2).1 (by norm_num) (by rw [h]; norm_num),
    (ContactStiffness_knmult_spec (-3) 3).2.1 (by norm_num) (by rw [h]),
    (ContactStiffness_knmult_spec (-3) 4).2.1 (by norm_num) (by rw [h]; norm_num),
    (ContactStiffness_knmult_spec (1 / 2) 0).2.2.1 (by norm_num)⟩

/-! ## `MarkAmbient`: the encoding of the ambient dofs -/

/-- The ids after the loop of `MarkAmbient` over a node table: the id of the dof
of every node of the table is marked, all others are as they were. -/
theorem MarkAmbient_loop_eq (pressure : Bool) (nodes : List Nat) :
    ∀ (ids : NodeIDs) (n : Nat), MarkAmbient_loop pressure nodes ids n
      = (if n ∈ nodes then
          (if pressure then (markAmbientId (ids n).1, (ids n).2)
           else ((ids n).1, markAmbientId (ids n).2))
         else ids n) := by
  have idem : ∀ x : Int, markAmbientId (markAmbientId x) = markAmbientId x := by
    intro x
    unfold markAmbientId
    split_ifs <;> omega
  induction nodes with
  | nil => intro ids n; simp [MarkAmbient_loop]
  | cons nd rest ih =>
    intro ids n
    simp only [MarkAmbient_loop, ih, List.mem_cons]
    by_cases h1 : n = nd
    · subst h1
      cases pressure <;> by_cases h2 : n ∈ rest <;> simp [h2, idem]
    · by_cases h2 : n ∈ rest <;> simp [h1, h2]

/-- The ids after `MarkAmbient`: the pressure id of every node of a surface with
pressure field and the concentration id of every node of a surface with solute
field are marked, all others are as they were. -/
theorem MarkAmbient_eq (I : FESlidingInterface3) (U : UpdateServices) (ids : NodeIDs)
    (n : Nat) :
    ((I.MarkAmbient U ids) n).1
        = (if pressureNode I U n then markAmbientId (ids n).1 else (ids n).1)
      ∧ ((I.MarkAmbient U ids) n).2
        = (if soluteNode I U n then markAmbientId (ids n).2 else (ids n).2) := by
  have idem : ∀ x : Int, markAmbientId (markAmbientId x) = markAmbientId x := by
    intro x
    unfold markAmbientId
    split_ifs <;> omega
  unfold FESlidingInterface3.MarkAmbient MarkAmbient_surface pressureNode soluteNode
  cases h1 : I.m_ss.m_bporo <;> cases h2 : I.m_ss.m_bsolu <;> cases h3 : I.m_ms.m_bporo <;>
    cases h4 : I.m_ms.m_bsolu <;> by_cases m1 : n ∈ U.ssNode <;> by_cases m2 : n ∈ U.msNode <;>
    simp [MarkAmbient_loop_eq, m1, m2, idem]

/-- C23 (the ambient marking is an exact round trip). For every equation id that
is not negative, the encoding `-id-2` of `MarkAmbient` is below -1 and the
un-marking of `Update`, which applies to values below -1 only, maps it back to
the id; the sentinel -1 of a fixed dof is changed by neither; after
`MarkAmbient` the pressure id of every node of a surface with pressure field and
the concentration id of every node of a surface with solute field is negative;
and `MarkAmbient` applied twice gives the same ids as applied once. The ids are
taken as integers; for an id up to `2^31 - 2` the encoding stays within the
range of a 32-bit `int`. -/
theorem MarkAmbient_roundtrip (I : FESlidingInterface3) (U : UpdateServices) (ids : NodeIDs) :
    (∀ id other : Int, 0 ≤ id →
        markAmbientId id = -id - 2 ∧ markAmbientId id < -1
          ∧ (markNonAmbient (markAmbientId id, other)).1 = id
          ∧ (markNonAmbient (other, markAmbientId id)).2 = id)
      ∧ (markAmbientId (-1) = -1 ∧ markNonAmbient (-1, -1) = (-1, -1))
      ∧ (∀ n, pressureNode I U n = true → ((I.MarkAmbient U ids) n).1 < 0)
      ∧ (∀ n, soluteNode I U n = true → ((I.MarkAmbient U ids) n).2 < 0)
      ∧ I.MarkAmbient U (I.MarkAmbient U ids) = I.MarkAmbient U ids
      ∧ (∀ id : Int, 0 ≤ id → id ≤ 2 ^ 31 - 2 → -(2 ^ 31) ≤ markAmbientId id) := by
  have idem : ∀ x : Int, markAmbientId (markAmbientId x) = markAmbientId x := by
    intro x
    unfold markAmbientId
    split_ifs <;> omega
  have neg : ∀ x : Int, markAmbientId x < 0 := by
    intro x
    unfold markAmbientId
    split_ifs <;> omega
  refine ⟨?_, ?_, ?_, ?_, ?_, ?_⟩
  · intro id other h
    have e : markAmbientId id = -id - 2 := by
      unfold markAmbientId
      rw [if_pos h]
    have l : -id - 2 < -1 := by omega
    refine ⟨e, by rw [e]; exact l, ?_, ?_⟩
    · simp only [markNonAmbient, e, if_pos l]; omega
    · simp only [markNonAmbient, e, if_pos l]; omega
  · constructor
    · decide
    · decide
  · intro n hn
    rw [(MarkAmbient_eq I U ids n).1, if_pos hn]
    exact neg _
  · intro n hn
    rw [(MarkAmbient_eq I U ids n).2, if_pos hn]
    exact neg _
  · funext n
    obtain ⟨a1, a2⟩ := MarkAmbient_eq I U (I.MarkAmbient U ids) n
    obtain ⟨b1, b2⟩ := MarkAmbient_eq I U ids n
    apply Prod.ext
    · rw [a1, b1]
      split_ifs
      · exact idem _
      · rfl
    · rw [a2, b2]
      split_ifs
      · exact idem _
      · rfl
  · intro id h0 h1
    unfold markAmbientId
    rw [if_pos h0]
    omega

/-- Witness for C23 on the biphasic pair with the one-facet node tables: the
free pressure id 5 is stored as -7 and read back as 5, and node 0 of the
searching surface has a negative pressure id after `MarkAmbient`. -/
theorem MarkAmbient_roundtrip_witness :
    (0 : Int) ≤ 5 ∧ pressureNode biphasicInterface oneFacetServices 0 = true
      ∧ markAmbientId 5 = -5 - 2
      ∧ (markNonAmbient (markAmbientId 5, 0)).1 = 5
      ∧ ((biphasicInterface.MarkAmbient oneFacetServices (fun _ => (5, -1))) 0).1 < 0 :=
  ⟨by decide, rfl,
    ((MarkAmbient_roundtrip biphasicInterface oneFacetServices (fun _ => (5, -1))).1 5 0
      (by decide)).1,
    ((MarkAmbient_roundtrip biphasicInterface oneFacetServices (fun _ => (5, -1))).1 5 0
      (by decide)).2.2.1,
    (MarkAmbient_roundtrip biphasicInterface oneFacetServices (fun _ => (5, -1))).2.2.1 0 rfl⟩

/-! ## `FESlidingSurface3::Init`: the per-point records -/

/-- The offset table of `Init`: one entry per facet, and entry `i` is the
starting count plus the number of integration points of the facets before
facet `i`. -/
theorem Init_nei_spec : ∀ (els : List FESurfaceElement) (n0 : Nat),
    (Init_nei els n0).length = els.length
      ∧ ∀ i, i < els.length →
          vget (Init_nei els n0) i = some ((n0 + totalGauss (els.take i) : Nat) : Int) := by
  intro els
  induction els with
  | nil => intro n0; simp [Init_nei]
  | cons el els ih =>
    intro n0
    refine ⟨by simp [Init_nei, (ih _).1], ?_⟩
    intro i hi
    cases i with
    | zero => simp [Init_nei, vget, totalGauss]
    | succ i =>
      have h := (ih (n0 + el.nint)).2 i (by simpa using hi)
      simp only [vget] at h
      simp only [Init_nei, vget, List.getElem?_cons_succ, h, List.take_succ_cons, totalGauss_cons]
      simp [Nat.add_assoc]

/-- The entries of a vector filled by `assign(n, a)`. -/
theorem vget_replicate {α : Type} (n : Nat) (a : α) (k : Nat) (h : k < n) :
    vget (List.replicate n a) k = some a := by
  simp [vget, List.getElem?_replicate, h]

/-- C24 (the per-point records after `FESlidingSurface3::Init`). With `N` the sum
of the Gauss points of all facets, the vectors of gaps, normals, local
coordinates, the three multipliers, partners, the three penalties and `m_Ln`
have length `N`; at every point the gap and the three multipliers are 0, the
partner is empty and the three penalties are 1; the offset table has one entry
per facet and `m_nei[i]` is the sum of the Gauss points of the facets before
facet `i`. -/
theorem Init_surface_records (s : FESlidingSurface3) (M : FEModel) (Nodes : Nat)
    (rsNew : ℚ × ℚ) :
    ((s.Init M Nodes rsNew).m_gap.length = totalGauss s.el
        ∧ (s.Init M Nodes rsNew).m_nu.length = totalGauss s.el
        ∧ (s.Init M Nodes rsNew).m_rs.length = totalGauss s.el
        ∧ (s.Init M Nodes rsNew).m_Lmd.length = totalGauss s.el
        ∧ (s.Init M Nodes rsNew).m_Lmp.length = totalGauss s.el
        ∧ (s.Init M Nodes rsNew).m_Lmc.length = totalGauss s.el
        ∧ (s.Init M Nodes rsNew).m_pme.length = totalGauss s.el
        ∧ (s.Init M Nodes rsNew).m_epsn.length = totalGauss s.el
        ∧ (s.Init M Nodes rsNew).m_epsp.length = totalGauss s.el
        ∧ (s.Init M Nodes rsNew).m_epsc.length = totalGauss s.el
        ∧ (s.Init M Nodes rsNew).m_Ln.length = totalGauss s.el)
      ∧ (∀ k, k < totalGauss s.el →
          vget (s.Init M Nodes rsNew).m_gap k = some 0
            ∧ vget (s.Init M Nodes rsNew).m_Lmd k = some 0
            ∧ vget (s.Init M Nodes rsNew).m_Lmp k = some 0
            ∧ vget (s.Init M Nodes rsNew).m_Lmc k = some 0
            ∧ vget (s.Init M Nodes rsNew).m_pme k = some none
            ∧ vget (s.Init M Nodes rsNew).m_epsn k = some 1
            ∧ vget (s.Init M Nodes rsNew).m_epsp k = some 1
            ∧ vget (s.Init M Nodes rsNew).m_epsc k = some 1)
      ∧ (s.Init M Nodes rsNew).el = s.el
      ∧ (s.Init M Nodes rsNew).m_nei.length = s.el.length
      ∧ (∀ i, i < s.el.length →
          vget (s.Init M Nodes rsNew).m_nei i = some ((totalGauss (s.el.take i) : Nat) : Int)
            ∧ pointOffset (s.Init M Nodes rsNew) i = totalGauss (s.el.take i)) := by
  refine ⟨?_, ?_, rfl, ?_, ?_⟩
  · simp only [FESlidingSurface3.Init, totalGauss, List.length_replicate, List.length_take,
      List.length_append]
    refine ⟨trivial, trivial, ?_, trivial, trivial, trivial, trivial, trivial, trivial, trivial,
      trivial⟩
    omega
  · intro k hk
    simp only [FESlidingSurface3.Init]
    exact ⟨vget_replicate _ _ _ hk, vget_replicate _ _ _ hk, vget_replicate _ _ _ hk,
      vget_replicate _ _ _ hk, vget_replicate _ _ _ hk, vget_replicate _ _ _ hk,
      vget_replicate _ _ _ hk, vget_replicate _ _ _ hk⟩
  · exact (Init_nei_spec s.el 0).1
  · intro i hi
    have h := (Init_nei_spec s.el 0).2 i hi
    rw [Nat.zero_add] at h
    exact ⟨h, rfl⟩

/-- Witness for C24 on the surface with facets of three and four integration
points: seven records, the last one with gap 0, no partner and penalty 1, and
the second facet starts at record 3. -/
theorem Init_surface_records_witness :
    totalGauss twoFacetSurface.el = 7
      ∧ (twoFacetSurface.Init elasticModel 6 (0, 0)).m_rs.length = 7
      ∧ vget (twoFacetSurface.Init elasticModel 6 (0, 0)).m_gap 6 = some 0
      ∧ vget (twoFacetSurface.Init elasticModel 6 (0, 0)).m_pme 6 = some none
      ∧ vget (twoFacetSurface.Init elasticModel 6 (0, 0)).m_epsn 6 = some 1
      ∧ vget (twoFacetSurface.Init elasticModel 6 (0, 0)).m_nei 1 = some 3 :=
  ⟨rfl,
    (Init_surface_records twoFacetSurface elasticModel 6 (0, 0)).1.2.2.1,
    ((Init_surface_records twoFacetSurface elasticModel 6 (0, 0)).2.1 6 (by decide)).1,
    ((Init_surface_records twoFacetSurface elasticModel 6 (0, 0)).2.1 6 (by decide)).2.2.2.2.1,
    ((Init_surface_records twoFacetSurface elasticModel 6 (0, 0)).2.1 6
      (by decide)).2.2.2.2.2.1,
    ((Init_surface_records twoFacetSurface elasticModel 6 (0, 0)).2.2.2.2 1 (by decide)).1⟩

/-! ## `Augment`: what is left unchanged -/

/-- A surface differs from itself in nothing. -/
theorem sameButMultipliers_refl (s : FESlidingSurface3) : sameButMultipliers s s := by
  simp [sameButMultipliers]

/-- Differing in the multiplier vectors at most is transitive. -/
theorem sameButMultipliers_trans (s t u : FESlidingSurface3) (h1 : sameButMultipliers s t)
    (h2 : sameButMultipliers t u) : sameButMultipliers s u := by
  unfold sameButMultipliers at *
  obtain ⟨a1, a2, a3, a4, a5, a6, a7, a8, a9, a10, a11, a12, a13, a14, a15⟩ := h1
  obtain ⟨b1, b2, b3, b4, b5, b6, b7, b8, b9, b10, b11, b12, b13, b14, b15⟩ := h2
  exact ⟨b1.trans a1, b2.trans a2, b3.trans a3, b4.trans a4, b5.trans a5, b6.trans a6,
    b7.trans a7, b8.trans a8, b9.trans a9, b10.trans a10, b11.trans a11, b12.trans a12,
    b13.trans a13, b14.trans a14, b15.trans a15⟩

/-- Whenever the loop body of `Augment` completes, it has changed the three
multiplier vectors at most. -/
theorem Augment_point_frame (m_epsn m_epsp m_epsc : ℚ) (i : Nat) (s s' : FESlidingSurface3)
    (a a' : AugNorms) (h : Augment_point m_epsn m_epsp m_epsc i (s, a) = some (s', a')) :
    sameButMultipliers s s' := by
  unfold Augment_point at h
  simp only [Option.bind_eq_bind, Option.bind_eq_some, Option.pure_def] at h
  obtain ⟨e, -, l, -, g, -, Lmd, -, h⟩ := h
  by_cases hb : s.m_bporo = true
  · rw [if_pos hb] at h
    simp only [Option.bind_eq_some] at h
    obtain ⟨d, -, Lmp, -, Lmc, -, y, hy, h⟩ := h
    simp only [Option.some.injEq, Prod.mk.injEq] at h hy
    rw [← h.1, ← hy]
    simp [sameButMultipliers]
  · rw [if_neg hb] at h
    simp only [Option.bind_eq_some] at h
    obtain ⟨y, hy, h⟩ := h
    simp only [Option.some.injEq, Prod.mk.injEq] at h hy
    rw [← h.1, ← hy]
    simp [sameButMultipliers]

/-- Whenever the loop of `Augment` over the points of a surface completes, it has
changed the three multiplier vectors at most. -/
theorem Augment_loop_frame (m_epsn m_epsp m_epsc : ℚ) (n : Nat) :
    ∀ (i : Nat) (s s' : FESlidingSurface3) (a a' : AugNorms),
      Augment_loop m_epsn m_epsp m_epsc n i (s, a) = some (s', a') →
        sameButMultipliers s s' := by
  induction n with
  | zero =>
    intro i s s' a a' h
    simp only [Augment_loop, Option.some.injEq, Prod.mk.injEq] at h
    rw [← h.1]
    exact sameButMultipliers_refl s
  | succ n ih =>
    intro i s s' a a' h
    simp only [Augment_loop, Option.bind_eq_bind, Option.bind_eq_some] at h
    obtain ⟨⟨s1, a1⟩, h1, h2⟩ := h
    exact sameButMultipliers_trans _ _ _ (Augment_point_frame _ _ _ _ _ _ _ _ h1)
      (ih _ _ _ _ _ h2)

/-- C28 (what `Augment` leaves unchanged). With `laugon` false, `Augment` returns
`true` and the interface is exactly as before. Whenever `Augment` returns, every
parameter of the interface is as before and each surface differs from its
previous state in the vectors of the normal, pressure and concentration
multipliers at most: facets, gaps, normals, local coordinates, penalties,
pressure and concentration gaps and partners are unchanged. With `laugon` true
and the vectors of both surfaces allocated, `Augment` does return. -/
theorem Augment_frame (I : FESlidingInterface3) :
    (I.m_blaugon = false → I.Augment = some (I, true))
      ∧ (∀ I' b, I.Augment = some (I', b) →
          I' = { I with m_ss := I'.m_ss, m_ms := I'.m_ms }
            ∧ sameButMultipliers I.m_ss I'.m_ss ∧ sameButMultipliers I.m_ms I'.m_ms)
      ∧ (I.m_blaugon = true → I.m_ss.allocated → I.m_ms.allocated →
          ∃ I' b, I.Augment = some (I', b)) := by
  refine ⟨?_, ?_, ?_⟩
  · intro h
    simp [FESlidingInterface3.Augment, h]
  · intro I' b h
    by_cases hon : I.m_blaugon = true
    case neg =>
      simp only [FESlidingInterface3.Augment, hon, Bool.not_false, if_true, Option.some.injEq,
        Prod.mk.injEq] at h
      rw [← h.1]
      exact ⟨rfl, sameButMultipliers_refl _, sameButMultipliers_refl _⟩
    case pos =>
      simp only [FESlidingInterface3.Augment, hon, Bool.not_true, Bool.false_eq_true, if_false,
        Option.bind_eq_bind, Option.bind_eq_some, Option.pure_def, Option.some.injEq,
        Prod.mk.injEq] at h
      obtain ⟨⟨ss, ms, a⟩, hu, hI, -⟩ := h
      simp only [Augment_update, Option.bind_eq_bind, Option.bind_eq_some, Option.pure_def,
        Option.some.injEq, Prod.mk.injEq] at hu
      obtain ⟨⟨s1, a1⟩, h1, ⟨s2, a2⟩, h2, e1, e2, -⟩ := hu
      subst e1 e2
      rw [← hI]
      exact ⟨by rw [hon], Augment_loop_frame _ _ _ _ _ _ _ _ _ h1,
        Augment_loop_frame _ _ _ _ _ _ _ _ _ h2⟩
  · intro hon hs hm
    exact ⟨_, _, Augment_eq I hon hs hm⟩

/-- Witness for C28: with augmentation switched off the scenario pair is
returned as it is with the flag `true`, and with augmentation on the call
returns and the gaps of the searching surface are those before the call. -/
theorem Augment_frame_witness :
    ({ scenarioInterface with m_blaugon := false } : FESlidingInterface3).Augment
        = some ({ scenarioInterface with m_blaugon := false }, true)
      ∧ ∃ I' b, scenarioInterface.Augment = some (I', b)
          ∧ I'.m_ss.m_gap = [1 / 50, -1 / 20] ∧ I'.m_ss.m_epsn = [100, 100] := by
  refine ⟨(Augment_frame { scenarioInterface with m_blaugon := false }).1 rfl, ?_⟩
  obtain ⟨I', b, h⟩ :=
    (Augment_frame scenarioInterface).2.2 rfl scenario_allocated.1 scenario_allocated.2
  obtain ⟨-, hs, -⟩ := (Augment_frame scenarioInterface).2.1 I' b h
  exact ⟨I', b, h, hs.2.2.2.1, hs.2.2.2.2.2.2.2.1⟩

/-! ## `Augment`: the reads of the pressure and concentration gaps -/

set_option maxRecDepth 100000 in
set_option maxHeartbeats 4000000 in
/-- The run of `Init` and then `Augment` for the pair of newly constructed
surfaces on a biphasic mesh, the searching point 0.02 above the opposing facet:
`Init` returns, the searching surface carries the pressure field and no solute
field, its pressure-gap vector has one entry and its concentration-gap vector
none, the gap of its point is 0.02 with penalty 1 and multiplier 0 (so the
trial value is positive), and `Augment` reads `m_cg[0]` outside the bounds. -/
theorem Augment_cg_out_of_bounds :
    (freshInterface.Init (pressureGeometry (1 / 50)) (pressureGeometry (1 / 50))
        biphasicModel oneFacetServices (fun _ => 1) (fun _ => 1) 1 1 (0, 0) true
        ⟨0, 0, 0, 10⟩ ⟨(0, 0), (0, 0), (0, 0)⟩ ⟨0, 0⟩ ambientIDs).map
      (fun r => (r.I.m_blaugon, r.I.m_ss.m_bporo, r.I.m_ss.m_bsolu, r.I.m_ss.m_pg.length,
        r.I.m_ss.m_cg.length, r.I.m_ss.m_gap, r.I.m_ss.m_epsn, r.I.m_ss.m_Lmd,
        vget r.I.m_ss.m_cg 0, r.I.Augment))
      = some (true, true, false, 1, 0, [1 / 50], [1], [0], none, none) := by
  norm_num [FESlidingInterface3.Init, FESlidingSurface3.Init, Init_status, Init_isPoro,
    Init_isSolu, Init_nei, Init_symmetry, freshInterface, freshFacetSurface,
    FESlidingInterface3.Update, Update_project, Update_ambient, Update_pass,
    Update_primary, Update_secondary, Update_secondary_node, Update_mark_nodes,
    Update_tractions, Update_gate, FESlidingInterface3.UpdateContactPressures,
    UpdateContactPressures_facets, UpdateContactPressures_gauss, UpdateContactPressures_point,
    FESlidingInterface3.ProjectSurface, ProjectSurface_facets, ProjectSurface_gauss,
    ProjectSurface_point, ProjectSurface_search, ProjectSurface_partner,
    ProjectSurface_nopartner, BiphasicSoluteStatus, searchRadius, vget, vset, vval, vgetI,
    vec3d.dot, vec3d.sub, MBRACKET, NodeIDs.mark, markNonAmbient, ambientIDs,
    pointInterface, oneFacetServices, pressureGeometry, flatGeometry,
    biphasicModel, elasticModel, FESlidingInterface3.Augment, Augment_update, Augment_loop,
    Augment_point, Augment_flow, normL0_of]

/-! ## `ContactStiffness`: the N⊗N block -/

set_option maxRecDepth 100000 in
set_option maxHeartbeats 4000000 in
/-- C27, failing input: at `edgePoint` the trial traction `Lm + eps*g` is 0, so
the point is not in contact and `ContactForces` assembles the mechanical
residual only, without a pressure flow; yet in non-symmetric mode with `dt = 1`
the block of `ContactStiffness` has the entries `[3][0] = -1/6` and
`[19][1] = 1/6`, which come from the A- and m-terms of the pressure rows with
the factor `wn = m_Lmp[ni]`. -/
theorem ContactStiffness_inactive_point_nonzero :
    edgePoint.Lm + (1 * edgePoint.epsn) * edgePoint.g ≤ 0
      ∧ (ContactForces_point 1 1 1 1 edgePoint.toForcePoint).length = 1
      ∧ (ContactStiffness_point 1 1 1 1 1 false edgePoint).ke.m_pr 3 0 = -1 / 6
      ∧ (ContactStiffness_point 1 1 1 1 1 false edgePoint).ke.m_pr 19 1 = 1 / 6 := by
  refine ⟨by norm_num [edgePoint, mechPoint],
    by norm_num [ContactForces_point, ForcePoint.tn, MBRACKET, edgePoint, mechPoint], ?_, ?_⟩ <;>
  norm_num [ContactStiffness_point, matrix_addAll_entry, matrix.zero, edgePoint,
    mechPoint, ContactStiffness_NxN, ContactStiffness_A, ContactStiffness_M,
    ContactStiffness_biphasic, ContactStiffness_pp, StiffPoint.Np,
    StiffPoint.ndof, StiffPoint.ndpn, StiffPoint.N, StiffPoint.Nn, StiffPoint.As, StiffPoint.mm,
    StiffPoint.dtn, ForcePoint.tn, MBRACKET, vec3d.comp, vec3d.smul, vec3d.add, vval,
    List.range_succ, List.flatMap]

/-! ## `BlockMatrix`: the partitions -/

/-- The entries of `m_part` after lines 33-35 of `Partition`: there is one more
than there are partitions, and entry `k` is the starting value plus the sizes
of the partitions before partition `k`. -/
theorem Partition_part_spec : ∀ (part : List Int) (acc : Int),
    (Partition_part part acc).length = part.length + 1
      ∧ ∀ k, k ≤ part.length →
          vget (Partition_part part acc) k = some (acc + (part.take k).sum) := by
  intro part
  induction part with
  | nil =>
    intro acc
    refine ⟨rfl, ?_⟩
    intro k hk
    have : k = 0 := by simpa using hk
    subst this
    simp [Partition_part, vget]
  | cons p ps ih =>
    intro acc
    refine ⟨by simp [Partition_part, (ih _).1], ?_⟩
    intro k hk
    cases k with
    | zero => simp [Partition_part, vget]
    | succ k =>
      have h := (ih (acc + p)).2 k (by simpa using hk)
      simp only [vget] at h
      simp only [Partition_part, vget, List.getElem?_cons_succ, h, List.take_succ_cons,
        List.sum_cons]
      rw [add_assoc]

/-- The blocks that the inner loop of `Partition` writes for one row. -/
theorem Partition_cols_spec (i : Nat) (nrow pi : Int) : ∀ (ps : List Int) (j : Nat) (ncol : Int),
    (Partition_cols i nrow pi ps j ncol).length = ps.length
      ∧ ∀ k, k < ps.length → ∃ B, vget (Partition_cols i nrow pi ps j ncol) k = some B
          ∧ B.nstart_row = nrow ∧ B.nend_row = nrow + pi - 1
          ∧ B.nstart_col = ncol + (ps.take k).sum
          ∧ B.nend_col = ncol + (ps.take (k + 1)).sum - 1
          ∧ B.pA.symmetric = decide (i = j + k) := by
  intro ps
  induction ps with
  | nil => intro j ncol; simp [Partition_cols]
  | cons p ps ih =>
    intro j ncol
    refine ⟨by simp [Partition_cols, (ih _ _).1], ?_⟩
    intro k hk
    cases k with
    | zero =>
      refine ⟨⟨nrow, nrow + pi - 1, ncol, ncol + p - 1, ⟨decide (i = j), fun _ _ => 0⟩⟩,
        by simp [Partition_cols, vget], rfl, rfl, ?_, ?_, ?_⟩ <;> simp
    | succ k =>
      obtain ⟨B, h, h1, h2, h3, h4, h5⟩ := (ih (j + 1) (ncol + p)).2 k (by simpa using hk)
      simp only [vget] at h
      refine ⟨B, by simp [Partition_cols, vget, h], h1, h2, ?_, ?_, ?_⟩
      · rw [h3, List.take_succ_cons, List.sum_cons]; ring
      · rw [h4, List.take_succ_cons, List.sum_cons]; ring
      · rw [h5]
        congr 1
        apply propext
        omega

/-- The blocks that the loops of `Partition` write: block `(r, c)` is entry
`r*n + c` of the rows written from row `i` on. -/
theorem Partition_rows_spec (part : List Int) : ∀ (ps : List Int) (i : Nat) (nrow : Int),
    ∀ r c, r < ps.length → c < part.length →
      ∃ B, vget (Partition_rows part ps i nrow) (r * part.length + c) = some B
        ∧ B.nstart_row = nrow + (ps.take r).sum
        ∧ B.nend_row = nrow + (ps.take (r + 1)).sum - 1
        ∧ B.nstart_col = (part.take c).sum
        ∧ B.nend_col = (part.take (c + 1)).sum - 1
        ∧ B.pA.symmetric = decide (i + r = c) := by
  intro ps
  induction ps with
  | nil => intro i nrow r c hr; simp at hr
  | cons p ps ih =>
    intro i nrow r c hr hc
    have hlen := (Partition_cols_spec i nrow p part 0 0).1
    cases r with
    | zero =>
      obtain ⟨B, h, h1, h2, h3, h4, h5⟩ := (Partition_cols_spec i nrow p part 0 0).2 c hc
      simp only [vget] at h
      refine ⟨B, ?_, ?_, ?_, ?_, ?_, ?_⟩
      · simp only [Partition_rows, vget, Nat.zero_mul, Nat.zero_add]
        rw [List.getElem?_append_left (by rw [hlen]; exact hc)]
        exact h
      · rw [h1]; simp
      · rw [h2]; simp
      · rw [h3]; simp
      · rw [h4]; simp
      · rw [h5]; simp
    | succ r =>
      obtain ⟨B, h, h1, h2, h3, h4, h5⟩ :=
        ih (i + 1) (nrow + p) r c (by simpa using hr) hc
      simp only [vget] at h
      refine ⟨B, ?_, ?_, ?_, h3, h4, ?_⟩
      · simp only [Partition_rows, vget]
        rw [List.getElem?_append_right (by rw [hlen]; nlinarith)]
        rw [hlen]
        have e : (r + 1) * part.length + c - part.length = r * part.length + c := by
          rw [Nat.add_mul, Nat.one_mul]; omega
        rw [e]
        exact h
      · rw [h1, List.take_succ_cons, List.sum_cons]; ring
      · rw [h2, List.take_succ_cons, List.sum_cons]; ring
      · rw [h5]
        congr 1
        apply propext
        omega

/-- The loop of `find_partition` started at `n` with as many rounds left as
there are entries of `m_part` after entry `n`: it stops at some `p` from `n`
on, every entry `m_part[q+1]` with `n <= q < p` is at most `i`, and unless the
loop has run to the end, `m_part[p+1]` is above `i`. -/
theorem find_partition_loop_spec (m_part : List Int) (i : Int) :
    ∀ fuel n, n + fuel + 1 = m_part.length →
      ∃ p, find_partition_loop m_part i fuel n = some p ∧ n ≤ p ∧ p ≤ n + fuel
        ∧ (p < n + fuel → ∃ x, vget m_part (p + 1) = some x ∧ i < x)
        ∧ (∀ q, n ≤ q → q < p → ∃ x, vget m_part (q + 1) = some x ∧ x ≤ i) := by
  intro fuel
  induction fuel with
  | zero =>
    intro n _
    exact ⟨n, rfl, le_refl _, le_refl _, fun h => absurd h (by omega),
      fun q h1 h2 => absurd h2 (by omega)⟩
  | succ fuel ih =>
    intro n hn
    have hlt : n + 1 < m_part.length := by omega
    obtain ⟨x, hx⟩ : ∃ x, vget m_part (n + 1) = some x :=
      ⟨m_part[n + 1], by simp [vget, List.getElem?_eq_getElem hlt]⟩
    by_cases hc : x > i
    · refine ⟨n, ?_, le_refl _, by omega, fun _ => ⟨_, hx, hc⟩,
        fun q h1 h2 => absurd h2 (by omega)⟩
      simp only [find_partition_loop, hx, Option.bind_eq_bind, Option.some_bind, if_pos hc]
    · obtain ⟨p, h, h1, h2, h3, h4⟩ := ih (n + 1) (by omega)
      refine ⟨p, ?_, by omega, by omega, fun hp => h3 (by omega), ?_⟩
      · simp only [find_partition_loop, hx, Option.bind_eq_bind, Option.some_bind, if_neg hc]
        exact h
      · intro q hq1 hq2
        by_cases hq : q = n
        · subst hq
          exact ⟨_, hx, not_lt.mp hc⟩
        · exact h4 q (by omega) hq2

/-- The sums of the first partitions grow with their number when no partition
has a negative size. -/
theorem take_sum_mono (part : List Int) (hpos : ∀ x ∈ part, 0 ≤ x) :
    ∀ a b, a ≤ b → (part.take a).sum ≤ (part.take b).sum := by
  induction part with
  | nil => intro a b _; simp
  | cons p ps ih =>
    intro a b hab
    have hp : 0 ≤ p := hpos p (List.mem_cons_self _ _)
    have ih' := ih (fun x hx => hpos x (List.mem_cons_of_mem _ hx))
    cases a with
    | zero =>
      cases b with
      | zero => simp
      | succ b =>
        have := ih' 0 b (by omega)
        simp only [List.take_zero, List.sum_nil, List.take_succ_cons, List.sum_cons] at this ⊢
        omega
    | succ a =>
      cases b with
      | zero => omega
      | succ b =>
        have := ih' a b (by omega)
        simp only [List.take_succ_cons, List.sum_cons]
        omega

/-- The index of block `(i, j)` of a partitioned matrix. -/
theorem Partition_BlockIndex (part : List Int) (i j : Nat) :
    (BlockMatrix.Partition part).BlockIndex i j = ((i * part.length + j : Nat) : Int) := by
  simp only [BlockMatrix.BlockIndex, BlockMatrix.Partition, (Partition_part_spec part 0).1]
  push_cast
  ring

/-- The function `find_partition` on a partitioned matrix, for an equation number
from 0 up to the total size: it returns the first partition `p` whose end
`m_part[p+1]` is above `i`, and `m_part[p] <= i`. -/
theorem find_partition_Partition (part : List Int) (i : Int) (h0 : 0 ≤ i) (h1 : i < part.sum) :
    ∃ p, (BlockMatrix.Partition part).find_partition i = some p ∧ p < part.length
      ∧ (part.take p).sum ≤ i ∧ i < (part.take (p + 1)).sum
      ∧ ∀ q, q < p → (part.take (q + 1)).sum ≤ i := by
  have hlen := (Partition_part_spec part 0).1
  have hget := (Partition_part_spec part 0).2
  obtain ⟨p, h, -, h2, h3, h4⟩ :=
    find_partition_loop_spec (Partition_part part 0) i part.length 0 (by rw [hlen]; omega)
  have hmin : ∀ q, q < p → (part.take (q + 1)).sum ≤ i := by
    intro q hq
    obtain ⟨x, hx, hxi⟩ := h4 q (by omega) hq
    rw [hget (q + 1) (by omega)] at hx
    simp only [Option.some.injEq, zero_add] at hx
    rw [hx]
    exact hxi
  have hp : p < part.length := by
    by_contra hcon
    have hpe : p = part.length := by omega
    cases hl : part.length with
    | zero =>
      have : part = [] := List.length_eq_zero.mp hl
      rw [this] at h1
      simp at h1
      omega
    | succ m =>
      have := hmin m (by omega)
      rw [← hl, List.take_length] at this
      omega
  obtain ⟨x, hx, hxi⟩ := h3 (by omega)
  rw [hget (p + 1) (by omega)] at hx
  simp only [Option.some.injEq, zero_add] at hx
  refine ⟨p, ?_, hp, ?_, by rw [hx]; exact hxi, hmin⟩
  · simp only [BlockMatrix.find_partition, BlockMatrix.Partition, hlen, Nat.cast_add,
      Nat.cast_one, add_sub_cancel_right, Int.toNat_ofNat, h, Option.bind_eq_bind,
      Option.some_bind]
    rw [if_pos (by exact_mod_cast hp)]
  · cases p with
    | zero => simpa using h0
    | succ m => exact hmin m (by omega)

/-- C30 (the invariants of `Partition` and `find_partition`). After
`Partition(part)` with `n` entries, `m_part` has `n+1` entries and `m_part[k]`
is the sum of the first `k` entries of `part`; block `(i, j)` has
`nstart_row = m_part[i]`, `nend_row = m_part[i+1] - 1`, `nstart_col = m_part[j]`
and `nend_col = m_part[j+1] - 1`; and for every `i` with `0 <= i < m_part[n]`
the function `find_partition` returns, without failing its assertion, a
partition `p < n` with `m_part[p] <= i < m_part[p+1]`, which is the only such
partition when no entry of `part` is negative. -/
theorem Partition_invariants (part : List Int) :
    (BlockMatrix.Partition part).m_part.length = part.length + 1
      ∧ (∀ k, k ≤ part.length →
          vget (BlockMatrix.Partition part).m_part k = some (part.take k).sum)
      ∧ (∀ i j, i < part.length → j < part.length →
          ∃ B, (BlockMatrix.Partition part).Block i j = some B
            ∧ B.nstart_row = (part.take i).sum ∧ B.nend_row = (part.take (i + 1)).sum - 1
            ∧ B.nstart_col = (part.take j).sum ∧ B.nend_col = (part.take (j + 1)).sum - 1)
      ∧ (∀ i : Int, 0 ≤ i → i < part.sum →
          ∃ p, (BlockMatrix.Partition part).find_partition i = some p ∧ p < part.length
            ∧ (part.take p).sum ≤ i ∧ i < (part.take (p + 1)).sum
            ∧ ((∀ x ∈ part, 0 ≤ x) → ∀ q, q < part.length →
                (part.take q).sum ≤ i → i < (part.take (q + 1)).sum → q = p)) := by
  refine ⟨(Partition_part_spec part 0).1, ?_, ?_, ?_⟩
  · intro k hk
    have h := (Partition_part_spec part 0).2 k hk
    rw [zero_add] at h
    exact h
  · intro i j hi hj
    obtain ⟨B, h, h1, h2, h3, h4, -⟩ := Partition_rows_spec part part 0 0 i j hi hj
    refine ⟨B, ?_, by rw [h1, zero_add], by rw [h2, zero_add], h3, h4⟩
    simp only [BlockMatrix.Block, Partition_BlockIndex, vgetI]
    rw [if_neg (by omega), Int.toNat_ofNat]
    exact h
  · intro i h0 h1
    obtain ⟨p, h, hp, hlo, hhi, hmin⟩ := find_partition_Partition part i h0 h1
    refine ⟨p, h, hp, hlo, hhi, ?_⟩
    intro hpos q hq hqlo hqhi
    rcases Nat.lt_trichotomy q p with hlt | heq | hgt
    · have := hmin q hlt
      omega
    · exact heq
    · have := take_sum_mono part hpos (p + 1) q (by omega)
      omega

/-- Witness for C30 with the partitions of sizes 2 and 3: `m_part` is
`[0, 2, 5]`, block `(1, 0)` spans the rows 2 to 4 and the columns 0 to 1, and
equation 3 lies in partition 1. -/
theorem Partition_invariants_witness :
    vget (BlockMatrix.Partition [2, 3]).m_part 2 = some 5
      ∧ (∃ B, (BlockMatrix.Partition [2, 3]).Block 1 0 = some B
          ∧ B.nstart_row = 2 ∧ B.nend_row = 4 ∧ B.nstart_col = 0 ∧ B.nend_col = 1)
      ∧ (BlockMatrix.Partition [2, 3]).find_partition 3 = some 1 := by
  obtain ⟨-, h1, h2, h3⟩ := Partition_invariants [2, 3]
  refine ⟨h1 2 (by decide), ?_, ?_⟩
  · obtain ⟨B, h, a, b, c, d⟩ := h2 1 0 (by decide) (by decide)
    exact ⟨B, h, a, b, c, d⟩
  · obtain ⟨p, h, hp, hlo, hhi, huniq⟩ := h3 3 (by decide) (by decide)
    have : (1 : Nat) = p := huniq (by decide) 1 (by decide) (by decide) (by decide)
    rw [this]
    exact h

/-! ## `BlockMatrix`: the entries -/

/-- In a matrix of one partition, `add(i, j, v)` for equation numbers within the
partition adds `v` at local row `i`, column `i` of the only block. -/
theorem add_one_partition (n : Int) (B : BLOCK) (i j : Int) (v : ℚ)
    (hi : i < n) (hj : j < n) :
    (⟨[0, n], [B]⟩ : BlockMatrix).add i j v
      = some ⟨[0, n], [{ B with pA := B.pA.add i i v }]⟩ := by
  simp [BlockMatrix.add, BlockMatrix.find_partition, find_partition_loop, vget, hi, hj,
    BlockMatrix.Block, BlockMatrix.BlockIndex, vgetI, BlockMatrix.withBlock, vset]

set_option maxRecDepth 100000 in
/-- The only block after `Assemble` of the block `[[1, 2], [3, 4]]` with
`lm = [0, 1]` into the matrix of one partition of size 2. -/
theorem Assemble_one_partition : ((BlockMatrix.Partition [2]).Assemble ⟨2, 2, fun a b => vval [1, 2, 3, 4] (2 * a + b)⟩
            [0, 1]).bind
          (fun A => (A.Block 0 0).map
            (fun B => (B.pA.get 0 0, B.pA.get 0 1, B.pA.get 1 0, B.pA.get 1 1)))
          = some (3, 0, 0, 7) := by
  have e : BlockMatrix.Partition [2]
      = ⟨[0, 2], [⟨0, 1, 0, 1, ⟨true, fun _ _ => 0⟩⟩]⟩ := by
    simp [BlockMatrix.Partition, Partition_part, Partition_rows, Partition_cols]
  rw [e]
  simp only [BlockMatrix.Assemble, Assemble_rows, Assemble_cols, vget, List.getElem?_cons_zero,
    List.getElem?_cons_succ, Option.bind_eq_bind, Option.some_bind, ge_iff_le, le_refl,
    zero_le_one, if_true]
  rw [add_one_partition 2 _ 0 0 _ (by decide) (by decide)]
  simp only [Option.some_bind]
  rw [add_one_partition 2 _ 0 1 _ (by decide) (by decide)]
  simp only [Option.some_bind]
  rw [add_one_partition 2 _ 1 0 _ (by decide) (by decide)]
  simp only [Option.some_bind]
  rw [add_one_partition 2 _ 1 1 _ (by decide) (by decide)]
  norm_num [BlockMatrix.Block, BlockMatrix.BlockIndex, vgetI, vget, CompactMatrix.get,
    CompactMatrix.add, vval]

set_option maxRecDepth 100000 in
/-- C29, failing input: `set`, `add` and `get` pass `i - m_part[nc]` as the local
column, so the value read by `get(i, j)` is the same for all `j` of one
partition. In the matrix of one partition of size 4, after `set(1, 2, 5)` the
call `get(1, 3)` returns 5 (it returned 0 before), and the value is held at
local row 1, column 1 of the block, not at column 2; and `Assemble` of the
block `[[1, 2], [3, 4]]` with `lm = [0, 1]` into the matrix of one partition of
size 2 leaves 3 and 7 on the diagonal and 0 elsewhere. -/
theorem BlockMatrix_column_from_row :
    (∀ (A : BlockMatrix) (i j k : Int),
        A.find_partition j = A.find_partition k → A.get i j = A.get i k)
      ∧ (BlockMatrix.Partition [4]).get 1 3 = some 0
      ∧ ((BlockMatrix.Partition [4]).set 1 2 5).bind (fun A => A.get 1 3) = some 5
      ∧ ((BlockMatrix.Partition [4]).set 1 2 5).bind
          (fun A => (A.Block 0 0).map (fun B => (B.pA.get 1 1, B.pA.get 1 2))) = some (5, 0)
      ∧ ((BlockMatrix.Partition [2]).Assemble ⟨2, 2, fun a b => vval [1, 2, 3, 4] (2 * a + b)⟩
            [0, 1]).bind
          (fun A => (A.Block 0 0).map
            (fun B => (B.pA.get 0 0, B.pA.get 0 1, B.pA.get 1 0, B.pA.get 1 1)))
          = some (3, 0, 0, 7) := by
  refine ⟨?_, ?_, ?_, ?_, ?_⟩
  · intro A i j k h
    simp only [BlockMatrix.get, h]
  · norm_num [BlockMatrix.get, BlockMatrix.find_partition, find_partition_loop,
      BlockMatrix.Partition, Partition_part, Partition_rows, Partition_cols, BlockMatrix.Block,
      BlockMatrix.BlockIndex, CompactMatrix.get, vget, vgetI]
  · norm_num [BlockMatrix.get, BlockMatrix.set, BlockMatrix.withBlock,
      BlockMatrix.find_partition, find_partition_loop,
      BlockMatrix.Partition, Partition_part, Partition_rows, Partition_cols, BlockMatrix.Block,
      BlockMatrix.BlockIndex, CompactMatrix.get, CompactMatrix.set, vget, vgetI, vset]
  · norm_num [BlockMatrix.get, BlockMatrix.set, BlockMatrix.withBlock,
      BlockMatrix.find_partition, find_partition_loop,
      BlockMatrix.Partition, Partition_part, Partition_rows, Partition_cols, BlockMatrix.Block,
      BlockMatrix.BlockIndex, CompactMatrix.get, CompactMatrix.set, vget, vgetI, vset]
  · exact Assemble_one_partition

/-! ## The running counter of the integration points -/

/-- The loop over the integration points of a facet with the running counter is
the loop with the record index `ni + j`, and it leaves the counter at
`ni + cnt`. -/
theorem integrationLoop_gauss_offset {σ : Type}
    (body : FESurfaceElement → Nat → Nat → σ → Option σ) (se : FESurfaceElement) (noff : Nat) :
    ∀ (cnt j : Nat) (st : σ),
      integrationLoop_gauss body se cnt j (noff + j) st
        = (offsetTable_gauss body se noff cnt j st).map (fun s => (s, noff + j + cnt)) := by
  intro cnt
  induction cnt with
  | zero => intro j st; rfl
  | succ cnt ih =>
    intro j st
    simp only [integrationLoop_gauss, offsetTable_gauss, Option.bind_eq_bind]
    cases body se j (noff + j) st with
    | none => rfl
    | some st1 =>
      simp only [Option.some_bind]
      rw [show noff + j + 1 = noff + (j + 1) by omega, ih (j + 1) st1]
      rw [show noff + (j + 1) + cnt = noff + j + (cnt + 1) by omega]

/-- The loop over the facets with the running counter started at `n0` is the loop
that reads the record index from a table whose entry for each facet is `n0`
plus the number of integration points of the facets before it, and it leaves
the counter at `n0` plus the number of all integration points. -/
theorem integrationLoop_facets_offset {σ : Type}
    (body : FESurfaceElement → Nat → Nat → σ → Option σ) (tbl : List Int) :
    ∀ (els : List FESurfaceElement) (i n0 : Nat) (st : σ),
      (∀ k, k < els.length →
        vget tbl (i + k) = some ((n0 + totalGauss (els.take k) : Nat) : Int)) →
      integrationLoop_facets body els n0 st
        = (offsetTable_facets tbl body els i st).map (fun s => (s, n0 + totalGauss els)) := by
  intro els
  induction els with
  | nil => intro i n0 st _; simp [integrationLoop_facets, offsetTable_facets, totalGauss]
  | cons se els ih =>
    intro i n0 st htbl
    have h0 := htbl 0 (by simp)
    simp only [Nat.add_zero, List.take_zero, totalGauss, List.map_nil, List.sum_nil] at h0
    have hg := integrationLoop_gauss_offset body se n0 se.nint 0 st
    simp only [Nat.add_zero] at hg
    simp only [integrationLoop_facets, offsetTable_facets, h0, Option.bind_eq_bind,
      Option.some_bind, hg]
    rw [if_neg (by omega), Int.toNat_ofNat]
    cases offsetTable_gauss body se n0 se.nint 0 st with
    | none => rfl
    | some st1 =>
      simp only [Option.map_some', Option.some_bind]
      rw [ih (i + 1) (n0 + se.nint) st1 ?_, totalGauss_cons, Nat.add_assoc]
      intro k hk
      have := htbl (k + 1) (by simpa using hk)
      rw [List.take_succ_cons, totalGauss_cons] at this
      rw [show i + 1 + k = i + (k + 1) by omega, this, Nat.add_assoc]

/-- A bounds check of the record index against `n + cnt` in front of the body does
not change the loop over `cnt` integration points started with the counter at
`n`. -/
theorem integrationLoop_gauss_checked {σ : Type}
    (body : FESurfaceElement → Nat → Nat → σ → Option σ) (se : FESurfaceElement) (N : Nat) :
    ∀ (cnt j ni : Nat) (st : σ), ni + cnt ≤ N →
      integrationLoop_gauss (checked N body) se cnt j ni st
        = integrationLoop_gauss body se cnt j ni st := by
  intro cnt
  induction cnt with
  | zero => intro j ni st _; rfl
  | succ cnt ih =>
    intro j ni st h
    simp only [integrationLoop_gauss, checked, Option.bind_eq_bind]
    rw [if_pos (by omega)]
    cases body se j ni st with
    | none => rfl
    | some st1 =>
      simp only [Option.some_bind]
      exact ih (j + 1) (ni + 1) st1 (by omega)

/-- The loop over the integration points of a facet leaves the counter at the
starting value plus the number of rounds. -/
theorem integrationLoop_gauss_counter {σ : Type}
    (body : FESurfaceElement → Nat → Nat → σ → Option σ) (se : FESurfaceElement) :
    ∀ (cnt j ni : Nat) (st : σ) (r : σ × Nat),
      integrationLoop_gauss body se cnt j ni st = some r → r.2 = ni + cnt := by
  intro cnt
  induction cnt with
  | zero =>
    intro j ni st r h
    simp only [integrationLoop_gauss, Option.some.injEq] at h
    rw [← h]
    rfl
  | succ cnt ih =>
    intro j ni st r h
    simp only [integrationLoop_gauss, Option.bind_eq_bind, Option.bind_eq_some] at h
    obtain ⟨st1, -, h2⟩ := h
    rw [ih _ _ _ _ h2]
    omega

/-- A bounds check of the record index against the number of all integration
points in front of the body does not change the loop over the facets. -/
theorem integrationLoop_facets_checked {σ : Type}
    (body : FESurfaceElement → Nat → Nat → σ → Option σ) (N : Nat) :
    ∀ (els : List FESurfaceElement) (ni : Nat) (st : σ), ni + totalGauss els ≤ N →
      integrationLoop_facets (checked N body) els ni st
        = integrationLoop_facets body els ni st := by
  intro els
  induction els with
  | nil => intro ni st _; rfl
  | cons se els ih =>
    intro ni st h
    rw [totalGauss_cons] at h
    simp only [integrationLoop_facets, Option.bind_eq_bind]
    rw [integrationLoop_gauss_checked body se N se.nint 0 ni st (by omega)]
    cases hr : integrationLoop_gauss body se se.nint 0 ni st with
    | none => rfl
    | some r =>
      simp only [Option.some_bind]
      have := integrationLoop_gauss_counter body se _ _ _ _ _ hr
      exact ih r.2 r.1 (by omega)

/-- The loop of `UpdateContactPressures` over the integration points of a facet
is the loop with the running counter. -/
theorem UpdateContactPressures_gauss_loop (I : FESlidingInterface3) (U : UpdateServices)
    (G : ProjectGeometry) (ms : FESlidingSurface3) (se : FESurfaceElement) :
    ∀ (cnt j ni : Nat) (ss : FESlidingSurface3),
      UpdateContactPressures_gauss I U G ms cnt ni ss
        = (integrationLoop_gauss (UpdateContactPressures_body I U G ms) se cnt j ni ss).map
            (fun r => r.1) := by
  intro cnt
  induction cnt with
  | zero => intro j ni ss; rfl
  | succ cnt ih =>
    intro j ni ss
    simp only [UpdateContactPressures_gauss, integrationLoop_gauss, UpdateContactPressures_body,
      Option.bind_eq_bind]
    cases UpdateContactPressures_point I U G ms ni ss with
    | none => rfl
    | some s1 =>
      simp only [Option.some_bind]
      exact ih (j + 1) (ni + 1) s1

/-- The loop of `UpdateContactPressures` over the facets is the loop with the
running counter. -/
theorem UpdateContactPressures_facets_loop (I : FESlidingInterface3) (U : UpdateServices)
    (G : ProjectGeometry) (ms : FESlidingSurface3) :
    ∀ (els : List FESurfaceElement) (ni : Nat) (ss : FESlidingSurface3),
      UpdateContactPressures_facets I U G ms els ni ss
        = (integrationLoop_facets (UpdateContactPressures_body I U G ms) els ni ss).map
            (fun r => r.1) := by
  intro els
  induction els with
  | nil => intro ni ss; rfl
  | cons se els ih =>
    intro ni ss
    simp only [UpdateContactPressures_facets, integrationLoop_facets, Option.bind_eq_bind]
    rw [UpdateContactPressures_gauss_loop I U G ms se se.nint 0 ni ss]
    cases hr : integrationLoop_gauss (UpdateContactPressures_body I U G ms) se se.nint 0 ni ss with
    | none => rfl
    | some r =>
      simp only [Option.map_some', Option.some_bind]
      rw [integrationLoop_gauss_counter _ _ _ _ _ _ _ hr]
      exact ih _ _

/-- The loop body of `ProjectSurface` advances the counter by one. -/
theorem ProjectSurface_point_counter (I : FESlidingInterface3) (G : ProjectGeometry)
    (M : FEModel) (ms : FESlidingSurface3) (bupseg : Bool) (R : ℚ) (el : FESurfaceElement)
    (sporo ssolu : Bool) (ps cs : List ℚ) (j : Nat) (st r : FESlidingSurface3 × Nat × (ℚ × ℚ))
    (h : ProjectSurface_point I G M ms bupseg R el sporo ssolu ps cs j st = some r) :
    r.2.1 = st.2.1 + 1 := by
  simp only [ProjectSurface_point, Option.bind_eq_bind, Option.bind_eq_some, Option.pure_def,
    Option.some.injEq] at h
  obtain ⟨⟨pme, rs1, ss1⟩, -, b, -, c, -, d, -, h⟩ := h
  cases pme with
  | none =>
    simp only [Option.bind_eq_some, Option.some.injEq] at h
    obtain ⟨y, -, h⟩ := h
    rw [← h]
  | some k =>
    simp only [Option.bind_eq_some, Option.some.injEq] at h
    obtain ⟨y, -, h⟩ := h
    rw [← h]

/-- The loop of `ProjectSurface` over the integration points of a facet is the
loop with the running counter. -/
theorem ProjectSurface_gauss_loop (I : FESlidingInterface3) (G : ProjectGeometry)
    (M : FEModel) (ms : FESlidingSurface3) (bupseg : Bool) (R : ℚ) (el : FESurfaceElement) :
    ∀ (cnt j n : Nat) (ss : FESlidingSurface3) (rs : ℚ × ℚ),
      ProjectSurface_gauss I G M ms bupseg R el (BiphasicSoluteStatus M el).1
          (BiphasicSoluteStatus M el).2 (el.m_node.map M.m_pt) (el.m_node.map M.m_ct) cnt j
          (ss, n, rs)
        = (integrationLoop_gauss (ProjectSurface_body I G M ms bupseg R) el cnt j n (ss, rs)).map
            (fun r => (r.1.1, r.2, r.1.2)) := by
  intro cnt
  induction cnt with
  | zero => intro j n ss rs; rfl
  | succ cnt ih =>
    intro j n ss rs
    simp only [ProjectSurface_gauss, integrationLoop_gauss, ProjectSurface_body,
      Option.bind_eq_bind]
    cases hp : ProjectSurface_point I G M ms bupseg R el (BiphasicSoluteStatus M el).1
        (BiphasicSoluteStatus M el).2 (el.m_node.map M.m_pt) (el.m_node.map M.m_ct) j
        (ss, n, rs) with
    | none => rfl
    | some r =>
      have hc := ProjectSurface_point_counter _ _ _ _ _ _ _ _ _ _ _ _ _ _ hp
      obtain ⟨s1, n1, rs1⟩ := r
      simp only at hc
      subst hc
      simp only [Option.map_some', Option.some_bind]
      exact ih (j + 1) (n + 1) s1 rs1

/-- The loop of `ProjectSurface` over the facets is the loop with the running
counter. -/
theorem ProjectSurface_facets_loop (I : FESlidingInterface3) (G : ProjectGeometry)
    (M : FEModel) (ms : FESlidingSurface3) (bupseg : Bool) (R : ℚ) :
    ∀ (els : List FESurfaceElement) (n : Nat) (ss : FESlidingSurface3) (rs : ℚ × ℚ),
      ProjectSurface_facets I G M ms bupseg R els (ss, n, rs)
        = (integrationLoop_facets (ProjectSurface_body I G M ms bupseg R) els n (ss, rs)).map
            (fun r => (r.1.1, r.2, r.1.2)) := by
  intro els
  induction els with
  | nil => intro n ss rs; rfl
  | cons el els ih =>
    intro n ss rs
    simp only [ProjectSurface_facets, integrationLoop_facets, Option.bind_eq_bind]
    rw [ProjectSurface_gauss_loop I G M ms bupseg R el el.nint 0 n ss rs]
    cases integrationLoop_gauss (ProjectSurface_body I G M ms bupseg R) el el.nint 0 n (ss, rs) with
    | none => rfl
    | some r =>
      simp only [Option.map_some', Option.some_bind]
      exact ih r.2 r.1.1 r.1.2

/-- With the offset table that `Init` computes, the loop with the running counter
is the loop that takes the record index `m_nei[i] + j` from the table and
checks it against the number of all integration points. -/
theorem integrationLoop_facets_Init {σ : Type}
    (body : FESurfaceElement → Nat → Nat → σ → Option σ) (els : List FESurfaceElement)
    (st : σ) :
    integrationLoop_facets body els 0 st
      = (offsetTable_facets (Init_nei els 0) (checked (totalGauss els) body) els 0 st).map
          (fun s => (s, totalGauss els)) := by
  rw [← integrationLoop_facets_checked body (totalGauss els) els 0 st (by omega)]
  have h := integrationLoop_facets_offset (checked (totalGauss els) body) (Init_nei els 0) els
    0 0 st (fun k hk => by rw [Nat.zero_add]; exact (Init_nei_spec els 0).2 k hk)
  rw [Nat.zero_add] at h
  exact h

/-- C25 (the running counter selects the record of the offset table). For a
surface whose offset table is the one computed by `Init`, with `N` the number
of all integration points (the length of the per-point vectors after `Init`):
every loop of the shape `ni = 0; for i; for (j; ++j, ++ni)` is the loop that
hands its body the record index `m_nei[i] + j` read from the table, checked to
be below `N`, and ends with the counter at `N`; and the loops of
`ContactForces`, `ContactStiffness`, `UpdateContactPressures` and
`ProjectSurface` are such loops. A surface as `Init` leaves it has this offset
table and per-point vectors of length `N`. -/
theorem running_counter_is_offset (I : FESlidingInterface3) (M : FEModel)
    (S : ContactServices) (U : UpdateServices) (G : ProjectGeometry) (dt knmult R : ℚ)
    (bupseg : Bool) (ss ms : FESlidingSurface3) (hnei : ss.m_nei = Init_nei ss.el 0) :
    (∀ (σ : Type) (body : FESurfaceElement → Nat → Nat → σ → Option σ) (st : σ),
        integrationLoop_facets body ss.el 0 st
          = (offsetTable_facets ss.m_nei (checked (totalGauss ss.el) body) ss.el 0 st).map
              (fun s => (s, totalGauss ss.el)))
      ∧ (∀ calls, ContactForces_pass I M S dt ss ms calls
          = (offsetTable_facets ss.m_nei
              (checked (totalGauss ss.el) (ContactForces_body I M S dt ss ms)) ss.el 0 calls).map
                (fun s => (s, totalGauss ss.el)))
      ∧ (∀ calls, ContactStiffness_pass I M S dt knmult ss ms calls
          = (offsetTable_facets ss.m_nei
              (checked (totalGauss ss.el) (ContactStiffness_body I M S dt knmult ss ms)) ss.el 0
                calls).map (fun s => (s, totalGauss ss.el)))
      ∧ UpdateContactPressures_facets I U G ms ss.el 0 ss
          = offsetTable_facets ss.m_nei
              (checked (totalGauss ss.el) (UpdateContactPressures_body I U G ms)) ss.el 0 ss
      ∧ (∀ rs, ProjectSurface_facets I G M ms bupseg R ss.el (ss, 0, rs)
          = (offsetTable_facets ss.m_nei
              (checked (totalGauss ss.el) (ProjectSurface_body I G M ms bupseg R)) ss.el 0
                (ss, rs)).map (fun s => (s.1, totalGauss ss.el, s.2)))
      ∧ (∀ (s : FESlidingSurface3) (Nodes : Nat) (rsNew : ℚ × ℚ),
          (s.Init M Nodes rsNew).m_nei = Init_nei (s.Init M Nodes rsNew).el 0
            ∧ (s.Init M Nodes rsNew).m_pme.length = totalGauss (s.Init M Nodes rsNew).el
            ∧ (s.Init M Nodes rsNew).m_rs.length = totalGauss (s.Init M Nodes rsNew).el
            ∧ (s.Init M Nodes rsNew).m_nu.length = totalGauss (s.Init M Nodes rsNew).el
            ∧ (s.Init M Nodes rsNew).m_gap.length = totalGauss (s.Init M Nodes rsNew).el
            ∧ (s.Init M Nodes rsNew).m_Lmd.length = totalGauss (s.Init M Nodes rsNew).el
            ∧ (s.Init M Nodes rsNew).m_epsn.length = totalGauss (s.Init M Nodes rsNew).el
            ∧ (s.Init M Nodes rsNew).m_Ln.length = totalGauss (s.Init M Nodes rsNew).el) := by
  have gen : ∀ (σ : Type) (body : FESurfaceElement → Nat → Nat → σ → Option σ) (st : σ),
      integrationLoop_facets body ss.el 0 st
        = (offsetTable_facets ss.m_nei (checked (totalGauss ss.el) body) ss.el 0 st).map
            (fun s => (s, totalGauss ss.el)) := by
    intro σ body st
    rw [hnei]
    exact integrationLoop_facets_Init body ss.el st
  refine ⟨gen, fun calls => gen _ _ calls, fun calls => gen _ _ calls, ?_, ?_, ?_⟩
  · rw [UpdateContactPressures_facets_loop, gen]
    cases offsetTable_facets ss.m_nei
      (checked (totalGauss ss.el) (UpdateContactPressures_body I U G ms)) ss.el 0 ss <;> rfl
  · intro rs
    rw [ProjectSurface_facets_loop, gen]
    cases offsetTable_facets ss.m_nei
      (checked (totalGauss ss.el) (ProjectSurface_body I G M ms bupseg R)) ss.el 0 (ss, rs) <;> rfl
  · intro s Nodes rsNew
    simp only [FESlidingSurface3.Init, totalGauss, List.length_replicate, List.length_take,
      List.length_append]
    refine ⟨trivial, trivial, ?_, trivial, trivial, trivial, trivial, trivial⟩
    omega

/-- Witness for C25 on the surface with facets of three and four integration
points as `Init` leaves it: its offset table is the one of `Init`, its
per-point vectors have 7 entries, and the loop whose body writes down the
Gauss point and the running counter gives the same list as the loop that reads
the offset table. -/
theorem running_counter_is_offset_witness :
    (twoFacetSurface.Init elasticModel 6 (0, 0)).m_nei
        = Init_nei (twoFacetSurface.Init elasticModel 6 (0, 0)).el 0
      ∧ (twoFacetSurface.Init elasticModel 6 (0, 0)).m_gap.length = 7
      ∧ integrationLoop_facets (fun _ j ni l => some (l ++ [(j, ni)]))
          (twoFacetSurface.Init elasticModel 6 (0, 0)).el 0 []
        = (offsetTable_facets (twoFacetSurface.Init elasticModel 6 (0, 0)).m_nei
            (checked 7 (fun _ j ni l => some (l ++ [(j, ni)])))
            (twoFacetSurface.Init elasticModel 6 (0, 0)).el 0 []).map (fun s => (s, 7))
      ∧ integrationLoop_facets (fun _ j ni l => some (l ++ [(j, ni)]))
          (twoFacetSurface.Init elasticModel 6 (0, 0)).el 0 []
        = some ([(0, 0), (1, 1), (2, 2), (0, 3), (1, 4), (2, 5), (3, 6)], 7) :=
  ⟨rfl, rfl,
    (running_counter_is_offset scenarioInterface elasticModel
      ⟨fun _ _ _ _ _ => scenarioPoint 0, fun _ _ _ _ _ => mechPoint⟩ oneFacetServices
      (flatGeometry 0) 1 1 1 true (twoFacetSurface.Init elasticModel 6 (0, 0))
      scenarioInterface.m_ms rfl).1 _ _ [],
    rfl⟩

/-! ## `ContactForces` and `ContactStiffness`: the functions in closed form -/

/-- A read of any vector within the bounds succeeds. -/
theorem vget_lt {α : Type} (v : List α) (i : Nat) (h : i < v.length) :
    ∃ x, vget v i = some x :=
  ⟨v[i], by simp [vget, List.getElem?_eq_getElem h]⟩

/-- A read of a vector of numbers under a condition that implies the index is
within the bounds. -/
theorem readWhen_eq (c : Bool) (a : List ℚ) (ni : Nat) (h : c = true → ni < a.length) :
    readWhen c a ni = some (if c then vval a ni else 0) := by
  cases c with
  | false => rfl
  | true => simp [readWhen, vget_of_lt a ni (h rfl)]

/-- The loop over the integration points of a facet, when the body at every
point appends `out` to the calls made so far: the calls of all points in order,
and the counter. -/
theorem integrationLoop_gauss_collect {α : Type}
    (body : FESurfaceElement → Nat → Nat → List α → Option (List α))
    (out : FESurfaceElement × Nat × Nat → List α) (se : FESurfaceElement) :
    ∀ (cnt j ni : Nat) (calls : List α),
      (∀ t, t < cnt → ∀ c, body se (j + t) (ni + t) c = some (c ++ out (se, j + t, ni + t))) →
      integrationLoop_gauss body se cnt j ni calls
        = some (calls ++ ((List.range cnt).map (fun t => (se, j + t, ni + t))).flatMap out,
            ni + cnt) := by
  intro cnt
  induction cnt with
  | zero => intro j ni calls _; simp [integrationLoop_gauss]
  | succ cnt ih =>
    intro j ni calls h
    have h0 := h 0 (by omega) calls
    simp only [Nat.add_zero] at h0
    have h1 := ih (j + 1) (ni + 1) (calls ++ out (se, j, ni)) (fun t ht c => by
      have := h (t + 1) (by omega) c
      rw [show j + (t + 1) = j + 1 + t by omega, show ni + (t + 1) = ni + 1 + t by omega] at this
      exact this)
    simp only [integrationLoop_gauss, h0, Option.bind_eq_bind, Option.some_bind, h1]
    rw [List.range_succ_eq_map, List.map_cons, List.flatMap_cons, List.map_map]
    simp only [Nat.add_zero, List.append_assoc, Option.some.injEq, Prod.mk.injEq]
    refine ⟨?_, by omega⟩
    congr 3
    apply List.map_congr_left
    intro t _
    simp only [Function.comp, Nat.succ_eq_add_one]
    rw [show j + (t + 1) = j + 1 + t by omega, show ni + (t + 1) = ni + 1 + t by omega]

/-- The loop over the facets, when the body at every visited point appends `out`
to the calls made so far. -/
theorem integrationLoop_facets_collect {α : Type}
    (body : FESurfaceElement → Nat → Nat → List α → Option (List α))
    (out : FESurfaceElement × Nat × Nat → List α) :
    ∀ (els : List FESurfaceElement) (n0 : Nat) (calls : List α),
      (∀ v ∈ pointVisits els n0, ∀ c, body v.1 v.2.1 v.2.2 c = some (c ++ out v)) →
      integrationLoop_facets body els n0 calls
        = some (calls ++ (pointVisits els n0).flatMap out, n0 + totalGauss els) := by
  intro els
  induction els with
  | nil => intro n0 calls _; simp [integrationLoop_facets, pointVisits, totalGauss]
  | cons se els ih =>
    intro n0 calls h
    have hg := integrationLoop_gauss_collect body out se se.nint 0 n0 calls (fun t ht c => by
      have := h (se, t, n0 + t) (by
        simp only [pointVisits, List.mem_append, List.mem_map, List.mem_range]
        exact Or.inl ⟨t, ht, rfl⟩) c
      simpa using this)
    simp only [Nat.zero_add] at hg
    have ht := ih (n0 + se.nint)
      (calls ++ ((List.range se.nint).map (fun t => (se, t, n0 + t))).flatMap out)
      (fun v hv c => h v (by
        simp only [pointVisits, List.mem_append]
        exact Or.inr hv) c)
    simp only [integrationLoop_facets, hg, Option.bind_eq_bind, Option.some_bind, ht,
      pointVisits, List.flatMap_append, List.append_assoc, totalGauss_cons, Nat.add_assoc]

/-- Every visited point belongs to a facet of the table and has a record index
below the starting value plus the number of all integration points. -/
theorem pointVisits_mem : ∀ (els : List FESurfaceElement) (n0 : Nat)
    (v : FESurfaceElement × Nat × Nat), v ∈ pointVisits els n0 →
      v.1 ∈ els ∧ v.2.1 < v.1.nint ∧ n0 ≤ v.2.2 ∧ v.2.2 < n0 + totalGauss els := by
  intro els
  induction els with
  | nil => intro n0 v h; simp [pointVisits] at h
  | cons se els ih =>
    intro n0 v h
    simp only [pointVisits, List.mem_append, List.mem_map, List.mem_range] at h
    rw [totalGauss_cons]
    rcases h with ⟨t, ht, rfl⟩ | h
    · exact ⟨List.mem_cons_self _ _, ht, by simp, by simp; omega⟩
    · obtain ⟨h1, h2, h3, h4⟩ := ih _ v h
      exact ⟨List.mem_cons_of_mem _ h1, h2, by omega, by omega⟩


/-- An entry read from a vector is a member of it. -/
theorem mem_of_vget {α : Type} (v : List α) (i : Nat) (x : α) (h : vget v i = some x) :
    x ∈ v := by
  unfold vget at h
  exact List.getElem?_mem h

/-- The records of a point within the bounds are read. -/
theorem readRecord_eq (ss : FESlidingSurface3) (ni : Nat) (rs : ℚ × ℚ) (nu : vec3d)
    (hrs : vget ss.m_rs ni = some rs) (hnu : vget ss.m_nu ni = some nu)
    (h1 : ni < ss.m_gap.length) (h2 : ni < ss.m_Lmd.length) (h3 : ni < ss.m_epsn.length) :
    readRecord ss ni
      = some (rs, nu, vval ss.m_gap ni, vval ss.m_Lmd ni, vval ss.m_epsn ni) := by
  simp [readRecord, hrs, hnu, vget_of_lt _ _ h1, vget_of_lt _ _ h2, vget_of_lt _ _ h3]

/-- Six conditional reads in a row, each within the bounds when its condition
holds. -/
theorem readWhen_chain {β : Type} (c1 c2 c3 c4 c5 c6 : Bool) (a1 a2 a3 a4 a5 a6 : List ℚ)
    (ni : Nat) (k : ℚ → ℚ → ℚ → ℚ → ℚ → ℚ → Option β)
    (h1 : c1 = true → ni < a1.length) (h2 : c2 = true → ni < a2.length)
    (h3 : c3 = true → ni < a3.length) (h4 : c4 = true → ni < a4.length)
    (h5 : c5 = true → ni < a5.length) (h6 : c6 = true → ni < a6.length) :
    ((readWhen c1 a1 ni).bind fun x1 => (readWhen c2 a2 ni).bind fun x2 =>
      (readWhen c3 a3 ni).bind fun x3 => (readWhen c4 a4 ni).bind fun x4 =>
      (readWhen c5 a5 ni).bind fun x5 => (readWhen c6 a6 ni).bind fun x6 =>
        k x1 x2 x3 x4 x5 x6)
      = k (if c1 then vval a1 ni else 0) (if c2 then vval a2 ni else 0)
          (if c3 then vval a3 ni else 0) (if c4 then vval a4 ni else 0)
          (if c5 then vval a5 ni else 0) (if c6 then vval a6 ni else 0) := by
  rw [readWhen_eq c1 a1 ni h1, readWhen_eq c2 a2 ni h2, readWhen_eq c3 a3 ni h3,
    readWhen_eq c4 a4 ni h4, readWhen_eq c5 a5 ni h5, readWhen_eq c6 a6 ni h6]
  rfl

/-- The body of the loop of `ContactForces` at a point of a ready surface appends
the residuals of the point to the calls made so far. -/
theorem ContactForces_body_eq (I : FESlidingInterface3) (M : FEModel) (S : ContactServices)
    (dt : ℚ) (ss ms : FESlidingSurface3) (hr : RecordsReady M ss ms) (se : FESurfaceElement)
    (hse : se ∈ ss.el) (j ni : Nat) (hni : ni < totalGauss ss.el) (calls : List ResidualCall) :
    ContactForces_body I M S dt ss ms se j ni calls
      = some (calls ++ ContactForces_out I M S dt ss ms (se, j, ni)) := by
  obtain ⟨h1, h2, h3, h4, h5, h6, h7, h8, h9, h10, hpg, hcg, hpart⟩ := hr
  obtain ⟨pme, hpme⟩ := vget_lt ss.m_pme ni (h1 ▸ hni)
  cases pme with
  | none => simp [ContactForces_body, ContactForces_out, hpme]
  | some k =>
    have hk : k < ms.el.length := hpart k (mem_of_vget _ _ _ hpme)
    obtain ⟨me, hme⟩ := vget_lt ms.el k hk
    obtain ⟨rs, hrs⟩ := vget_lt ss.m_rs ni (h2 ▸ hni)
    obtain ⟨nu, hnu⟩ := vget_lt ss.m_nu ni (h3 ▸ hni)
    have hrec := readRecord_eq ss ni rs nu hrs hnu (h4 ▸ hni) (h5 ▸ hni) (h6 ▸ hni)
    simp only [ContactForces_body, hpme, hme, hrec, Option.bind_eq_bind, Option.some_bind,
      Option.pure_def]
    refine (readWhen_chain _ _ _ _ _ _ _ _ _ _ _ _ ni _ (fun _ => h7 ▸ hni) (fun _ => h8 ▸ hni)
      (fun hc => ?_) (fun _ => h9 ▸ hni) (fun _ => h10 ▸ hni) (fun hc => ?_)).trans ?_
    · simp only [Bool.and_eq_true] at hc
      rw [hpg ⟨se, hse, hc.2.1⟩]; exact hni
    · simp only [Bool.and_eq_true] at hc
      rw [hcg ⟨se, hse, hc.2.1⟩]; exact hni
    · simp only [ContactForces_out, hpme, hme, ContactForces_record, hrs, hnu, Option.getD_some]

/-- One pass of `ContactForces` over a ready surface returns, and assembles the
residuals of the visited points in order. -/
theorem ContactForces_pass_eq (I : FESlidingInterface3) (M : FEModel) (S : ContactServices)
    (dt : ℚ) (ss ms : FESlidingSurface3) (hr : RecordsReady M ss ms)
    (calls : List ResidualCall) :
    ContactForces_pass I M S dt ss ms calls
      = some (calls ++ (pointVisits ss.el 0).flatMap (ContactForces_out I M S dt ss ms),
          totalGauss ss.el) := by
  have h := integrationLoop_facets_collect (ContactForces_body I M S dt ss ms)
    (ContactForces_out I M S dt ss ms) ss.el 0 calls (fun v hv c => by
      obtain ⟨m1, -, -, m4⟩ := pointVisits_mem ss.el 0 v hv
      rw [Nat.zero_add] at m4
      exact ContactForces_body_eq I M S dt ss ms hr v.1 m1 v.2.1 v.2.2 m4 c)
  rw [Nat.zero_add] at h
  exact h

/-- The function `ContactForces` on ready surfaces returns, and assembles the
residuals of the points of the first surface and, in a two-pass run, then
those of the second. -/
theorem ContactForces_eq (I : FESlidingInterface3) (M : FEModel) (S : ContactServices)
    (dt : ℚ) (h1 : RecordsReady M I.m_ss I.m_ms)
    (h2 : I.m_btwo_pass = true → RecordsReady M I.m_ms I.m_ss) :
    I.ContactForces M S dt
      = some ((pointVisits I.m_ss.el 0).flatMap (ContactForces_out I M S dt I.m_ss I.m_ms)
          ++ (if I.m_btwo_pass then
                (pointVisits I.m_ms.el 0).flatMap (ContactForces_out I M S dt I.m_ms I.m_ss)
              else [])) := by
  simp only [FESlidingInterface3.ContactForces, ContactForces_pass_eq I M S dt _ _ h1,
    List.nil_append]
  by_cases hb : I.m_btwo_pass = true
  · simp only [hb, if_true, ContactForces_pass_eq I M S dt _ _ (h2 hb), Option.map_some']
  · simp [hb]

/-- The example pair is ready for `ContactForces` and `ContactStiffness`. -/
theorem contactInterface_ready (gap : ℚ) :
    RecordsReady elasticModel (contactInterface gap).m_ss (contactInterface gap).m_ms := by
  simp [RecordsReady, contactInterface, contactSurface, pointInterface, oneFacetSurface,
    totalGauss, PartnersIn, BiphasicSoluteStatus, elasticModel]

/-- C1 (the bracket law in `ContactForces`). On surfaces whose per-point vectors
are allocated, `ContactForces` returns and assembles, point by point in loop
order, the residuals `ContactForces_out` of the integration points. At a point
`ni` with partner facet `me`, with the trial traction
`t = m_Lmd[ni] + (m_epsn*m_epsn[ni])*m_gap[ni]` of the searching surface: when
`t <= 0` exactly one residual is assembled, the mechanical one (nodes and `LM`
of the two facets), every entry of its force vector is 0, and no pressure or
concentration flow vector follows; when `t > 0` the enforced traction is `t`,
the first residual is the mechanical one, and its force entry `3a+c` is
`t*N*detJ*w` with `N = -Hs[a]*nu_c` for node `a` of the searching facet and
`N = Hm[a]*nu_c` for node `a` of the partner facet, `nu = m_nu[ni]`, the shape
values taken at `m_rs[ni]`. -/
theorem ContactForces_enforced_traction (I : FESlidingInterface3) (M : FEModel)
    (S : ContactServices) (dt : ℚ) (h1 : RecordsReady M I.m_ss I.m_ms)
    (h2 : I.m_btwo_pass = true → RecordsReady M I.m_ms I.m_ss) :
    I.ContactForces M S dt
        = some ((pointVisits I.m_ss.el 0).flatMap (ContactForces_out I M S dt I.m_ss I.m_ms)
            ++ (if I.m_btwo_pass then
                  (pointVisits I.m_ms.el 0).flatMap (ContactForces_out I M S dt I.m_ms I.m_ss)
                else []))
      ∧ ∀ (ss ms : FESlidingSurface3) (se me : FESurfaceElement) (j ni k : Nat) (rs : ℚ × ℚ)
          (nu : vec3d),
          vget ss.m_pme ni = some (some k) → vget ms.el k = some me →
          vget ss.m_rs ni = some rs → vget ss.m_nu ni = some nu →
          (vval ss.m_Lmd ni + (I.m_epsn * vval ss.m_epsn ni) * vval ss.m_gap ni ≤ 0 →
            ∃ fe, ContactForces_out I M S dt ss ms (se, j, ni)
                = [⟨se.m_node ++ me.m_node,
                    (List.range (3 * se.m_node.length)).map (S.forcePoint se j me rs.1 rs.2).sLM
                      ++ (List.range (3 * me.m_node.length)).map
                          (S.forcePoint se j me rs.1 rs.2).mLM, fe⟩]
              ∧ fe.length = 3 * (se.m_node.length + me.m_node.length)
              ∧ ∀ x ∈ fe, x = 0)
          ∧ (0 < vval ss.m_Lmd ni + (I.m_epsn * vval ss.m_epsn ni) * vval ss.m_gap ni →
            (ContactForces_record I M S ss se j ni me).tn I.m_epsn
                = vval ss.m_Lmd ni + (I.m_epsn * vval ss.m_epsn ni) * vval ss.m_gap ni
              ∧ ∃ fe rest, ContactForces_out I M S dt ss ms (se, j, ni)
                = ⟨se.m_node ++ me.m_node,
                    (List.range (3 * se.m_node.length)).map (S.forcePoint se j me rs.1 rs.2).sLM
                      ++ (List.range (3 * me.m_node.length)).map
                          (S.forcePoint se j me rs.1 rs.2).mLM, fe⟩ :: rest
              ∧ fe.length = 3 * (se.m_node.length + me.m_node.length)
              ∧ ∀ c, c < 3 →
                  (∀ a, a < se.m_node.length → vval fe (3 * a + c)
                    = (vval ss.m_Lmd ni + (I.m_epsn * vval ss.m_epsn ni) * vval ss.m_gap ni)
                        * (-((S.forcePoint se j me rs.1 rs.2).Hs a) * nu.comp c)
                        * (S.forcePoint se j me rs.1 rs.2).detJ
                        * (S.forcePoint se j me rs.1 rs.2).w)
                  ∧ ∀ a, a < me.m_node.length → vval fe (3 * (se.m_node.length + a) + c)
                    = (vval ss.m_Lmd ni + (I.m_epsn * vval ss.m_epsn ni) * vval ss.m_gap ni)
                        * ((S.forcePoint se j me rs.1 rs.2).Hm a * nu.comp c)
                        * (S.forcePoint se j me rs.1 rs.2).detJ
                        * (S.forcePoint se j me rs.1 rs.2).w) := by
  refine ⟨ContactForces_eq I M S dt h1 h2, ?_⟩
  intro ss ms se me j ni k rs nu hpme hme hrs hnu
  obtain ⟨p, hp⟩ : ∃ p, p = ContactForces_record I M S ss se j ni me := ⟨_, rfl⟩
  have hout : ContactForces_out I M S dt ss ms (se, j, ni)
      = ContactForces_point I.m_epsn I.m_epsp I.m_epsc dt p := by
    simp only [ContactForces_out, hpme, hme, hp]
  have htn : p.tn I.m_epsn
      = max 0 (vval ss.m_Lmd ni + (I.m_epsn * vval ss.m_epsn ni) * vval ss.m_gap ni) := by
    rw [hp]; rfl
  have hse : p.se_node = se.m_node := by rw [hp]; rfl
  have hme' : p.me_node = me.m_node := by rw [hp]; rfl
  have hHs : p.Hs = (S.forcePoint se j me rs.1 rs.2).Hs := by
    rw [hp]; simp only [ContactForces_record, hrs, Option.getD_some]
  have hHm : p.Hm = (S.forcePoint se j me rs.1 rs.2).Hm := by
    rw [hp]; simp only [ContactForces_record, hrs, Option.getD_some]
  have hdetJ : p.detJ = (S.forcePoint se j me rs.1 rs.2).detJ := by
    rw [hp]; simp only [ContactForces_record, hrs, Option.getD_some]
  have hw : p.w = (S.forcePoint se j me rs.1 rs.2).w := by
    rw [hp]; simp only [ContactForces_record, hrs, Option.getD_some]
  have hsLM : p.sLM = (S.forcePoint se j me rs.1 rs.2).sLM := by
    rw [hp]; simp only [ContactForces_record, hrs, Option.getD_some]
  have hmLM : p.mLM = (S.forcePoint se j me rs.1 rs.2).mLM := by
    rw [hp]; simp only [ContactForces_record, hrs, Option.getD_some]
  have hnu' : p.nu = nu := by
    rw [hp]; simp only [ContactForces_record, hnu, Option.getD_some]
  have hlen : (p.fe I.m_epsn).length = 3 * (p.se_node.length + p.me_node.length) := by
    simp only [ForcePoint.fe, ForcePoint.N, List.length_map, List.length_append]
    rw [flatMap3_length
        (fun k => [-(p.Hs k) * p.nu.x, -(p.Hs k) * p.nu.y, -(p.Hs k) * p.nu.z]) (fun _ => rfl),
      flatMap3_length (fun k => [p.Hm k * p.nu.x, p.Hm k * p.nu.y, p.Hm k * p.nu.z])
        (fun _ => rfl)]
    ring
  rw [hout, ← hsLM, ← hmLM, ← hse, ← hme', ← hHs, ← hHm, ← hdetJ, ← hw, ← hnu']
  constructor
  · intro ht
    have h0 : p.tn I.m_epsn = 0 := by rw [htn]; exact max_eq_left ht
    refine ⟨p.fe I.m_epsn, ?_, hlen, ?_⟩
    · simp [ContactForces_point, h0]
    · intro x hx
      simp only [ForcePoint.fe, h0, List.mem_map] at hx
      obtain ⟨n, -, rfl⟩ := hx
      ring
  · intro ht
    have ht' : p.tn I.m_epsn
        = vval ss.m_Lmd ni + (I.m_epsn * vval ss.m_epsn ni) * vval ss.m_gap ni := by
      rw [htn]; exact max_eq_right (le_of_lt ht)
    have hpos : 0 < p.tn I.m_epsn := by rw [ht']; exact ht
    refine ⟨by rw [← hp]; exact ht', p.fe I.m_epsn,
      (ContactForces_point I.m_epsn I.m_epsp I.m_epsc dt p).tail, ?_, hlen, ?_⟩
    · simp only [ContactForces_point, gt_iff_lt, hpos, if_true, List.tail_cons]
    · intro c hc
      obtain ⟨e1, e2⟩ := ForcePoint_fe_entries I.m_epsn p c hc
      refine ⟨fun a ha => ?_, fun a ha => ?_⟩
      · rw [e1 a ha, ht']; ring
      · rw [e2 a ha, ht']; ring

/-- The points that the loops visit on the example surface. -/
theorem contactInterface_visits (gap : ℚ) :
    pointVisits (contactInterface gap).m_ss.el 0 = [(⟨0, 1, [0, 1, 2, 3], 1⟩, 0, 0)] := by
  simp [pointVisits, contactInterface, contactSurface, pointInterface, oneFacetSurface,
    List.range_succ]

/-- Witness for C1 on the one-point pair with multiplier 0 and penalty 100: with
gap -0.05 (`t = -5`) `ContactForces` assembles one residual with zero entries;
with gap 0.02 (`t = 2`) the first residual has the `z` entry `2*(-1/4) = -1/2`
at node 0 of the searching facet and `1/2` at node 0 of the partner facet. -/
theorem ContactForces_enforced_traction_witness :
    (∃ LM fe, (contactInterface (-1 / 20)).ContactForces elasticModel quadServices 1
        = some [⟨[0, 1, 2, 3, 0, 1, 2, 3], LM, fe⟩] ∧ ∀ x ∈ fe, x = 0)
      ∧ ∃ LM fe rest, (contactInterface (1 / 50)).ContactForces elasticModel quadServices 1
          = some (⟨[0, 1, 2, 3, 0, 1, 2, 3], LM, fe⟩ :: rest)
        ∧ vval fe 2 = -1 / 2 ∧ vval fe 14 = 1 / 2 := by
  constructor
  · obtain ⟨hfull, hpt⟩ := ContactForces_enforced_traction (contactInterface (-1 / 20))
      elasticModel quadServices 1 (contactInterface_ready _) (fun h => by
        simp [contactInterface, pointInterface] at h)
    obtain ⟨fe, e, -, hz⟩ := (hpt (contactInterface (-1 / 20)).m_ss
      (contactInterface (-1 / 20)).m_ms ⟨0, 1, [0, 1, 2, 3], 1⟩ ⟨0, 1, [0, 1, 2, 3], 1⟩ 0 0 0
      (0, 0) ⟨0, 0, 1⟩ rfl rfl rfl rfl).1 (by
        norm_num [contactInterface, contactSurface, pointInterface, oneFacetSurface, vval])
    refine ⟨((List.range 12).map (scenarioPoint 0).sLM ++ (List.range 12).map (scenarioPoint 0).mLM),
      fe, ?_, hz⟩
    rw [hfull, contactInterface_visits]
    simp only [List.flatMap_cons, List.flatMap_nil, List.append_nil, e]
    simp [contactInterface, pointInterface, quadServices]
  · obtain ⟨hfull, hpt⟩ := ContactForces_enforced_traction (contactInterface (1 / 50))
      elasticModel quadServices 1 (contactInterface_ready _) (fun h => by
        simp [contactInterface, pointInterface] at h)
    obtain ⟨-, fe, rest, e, -, hk⟩ := (hpt (contactInterface (1 / 50)).m_ss
      (contactInterface (1 / 50)).m_ms ⟨0, 1, [0, 1, 2, 3], 1⟩ ⟨0, 1, [0, 1, 2, 3], 1⟩ 0 0 0
      (0, 0) ⟨0, 0, 1⟩ rfl rfl rfl rfl).2 (by
        norm_num [contactInterface, contactSurface, pointInterface, oneFacetSurface, vval])
    refine ⟨((List.range 12).map (scenarioPoint 0).sLM ++ (List.range 12).map (scenarioPoint 0).mLM),
      fe, rest, ?_, ?_, ?_⟩
    · rw [hfull, contactInterface_visits]
      simp only [List.flatMap_cons, List.flatMap_nil, List.append_nil, e]
      simp [contactInterface, pointInterface, quadServices]
    · have := (hk 2 (by decide)).1 0 (by decide)
      rw [this]
      norm_num [contactInterface, contactSurface, pointInterface, oneFacetSurface, vval,
        quadServices, scenarioPoint, vec3d.comp]
    · have := (hk 2 (by decide)).2 0 (by decide)
      have e14 : 3 * ((⟨0, 1, [0, 1, 2, 3], 1⟩ : FESurfaceElement).m_node.length + 0) + 2 = 14 := rfl
      rw [e14] at this
      rw [this]
      norm_num [contactInterface, contactSurface, pointInterface, oneFacetSurface, vval,
        quadServices, scenarioPoint, vec3d.comp]

/-! ## `ContactForces`: the net force of a point -/

/-- The force vector in double arithmetic for the traction 0.1 (the nearest
double), searching facet with shape values 1/2, 1/4, 1/4, partner facet with
shape values 1/4, 3/4, 0, normal along `x`, `detJ = 1`, `w = 1`: the only
product that is rounded is `0.1 * 3/4`, a tie that goes to the even
significand. -/
theorem fe_double_example :
    fe_double ⟨3602879701896397, -55⟩ [⟨1, -1⟩, ⟨1, -2⟩, ⟨1, -2⟩] [⟨1, -2⟩, ⟨3, -2⟩, ⟨0, 0⟩]
        ⟨1, 0⟩ ⟨0, 0⟩ ⟨0, 0⟩ ⟨1, 0⟩ ⟨1, 0⟩
      = [⟨-3602879701896397, -56⟩, ⟨0, -56⟩, ⟨0, -56⟩, ⟨-3602879701896397, -57⟩, ⟨0, -57⟩,
          ⟨0, -57⟩, ⟨-3602879701896397, -57⟩, ⟨0, -57⟩, ⟨0, -57⟩, ⟨3602879701896397, -57⟩,
          ⟨0, -57⟩, ⟨0, -57⟩, ⟨5404319552844596, -56⟩, ⟨0, -57⟩, ⟨0, -57⟩, ⟨0, -55⟩, ⟨0, -55⟩,
          ⟨0, -55⟩] := by
  decide

/-- C15, counterexample to the claim as stated: in double arithmetic, with shape
values that sum to exactly 1 on both facets (1/2, 1/4, 1/4 and 1/4, 3/4, 0),
traction 0.1, normal along `x`, `detJ = 1` and `w = 1`, the `x` entries of the
force vector sum to `-0.1` on the searching facet and to `0.1 + 2^-57` on the
partner facet: the two sums are not exact negatives of each other. -/
theorem ContactForces_rounding_counterexample :
    ([⟨1, -1⟩, ⟨1, -2⟩, ⟨1, -2⟩].map Dbl.toRat).sum = 1
      ∧ ([⟨1, -2⟩, ⟨3, -2⟩, ⟨0, 0⟩].map Dbl.toRat).sum = 1
      ∧ ((List.range 3).map (fun k =>
          (((fe_double ⟨3602879701896397, -55⟩ [⟨1, -1⟩, ⟨1, -2⟩, ⟨1, -2⟩]
            [⟨1, -2⟩, ⟨3, -2⟩, ⟨0, 0⟩] ⟨1, 0⟩ ⟨0, 0⟩ ⟨0, 0⟩ ⟨1, 0⟩ ⟨1, 0⟩)[3 * k]?).getD
              ⟨0, 0⟩).toRat)).sum
        = -(Dbl.toRat ⟨3602879701896397, -55⟩)
      ∧ ((List.range 3).map (fun k =>
          (((fe_double ⟨3602879701896397, -55⟩ [⟨1, -1⟩, ⟨1, -2⟩, ⟨1, -2⟩]
            [⟨1, -2⟩, ⟨3, -2⟩, ⟨0, 0⟩] ⟨1, 0⟩ ⟨0, 0⟩ ⟨0, 0⟩ ⟨1, 0⟩ ⟨1, 0⟩)[3 * (3 + k)]?).getD
              ⟨0, 0⟩).toRat)).sum
        = Dbl.toRat ⟨3602879701896397, -55⟩ + 1 / 2 ^ 57 := by
  rw [fe_double_example]
  refine ⟨?_, ?_, ?_, ?_⟩ <;> norm_num [Dbl.toRat, List.range_succ]

/-- C15 (action and reaction in `ContactForces`, in exact arithmetic). On
surfaces whose per-point vectors are allocated, `ContactForces` returns and
assembles the residuals `ContactForces_out` of the integration points. At a
point `ni` with partner facet `me`, when the shape values `Hs` of the searching
facet and the shape values `Hm` of the partner facet (taken at `m_rs[ni]`) each
sum to 1, and all products and sums are taken exactly: in the first residual,
the mechanical one, the entries of component `c` summed over the nodes of the
searching facet are the negative of those summed over the nodes of the partner
facet, and every further residual of the point (pressure flow, concentration
flow) has entries that sum to 0. -/
theorem ContactForces_net_force (I : FESlidingInterface3) (M : FEModel)
    (S : ContactServices) (dt : ℚ) (h1 : RecordsReady M I.m_ss I.m_ms)
    (h2 : I.m_btwo_pass = true → RecordsReady M I.m_ms I.m_ss) :
    I.ContactForces M S dt
        = some ((pointVisits I.m_ss.el 0).flatMap (ContactForces_out I M S dt I.m_ss I.m_ms)
            ++ (if I.m_btwo_pass then
                  (pointVisits I.m_ms.el 0).flatMap (ContactForces_out I M S dt I.m_ms I.m_ss)
                else []))
      ∧ ∀ (ss ms : FESlidingSurface3) (se me : FESurfaceElement) (j ni k : Nat) (rs : ℚ × ℚ),
          vget ss.m_pme ni = some (some k) → vget ms.el k = some me →
          vget ss.m_rs ni = some rs →
          ((List.range se.m_node.length).map (S.forcePoint se j me rs.1 rs.2).Hs).sum = 1 →
          ((List.range me.m_node.length).map (S.forcePoint se j me rs.1 rs.2).Hm).sum = 1 →
          ∃ r rest, ContactForces_out I M S dt ss ms (se, j, ni) = r :: rest
            ∧ r.en = se.m_node ++ me.m_node
            ∧ (∀ c, c < 3 →
                ((List.range se.m_node.length).map (fun a => vval r.fe (3 * a + c))).sum
                  = -((List.range me.m_node.length).map
                      (fun a => vval r.fe (3 * (se.m_node.length + a) + c))).sum)
            ∧ ∀ q ∈ rest, q.fe.sum = 0 := by
  refine ⟨ContactForces_eq I M S dt h1 h2, ?_⟩
  intro ss ms se me j ni k rs hpme hme hrs hs hm
  obtain ⟨p, hp⟩ : ∃ p, p = ContactForces_record I M S ss se j ni me := ⟨_, rfl⟩
  have hout : ContactForces_out I M S dt ss ms (se, j, ni)
      = ContactForces_point I.m_epsn I.m_epsp I.m_epsc dt p := by
    simp only [ContactForces_out, hpme, hme, hp]
  have hse : p.se_node = se.m_node := by rw [hp]; rfl
  have hme' : p.me_node = me.m_node := by rw [hp]; rfl
  have hHs : p.Hs = (S.forcePoint se j me rs.1 rs.2).Hs := by
    rw [hp]; simp only [ContactForces_record, hrs, Option.getD_some]
  have hHm : p.Hm = (S.forcePoint se j me rs.1 rs.2).Hm := by
    rw [hp]; simp only [ContactForces_record, hrs, Option.getD_some]
  rw [← hHs, ← hse] at hs
  rw [← hHm, ← hme'] at hm
  obtain ⟨hsum, rest, e, hrest⟩ :=
    ContactForces_action_reaction I.m_epsn I.m_epsp I.m_epsc dt p hs hm
  rw [hout, ← hse, ← hme']
  exact ⟨_, rest, e, rfl, hsum, hrest⟩

set_option maxRecDepth 100000 in
/-- The residuals of the point of the example pair with gap 0.02. -/
theorem contactInterface_out :
    ContactForces_out (contactInterface (1 / 50)) elasticModel quadServices 1
        (contactInterface (1 / 50)).m_ss (contactInterface (1 / 50)).m_ms
        (⟨0, 1, [0, 1, 2, 3], 1⟩, 0, 0)
      = [⟨[0, 1, 2, 3, 0, 1, 2, 3],
          (List.range 12).map (scenarioPoint 0).sLM ++ (List.range 12).map (scenarioPoint 0).mLM,
          [0, 0, -1 / 2, 0, 0, -1 / 2, 0, 0, -1 / 2, 0, 0, -1 / 2,
           0, 0, 1 / 2, 0, 0, 1 / 2, 0, 0, 1 / 2, 0, 0, 1 / 2]⟩] := by
  norm_num [ContactForces_out, ContactForces_record, ContactForces_point, ForcePoint.fe,
    ForcePoint.N, ForcePoint.tn, MBRACKET, contactInterface, contactSurface, pointInterface,
    oneFacetSurface, quadServices, scenarioPoint, BiphasicSoluteStatus, elasticModel, vget,
    vval, List.range_succ, List.flatMap]

/-- Witness for C15 on the one-point pair with gap 0.02 (traction 2) and shape
values 1/4 at the four nodes of each facet: the `z` forces sum to -2 on the
searching facet and to 2 on the partner facet. -/
theorem ContactForces_net_force_witness :
    ∃ r, (contactInterface (1 / 50)).ContactForces elasticModel quadServices 1 = some [r]
      ∧ ((List.range 4).map (fun a => vval r.fe (3 * a + 2))).sum = -2
      ∧ ((List.range 4).map (fun a => vval r.fe (3 * (4 + a) + 2))).sum = 2 := by
  obtain ⟨hfull, hpt⟩ := ContactForces_net_force (contactInterface (1 / 50))
    elasticModel quadServices 1 (contactInterface_ready _) (fun h => by
      simp [contactInterface, pointInterface] at h)
  obtain ⟨r, rest, e, -, hsum, -⟩ := hpt (contactInterface (1 / 50)).m_ss
    (contactInterface (1 / 50)).m_ms ⟨0, 1, [0, 1, 2, 3], 1⟩ ⟨0, 1, [0, 1, 2, 3], 1⟩ 0 0 0
    (0, 0) rfl rfl rfl (by norm_num [quadServices, scenarioPoint, List.range_succ])
    (by norm_num [quadServices, scenarioPoint, List.range_succ])
  rw [contactInterface_out] at e
  obtain ⟨e1, e2⟩ := List.cons.inj e
  have hm : ((List.range 4).map (fun a => vval r.fe (3 * (4 + a) + 2))).sum = 2 := by
    rw [← e1]
    norm_num [vval, List.range_succ]
  refine ⟨r, ?_, ?_, hm⟩
  · rw [hfull, contactInterface_visits]
    simp only [List.flatMap_cons, List.flatMap_nil, List.append_nil, contactInterface_out, e1]
    simp [contactInterface, pointInterface]
  · have := hsum 2 (by decide)
    have e4 : (⟨0, 1, [0, 1, 2, 3], 1⟩ : FESurfaceElement).m_node.length = 4 := rfl
    rw [e4] at this
    rw [this, hm]

/-! ## `ContactStiffness`: the size of the assembled block -/

/-- Whenever the search for a candidate partner completes, it has left the facet
table, the capability flags and the pressure and concentration gaps of the
surface as they were. -/
theorem ProjectSurface_search_gaps (I : FESlidingInterface3) (G : ProjectGeometry)
    (ms : FESlidingSurface3) (bupseg : Bool) (r nu : vec3d) (n : Nat) (ss : FESlidingSurface3)
    (rs : ℚ × ℚ) (pme : Option Nat) (rs1 : ℚ × ℚ) (ss1 : FESlidingSurface3)
    (h : ProjectSurface_search I G ms bupseg r nu n ss rs = some (pme, rs1, ss1)) :
    ss1.el = ss.el ∧ ss1.m_bporo = ss.m_bporo ∧ ss1.m_bsolu = ss.m_bsolu
      ∧ ss1.m_pg = ss.m_pg ∧ ss1.m_cg = ss.m_cg := by
  unfold ProjectSurface_search at h
  simp only [Option.bind_eq_bind, Option.bind_eq_some, Option.pure_def] at h
  obtain ⟨p0, -, h⟩ := h
  cases p0 with
  | none =>
    simp only [Option.some_bind, Option.some.injEq, Prod.mk.injEq] at h
    rw [← h.2.2]
    exact ⟨rfl, rfl, rfl, rfl, rfl⟩
  | some k =>
    simp only [Option.bind_eq_some] at h
    obtain ⟨me, -, h⟩ := h
    by_cases hit : (G.Intersect me r nu rs I.m_stol).1 = true
    · rw [if_pos hit] at h
      simp only [Option.bind_eq_some, Option.some.injEq, Prod.mk.injEq] at h
      obtain ⟨m_rs, -, y, hy, h⟩ := h
      rw [← h.2.2, ← hy]
      exact ⟨rfl, rfl, rfl, rfl, rfl⟩
    · rw [if_neg hit] at h
      simp only [Option.some_bind, Option.some.injEq, Prod.mk.injEq] at h
      rw [← h.2.2]
      exact ⟨rfl, rfl, rfl, rfl, rfl⟩

/-- Whenever the branch for a candidate partner completes, the facet table and
the capability flags are as they were, and the pressure gaps are as they were
unless the searching facet and a facet of `ms` both carry the pressure field;
likewise the concentration gaps and the solute field. -/
theorem ProjectSurface_partner_gaps_origin (I : FESlidingInterface3) (G : ProjectGeometry)
    (M : FEModel) (ms : FESlidingSurface3) (R : ℚ) (sporo ssolu : Bool) (p1 c1 : ℚ)
    (r nu : vec3d) (rs : ℚ × ℚ) (n k : Nat) (ss ss1 : FESlidingSurface3)
    (h : ProjectSurface_partner I G M ms R sporo ssolu p1 c1 r nu rs n k ss = some ss1) :
    ss1.el = ss.el ∧ ss1.m_bporo = ss.m_bporo ∧ ss1.m_bsolu = ss.m_bsolu
      ∧ (ss1.m_pg = ss.m_pg
          ∨ (sporo = true ∧ ∃ me ∈ ms.el, (BiphasicSoluteStatus M me).1 = true))
      ∧ (ss1.m_cg = ss.m_cg
          ∨ (ssolu = true ∧ ∃ me ∈ ms.el, (BiphasicSoluteStatus M me).2 = true)) := by
  unfold ProjectSurface_partner at h
  simp only [Option.bind_eq_bind, Option.bind_eq_some, Option.pure_def] at h
  obtain ⟨me, hme, e, -, L, -, gap, -, h⟩ := h
  have hmem : me ∈ ms.el := mem_of_vget _ _ _ hme
  have hsol : ∀ y : FESlidingSurface3,
      (if (ssolu && (BiphasicSoluteStatus M me).2) = true then
          (vset y.m_cg n (c1 - G.eval me (List.map M.m_ct me.m_node) rs.1 rs.2)).bind fun m_cg =>
            some ({ y with m_cg := m_cg } : FESlidingSurface3)
        else some y) = some ss1 →
      ss1.el = y.el ∧ ss1.m_bporo = y.m_bporo ∧ ss1.m_bsolu = y.m_bsolu ∧ ss1.m_pg = y.m_pg
        ∧ (ss1.m_cg = y.m_cg
            ∨ (ssolu = true ∧ ∃ me ∈ ms.el, (BiphasicSoluteStatus M me).2 = true)) := by
    intro y hy
    by_cases c3 : (ssolu && (BiphasicSoluteStatus M me).2) = true
    · rw [if_pos c3] at hy
      simp only [Option.bind_eq_some, Option.some.injEq] at hy
      obtain ⟨m_cg, -, hy⟩ := hy
      rw [← hy]
      have c3' : ssolu = true ∧ (BiphasicSoluteStatus M me).2 = true := by simpa using c3
      exact ⟨rfl, rfl, rfl, rfl, Or.inr ⟨c3'.1, me, hmem, c3'.2⟩⟩
    · rw [if_neg c3] at hy
      simp only [Option.some.injEq] at hy
      rw [← hy]
      exact ⟨rfl, rfl, rfl, rfl, Or.inl rfl⟩
  by_cases hC : (decide (L + I.m_epsn * e * nu.dot (r.sub (G.Local2Global me rs.1 rs.2)) ≥ 0)
      && decide (nu.dot (r.sub (G.Local2Global me rs.1 rs.2)) ≤ R)) = true
  · rw [if_pos hC] at h
    by_cases c2 : (sporo && (BiphasicSoluteStatus M me).1) = true
    · rw [if_pos c2] at h
      simp only [Option.bind_eq_some, Option.some.injEq] at h
      obtain ⟨m_pg, -, y, hy, h⟩ := h
      obtain ⟨q1, q2, q3, -, q5⟩ := hsol y h
      have c2' : sporo = true ∧ (BiphasicSoluteStatus M me).1 = true := by simpa using c2
      rw [← hy] at q1 q2 q3 q5
      exact ⟨q1, q2, q3, Or.inr ⟨c2'.1, me, hmem, c2'.2⟩, q5⟩
    · rw [if_neg c2] at h
      simp only [Option.some_bind] at h
      obtain ⟨q1, q2, q3, q4, q5⟩ := hsol _ h
      exact ⟨q1, q2, q3, Or.inl q4, q5⟩
  · rw [if_neg hC] at h
    simp only [Option.bind_eq_some, Option.some.injEq] at h
    obtain ⟨m_pme, -, h⟩ := h
    rw [← h]
    exact ⟨rfl, rfl, rfl, Or.inl rfl, Or.inl rfl⟩

/-- Whenever the branch for a point without candidate partner completes, the
facet table and the capability flags are as they were, and the pressure and
concentration gaps are as they were or have a 0 written at `n`. -/
theorem ProjectSurface_nopartner_gaps (sporo ssolu : Bool) (n : Nat)
    (ss ss1 : FESlidingSurface3) (h : ProjectSurface_nopartner sporo ssolu n ss = some ss1) :
    ss1.el = ss.el ∧ ss1.m_bporo = ss.m_bporo ∧ ss1.m_bsolu = ss.m_bsolu
      ∧ (ss1.m_pg = ss.m_pg ∨ ss1.m_pg = ss.m_pg.set n 0)
      ∧ (ss1.m_cg = ss.m_cg ∨ ss1.m_cg = ss.m_cg.set n 0) := by
  unfold ProjectSurface_nopartner at h
  simp only [Option.bind_eq_bind, Option.bind_eq_some, Option.pure_def] at h
  obtain ⟨m_Lmd, -, m_gap, -, h⟩ := h
  cases sporo <;> cases ssolu <;>
    simp only [if_true, if_false, Bool.false_eq_true, Option.some_bind, Option.bind_eq_some,
      Option.some.injEq] at h
  · rw [← h]
    exact ⟨rfl, rfl, rfl, Or.inl rfl, Or.inl rfl⟩
  · obtain ⟨m_Lmc, -, m_cg, hcg, h⟩ := h
    rw [← h]
    exact ⟨rfl, rfl, rfl, Or.inl rfl, Or.inr (vset_eq_some _ _ _ _ hcg)⟩
  · obtain ⟨m_Lmp, -, m_pg, hpg, h⟩ := h
    rw [← h]
    exact ⟨rfl, rfl, rfl, Or.inr (vset_eq_some _ _ _ _ hpg), Or.inl rfl⟩
  · obtain ⟨m_Lmp, -, m_pg, hpg, m_Lmc, -, m_cg, hcg, h⟩ := h
    rw [← h]
    exact ⟨rfl, rfl, rfl, Or.inr (vset_eq_some _ _ _ _ hpg), Or.inr (vset_eq_some _ _ _ _ hcg)⟩

/-- A vector whose entries are all 0 stays so when a 0 is written. -/
theorem vval_set_zero (v : List ℚ) (n : Nat) (h : ∀ i, vval v i = 0) :
    ∀ i, vval (v.set n 0) i = 0 := by
  intro i
  by_cases hi : n = i
  · subst hi
    by_cases hn : n < v.length
    · exact vval_set_eq v n 0 hn
    · simp [vval, List.getElem?_set, hn]
  · rw [vval_set_ne v n i 0 hi]
    exact h i

/-- Whenever the loop body of `ProjectSurface` completes, the facet table and the
capability flags are as they were; pressure gaps that were all 0 are still all
0 unless the searching facet and a facet of `ms` both carry the pressure field,
and likewise the concentration gaps and the solute field. -/
theorem ProjectSurface_point_gaps (I : FESlidingInterface3) (G : ProjectGeometry)
    (M : FEModel) (ms : FESlidingSurface3) (bupseg : Bool) (R : ℚ) (el : FESurfaceElement)
    (sporo ssolu : Bool) (ps cs : List ℚ) (j : Nat) (st r : FESlidingSurface3 × Nat × (ℚ × ℚ))
    (h : ProjectSurface_point I G M ms bupseg R el sporo ssolu ps cs j st = some r) :
    r.1.el = st.1.el ∧ r.1.m_bporo = st.1.m_bporo ∧ r.1.m_bsolu = st.1.m_bsolu
      ∧ ((∀ i, vval st.1.m_pg i = 0) → (∀ i, vval r.1.m_pg i = 0)
          ∨ (sporo = true ∧ ∃ me ∈ ms.el, (BiphasicSoluteStatus M me).1 = true))
      ∧ ((∀ i, vval st.1.m_cg i = 0) → (∀ i, vval r.1.m_cg i = 0)
          ∨ (ssolu = true ∧ ∃ me ∈ ms.el, (BiphasicSoluteStatus M me).2 = true)) := by
  simp only [ProjectSurface_point, Option.bind_eq_bind, Option.bind_eq_some, Option.pure_def,
    Option.some.injEq] at h
  obtain ⟨⟨pme, rs1, ss1⟩, hsearch, b, -, c, -, d, -, h⟩ := h
  obtain ⟨s1, s2, s3, s4, s5⟩ := ProjectSurface_search_gaps _ _ _ _ _ _ _ _ _ _ _ _ hsearch
  cases pme with
  | none =>
    simp only [Option.bind_eq_some, Option.some.injEq] at h
    obtain ⟨y, hy, h⟩ := h
    obtain ⟨q1, q2, q3, q4, q5⟩ := ProjectSurface_nopartner_gaps _ _ _ _ _ hy
    rw [← h]
    simp only at q1 q2 q3 q4 q5 ⊢
    refine ⟨q1.trans s1, q2.trans s2, q3.trans s3, fun hz => Or.inl ?_, fun hz => Or.inl ?_⟩
    · rcases q4 with q4 | q4
      · rw [q4, s4]; exact hz
      · rw [q4, s4]; exact vval_set_zero _ _ hz
    · rcases q5 with q5 | q5
      · rw [q5, s5]; exact hz
      · rw [q5, s5]; exact vval_set_zero _ _ hz
  | some k =>
    simp only [Option.bind_eq_some, Option.some.injEq] at h
    obtain ⟨y, hy, h⟩ := h
    obtain ⟨q1, q2, q3, q4, q5⟩ := ProjectSurface_partner_gaps_origin _ _ _ _ _ _ _ _ _ _ _ _ _ _ _ _ hy
    rw [← h]
    simp only at q1 q2 q3 q4 q5 ⊢
    refine ⟨q1.trans s1, q2.trans s2, q3.trans s3, fun hz => ?_, fun hz => ?_⟩
    · rcases q4 with q4 | q4
      · left; rw [q4, s4]; exact hz
      · right; exact q4
    · rcases q5 with q5 | q5
      · left; rw [q5, s5]; exact hz
      · right; exact q5


/-- Whenever the loop of `ProjectSurface` over the integration points of a facet
completes, the facet table and the capability flags are as they were; when
the pressure field of the searching facet together with that of a facet of `ms`
implies `PA`, and `PA` does not hold, pressure gaps that were all 0 are still
all 0; likewise the concentration gaps with `PB`. -/
theorem ProjectSurface_gauss_gaps (I : FESlidingInterface3) (G : ProjectGeometry)
    (M : FEModel) (ms : FESlidingSurface3) (bupseg : Bool) (R : ℚ) (el : FESurfaceElement)
    (sporo ssolu : Bool) (ps cs : List ℚ) (PA PB : Prop)
    (hA : sporo = true → (∃ me ∈ ms.el, (BiphasicSoluteStatus M me).1 = true) → PA)
    (hB : ssolu = true → (∃ me ∈ ms.el, (BiphasicSoluteStatus M me).2 = true) → PB) :
    ∀ (cnt j : Nat) (st r : FESlidingSurface3 × Nat × (ℚ × ℚ)),
      ProjectSurface_gauss I G M ms bupseg R el sporo ssolu ps cs cnt j st = some r →
      r.1.el = st.1.el ∧ r.1.m_bporo = st.1.m_bporo ∧ r.1.m_bsolu = st.1.m_bsolu
        ∧ (¬ PA → (∀ i, vval st.1.m_pg i = 0) → ∀ i, vval r.1.m_pg i = 0)
        ∧ (¬ PB → (∀ i, vval st.1.m_cg i = 0) → ∀ i, vval r.1.m_cg i = 0) := by
  intro cnt
  induction cnt with
  | zero =>
    intro j st r h
    simp only [ProjectSurface_gauss, Option.some.injEq] at h
    rw [← h]
    exact ⟨rfl, rfl, rfl, fun _ hz => hz, fun _ hz => hz⟩
  | succ cnt ih =>
    intro j st r h
    simp only [ProjectSurface_gauss, Option.bind_eq_bind, Option.bind_eq_some] at h
    obtain ⟨st1, h1, h2⟩ := h
    obtain ⟨a1, a2, a3, a4, a5⟩ := ProjectSurface_point_gaps _ _ _ _ _ _ _ _ _ _ _ _ _ _ h1
    obtain ⟨b1, b2, b3, b4, b5⟩ := ih (j + 1) st1 r h2
    refine ⟨b1.trans a1, b2.trans a2, b3.trans a3, fun hn hz => b4 hn ?_, fun hn hz => b5 hn ?_⟩
    · rcases a4 hz with a | a
      · exact a
      · exact absurd (hA a.1 a.2) hn
    · rcases a5 hz with a | a
      · exact a
      · exact absurd (hB a.1 a.2) hn

/-- Whenever the loop of `ProjectSurface` over the facets completes, the facet
table and the capability flags are as they were; when a facet of the loop and a
facet of `ms` that both carry the pressure field imply `PA`, and `PA` does not
hold, pressure gaps that were all 0 are still all 0; likewise the
concentration gaps with `PB`. -/
theorem ProjectSurface_facets_gaps (I : FESlidingInterface3) (G : ProjectGeometry)
    (M : FEModel) (ms : FESlidingSurface3) (bupseg : Bool) (R : ℚ) (PA PB : Prop) :
    ∀ (els : List FESurfaceElement) (st r : FESlidingSurface3 × Nat × (ℚ × ℚ)),
      (∀ el ∈ els, (BiphasicSoluteStatus M el).1 = true →
        (∃ me ∈ ms.el, (BiphasicSoluteStatus M me).1 = true) → PA) →
      (∀ el ∈ els, (BiphasicSoluteStatus M el).2 = true →
        (∃ me ∈ ms.el, (BiphasicSoluteStatus M me).2 = true) → PB) →
      ProjectSurface_facets I G M ms bupseg R els st = some r →
      r.1.el = st.1.el ∧ r.1.m_bporo = st.1.m_bporo ∧ r.1.m_bsolu = st.1.m_bsolu
        ∧ (¬ PA → (∀ i, vval st.1.m_pg i = 0) → ∀ i, vval r.1.m_pg i = 0)
        ∧ (¬ PB → (∀ i, vval st.1.m_cg i = 0) → ∀ i, vval r.1.m_cg i = 0) := by
  intro els
  induction els with
  | nil =>
    intro st r _ _ h
    simp only [ProjectSurface_facets, Option.some.injEq] at h
    rw [← h]
    exact ⟨rfl, rfl, rfl, fun _ hz => hz, fun _ hz => hz⟩
  | cons el els ih =>
    intro st r hA hB h
    simp only [ProjectSurface_facets, Option.bind_eq_bind, Option.bind_eq_some] at h
    obtain ⟨st1, h1, h2⟩ := h
    obtain ⟨a1, a2, a3, a4, a5⟩ := ProjectSurface_gauss_gaps I G M ms bupseg R el _ _ _ _ PA PB
      (hA el (List.mem_cons_self _ _)) (hB el (List.mem_cons_self _ _)) _ _ _ _ h1
    obtain ⟨b1, b2, b3, b4, b5⟩ := ih st1 r
      (fun e he => hA e (List.mem_cons_of_mem _ he))
      (fun e he => hB e (List.mem_cons_of_mem _ he)) h2
    exact ⟨b1.trans a1, b2.trans a2, b3.trans a3, fun hn hz => b4 hn (a4 hn hz),
      fun hn hz => b5 hn (a5 hn hz)⟩

/-- Whenever `ProjectSurface(ss, ms, ...)` returns on a pair of surfaces whose
flags are those that `Init` computes from the facets, it keeps the pressure and
concentration gaps of the pair consistent, and the flags and facets of `ss` as
they were. -/
theorem ProjectSurface_gapsConsistent (I : FESlidingInterface3) (G : ProjectGeometry)
    (M : FEModel) (ss ms : FESlidingSurface3) (bupseg : Bool) (rs0 : ℚ × ℚ)
    (ss1 : FESlidingSurface3) (h : I.ProjectSurface G M ss ms bupseg rs0 = some ss1)
    (hfs : flagsFromFacets M ss) (hfm : flagsFromFacets M ms) (hg : gapsConsistent ss ms) :
    gapsConsistent ss1 ms ∧ gapsConsistent ms ss1 ∧ flagsFromFacets M ss1 := by
  simp only [FESlidingInterface3.ProjectSurface, Option.map_eq_some'] at h
  obtain ⟨r, hr, e⟩ := h
  obtain ⟨a1, a2, a3, a4, a5⟩ := ProjectSurface_facets_gaps I G M ms bupseg (searchRadius I M)
    ((∃ el ∈ ss.el, (BiphasicSoluteStatus M el).1 = true)
      ∧ ∃ me ∈ ms.el, (BiphasicSoluteStatus M me).1 = true)
    ((∃ el ∈ ss.el, (BiphasicSoluteStatus M el).2 = true)
      ∧ ∃ me ∈ ms.el, (BiphasicSoluteStatus M me).2 = true)
    ss.el (ss, 0, rs0) r (fun el he hp hm => ⟨⟨el, he, hp⟩, hm⟩)
    (fun el he hp hm => ⟨⟨el, he, hp⟩, hm⟩) hr
  rw [e] at a1 a2 a3 a4 a5
  simp only at a1 a2 a3 a4 a5
  obtain ⟨g1, g2, g3, g4⟩ := hg
  have hpg : ¬ (ss1.m_bporo = true ∧ ms.m_bporo = true) →
      ∀ i, vval ss1.m_pg i = 0 ∧ vval ms.m_pg i = 0 := by
    intro hn i
    rw [a2] at hn
    have hz := g3 hn
    refine ⟨a4 (fun hx => hn ⟨hfs.1.mpr hx.1, hfm.1.mpr hx.2⟩) (fun i => (hz i).1) i, (hz i).2⟩
  have hcg : ¬ (ss1.m_bsolu = true ∧ ms.m_bsolu = true) →
      ∀ i, vval ss1.m_cg i = 0 ∧ vval ms.m_cg i = 0 := by
    intro hn i
    rw [a3] at hn
    have hz := g4 hn
    refine ⟨a5 (fun hx => hn ⟨hfs.2.mpr hx.1, hfm.2.mpr hx.2⟩) (fun i => (hz i).1) i, (hz i).2⟩
  refine ⟨⟨by rw [a2, a3]; exact g1, g2, hpg, hcg⟩, ⟨g2, by rw [a2, a3]; exact g1, ?_, ?_⟩, ?_⟩
  · intro hn i
    exact ⟨(hpg (fun hx => hn ⟨hx.2, hx.1⟩) i).2, (hpg (fun hx => hn ⟨hx.2, hx.1⟩) i).1⟩
  · intro hn i
    exact ⟨(hcg (fun hx => hn ⟨hx.2, hx.1⟩) i).2, (hcg (fun hx => hn ⟨hx.2, hx.1⟩) i).1⟩
  · unfold flagsFromFacets
    rw [a1, a2, a3]
    exact hfs

/-- The test of `FESlidingSurface3::Init` for the solute field is the second
result of `BiphasicSoluteStatus`. -/
theorem Init_isSolu_eq (M : FEModel) (se : FESurfaceElement) :
    Init_isSolu M se = (BiphasicSoluteStatus M se).2 := by
  unfold Init_isSolu BiphasicSoluteStatus
  cases M.FindElementFromID se.m_nelem with
  | none => rfl
  | some pe =>
    by_cases hs : pe.solid = true
    · simp [hs]
    · simp [hs]

/-- After `FESlidingSurface3::Init` on a surface as the constructor leaves it
(flags false, no pressure or concentration gaps), the flags are those of the
facets and every pressure and concentration gap is 0. -/
theorem Init_gaps_zero (s : FESlidingSurface3) (M : FEModel) (Nodes : Nat) (rsNew : ℚ × ℚ)
    (h1 : s.m_bporo = false) (h2 : s.m_bsolu = false) (h3 : s.m_pg = []) (h4 : s.m_cg = []) :
    flagsFromFacets M (s.Init M Nodes rsNew)
      ∧ (∀ i, vval (s.Init M Nodes rsNew).m_pg i = 0)
      ∧ (∀ i, vval (s.Init M Nodes rsNew).m_cg i = 0) := by
  refine ⟨⟨?_, ?_⟩, ?_, ?_⟩
  · simp only [FESlidingSurface3.Init, Init_status_iff, Init_isPoro_eq, h1, Bool.false_eq_true,
      false_or]
  · simp only [FESlidingSurface3.Init, Init_status_iff, Init_isSolu_eq, h2, Bool.false_eq_true,
      false_or]
  · intro i
    simp only [FESlidingSurface3.Init, h3]
    split_ifs
    · simp only [vval, List.getElem?_replicate]
      split_ifs <;> rfl
    · simp [vval]
  · intro i
    simp only [FESlidingSurface3.Init, h4]
    split_ifs
    · simp only [vval, List.getElem?_replicate]
      split_ifs <;> rfl
    · simp [vval]

/-- After `FESlidingSurface3::Init` on two surfaces as the constructor leaves
them, the pressure and concentration gaps of the pair are consistent. -/
theorem Init_gapsConsistent (ss ms : FESlidingSurface3) (M : FEModel) (n1 n2 : Nat)
    (rsNew : ℚ × ℚ) (h1 : ss.m_bporo = false) (h2 : ss.m_bsolu = false) (h3 : ss.m_pg = [])
    (h4 : ss.m_cg = []) (k1 : ms.m_bporo = false) (k2 : ms.m_bsolu = false)
    (k3 : ms.m_pg = []) (k4 : ms.m_cg = []) :
    gapsConsistent (ss.Init M n1 rsNew) (ms.Init M n2 rsNew) := by
  obtain ⟨⟨a1, a2⟩, a3, a4⟩ := Init_gaps_zero ss M n1 rsNew h1 h2 h3 h4
  obtain ⟨⟨b1, b2⟩, b3, b4⟩ := Init_gaps_zero ms M n2 rsNew k1 k2 k3 k4
  refine ⟨fun h => ?_, fun h => ?_, fun _ i => ⟨a3 i, b3 i⟩, fun _ i => ⟨a4 i, b4 i⟩⟩
  · obtain ⟨el, he, hs⟩ := a2.mp h
    exact a1.mpr ⟨el, he, BiphasicSoluteStatus_solute M el hs⟩
  · obtain ⟨el, he, hs⟩ := b2.mp h
    exact b1.mpr ⟨el, he, BiphasicSoluteStatus_solute M el hs⟩

/-! ## `Serialize`: the runs of the loading branch -/

/-- In a build with assertions the step of the partner loop returns exactly when
`Serialize_load_partner` gives a value, and with that value. -/
theorem Serialize_load_partner_run_value (sib : FESlidingSurface3) (i : Nat)
    (m_pme : List (Option Nat)) (ar : DumpFile) :
    (Serialize_load_partner_run true sib i m_pme ar).value
      = Serialize_load_partner sib i m_pme ar := by
  unfold Serialize_load_partner_run Serialize_load_partner readThen
  cases hg : getInt ar with
  | none => rfl
  | some p =>
    obtain ⟨id, ar1⟩ := p
    simp only []
    by_cases hid : id < 0
    · simp only [hid, if_true]
      cases vset m_pme i none <;> rfl
    · simp only [hid, if_false]
      cases vget sib.el id.toNat with
      | none => rfl
      | some e =>
        cases vset m_pme i (some id.toNat) with
        | none => rfl
        | some l =>
          by_cases he : e.m_lid = id
          · simp [he, LoadOutcome.value]
          · simp [he, LoadOutcome.value]

/-- In a build with assertions the partner loop returns exactly when
`Serialize_load_partners` gives a value, and with that value. -/
theorem Serialize_load_partners_run_value (sib : FESlidingSurface3) (cnt : Nat) :
    ∀ (i : Nat) (m_pme : List (Option Nat)) (ar : DumpFile),
      (Serialize_load_partners_run true sib cnt i m_pme ar).value
        = Serialize_load_partners sib cnt i m_pme ar := by
  induction cnt with
  | zero => intro i m_pme ar; rfl
  | succ cnt ih =>
    intro i m_pme ar
    simp only [Serialize_load_partners_run, Serialize_load_partners]
    rw [← Serialize_load_partner_run_value]
    cases Serialize_load_partner_run true sib i m_pme ar with
    | returns r => exact ih (i + 1) r.1 r.2
    | readFails => rfl
    | assertFails => rfl
    | outOfBounds => rfl

/-- In a build with assertions the loading branch returns exactly when
`Serialize_load` gives a value, and with that value: `Serialize_load` is the
loading branch restricted to the runs that return. -/
theorem Serialize_load_run_value (s : FESlidingSurface3) (baseIn : DumpFile → Option DumpFile)
    (sib : FESlidingSurface3) (ar : DumpFile) :
    (s.Serialize_load_run true baseIn sib ar).value = s.Serialize_load baseIn sib ar := by
  unfold FESlidingSurface3.Serialize_load_run FESlidingSurface3.Serialize_load readThen
  cases s.Serialize_load_data baseIn ar with
  | none => rfl
  | some p =>
    obtain ⟨s1, ar1⟩ := p
    simp only []
    cases getInt ar1 with
    | none => rfl
    | some q =>
      obtain ⟨ne, ar2⟩ := q
      simp only []
      by_cases hne : ne = s1.m_pme.length
      · simp only [hne, ne_eq, not_true_eq_false, decide_False, Bool.and_false,
          Bool.false_eq_true, if_false, if_true]
        rw [← Serialize_load_partners_run_value]
        cases Serialize_load_partners_run true sib (s1.m_pme.length : Int).toNat 0 s1.m_pme
          ar2 <;> rfl
      · simp [hne, LoadOutcome.value]

/-- A stored partner id that is at least the number of facets of the sibling
makes the step of the partner loop index the facet table outside its bounds,
in a build with assertions and in a build without. -/
theorem Serialize_load_partner_run_beyond (assertions : Bool) (sib : FESlidingSurface3)
    (i : Nat) (m_pme : List (Option Nat)) (id : Int) (ar : DumpFile)
    (h : (sib.el.length : Int) ≤ id) :
    Serialize_load_partner_run assertions sib i m_pme (DumpValue.int id :: ar)
      = LoadOutcome.outOfBounds := by
  have h0 : ¬ id < 0 := by omega
  have hv : vget sib.el id.toNat = none := by
    simp only [vget]
    exact List.getElem?_eq_none (by omega)
  simp only [Serialize_load_partner_run, getInt, h0, if_false, hv]

/-- Loading the data of an archive made of the members of `s`. -/
theorem Serialize_load_data_archiveOf (s t : FESlidingSurface3) (ne : Int) (ids : List Int) :
    t.Serialize_load_data some (archiveOf s ne ids)
      = some ({ s with el := t.el, m_pme := t.m_pme },
          DumpValue.int ne :: (ids.map DumpValue.int ++ [])) :=
  Serialize_load_data_save s t [] some _ (fun _ => rfl)

/-- C8, failing inputs traced in both builds. The sibling has one facet and the
surface two integration points. (1) An archive whose first stored partner id
is 5: with or without assertions the run indexes the facet table of the
sibling outside its bounds in `m_pSibling->Element(id)`; no test precedes the
access and no error is reported. (2) An archive whose stored partner count is
1: without assertions the run returns and leaves a restored surface, the
partner of the second point being the one the surface had before the load;
with assertions `assert(ne == m_pme.size())` aborts the program. (3) An
archive whose stored partner count is 3: without assertions the run writes
`m_pme[2]` outside the bounds of `m_pme`. -/
theorem Serialize_load_unchecked :
    (∀ assertions : Bool,
        initialSurface.Serialize_load_run assertions some (oneFacetSurface 0 1 none)
          (archiveOf checkpointSurface 2 [5, -1]) = LoadOutcome.outOfBounds)
      ∧ initialSurface.Serialize_load_run false some (oneFacetSurface 0 1 none)
          (archiveOf checkpointSurface 1 [0])
        = LoadOutcome.returns ({ checkpointSurface with m_pme := [some 0, none] }, [])
      ∧ initialSurface.Serialize_load_run true some (oneFacetSurface 0 1 none)
          (archiveOf checkpointSurface 1 [0]) = LoadOutcome.assertFails
      ∧ initialSurface.Serialize_load_run false some (oneFacetSurface 0 1 none)
          (archiveOf checkpointSurface 3 [0, -1, -1]) = LoadOutcome.outOfBounds := by
  refine ⟨fun assertions => ?_, ?_, ?_, ?_⟩
  · simp only [FESlidingSurface3.Serialize_load_run, Serialize_load_data_archiveOf, getInt]
    cases assertions <;>
      simp [Serialize_load_partners_run, Serialize_load_partner_run, LoadOutcome.andThen,
        getInt, vget, vset, oneFacetSurface, initialSurface]
  · simp [FESlidingSurface3.Serialize_load_run, Serialize_load_data_archiveOf, getInt,
      Serialize_load_partners_run, Serialize_load_partner_run, LoadOutcome.andThen,
      vget, vset, oneFacetSurface, initialSurface, checkpointSurface]
  · simp [FESlidingSurface3.Serialize_load_run, Serialize_load_data_archiveOf, getInt,
      initialSurface]
  · simp [FESlidingSurface3.Serialize_load_run, Serialize_load_data_archiveOf, getInt,
      Serialize_load_partners_run, Serialize_load_partner_run, LoadOutcome.andThen,
      vget, vset, oneFacetSurface, initialSurface]

end FEBio
